import Mathlib

/-!
# chip8rl: the opcode dispatch table and the fast-path interpreter

A shallow embedding of `src/emulation/chip8cores.cpp` and
`src/emulation/chip8emulatorbase.{hpp,cpp}`.

Conventions of the embedding

* machine integers are `Nat` (or `Int` for the signed 64-bit cycle counter) and every
  place where the C++ type truncates carries an explicit `% 2^w`;
* C++ arrays (`_rV`, `_stack`, `_memory`, the handler table) are functions from the index
  to the element.  `operator[]` is unchecked in the source, so an index past the end of an
  array is still an index of the function: it stands for the storage behind the array;
* loops whose termination is not structural take a fuel argument and return `none` when
  the fuel runs out; the theorems show that the fuel handed over by the caller suffices.
-/

namespace emu

/-! ## Options -/

/-- The enumerators of `Chip8EmulatorOptions::SupportedPreset` that the sources mention.  The
declaration of the enumeration is not part of the sources; `other` stands for any further
enumerator, which every `switch` of the sources sends to its `default` branch. -/
inductive SupportedPreset where
  | eCHIP8 | eCHIP10 | eCHIP8TE | eCHIP8X | eCHIP48 | eSCHIP10 | eSCHIP11 | eSCHPC
  | eSCHIP_MODERN | eMEGACHIP | eXOCHIP | eCHIP8VIP | eCHICUEYI
  | other (tag : Nat)
  deriving DecidableEq

/-- The fields of `Chip8EmulatorOptions` read by the fast-path interpreter.  `randomGen` is the
value of `advanced["random"]` (the empty string when the key is absent). -/
structure Chip8EmulatorOptions where
  behaviorBase : SupportedPreset := .eCHIP8
  startAddress : Nat := 0x200
  optJustShiftVx : Bool := false
  optDontResetVf : Bool := false
  optLoadStoreIncIByX : Bool := false
  optLoadStoreDontIncI : Bool := false
  optWrapSprites : Bool := false
  optInstantDxyn : Bool := false
  optJump0Bxnn : Bool := false
  optAllowHires : Bool := false
  optOnlyHires : Bool := false
  optAllowColors : Bool := false
  optCyclicStack : Bool := false
  optHas16BitAddr : Bool := false
  optModeChangeClear : Bool := false
  optSCLoresDrawing : Bool := false
  optHalfPixelScroll : Bool := false
  optTraceLog : Bool := false
  randomGen : String := ""
  deriving DecidableEq

/-! ## Opcode handlers -/

/-- The member functions of `Chip8EmulatorFP` that `setHandler` installs, by name.  Each
instantiation of the templates `opDxyn<quirks>` and `opDxyn_displayWait<quirks>` is a handler of
its own, named after the or-ed quirk flags of its template argument. -/
inductive OpcodeHandler where
  | opNop | opInvalid
  | op0010 | op0011 | op00Bn | op00Cn | op00Cn_masked | op00Dn_masked
  | op00E0 | op00E0_megachip | op00EE | op00EE_cyclic
  | op00FB | op00FB_masked | op00FC | op00FC_masked | op00FD
  | op00FE | op00FE_withClear | op00FE_megachip | op00FF | op00FF_withClear | op00FF_megachip
  | op01nn | op02A0_c8x | op02nn | op03nn | op04nn | op05nn | op060n | op0700 | op080n | op09nn
  | op1nnn | op2nnn | op2nnn_cyclic
  | op3xnn | op3xnn_with_F000 | op3xnn_with_01nn
  | op4xnn | op4xnn_with_F000 | op4xnn_with_01nn
  | op5xy0 | op5xy0_with_F000 | op5xy0_with_01nn | op5xy1_c8x | op5xy2 | op5xy3 | op5xy4
  | op6xnn | op7xnn
  | op8xy0 | op8xy1 | op8xy1_dontResetVf | op8xy2 | op8xy2_dontResetVf | op8xy3
  | op8xy3_dontResetVf | op8xy4 | op8xy5 | op8xy6 | op8xy6_justShiftVx | op8xy7 | op8xyE
  | op8xyE_justShiftVx
  | op9xy0 | op9xy0_with_F000 | op9xy0_with_01nn
  | opAnnn | opBnnn | opBxnn | opBxy0_c8x | opBxyn_c8x
  | opCxnn | opCxnn_randLCG | opCxnn_counting
  | opDxyn_0 | opDxyn_displayWait_0
  | opDxyn_HiresSupport | opDxyn_HiresSupport_SChip1xLoresDraw | opDxyn_HiresSupport_WrapSprite
  | opDxyn_HiresSupport_MultiColor | opDxyn_HiresSupport_MultiColor_WrapSprite
  | opDxyn_MultiColor | opDxyn_MultiColor_WrapSprite | opDxyn_WrapSprite
  | opDxyn_megaChip
  | opEx9E | opEx9E_with_F000 | opEx9E_with_01nn | opExA1 | opExA1_with_F000 | opExA1_with_01nn
  | opExF2_c8x | opExF5_c8x
  | opF000 | opF002 | opFx01 | opFx07 | opFx0A | opFx15 | opFx18 | opFx1E | opFx29
  | opFx29_ship10Beta | opFx30 | opFx33 | opFx3A
  | opFx55 | opFx55_loadStoreIncIByX | opFx55_loadStoreDontIncI
  | opFx65 | opFx65_loadStoreIncIByX | opFx65_loadStoreDontIncI
  | opFx75 | opFx85 | opFxF8_c8x | opFxFB_c8x
  deriving DecidableEq

/-- The handler table `_opcodeHandler`: slot number to handler. -/
abbrev HandlerTable := Nat → OpcodeHandler

/-- The assignment `_opcodeHandler[idx] = handler`. -/
def HandlerTable.store (tbl : HandlerTable) (idx : Nat) (handler : OpcodeHandler) :
    HandlerTable :=
  fun s => if s = idx then handler else tbl s

/-! ## `Chip8EmulatorFP::on` -/

/-- The first loop of `on`: `while((argMask & 1) == 0) { argMask >>= 1; ++shift; }`.
Returns the final `(argMask, shift)`. -/
def onShiftLoop : Nat → Nat → Nat → Option (Nat × Nat)
  | 0, _, _ => none
  | fuel + 1, argMask, shift =>
    if argMask &&& 1 = 0 then onShiftLoop fuel (argMask >>> 1) (shift + 1)
    else some (argMask, shift)

/-- The second loop of `on`:
`do { _opcodeHandler[opcode | ((val & argMask) << shift)] = handler; } while(++val & argMask);`
with `val` a `uint16_t`. -/
def onFillLoop (opcode argMask shift : Nat) (handler : OpcodeHandler) :
    Nat → Nat → HandlerTable → Option HandlerTable
  | 0, _, _ => none
  | fuel + 1, val, tbl =>
    let tbl' := tbl.store (opcode ||| ((val &&& argMask) <<< shift)) handler
    let val' := (val + 1) % 65536
    if val' &&& argMask ≠ 0 then onFillLoop opcode argMask shift handler fuel val' tbl'
    else some tbl'

/-- The slots the second loop of `on` assigns, in the order of the assignments. -/
def onFillSlots (opcode argMask shift : Nat) : Nat → Nat → Option (List Nat)
  | 0, _ => none
  | fuel + 1, val =>
    let idx := opcode ||| ((val &&& argMask) <<< shift)
    let val' := (val + 1) % 65536
    if val' &&& argMask ≠ 0 then (onFillSlots opcode argMask shift fuel val').map (idx :: ·)
    else some [idx]

/-- The function `Chip8EmulatorFP::on(mask, opcode, handler)`; `uint16_t argMask = ~mask` is
the 16-bit complement.  The shift loop gets 16 rounds of fuel (one per bit) and the fill loop
65536 (one per value of the `uint16_t` counter). -/
def Chip8EmulatorFP.on (mask opcode : Nat) (handler : OpcodeHandler) (tbl : HandlerTable) :
    Option HandlerTable :=
  let argMask := (mask % 65536) ^^^ 0xFFFF
  if argMask ≠ 0 then
    match onShiftLoop 16 argMask 0 with
    | none => none
    | some (argMask, shift) => onFillLoop opcode argMask shift handler 65536 0 tbl
  else
    some (tbl.store opcode handler)

/-- The slots that `on(mask, opcode, _)` assigns, in the order of the assignments. -/
def Chip8EmulatorFP.onSlots (mask opcode : Nat) : Option (List Nat) :=
  let argMask := (mask % 65536) ^^^ 0xFFFF
  if argMask ≠ 0 then
    match onShiftLoop 16 argMask 0 with
    | none => none
    | some (argMask, shift) => onFillSlots opcode argMask shift 65536 0
  else
    some [opcode]

/-! ## `Chip8EmulatorFP::setHandler` -/

/-- One call `on(mask, opcode, handler)`. -/
structure OnCall where
  mask : Nat
  opcode : Nat
  handler : OpcodeHandler
  deriving DecidableEq

/-- The `on(...)` calls that `setHandler` issues for the options `o`, in program order. -/
def Chip8EmulatorFP.setHandlerCalls (o : Chip8EmulatorOptions) : List OnCall :=
  [ ⟨0xFFFF, 0x00E0, .op00E0⟩,
    ⟨0xFFFF, 0x00EE, if o.optCyclicStack then .op00EE_cyclic else .op00EE⟩,
    ⟨0xF000, 0x1000, .op1nnn⟩,
    ⟨0xF000, 0x2000, if o.optCyclicStack then .op2nnn_cyclic else .op2nnn⟩,
    ⟨0xF000, 0x3000, .op3xnn⟩,
    ⟨0xF000, 0x4000, .op4xnn⟩,
    ⟨0xF00F, 0x5000, .op5xy0⟩,
    ⟨0xF000, 0x6000, .op6xnn⟩,
    ⟨0xF000, 0x7000, .op7xnn⟩,
    ⟨0xF00F, 0x8000, .op8xy0⟩,
    ⟨0xF00F, 0x8001, if o.optDontResetVf then .op8xy1_dontResetVf else .op8xy1⟩,
    ⟨0xF00F, 0x8002, if o.optDontResetVf then .op8xy2_dontResetVf else .op8xy2⟩,
    ⟨0xF00F, 0x8003, if o.optDontResetVf then .op8xy3_dontResetVf else .op8xy3⟩,
    ⟨0xF00F, 0x8004, .op8xy4⟩,
    ⟨0xF00F, 0x8005, .op8xy5⟩,
    ⟨0xF00F, 0x8006, if o.optJustShiftVx then .op8xy6_justShiftVx else .op8xy6⟩,
    ⟨0xF00F, 0x8007, .op8xy7⟩,
    ⟨0xF00F, 0x800E, if o.optJustShiftVx then .op8xyE_justShiftVx else .op8xyE⟩,
    ⟨0xF00F, 0x9000, .op9xy0⟩,
    ⟨0xF000, 0xA000, .opAnnn⟩ ]
  ++ (if o.behaviorBase ≠ .eCHIP8X then
        [⟨0xF000, 0xB000, if o.optJump0Bxnn then .opBxnn else .opBnnn⟩]
      else [])
  ++ (if o.randomGen = "rand-lcg" then [⟨0xF000, 0xC000, .opCxnn_randLCG⟩]
      else if o.randomGen = "counting" then [⟨0xF000, 0xC000, .opCxnn_counting⟩]
      else [⟨0xF000, 0xC000, .opCxnn⟩])
  ++ (if o.behaviorBase = .eCHIP8X then
        (if o.optInstantDxyn then [⟨0xF000, 0xD000, .opDxyn_0⟩]
         else [⟨0xF000, 0xD000, .opDxyn_displayWait_0⟩])
      else if o.optAllowHires then
        (if o.optAllowColors then
           (if o.optWrapSprites then [⟨0xF000, 0xD000, .opDxyn_HiresSupport_MultiColor_WrapSprite⟩]
            else [⟨0xF000, 0xD000, .opDxyn_HiresSupport_MultiColor⟩])
         else
           (if o.optWrapSprites then [⟨0xF000, 0xD000, .opDxyn_HiresSupport_WrapSprite⟩]
            else
              (if o.optSCLoresDrawing then
                 [⟨0xF000, 0xD000, .opDxyn_HiresSupport_SChip1xLoresDraw⟩]
               else [⟨0xF000, 0xD000, .opDxyn_HiresSupport⟩])))
      else
        (if o.optAllowColors then
           (if o.optWrapSprites then [⟨0xF000, 0xD000, .opDxyn_MultiColor_WrapSprite⟩]
            else [⟨0xF000, 0xD000, .opDxyn_MultiColor⟩])
         else
           (if o.optWrapSprites then [⟨0xF000, 0xD000, .opDxyn_WrapSprite⟩]
            else
              (if o.optInstantDxyn then [⟨0xF000, 0xD000, .opDxyn_0⟩]
               else [⟨0xF000, 0xD000, .opDxyn_displayWait_0⟩]))))
  ++ [ ⟨0xF0FF, 0xE09E, .opEx9E⟩,
       ⟨0xF0FF, 0xE0A1, .opExA1⟩,
       ⟨0xF0FF, 0xF007, .opFx07⟩,
       ⟨0xF0FF, 0xF00A, .opFx0A⟩,
       ⟨0xF0FF, 0xF015, .opFx15⟩,
       ⟨0xF0FF, 0xF018, .opFx18⟩,
       ⟨0xF0FF, 0xF01E, .opFx1E⟩,
       ⟨0xF0FF, 0xF029, .opFx29⟩,
       ⟨0xF0FF, 0xF033, .opFx33⟩,
       ⟨0xF0FF, 0xF055,
         if o.optLoadStoreIncIByX then .opFx55_loadStoreIncIByX
         else (if o.optLoadStoreDontIncI then .opFx55_loadStoreDontIncI else .opFx55)⟩,
       ⟨0xF0FF, 0xF065,
         if o.optLoadStoreIncIByX then .opFx65_loadStoreIncIByX
         else (if o.optLoadStoreDontIncI then .opFx65_loadStoreDontIncI else .opFx65)⟩ ]
  ++ (match o.behaviorBase with
      | .eSCHIP10 =>
        [⟨0xFFFF, 0x00FD, .op00FD⟩]
        ++ (if o.optModeChangeClear then
              [⟨0xFFFF, 0x00FE, .op00FE_withClear⟩, ⟨0xFFFF, 0x00FF, .op00FF_withClear⟩]
            else [⟨0xFFFF, 0x00FE, .op00FE⟩, ⟨0xFFFF, 0x00FF, .op00FF⟩])
        ++ [ ⟨0xF0FF, 0xF029, .opFx29_ship10Beta⟩,
             ⟨0xF0FF, 0xF075, .opFx75⟩,
             ⟨0xF0FF, 0xF085, .opFx85⟩ ]
      | .eCHIP8X =>
        [ ⟨0xFFFF, 0x02A0, .op02A0_c8x⟩,
          ⟨0xF00F, 0x5001, .op5xy1_c8x⟩,
          ⟨0xF000, 0xB000, .opBxyn_c8x⟩,
          ⟨0xF00F, 0xB000, .opBxy0_c8x⟩,
          ⟨0xF0FF, 0xE0F2, .opExF2_c8x⟩,
          ⟨0xF0FF, 0xE0F5, .opExF5_c8x⟩,
          ⟨0xF0FF, 0xF0F8, .opFxF8_c8x⟩,
          ⟨0xF0FF, 0xF0FB, .opFxFB_c8x⟩ ]
      | .eSCHIP11 | .eSCHPC | .eSCHIP_MODERN =>
        [ ⟨0xFFF0, 0x00C0, .op00Cn⟩,
          ⟨0xFFFF, 0x00C0, .opInvalid⟩,
          ⟨0xFFFF, 0x00FB, .op00FB⟩,
          ⟨0xFFFF, 0x00FC, .op00FC⟩,
          ⟨0xFFFF, 0x00FD, .op00FD⟩ ]
        ++ (if o.optModeChangeClear then
              [⟨0xFFFF, 0x00FE, .op00FE_withClear⟩, ⟨0xFFFF, 0x00FF, .op00FF_withClear⟩]
            else [⟨0xFFFF, 0x00FE, .op00FE⟩, ⟨0xFFFF, 0x00FF, .op00FF⟩])
        ++ [ ⟨0xF0FF, 0xF030, .opFx30⟩,
             ⟨0xF0FF, 0xF075, .opFx75⟩,
             ⟨0xF0FF, 0xF085, .opFx85⟩ ]
      | .eMEGACHIP =>
        [ ⟨0xFFFF, 0x0010, .op0010⟩,
          ⟨0xFFFF, 0x0011, .op0011⟩,
          ⟨0xFFF0, 0x00B0, .op00Bn⟩,
          ⟨0xFFF0, 0x00C0, .op00Cn⟩,
          ⟨0xFFFF, 0x00E0, .op00E0_megachip⟩,
          ⟨0xFFFF, 0x00FB, .op00FB⟩,
          ⟨0xFFFF, 0x00FC, .op00FC⟩,
          ⟨0xFFFF, 0x00FD, .op00FD⟩,
          ⟨0xFFFF, 0x00FE, .op00FE_megachip⟩,
          ⟨0xFFFF, 0x00FF, .op00FF_megachip⟩,
          ⟨0xFF00, 0x0100, .op01nn⟩,
          ⟨0xFF00, 0x0200, .op02nn⟩,
          ⟨0xFF00, 0x0300, .op03nn⟩,
          ⟨0xFF00, 0x0400, .op04nn⟩,
          ⟨0xFF00, 0x0500, .op05nn⟩,
          ⟨0xFFF0, 0x0600, .op060n⟩,
          ⟨0xFFFF, 0x0700, .op0700⟩,
          ⟨0xFFF0, 0x0800, .op080n⟩,
          ⟨0xFF00, 0x0900, .op09nn⟩,
          ⟨0xF000, 0x3000, .op3xnn_with_01nn⟩,
          ⟨0xF000, 0x4000, .op4xnn_with_01nn⟩,
          ⟨0xF00F, 0x5000, .op5xy0_with_01nn⟩,
          ⟨0xF00F, 0x9000, .op9xy0_with_01nn⟩,
          ⟨0xF000, 0xD000, .opDxyn_megaChip⟩,
          ⟨0xF0FF, 0xE09E, .opEx9E_with_01nn⟩,
          ⟨0xF0FF, 0xE0A1, .opExA1_with_01nn⟩,
          ⟨0xF0FF, 0xF030, .opFx30⟩,
          ⟨0xF0FF, 0xF075, .opFx75⟩,
          ⟨0xF0FF, 0xF085, .opFx85⟩ ]
      | .eXOCHIP =>
        [ ⟨0xFFF0, 0x00C0, .op00Cn_masked⟩,
          ⟨0xFFF0, 0x00D0, .op00Dn_masked⟩,
          ⟨0xFFFF, 0x00FB, .op00FB_masked⟩,
          ⟨0xFFFF, 0x00FC, .op00FC_masked⟩,
          ⟨0xFFFF, 0x00FD, .op00FD⟩,
          ⟨0xFFFF, 0x00FE, .op00FE_withClear⟩,
          ⟨0xFFFF, 0x00FF, .op00FF_withClear⟩,
          ⟨0xF000, 0x3000, .op3xnn_with_F000⟩,
          ⟨0xF000, 0x4000, .op4xnn_with_F000⟩,
          ⟨0xF00F, 0x5000, .op5xy0_with_F000⟩,
          ⟨0xF00F, 0x5002, .op5xy2⟩,
          ⟨0xF00F, 0x5003, .op5xy3⟩,
          ⟨0xF00F, 0x9000, .op9xy0_with_F000⟩,
          ⟨0xF0FF, 0xE09E, .opEx9E_with_F000⟩,
          ⟨0xF0FF, 0xE0A1, .opExA1_with_F000⟩,
          ⟨0xFFFF, 0xF000, .opF000⟩,
          ⟨0xF0FF, 0xF001, .opFx01⟩,
          ⟨0xFFFF, 0xF002, .opF002⟩,
          ⟨0xF0FF, 0xF030, .opFx30⟩,
          ⟨0xF0FF, 0xF03A, .opFx3A⟩,
          ⟨0xF0FF, 0xF075, .opFx75⟩,
          ⟨0xF0FF, 0xF085, .opFx85⟩ ]
      | .eCHICUEYI =>
        [ ⟨0xFFF0, 0x00C0, .op00Cn_masked⟩,
          ⟨0xFFF0, 0x00D0, .op00Dn_masked⟩,
          ⟨0xFFFF, 0x00FB, .op00FB_masked⟩,
          ⟨0xFFFF, 0x00FC, .op00FC_masked⟩,
          ⟨0xFFFF, 0x00FD, .op00FD⟩,
          ⟨0xFFFF, 0x00FE, .op00FE_withClear⟩,
          ⟨0xFFFF, 0x00FF, .op00FF_withClear⟩,
          ⟨0xF000, 0x3000, .op3xnn_with_F000⟩,
          ⟨0xF000, 0x4000, .op4xnn_with_F000⟩,
          ⟨0xF00F, 0x5000, .op5xy0_with_F000⟩,
          ⟨0xF00F, 0x5002, .op5xy2⟩,
          ⟨0xF00F, 0x5003, .op5xy3⟩,
          ⟨0xF00F, 0x5004, .op5xy4⟩,
          ⟨0xF00F, 0x9000, .op9xy0_with_F000⟩,
          ⟨0xF0FF, 0xE09E, .opEx9E_with_F000⟩,
          ⟨0xF0FF, 0xE0A1, .opExA1_with_F000⟩,
          ⟨0xFFFF, 0xF000, .opF000⟩,
          ⟨0xF0FF, 0xF001, .opFx01⟩,
          ⟨0xFFFF, 0xF002, .opF002⟩,
          ⟨0xF0FF, 0xF030, .opFx30⟩,
          ⟨0xF0FF, 0xF03A, .opFx3A⟩ ]
      | _ => [])

/-- The handler that `setHandler` installs for `Cxnn`: the three branches on `randomGen` all
call `on(0xF000, 0xC000, _)`. -/
def cxnnHandler (o : Chip8EmulatorOptions) : OpcodeHandler :=
  if o.randomGen = "rand-lcg" then .opCxnn_randLCG
  else if o.randomGen = "counting" then .opCxnn_counting
  else .opCxnn

/-- The handler that `setHandler` installs for `Dxyn`: every branch of the nested conditional
calls `on(0xF000, 0xD000, _)`. -/
def dxynHandler (o : Chip8EmulatorOptions) : OpcodeHandler :=
  if o.behaviorBase = .eCHIP8X then
    (if o.optInstantDxyn then .opDxyn_0
     else .opDxyn_displayWait_0)
  else if o.optAllowHires then
    (if o.optAllowColors then
       (if o.optWrapSprites then .opDxyn_HiresSupport_MultiColor_WrapSprite
        else .opDxyn_HiresSupport_MultiColor)
     else
       (if o.optWrapSprites then .opDxyn_HiresSupport_WrapSprite
        else
          (if o.optSCLoresDrawing then
             .opDxyn_HiresSupport_SChip1xLoresDraw
           else .opDxyn_HiresSupport)))
  else
    (if o.optAllowColors then
       (if o.optWrapSprites then .opDxyn_MultiColor_WrapSprite
        else .opDxyn_MultiColor)
     else
       (if o.optWrapSprites then .opDxyn_WrapSprite
        else
          (if o.optInstantDxyn then .opDxyn_0
           else .opDxyn_displayWait_0)))

/-- The calls of `setHandlerCalls` with each conditional whose branches issue calls with the same
masks and opcodes moved into the handler argument: the shape of the list then depends on
`behaviorBase` alone.  `setHandlerCalls_eq_rules` shows that the two lists are equal. -/
def Chip8EmulatorFP.setHandlerRules (o : Chip8EmulatorOptions) : List OnCall :=
  [ ⟨0xFFFF, 0x00E0, .op00E0⟩,
    ⟨0xFFFF, 0x00EE, if o.optCyclicStack then .op00EE_cyclic else .op00EE⟩,
    ⟨0xF000, 0x1000, .op1nnn⟩,
    ⟨0xF000, 0x2000, if o.optCyclicStack then .op2nnn_cyclic else .op2nnn⟩,
    ⟨0xF000, 0x3000, .op3xnn⟩,
    ⟨0xF000, 0x4000, .op4xnn⟩,
    ⟨0xF00F, 0x5000, .op5xy0⟩,
    ⟨0xF000, 0x6000, .op6xnn⟩,
    ⟨0xF000, 0x7000, .op7xnn⟩,
    ⟨0xF00F, 0x8000, .op8xy0⟩,
    ⟨0xF00F, 0x8001, if o.optDontResetVf then .op8xy1_dontResetVf else .op8xy1⟩,
    ⟨0xF00F, 0x8002, if o.optDontResetVf then .op8xy2_dontResetVf else .op8xy2⟩,
    ⟨0xF00F, 0x8003, if o.optDontResetVf then .op8xy3_dontResetVf else .op8xy3⟩,
    ⟨0xF00F, 0x8004, .op8xy4⟩,
    ⟨0xF00F, 0x8005, .op8xy5⟩,
    ⟨0xF00F, 0x8006, if o.optJustShiftVx then .op8xy6_justShiftVx else .op8xy6⟩,
    ⟨0xF00F, 0x8007, .op8xy7⟩,
    ⟨0xF00F, 0x800E, if o.optJustShiftVx then .op8xyE_justShiftVx else .op8xyE⟩,
    ⟨0xF00F, 0x9000, .op9xy0⟩,
    ⟨0xF000, 0xA000, .opAnnn⟩ ]
  ++ (if o.behaviorBase ≠ .eCHIP8X then
        [⟨0xF000, 0xB000, if o.optJump0Bxnn then .opBxnn else .opBnnn⟩]
      else [])
  ++ [ ⟨0xF000, 0xC000, cxnnHandler o⟩,
       ⟨0xF000, 0xD000, dxynHandler o⟩,
       ⟨0xF0FF, 0xE09E, .opEx9E⟩,
       ⟨0xF0FF, 0xE0A1, .opExA1⟩,
       ⟨0xF0FF, 0xF007, .opFx07⟩,
       ⟨0xF0FF, 0xF00A, .opFx0A⟩,
       ⟨0xF0FF, 0xF015, .opFx15⟩,
       ⟨0xF0FF, 0xF018, .opFx18⟩,
       ⟨0xF0FF, 0xF01E, .opFx1E⟩,
       ⟨0xF0FF, 0xF029, .opFx29⟩,
       ⟨0xF0FF, 0xF033, .opFx33⟩,
       ⟨0xF0FF, 0xF055,
         if o.optLoadStoreIncIByX then .opFx55_loadStoreIncIByX
         else (if o.optLoadStoreDontIncI then .opFx55_loadStoreDontIncI else .opFx55)⟩,
       ⟨0xF0FF, 0xF065,
         if o.optLoadStoreIncIByX then .opFx65_loadStoreIncIByX
         else (if o.optLoadStoreDontIncI then .opFx65_loadStoreDontIncI else .opFx65)⟩ ]
  ++ (match o.behaviorBase with
      | .eSCHIP10 =>
        [ ⟨0xFFFF, 0x00FD, .op00FD⟩,
          ⟨0xFFFF, 0x00FE, if o.optModeChangeClear then .op00FE_withClear else .op00FE⟩,
          ⟨0xFFFF, 0x00FF, if o.optModeChangeClear then .op00FF_withClear else .op00FF⟩,
          ⟨0xF0FF, 0xF029, .opFx29_ship10Beta⟩,
          ⟨0xF0FF, 0xF075, .opFx75⟩,
          ⟨0xF0FF, 0xF085, .opFx85⟩ ]
      | .eCHIP8X =>
        [ ⟨0xFFFF, 0x02A0, .op02A0_c8x⟩,
          ⟨0xF00F, 0x5001, .op5xy1_c8x⟩,
          ⟨0xF000, 0xB000, .opBxyn_c8x⟩,
          ⟨0xF00F, 0xB000, .opBxy0_c8x⟩,
          ⟨0xF0FF, 0xE0F2, .opExF2_c8x⟩,
          ⟨0xF0FF, 0xE0F5, .opExF5_c8x⟩,
          ⟨0xF0FF, 0xF0F8, .opFxF8_c8x⟩,
          ⟨0xF0FF, 0xF0FB, .opFxFB_c8x⟩ ]
      | .eSCHIP11 | .eSCHPC | .eSCHIP_MODERN =>
        [ ⟨0xFFF0, 0x00C0, .op00Cn⟩,
          ⟨0xFFFF, 0x00C0, .opInvalid⟩,
          ⟨0xFFFF, 0x00FB, .op00FB⟩,
          ⟨0xFFFF, 0x00FC, .op00FC⟩,
          ⟨0xFFFF, 0x00FD, .op00FD⟩,
          ⟨0xFFFF, 0x00FE, if o.optModeChangeClear then .op00FE_withClear else .op00FE⟩,
          ⟨0xFFFF, 0x00FF, if o.optModeChangeClear then .op00FF_withClear else .op00FF⟩,
          ⟨0xF0FF, 0xF030, .opFx30⟩,
          ⟨0xF0FF, 0xF075, .opFx75⟩,
          ⟨0xF0FF, 0xF085, .opFx85⟩ ]
      | .eMEGACHIP =>
        [ ⟨0xFFFF, 0x0010, .op0010⟩,
          ⟨0xFFFF, 0x0011, .op0011⟩,
          ⟨0xFFF0, 0x00B0, .op00Bn⟩,
          ⟨0xFFF0, 0x00C0, .op00Cn⟩,
          ⟨0xFFFF, 0x00E0, .op00E0_megachip⟩,
          ⟨0xFFFF, 0x00FB, .op00FB⟩,
          ⟨0xFFFF, 0x00FC, .op00FC⟩,
          ⟨0xFFFF, 0x00FD, .op00FD⟩,
          ⟨0xFFFF, 0x00FE, .op00FE_megachip⟩,
          ⟨0xFFFF, 0x00FF, .op00FF_megachip⟩,
          ⟨0xFF00, 0x0100, .op01nn⟩,
          ⟨0xFF00, 0x0200, .op02nn⟩,
          ⟨0xFF00, 0x0300, .op03nn⟩,
          ⟨0xFF00, 0x0400, .op04nn⟩,
          ⟨0xFF00, 0x0500, .op05nn⟩,
          ⟨0xFFF0, 0x0600, .op060n⟩,
          ⟨0xFFFF, 0x0700, .op0700⟩,
          ⟨0xFFF0, 0x0800, .op080n⟩,
          ⟨0xFF00, 0x0900, .op09nn⟩,
          ⟨0xF000, 0x3000, .op3xnn_with_01nn⟩,
          ⟨0xF000, 0x4000, .op4xnn_with_01nn⟩,
          ⟨0xF00F, 0x5000, .op5xy0_with_01nn⟩,
          ⟨0xF00F, 0x9000, .op9xy0_with_01nn⟩,
          ⟨0xF000, 0xD000, .opDxyn_megaChip⟩,
          ⟨0xF0FF, 0xE09E, .opEx9E_with_01nn⟩,
          ⟨0xF0FF, 0xE0A1, .opExA1_with_01nn⟩,
          ⟨0xF0FF, 0xF030, .opFx30⟩,
          ⟨0xF0FF, 0xF075, .opFx75⟩,
          ⟨0xF0FF, 0xF085, .opFx85⟩ ]
      | .eXOCHIP =>
        [ ⟨0xFFF0, 0x00C0, .op00Cn_masked⟩,
          ⟨0xFFF0, 0x00D0, .op00Dn_masked⟩,
          ⟨0xFFFF, 0x00FB, .op00FB_masked⟩,
          ⟨0xFFFF, 0x00FC, .op00FC_masked⟩,
          ⟨0xFFFF, 0x00FD, .op00FD⟩,
          ⟨0xFFFF, 0x00FE, .op00FE_withClear⟩,
          ⟨0xFFFF, 0x00FF, .op00FF_withClear⟩,
          ⟨0xF000, 0x3000, .op3xnn_with_F000⟩,
          ⟨0xF000, 0x4000, .op4xnn_with_F000⟩,
          ⟨0xF00F, 0x5000, .op5xy0_with_F000⟩,
          ⟨0xF00F, 0x5002, .op5xy2⟩,
          ⟨0xF00F, 0x5003, .op5xy3⟩,
          ⟨0xF00F, 0x9000, .op9xy0_with_F000⟩,
          ⟨0xF0FF, 0xE09E, .opEx9E_with_F000⟩,
          ⟨0xF0FF, 0xE0A1, .opExA1_with_F000⟩,
          ⟨0xFFFF, 0xF000, .opF000⟩,
          ⟨0xF0FF, 0xF001, .opFx01⟩,
          ⟨0xFFFF, 0xF002, .opF002⟩,
          ⟨0xF0FF, 0xF030, .opFx30⟩,
          ⟨0xF0FF, 0xF03A, .opFx3A⟩,
          ⟨0xF0FF, 0xF075, .opFx75⟩,
          ⟨0xF0FF, 0xF085, .opFx85⟩ ]
      | .eCHICUEYI =>
        [ ⟨0xFFF0, 0x00C0, .op00Cn_masked⟩,
          ⟨0xFFF0, 0x00D0, .op00Dn_masked⟩,
          ⟨0xFFFF, 0x00FB, .op00FB_masked⟩,
          ⟨0xFFFF, 0x00FC, .op00FC_masked⟩,
          ⟨0xFFFF, 0x00FD, .op00FD⟩,
          ⟨0xFFFF, 0x00FE, .op00FE_withClear⟩,
          ⟨0xFFFF, 0x00FF, .op00FF_withClear⟩,
          ⟨0xF000, 0x3000, .op3xnn_with_F000⟩,
          ⟨0xF000, 0x4000, .op4xnn_with_F000⟩,
          ⟨0xF00F, 0x5000, .op5xy0_with_F000⟩,
          ⟨0xF00F, 0x5002, .op5xy2⟩,
          ⟨0xF00F, 0x5003, .op5xy3⟩,
          ⟨0xF00F, 0x5004, .op5xy4⟩,
          ⟨0xF00F, 0x9000, .op9xy0_with_F000⟩,
          ⟨0xF0FF, 0xE09E, .opEx9E_with_F000⟩,
          ⟨0xF0FF, 0xE0A1, .opExA1_with_F000⟩,
          ⟨0xFFFF, 0xF000, .opF000⟩,
          ⟨0xF0FF, 0xF001, .opFx01⟩,
          ⟨0xFFFF, 0xF002, .opF002⟩,
          ⟨0xF0FF, 0xF030, .opFx30⟩,
          ⟨0xF0FF, 0xF03A, .opFx3A⟩ ]
      | _ => [])

/-- The `(mask, opcode)` pairs of the `on` calls of `setHandler` for a preset, in program
order. -/
def callKeys (b : SupportedPreset) : List (Nat × Nat) :=
  (Chip8EmulatorFP.setHandlerRules { behaviorBase := b }).map (fun c => (c.mask, c.opcode))

/-- The calls of `on` that `setHandler` issues before its `switch` on `behaviorBase`, the part
every variant shares: the twenty calls from `00E0` to `Annn`, the call for `Bnnn` (not issued
for CHIP-8X), the calls for `Cxnn` and `Dxyn` and the eleven calls from `Ex9E` to `Fx65`. -/
def Chip8EmulatorFP.baseCalls (o : Chip8EmulatorOptions) : List OnCall :=
  (Chip8EmulatorFP.setHandlerCalls o).take (if o.behaviorBase ≠ .eCHIP8X then 34 else 33)

/-- The `(mask, opcode)` pairs of the calls of `baseCalls` for a variant other than CHIP-8X, in
program order (`baseCalls_keys`). -/
def Chip8EmulatorFP.baseKeys : List (Nat × Nat) :=
  [(0xFFFF, 0x00E0), (0xFFFF, 0x00EE), (0xF000, 0x1000), (0xF000, 0x2000),
   (0xF000, 0x3000), (0xF000, 0x4000), (0xF00F, 0x5000), (0xF000, 0x6000),
   (0xF000, 0x7000), (0xF00F, 0x8000), (0xF00F, 0x8001), (0xF00F, 0x8002),
   (0xF00F, 0x8003), (0xF00F, 0x8004), (0xF00F, 0x8005), (0xF00F, 0x8006),
   (0xF00F, 0x8007), (0xF00F, 0x800E), (0xF00F, 0x9000), (0xF000, 0xA000),
   (0xF000, 0xB000), (0xF000, 0xC000), (0xF000, 0xD000), (0xF0FF, 0xE09E),
   (0xF0FF, 0xE0A1), (0xF0FF, 0xF007), (0xF0FF, 0xF00A), (0xF0FF, 0xF015),
   (0xF0FF, 0xF018), (0xF0FF, 0xF01E), (0xF0FF, 0xF029), (0xF0FF, 0xF033),
   (0xF0FF, 0xF055), (0xF0FF, 0xF065)]

/-- The loop of `on` calls: each call works on the table the previous one left. -/
def runOnCalls : List OnCall → HandlerTable → Option HandlerTable
  | [], tbl => some tbl
  | c :: cs, tbl =>
    match Chip8EmulatorFP.on c.mask c.opcode c.handler tbl with
    | none => none
    | some tbl' => runOnCalls cs tbl'

/-- The function `Chip8EmulatorFP::setHandler()`, on the table `tbl`. -/
def Chip8EmulatorFP.setHandler (o : Chip8EmulatorOptions) (tbl : HandlerTable) :
    Option HandlerTable :=
  runOnCalls (Chip8EmulatorFP.setHandlerCalls o) tbl

/-- The handler table the constructor `Chip8EmulatorFP::Chip8EmulatorFP` builds:
`_opcodeHandler(0x10000, &Chip8EmulatorFP::opInvalid)` followed by `setHandler()`.  Slots from
`0x10000` on are not part of the vector; the model gives them `opInvalid` as well. -/
def Chip8EmulatorFP.opcodeHandler (o : Chip8EmulatorOptions) : Option HandlerTable :=
  Chip8EmulatorFP.setHandler o (fun _ => .opInvalid)

/-- What one `on(mask, opcode, handler)` is meant to do to slot `s`: the declarative reading
of a rule, used to state what the loops of `on` achieve. -/
def OnCall.apply (c : OnCall) (tbl : HandlerTable) : HandlerTable :=
  fun s => if s < 65536 ∧ s &&& c.mask = c.opcode then c.handler else tbl s

/-- The number of set bits among the low 16 bits of `n`. -/
def popcount16 (n : Nat) : Nat :=
  ((List.range 16).filter (fun i => n.testBit i)).length

/-- The argument shapes that `setHandler` uses: one of its six masks, a 16-bit opcode pattern,
and no pattern bit inside the don't-care bits of the mask. -/
def OnCall.ok (c : OnCall) : Bool :=
  (c.mask == 0xFFFF || c.mask == 0xF000 || c.mask == 0xF00F || c.mask == 0xF0FF
    || c.mask == 0xFFF0 || c.mask == 0xFF00)
  && decide (c.opcode < 65536) && (c.opcode &&& (c.mask ^^^ 0xFFFF) == 0)

/-- Slot `s` matches the rule `c`: it is a 16-bit value that equals the pattern under the
mask. -/
def OnCall.hits (c : OnCall) (s : Nat) : Bool :=
  decide (s < 65536) && (s &&& c.mask == c.opcode)

/-! ## Execution state -/

/-- The execution modes (`IChip8Emulator::ExecMode`). -/
inductive ExecMode where
  | eRUNNING | ePAUSED | eSTEP | eSTEPOVER | eSTEPOUT
  deriving DecidableEq

/-- The CPU states (`IChip8Emulator::CpuState`). -/
inductive CpuState where
  | eNORMAL | eWAITING | eERROR
  deriving DecidableEq

/-- The host capabilities the embedded code consults. -/
structure Chip8EmulatorHost where
  isHeadless : Bool := false

/-- The data members of `Chip8EmulatorBase` and `Chip8EmulatorFP` that the embedded code reads
or writes.  Not modelled: the screen buffers, the floating-point audio cursor and phase, and
`_systemTime`.  `breakpoints` lists the keys of the map `_breakpoints`; `keyPressed` is the value
that `_host.getKeyPressed()` returns to the instruction that polls the keyboard next (0 for no
key, `k + 1` for key `k`). -/
structure Chip8EmulatorBase where
  execMode : ExecMode := .eRUNNING
  cpuState : CpuState := .eNORMAL
  errorMessage : String := ""
  isHires : Bool := false
  isMegaChipMode : Bool := false
  isInstantDxyn : Bool := false
  screenNeedsUpdate : Bool := false
  planes : Nat := 1
  stepOverSP : Nat := 0
  cycleCounter : Int := 0
  frameCounter : Int := 0
  clearCounter : Int := 0
  rI : Nat := 0
  rPC : Nat := 0
  stack : Nat → Nat := fun _ => 0
  rSP : Nat := 0
  rDT : Nat := 0
  rST : Nat := 0
  rV : Nat → Nat := fun _ => 0
  memory : Nat → Nat := fun _ => 0
  xoAudioPattern : Nat → Nat := fun _ => 0
  xoSilencePattern : Bool := true
  xoPitch : Nat := 0
  sampleLength : Nat := 0
  xxoPalette : Nat → Nat := fun _ => 0
  mcPalette : Nat → Nat := fun _ => 0
  screenAlpha : Nat := 0
  spriteWidth : Nat := 0
  spriteHeight : Nat := 0
  collisionColor : Nat := 1
  blendMode : Nat := 0
  randomSeed : Nat := 0
  simpleRandSeed : Nat := 0
  simpleRandState : Nat := 0
  chip8xBackgroundColor : Nat := 0
  breakMap : Nat → Nat := fun _ => 0
  breakpoints : List Nat := []
  keyPressed : Int := 0

/-- The assignment `a[idx] = val` on an array. -/
def arrStore (a : Nat → Nat) (idx val : Nat) : Nat → Nat :=
  fun i => if i = idx then val else a i

/-- The call `std::memset(a, val, n)` on a byte array. -/
def memset (a : Nat → Nat) (val n : Nat) : Nat → Nat :=
  fun i => if i < n then val else a i

/-- The call `std::memcpy(dst + off, src, src.length)`. -/
def memcpy (dst : Nat → Nat) (off : Nat) (src : List Nat) : Nat → Nat :=
  fun i => if off ≤ i ∧ i < off + src.length then src.getD (i - off) 0 else dst i

/-- The constant `ADDRESS_MASK`, as the constructor of `Chip8EmulatorFP` initialises it. -/
def Chip8EmulatorFP.ADDRESS_MASK (o : Chip8EmulatorOptions) : Nat :=
  if o.behaviorBase = .eMEGACHIP then 0xFFFFFF else if o.optHas16BitAddr then 0xFFFF else 0xFFF

/-- The size of the vector `_memory`, as the constructor of `Chip8EmulatorBase` allocates it. -/
def Chip8EmulatorBase.memoryBufferSize (o : Chip8EmulatorOptions) : Nat :=
  if o.behaviorBase = .eMEGACHIP then 0x1000001 else if o.optHas16BitAddr then 0x10001 else 0x1001

/-- The function `memSize()`: `_memory.size() - 1`. -/
def Chip8EmulatorBase.memSize (o : Chip8EmulatorOptions) : Nat :=
  Chip8EmulatorBase.memoryBufferSize o - 1

/-! ## Fonts -/

/-- The table `g_chip8VipFont` (80 bytes). -/
def g_chip8VipFont : List Nat :=
  [0xF0, 0x90, 0x90, 0x90, 0xF0,
   0x60, 0x20, 0x20, 0x20, 0x70,
   0xF0, 0x10, 0xF0, 0x80, 0xF0,
   0xF0, 0x10, 0xF0, 0x10, 0xF0,
   0xA0, 0xA0, 0xF0, 0x20, 0x20,
   0xF0, 0x80, 0xF0, 0x10, 0xF0,
   0xF0, 0x80, 0xF0, 0x90, 0xF0,
   0xF0, 0x10, 0x10, 0x10, 0x10,
   0xF0, 0x90, 0xF0, 0x90, 0xF0,
   0xF0, 0x90, 0xF0, 0x10, 0xF0,
   0xF0, 0x90, 0xF0, 0x90, 0x90,
   0xF0, 0x50, 0x70, 0x50, 0xF0,
   0xF0, 0x80, 0x80, 0x80, 0xF0,
   0xF0, 0x50, 0x50, 0x50, 0xF0,
   0xF0, 0x80, 0xF0, 0x80, 0xF0,
   0xF0, 0x80, 0xF0, 0x80, 0x80]

/-- The table `g_chip48Font` (80 bytes). -/
def g_chip48Font : List Nat :=
  [0xF0, 0x90, 0x90, 0x90, 0xF0,
   0x20, 0x60, 0x20, 0x20, 0x70,
   0xF0, 0x10, 0xF0, 0x80, 0xF0,
   0xF0, 0x10, 0xF0, 0x10, 0xF0,
   0x90, 0x90, 0xF0, 0x10, 0x10,
   0xF0, 0x80, 0xF0, 0x10, 0xF0,
   0xF0, 0x80, 0xF0, 0x90, 0xF0,
   0xF0, 0x10, 0x20, 0x40, 0x40,
   0xF0, 0x90, 0xF0, 0x90, 0xF0,
   0xF0, 0x90, 0xF0, 0x10, 0xF0,
   0xF0, 0x90, 0xF0, 0x90, 0x90,
   0xE0, 0x90, 0xE0, 0x90, 0xE0,
   0xF0, 0x80, 0x80, 0x80, 0xF0,
   0xE0, 0x90, 0x90, 0x90, 0xE0,
   0xF0, 0x80, 0xF0, 0x80, 0xF0,
   0xF0, 0x80, 0xF0, 0x80, 0x80]

/-- The table `g_ship10BigFont` (100 bytes). -/
def g_ship10BigFont : List Nat :=
  [0x3C, 0x7E, 0xFF, 0xC3, 0xC3, 0xC3, 0xC3, 0xFF, 0x7E, 0x3C,
   0x18, 0x38, 0x58, 0x18, 0x18, 0x18, 0x18, 0x18, 0x18, 0x3C,
   0x3E, 0x7F, 0xC3, 0x06, 0x0C, 0x18, 0x30, 0x60, 0xFF, 0xFF,
   0x3C, 0x7E, 0xC3, 0x03, 0x0E, 0x0E, 0x03, 0xC3, 0x7E, 0x3C,
   0x06, 0x0E, 0x1E, 0x36, 0x66, 0xC6, 0xFF, 0xFF, 0x06, 0x06,
   0xFF, 0xFF, 0xC0, 0xC0, 0xFC, 0xFE, 0x03, 0xC3, 0x7E, 0x3C,
   0x3E, 0x7C, 0xE0, 0xC0, 0xFC, 0xFE, 0xC3, 0xC3, 0x7E, 0x3C,
   0xFF, 0xFF, 0x03, 0x06, 0x0C, 0x18, 0x30, 0x60, 0x60, 0x60,
   0x3C, 0x7E, 0xC3, 0xC3, 0x7E, 0x7E, 0xC3, 0xC3, 0x7E, 0x3C,
   0x3C, 0x7E, 0xC3, 0xC3, 0x7F, 0x3F, 0x03, 0x03, 0x3E, 0x7C]

/-- The table `g_ship11BigFont` (100 bytes). -/
def g_ship11BigFont : List Nat :=
  [0x3C, 0x7E, 0xE7, 0xC3, 0xC3, 0xC3, 0xC3, 0xE7, 0x7E, 0x3C,
   0x18, 0x38, 0x58, 0x18, 0x18, 0x18, 0x18, 0x18, 0x18, 0x3C,
   0x3E, 0x7F, 0xC3, 0x06, 0x0C, 0x18, 0x30, 0x60, 0xFF, 0xFF,
   0x3C, 0x7E, 0xC3, 0x03, 0x0E, 0x0E, 0x03, 0xC3, 0x7E, 0x3C,
   0x06, 0x0E, 0x1E, 0x36, 0x66, 0xC6, 0xFF, 0xFF, 0x06, 0x06,
   0xFF, 0xFF, 0xC0, 0xC0, 0xFC, 0xFE, 0x03, 0xC3, 0x7E, 0x3C,
   0x3E, 0x7C, 0xE0, 0xC0, 0xFC, 0xFE, 0xC3, 0xC3, 0x7E, 0x3C,
   0xFF, 0xFF, 0x03, 0x06, 0x0C, 0x18, 0x30, 0x60, 0x60, 0x60,
   0x3C, 0x7E, 0xC3, 0xC3, 0x7E, 0x7E, 0xC3, 0xC3, 0x7E, 0x3C,
   0x3C, 0x7E, 0xC3, 0xC3, 0x7F, 0x3F, 0x03, 0x03, 0x3E, 0x7C]

/-- The table `g_megachip8BigFont` (160 bytes). -/
def g_megachip8BigFont : List Nat :=
  [0x3C, 0x7E, 0xC3, 0xC3, 0xC3, 0xC3, 0xC3, 0xC3, 0x7E, 0x3C,
   0x18, 0x38, 0x58, 0x18, 0x18, 0x18, 0x18, 0x18, 0x18, 0x3C,
   0x3E, 0x7F, 0xC3, 0x06, 0x0C, 0x18, 0x30, 0x60, 0xFF, 0xFF,
   0x3C, 0x7E, 0xC3, 0x03, 0x0E, 0x0E, 0x03, 0xC3, 0x7E, 0x3C,
   0x06, 0x0E, 0x1E, 0x36, 0x66, 0xC6, 0xFF, 0xFF, 0x06, 0x06,
   0xFF, 0xFF, 0xC0, 0xC0, 0xFC, 0xFE, 0x03, 0xC3, 0x7E, 0x3C,
   0x3E, 0x7C, 0xC0, 0xC0, 0xFC, 0xFE, 0xC3, 0xC3, 0x7E, 0x3C,
   0xFF, 0xFF, 0x03, 0x06, 0x0C, 0x18, 0x30, 0x60, 0x60, 0x60,
   0x3C, 0x7E, 0xC3, 0xC3, 0x7E, 0x7E, 0xC3, 0xC3, 0x7E, 0x3C,
   0x3C, 0x7E, 0xC3, 0xC3, 0x7F, 0x3F, 0x03, 0x03, 0x3E, 0x7C,
   0x3C, 0x7E, 0xC3, 0xC3, 0xC3, 0xC3, 0xC3, 0xC3, 0x7E, 0x3C,
   0x3C, 0x7E, 0xC3, 0xC3, 0xC3, 0xC3, 0xC3, 0xC3, 0x7E, 0x3C,
   0x3C, 0x7E, 0xC3, 0xC3, 0xC3, 0xC3, 0xC3, 0xC3, 0x7E, 0x3C,
   0x3C, 0x7E, 0xC3, 0xC3, 0xC3, 0xC3, 0xC3, 0xC3, 0x7E, 0x3C,
   0x3C, 0x7E, 0xC3, 0xC3, 0xC3, 0xC3, 0xC3, 0xC3, 0x7E, 0x3C,
   0x3C, 0x7E, 0xC3, 0xC3, 0xC3, 0xC3, 0xC3, 0xC3, 0x7E, 0x3C]

/-- The table `g_octoBigFont` (160 bytes). -/
def g_octoBigFont : List Nat :=
  [0xFF, 0xFF, 0xC3, 0xC3, 0xC3, 0xC3, 0xC3, 0xC3, 0xFF, 0xFF,
   0x18, 0x78, 0x78, 0x18, 0x18, 0x18, 0x18, 0x18, 0xFF, 0xFF,
   0xFF, 0xFF, 0x03, 0x03, 0xFF, 0xFF, 0xC0, 0xC0, 0xFF, 0xFF,
   0xFF, 0xFF, 0x03, 0x03, 0xFF, 0xFF, 0x03, 0x03, 0xFF, 0xFF,
   0xC3, 0xC3, 0xC3, 0xC3, 0xFF, 0xFF, 0x03, 0x03, 0x03, 0x03,
   0xFF, 0xFF, 0xC0, 0xC0, 0xFF, 0xFF, 0x03, 0x03, 0xFF, 0xFF,
   0xFF, 0xFF, 0xC0, 0xC0, 0xFF, 0xFF, 0xC3, 0xC3, 0xFF, 0xFF,
   0xFF, 0xFF, 0x03, 0x03, 0x06, 0x0C, 0x18, 0x18, 0x18, 0x18,
   0xFF, 0xFF, 0xC3, 0xC3, 0xFF, 0xFF, 0xC3, 0xC3, 0xFF, 0xFF,
   0xFF, 0xFF, 0xC3, 0xC3, 0xFF, 0xFF, 0x03, 0x03, 0xFF, 0xFF,
   0x7E, 0xFF, 0xC3, 0xC3, 0xC3, 0xFF, 0xFF, 0xC3, 0xC3, 0xC3,
   0xFC, 0xFC, 0xC3, 0xC3, 0xFC, 0xFC, 0xC3, 0xC3, 0xFC, 0xFC,
   0x3C, 0xFF, 0xC3, 0xC0, 0xC0, 0xC0, 0xC0, 0xC3, 0xFF, 0x3C,
   0xFC, 0xFE, 0xC3, 0xC3, 0xC3, 0xC3, 0xC3, 0xC3, 0xFE, 0xFC,
   0xFF, 0xFF, 0xC0, 0xC0, 0xFF, 0xFF, 0xC0, 0xC0, 0xFF, 0xFF,
   0xFF, 0xFF, 0xC0, 0xC0, 0xFF, 0xFF, 0xC0, 0xC0, 0xC0, 0xC0]

/-- The function `Chip8EmulatorBase::getSmallFontData`, through `smallFontData`. -/
def Chip8EmulatorBase.getSmallFontData (o : Chip8EmulatorOptions) : List Nat :=
  match o.behaviorBase with
  | .eCHIP48 | .eSCHIP10 | .eSCHIP11 | .eSCHPC | .eSCHIP_MODERN | .eMEGACHIP | .eXOCHIP
  | .eCHICUEYI => g_chip48Font
  | _ => g_chip8VipFont

/-- The function `Chip8EmulatorBase::getBigFontData`, through `bigFontData`; the empty list
is the pair of a null pointer and the size 0. -/
def Chip8EmulatorBase.getBigFontData (o : Chip8EmulatorOptions) : List Nat :=
  match o.behaviorBase with
  | .eSCHIP10 => g_ship10BigFont
  | .eSCHIP11 | .eSCHPC | .eSCHIP_MODERN | .eCHICUEYI => g_ship11BigFont
  | .eMEGACHIP => g_megachip8BigFont
  | .eXOCHIP => g_octoBigFont
  | _ => []

/-- The array `defaultPalette` of `reset`. -/
def defaultPalette : List Nat :=
  [0, 255, 182, 109, 224, 28, 3, 252, 160, 20, 2, 204, 227, 31, 162, 22]

/-! ## `reset` -/

/-- The function `Chip8EmulatorBase::reset()`.  Trace logging does not touch the state and is
left out. -/
def Chip8EmulatorBase.reset (o : Chip8EmulatorOptions) (host : Chip8EmulatorHost)
    (s : Chip8EmulatorBase) : Chip8EmulatorBase :=
  let mem0 := memset s.memory 0 (Chip8EmulatorBase.memoryBufferSize o)
  let mem1 := memcpy mem0 0 (Chip8EmulatorBase.getSmallFontData o)
  let bigFont := Chip8EmulatorBase.getBigFontData o
  let mem2 := if bigFont.length ≠ 0 then memcpy mem1 (16 * 5) bigFont else mem1
  let mcPalette0 : Nat → Nat := fun i => if i < 256 then 0 else s.mcPalette i
  { s with
    cycleCounter := 0
    frameCounter := 0
    clearCounter := 0
    rI := 0
    rPC := o.startAddress
    stack := memset s.stack 0 16
    rSP := 0
    rDT := 0
    rST := 0
    rV := memset s.rV 0 16
    memory := mem2
    xxoPalette := memcpy s.xxoPalette 0 defaultPalette
    xoAudioPattern := memset s.xoAudioPattern 0 16
    xoSilencePattern := true
    xoPitch := 64
    screenAlpha := 0xff
    execMode := if host.isHeadless then .eRUNNING else .ePAUSED
    cpuState := .eNORMAL
    errorMessage := ""
    isHires := if o.optOnlyHires then true else false
    isInstantDxyn := o.optInstantDxyn
    isMegaChipMode := false
    planes := 1
    spriteWidth := 0
    spriteHeight := 0
    collisionColor := 1
    sampleLength := 0
    blendMode := 0
    mcPalette := arrStore (arrStore mcPalette0 1 0xffffffff) 254 0xffffffff }

/-- The function `Chip8EmulatorFP::reset()`. -/
def Chip8EmulatorFP.reset (o : Chip8EmulatorOptions) (host : Chip8EmulatorHost)
    (s : Chip8EmulatorBase) : Chip8EmulatorBase :=
  let s1 := Chip8EmulatorBase.reset o host s
  let s2 := { s1 with simpleRandState := s1.simpleRandSeed }
  if o.behaviorBase = .eCHIP8X then { s2 with chip8xBackgroundColor := 0 } else s2

/-! ## Fault handling -/

/-- The function `Chip8EmulatorBase::errorHalt`.  The header of the sources has the overload without
argument, whose four assignments these are; the handlers call the overload with a message,
which by §7 of the specification additionally stores the message for the host. -/
def Chip8EmulatorBase.errorHalt (msg : String) (s : Chip8EmulatorBase) : Chip8EmulatorBase :=
  { s with
    execMode := .ePAUSED
    cpuState := .eERROR
    rPC := (s.rPC + 4294967296 - 2) % 4294967296
    cycleCounter := s.cycleCounter - 1
    errorMessage := msg }

/-- The function `Chip8EmulatorBase::fixupSafetyPad`: `memory()[memSize()] = *memory()`. -/
def Chip8EmulatorBase.fixupSafetyPad (o : Chip8EmulatorOptions) (s : Chip8EmulatorBase) :
    Chip8EmulatorBase :=
  { s with memory := arrStore s.memory (Chip8EmulatorBase.memSize o) (s.memory 0) }

/-! ## Opcode handlers of the fast-path interpreter -/

/-- One upper-case hexadecimal digit. -/
def hexDigit (n : Nat) : Char :=
  if n < 10 then Char.ofNat (48 + n) else Char.ofNat (55 + n)

/-- The four hexadecimal digits that the format `04X` prints for a 16-bit value. -/
def hex4 (n : Nat) : String :=
  String.mk [hexDigit (n / 4096 % 16), hexDigit (n / 256 % 16), hexDigit (n / 16 % 16),
    hexDigit (n % 16)]

/-- The handler `Chip8EmulatorFP::opInvalid`: `errorHalt` with the message
"INVALID OPCODE: " followed by the opcode in four hexadecimal digits. -/
def Chip8EmulatorFP.opInvalid (opcode : Nat) (s : Chip8EmulatorBase) : Chip8EmulatorBase :=
  s.errorHalt ("INVALID OPCODE: " ++ hex4 opcode)

/-- The handler `Chip8EmulatorFP::op00EE`.  `--_rSP` is on a `uint8_t`; there is no `return` after
`errorHalt`, so the pop is carried out in the fault case as well. -/
def Chip8EmulatorFP.op00EE (_opcode : Nat) (s : Chip8EmulatorBase) : Chip8EmulatorBase :=
  let s1 := if s.rSP = 0 then s.errorHalt "STACK UNDERFLOW" else s
  let sp := (s1.rSP + 256 - 1) % 256
  let s2 := { s1 with rSP := sp, rPC := s1.stack sp }
  if s2.execMode = .eSTEPOUT then { s2 with execMode := .ePAUSED } else s2

/-- The handler `Chip8EmulatorFP::op00EE_cyclic`. -/
def Chip8EmulatorFP.op00EE_cyclic (_opcode : Nat) (s : Chip8EmulatorBase) : Chip8EmulatorBase :=
  let sp := (s.rSP + 256 - 1) % 256
  let s2 := { s with rSP := sp, rPC := s.stack (sp &&& 0xF) }
  if s2.execMode = .eSTEPOUT then { s2 with execMode := .ePAUSED } else s2

/-- The handler `Chip8EmulatorFP::op2nnn`.  The stack holds `uint16_t`, `_rSP++` is on a
`uint8_t`; there is no `return` after `errorHalt`, so the push is carried out in the fault case
as well. -/
def Chip8EmulatorFP.op2nnn (opcode : Nat) (s : Chip8EmulatorBase) : Chip8EmulatorBase :=
  let s1 := if s.rSP = 16 then s.errorHalt "STACK OVERFLOW" else s
  let s2 := { s1 with stack := arrStore s1.stack s1.rSP (s1.rPC % 65536),
                      rSP := (s1.rSP + 1) % 256 }
  { s2 with rPC := opcode &&& 0xFFF }

/-- The handler `Chip8EmulatorFP::op2nnn_cyclic`. -/
def Chip8EmulatorFP.op2nnn_cyclic (opcode : Nat) (s : Chip8EmulatorBase) : Chip8EmulatorBase :=
  let s2 := { s with stack := arrStore s.stack (s.rSP &&& 0xF) (s.rPC % 65536),
                     rSP := (s.rSP + 1) % 256 }
  { s2 with rPC := opcode &&& 0xFFF }

/-- The first `n` rounds of the loop of the `Fx55` handlers:
`for (int i = 0; i <= upto; ++i) _memory[(_rI + i) & ADDRESS_MASK] = _rV[i];`
(`_rI + i` is 32-bit unsigned). -/
def fx55Loop (mask : Nat) (s : Chip8EmulatorBase) : Nat → Chip8EmulatorBase
  | 0 => s
  | n + 1 =>
    let s1 := fx55Loop mask s n
    { s1 with memory := arrStore s1.memory (((s1.rI + n) % 4294967296) &&& mask) (s1.rV n) }

/-- The first `n` rounds of the loop of the `Fx65` handlers:
`for (int i = 0; i <= upto; ++i) _rV[i] = _memory[(_rI + i) & ADDRESS_MASK];`. -/
def fx65Loop (mask : Nat) (s : Chip8EmulatorBase) : Nat → Chip8EmulatorBase
  | 0 => s
  | n + 1 =>
    let s1 := fx65Loop mask s n
    { s1 with rV := arrStore s1.rV n (s1.memory (((s1.rI + n) % 4294967296) &&& mask)) }

/-- The part the three `Fx55` handlers share: the store loop and the safety-pad fix-up. -/
def fx55Store (o : Chip8EmulatorOptions) (upto : Nat) (s : Chip8EmulatorBase) :
    Chip8EmulatorBase :=
  let s1 := fx55Loop (Chip8EmulatorFP.ADDRESS_MASK o) s (upto + 1)
  if (s1.rI + upto) % 4294967296 > Chip8EmulatorFP.ADDRESS_MASK o then
    Chip8EmulatorBase.fixupSafetyPad o s1
  else s1

/-- The handler `Chip8EmulatorFP::opFx55`. -/
def Chip8EmulatorFP.opFx55 (o : Chip8EmulatorOptions) (opcode : Nat) (s : Chip8EmulatorBase) :
    Chip8EmulatorBase :=
  let upto := (opcode >>> 8) &&& 0xF
  let s1 := fx55Store o upto s
  { s1 with rI := ((s1.rI + upto + 1) % 4294967296) &&& Chip8EmulatorFP.ADDRESS_MASK o }

/-- The handler `Chip8EmulatorFP::opFx55_loadStoreIncIByX`. -/
def Chip8EmulatorFP.opFx55_loadStoreIncIByX (o : Chip8EmulatorOptions) (opcode : Nat)
    (s : Chip8EmulatorBase) : Chip8EmulatorBase :=
  let upto := (opcode >>> 8) &&& 0xF
  let s1 := fx55Store o upto s
  { s1 with rI := ((s1.rI + upto) % 4294967296) &&& Chip8EmulatorFP.ADDRESS_MASK o }

/-- The handler `Chip8EmulatorFP::opFx55_loadStoreDontIncI`. -/
def Chip8EmulatorFP.opFx55_loadStoreDontIncI (o : Chip8EmulatorOptions) (opcode : Nat)
    (s : Chip8EmulatorBase) : Chip8EmulatorBase :=
  let upto := (opcode >>> 8) &&& 0xF
  fx55Store o upto s

/-- The handler `Chip8EmulatorFP::opFx65`. -/
def Chip8EmulatorFP.opFx65 (o : Chip8EmulatorOptions) (opcode : Nat) (s : Chip8EmulatorBase) :
    Chip8EmulatorBase :=
  let upto := (opcode >>> 8) &&& 0xF
  let s1 := fx65Loop (Chip8EmulatorFP.ADDRESS_MASK o) s (upto + 1)
  { s1 with rI := ((s1.rI + upto + 1) % 4294967296) &&& Chip8EmulatorFP.ADDRESS_MASK o }

/-- The handler `Chip8EmulatorFP::opFx65_loadStoreIncIByX`. -/
def Chip8EmulatorFP.opFx65_loadStoreIncIByX (o : Chip8EmulatorOptions) (opcode : Nat)
    (s : Chip8EmulatorBase) : Chip8EmulatorBase :=
  let upto := (opcode >>> 8) &&& 0xF
  let s1 := fx65Loop (Chip8EmulatorFP.ADDRESS_MASK o) s (upto + 1)
  { s1 with rI := ((s1.rI + upto) % 4294967296) &&& Chip8EmulatorFP.ADDRESS_MASK o }

/-- The handler `Chip8EmulatorFP::opFx65_loadStoreDontIncI`. -/
def Chip8EmulatorFP.opFx65_loadStoreDontIncI (o : Chip8EmulatorOptions) (opcode : Nat)
    (s : Chip8EmulatorBase) : Chip8EmulatorBase :=
  let upto := (opcode >>> 8) &&& 0xF
  fx65Loop (Chip8EmulatorFP.ADDRESS_MASK o) s (upto + 1)

/-- The handler `Chip8EmulatorFP::op1nnn`.  `_rPC - 2` is 32-bit unsigned. -/
def Chip8EmulatorFP.op1nnn (opcode : Nat) (s : Chip8EmulatorBase) : Chip8EmulatorBase :=
  let s1 :=
    if opcode &&& 0xFFF = (s.rPC + 4294967296 - 2) % 4294967296 then
      { s with execMode := .ePAUSED }
    else s
  { s1 with rPC := opcode &&& 0xFFF }

/-- The handler `Chip8EmulatorFP::op8xy1`: `_rV[x] |= _rV[y]; _rV[0xF] = 0;`. -/
def Chip8EmulatorFP.op8xy1 (opcode : Nat) (s : Chip8EmulatorBase) : Chip8EmulatorBase :=
  let x := (opcode >>> 8) &&& 0xF
  let y := (opcode >>> 4) &&& 0xF
  let s1 := { s with rV := arrStore s.rV x ((s.rV x ||| s.rV y) % 256) }
  { s1 with rV := arrStore s1.rV 0xF 0 }

/-- The handler `Chip8EmulatorFP::op8xy1_dontResetVf`: `_rV[x] |= _rV[y];`. -/
def Chip8EmulatorFP.op8xy1_dontResetVf (opcode : Nat) (s : Chip8EmulatorBase) :
    Chip8EmulatorBase :=
  let x := (opcode >>> 8) &&& 0xF
  let y := (opcode >>> 4) &&& 0xF
  { s with rV := arrStore s.rV x ((s.rV x ||| s.rV y) % 256) }

/-- The handler `Chip8EmulatorFP::op8xy2`: `_rV[x] &= _rV[y]; _rV[0xF] = 0;`. -/
def Chip8EmulatorFP.op8xy2 (opcode : Nat) (s : Chip8EmulatorBase) : Chip8EmulatorBase :=
  let x := (opcode >>> 8) &&& 0xF
  let y := (opcode >>> 4) &&& 0xF
  let s1 := { s with rV := arrStore s.rV x ((s.rV x &&& s.rV y) % 256) }
  { s1 with rV := arrStore s1.rV 0xF 0 }

/-- The handler `Chip8EmulatorFP::op8xy2_dontResetVf`: `_rV[x] &= _rV[y];`. -/
def Chip8EmulatorFP.op8xy2_dontResetVf (opcode : Nat) (s : Chip8EmulatorBase) :
    Chip8EmulatorBase :=
  let x := (opcode >>> 8) &&& 0xF
  let y := (opcode >>> 4) &&& 0xF
  { s with rV := arrStore s.rV x ((s.rV x &&& s.rV y) % 256) }

/-- The handler `Chip8EmulatorFP::op8xy3`: `_rV[x] ^= _rV[y]; _rV[0xF] = 0;`. -/
def Chip8EmulatorFP.op8xy3 (opcode : Nat) (s : Chip8EmulatorBase) : Chip8EmulatorBase :=
  let x := (opcode >>> 8) &&& 0xF
  let y := (opcode >>> 4) &&& 0xF
  let s1 := { s with rV := arrStore s.rV x ((s.rV x ^^^ s.rV y) % 256) }
  { s1 with rV := arrStore s1.rV 0xF 0 }

/-- The handler `Chip8EmulatorFP::op8xy3_dontResetVf`: `_rV[x] ^= _rV[y];`. -/
def Chip8EmulatorFP.op8xy3_dontResetVf (opcode : Nat) (s : Chip8EmulatorBase) :
    Chip8EmulatorBase :=
  let x := (opcode >>> 8) &&& 0xF
  let y := (opcode >>> 4) &&& 0xF
  { s with rV := arrStore s.rV x ((s.rV x ^^^ s.rV y) % 256) }

/-- The handler `Chip8EmulatorFP::op8xy6`:
`uint8_t carry = _rV[y] & 1; _rV[x] = _rV[y] >> 1; _rV[0xF] = carry;`. -/
def Chip8EmulatorFP.op8xy6 (opcode : Nat) (s : Chip8EmulatorBase) : Chip8EmulatorBase :=
  let x := (opcode >>> 8) &&& 0xF
  let y := (opcode >>> 4) &&& 0xF
  let carry := (s.rV y &&& 1) % 256
  let s1 := { s with rV := arrStore s.rV x ((s.rV y >>> 1) % 256) }
  { s1 with rV := arrStore s1.rV 0xF carry }

/-- The handler `Chip8EmulatorFP::op8xy6_justShiftVx`:
`uint8_t carry = _rV[x] & 1; _rV[x] >>= 1; _rV[0xF] = carry;`. -/
def Chip8EmulatorFP.op8xy6_justShiftVx (opcode : Nat) (s : Chip8EmulatorBase) :
    Chip8EmulatorBase :=
  let x := (opcode >>> 8) &&& 0xF
  let carry := (s.rV x &&& 1) % 256
  let s1 := { s with rV := arrStore s.rV x ((s.rV x >>> 1) % 256) }
  { s1 with rV := arrStore s1.rV 0xF carry }

/-- The handler `Chip8EmulatorFP::op8xyE` (the branch the preprocessor keeps):
`uint8_t carry = _rV[y] >> 7; _rV[x] = _rV[y] << 1; _rV[0xF] = carry;`. -/
def Chip8EmulatorFP.op8xyE (opcode : Nat) (s : Chip8EmulatorBase) : Chip8EmulatorBase :=
  let x := (opcode >>> 8) &&& 0xF
  let y := (opcode >>> 4) &&& 0xF
  let carry := (s.rV y >>> 7) % 256
  let s1 := { s with rV := arrStore s.rV x ((s.rV y <<< 1) % 256) }
  { s1 with rV := arrStore s1.rV 0xF carry }

/-- The handler `Chip8EmulatorFP::op8xyE_justShiftVx`:
`uint8_t carry = _rV[x] >> 7; _rV[x] <<= 1; _rV[0xF] = carry;`. -/
def Chip8EmulatorFP.op8xyE_justShiftVx (opcode : Nat) (s : Chip8EmulatorBase) :
    Chip8EmulatorBase :=
  let x := (opcode >>> 8) &&& 0xF
  let carry := (s.rV x >>> 7) % 256
  let s1 := { s with rV := arrStore s.rV x ((s.rV x <<< 1) % 256) }
  { s1 with rV := arrStore s1.rV 0xF carry }

/-- The handler `Chip8EmulatorFP::opFx0A`.  `key` is the `int` that `_host.getKeyPressed()`
returns; `key - 1` is stored into a `uint8_t`; `_rPC -= 2` is 32-bit unsigned.  The call
`_host.updateScreen()` of the MegaChip mode acts on the host only. -/
def Chip8EmulatorFP.opFx0A (opcode : Nat) (s : Chip8EmulatorBase) : Chip8EmulatorBase :=
  let key := s.keyPressed
  if key ≠ 0 then
    { s with rV := arrStore s.rV ((opcode >>> 8) &&& 0xF) ((key - 1) % 256).toNat,
             cpuState := .eNORMAL }
  else
    { s with rPC := (s.rPC + 4294967296 - 2) % 4294967296, cpuState := .eWAITING }

/-- The first `n` rounds of the loop of `op5xy2`:
`for(int i=0; i <= l; ++i) _memory[(_rI + i) & ADDRESS_MASK] = _rV[x < y ? x + i : x - i];`
(`_rI + i` is 32-bit unsigned). -/
def op5xy2Loop (mask x y : Nat) (s : Chip8EmulatorBase) : Nat → Chip8EmulatorBase
  | 0 => s
  | n + 1 =>
    let s1 := op5xy2Loop mask x y s n
    { s1 with memory := arrStore s1.memory (((s1.rI + n) % 4294967296) &&& mask)
                          (s1.rV (if x < y then x + n else x - n)) }

/-- The handler `Chip8EmulatorFP::op5xy2`: `l` is `std::abs(x-y)`; after the loop,
`if(_rI + l >= ADDRESS_MASK) fixupSafetyPad();`. -/
def Chip8EmulatorFP.op5xy2 (o : Chip8EmulatorOptions) (opcode : Nat) (s : Chip8EmulatorBase) :
    Chip8EmulatorBase :=
  let x := (opcode >>> 8) &&& 0xF
  let y := (opcode >>> 4) &&& 0xF
  let l := if x < y then y - x else x - y
  let s1 := op5xy2Loop (Chip8EmulatorFP.ADDRESS_MASK o) x y s (l + 1)
  if (s1.rI + l) % 4294967296 ≥ Chip8EmulatorFP.ADDRESS_MASK o then
    Chip8EmulatorBase.fixupSafetyPad o s1
  else s1

/-- The function `countingRand(uint32_t& state)`, `return state++;` with the result narrowed
to `uint8_t`: the returned byte and the new state. -/
def countingRand (state : Nat) : Nat × Nat :=
  (state % 256, (state + 1) % 4294967296)

/-- The handler `Chip8EmulatorFP::opCxnn_counting`:
`_rV[(opcode >> 8) & 0xF] = countingRand(_simpleRandState) & (opcode & 0xFF);`. -/
def Chip8EmulatorFP.opCxnn_counting (opcode : Nat) (s : Chip8EmulatorBase) :
    Chip8EmulatorBase :=
  let r := countingRand s.simpleRandState
  { s with simpleRandState := r.2,
           rV := arrStore s.rV ((opcode >>> 8) &&& 0xF) (r.1 &&& (opcode &&& 0xFF)) }

/-- The handler `Chip8EmulatorFP::opFx33`: the three decimal digits of Vx go to the addresses
`_rI & ADDRESS_MASK`, `(_rI + 1) & ADDRESS_MASK` and `(_rI + 2) & ADDRESS_MASK`; the handler
has no call of `fixupSafetyPad`. -/
def Chip8EmulatorFP.opFx33 (o : Chip8EmulatorOptions) (opcode : Nat) (s : Chip8EmulatorBase) :
    Chip8EmulatorBase :=
  let val := s.rV ((opcode >>> 8) &&& 0xF)
  let mask := Chip8EmulatorFP.ADDRESS_MASK o
  let s1 := { s with memory := arrStore s.memory (s.rI &&& mask) (val / 100) }
  let s2 := { s1 with memory :=
                arrStore s1.memory (((s1.rI + 1) % 4294967296) &&& mask) ((val / 10) % 10) }
  { s2 with memory := arrStore s2.memory (((s2.rI + 2) % 4294967296) &&& mask) (val % 10) }

/-- The handler `Chip8EmulatorFP::op8xy4`:
`uint16_t result = _rV[x] + _rV[y]; _rV[x] = result; _rV[0xF] = result>>8;`. -/
def Chip8EmulatorFP.op8xy4 (opcode : Nat) (s : Chip8EmulatorBase) : Chip8EmulatorBase :=
  let x := (opcode >>> 8) &&& 0xF
  let y := (opcode >>> 4) &&& 0xF
  let result := (s.rV x + s.rV y) % 65536
  let s1 := { s with rV := arrStore s.rV x (result % 256) }
  { s1 with rV := arrStore s1.rV 0xF ((result >>> 8) % 256) }

/-- The handler `Chip8EmulatorFP::op8xy5`:
`uint16_t result = _rV[x] - _rV[y]; _rV[x] = result; _rV[0xF] = result > 255 ? 0 : 1;`
(the difference is an `int`, narrowed to 16 bits). -/
def Chip8EmulatorFP.op8xy5 (opcode : Nat) (s : Chip8EmulatorBase) : Chip8EmulatorBase :=
  let x := (opcode >>> 8) &&& 0xF
  let y := (opcode >>> 4) &&& 0xF
  let result := (((s.rV x : Int) - (s.rV y : Int)) % 65536).toNat
  let s1 := { s with rV := arrStore s.rV x (result % 256) }
  { s1 with rV := arrStore s1.rV 0xF (if result > 255 then 0 else 1) }

/-- The handler `Chip8EmulatorFP::op8xy7`:
`uint16_t result = _rV[y] - _rV[x]; _rV[x] = result; _rV[0xF] = result > 255 ? 0 : 1;`. -/
def Chip8EmulatorFP.op8xy7 (opcode : Nat) (s : Chip8EmulatorBase) : Chip8EmulatorBase :=
  let x := (opcode >>> 8) &&& 0xF
  let y := (opcode >>> 4) &&& 0xF
  let result := (((s.rV y : Int) - (s.rV x : Int)) % 65536).toNat
  let s1 := { s with rV := arrStore s.rV x (result % 256) }
  { s1 with rV := arrStore s1.rV 0xF (if result > 255 then 0 else 1) }

/-- The handler `Chip8EmulatorFP::opFx29`: `_rI = (_rV[(opcode >> 8) & 0xF] & 0xF) * 5;`. -/
def Chip8EmulatorFP.opFx29 (opcode : Nat) (s : Chip8EmulatorBase) : Chip8EmulatorBase :=
  { s with rI := (s.rV ((opcode >>> 8) &&& 0xF) &&& 0xF) * 5 }

/-- The handler `Chip8EmulatorFP::op3xnn`: `_rPC += 2` (32-bit unsigned, not masked) when
`_rV[x] == (opcode & 0xff)`. -/
def Chip8EmulatorFP.op3xnn (opcode : Nat) (s : Chip8EmulatorBase) : Chip8EmulatorBase :=
  if s.rV ((opcode >>> 8) &&& 0xF) = opcode &&& 0xff then
    { s with rPC := (s.rPC + 2) % 4294967296 }
  else s

/-- The handler `Chip8EmulatorFP::op4xnn`. -/
def Chip8EmulatorFP.op4xnn (opcode : Nat) (s : Chip8EmulatorBase) : Chip8EmulatorBase :=
  if s.rV ((opcode >>> 8) &&& 0xF) ≠ opcode &&& 0xFF then
    { s with rPC := (s.rPC + 2) % 4294967296 }
  else s

/-- The handler `Chip8EmulatorFP::op5xy0`. -/
def Chip8EmulatorFP.op5xy0 (opcode : Nat) (s : Chip8EmulatorBase) : Chip8EmulatorBase :=
  if s.rV ((opcode >>> 8) &&& 0xF) = s.rV ((opcode >>> 4) &&& 0xF) then
    { s with rPC := (s.rPC + 2) % 4294967296 }
  else s

/-- The handler `Chip8EmulatorFP::op9xy0`. -/
def Chip8EmulatorFP.op9xy0 (opcode : Nat) (s : Chip8EmulatorBase) : Chip8EmulatorBase :=
  if s.rV ((opcode >>> 8) &&& 0xF) ≠ s.rV ((opcode >>> 4) &&& 0xF) then
    { s with rPC := (s.rPC + 2) % 4294967296 }
  else s

/-- The macro `CONDITIONAL_SKIP_DISTANCE(ifOpcode,mask)`:
`((_memory[_rPC & ADDRESS_MASK]&(mask>>8)) == (ifOpcode>>8) &&
(_memory[(_rPC + 1) & ADDRESS_MASK]&(mask&0xff)) == (ifOpcode&0xff) ? 4 : 2)`. -/
def Chip8EmulatorFP.CONDITIONAL_SKIP_DISTANCE (o : Chip8EmulatorOptions) (ifOpcode mask : Nat)
    (s : Chip8EmulatorBase) : Nat :=
  if (s.memory (s.rPC &&& Chip8EmulatorFP.ADDRESS_MASK o) &&& (mask >>> 8)) = (ifOpcode >>> 8)
      ∧ (s.memory (((s.rPC + 1) % 4294967296) &&& Chip8EmulatorFP.ADDRESS_MASK o)
          &&& (mask &&& 0xff)) = (ifOpcode &&& 0xff) then 4
  else 2

/-- The assignment `_rPC = (_rPC + CONDITIONAL_SKIP_DISTANCE(0xF000,0xFFFF)) & ADDRESS_MASK` of the
skip handlers of XO-CHIP. -/
def Chip8EmulatorFP.skipWithF000 (o : Chip8EmulatorOptions) (s : Chip8EmulatorBase) :
    Chip8EmulatorBase :=
  { s with rPC := ((s.rPC + Chip8EmulatorFP.CONDITIONAL_SKIP_DISTANCE o 0xF000 0xFFFF s)
                    % 4294967296) &&& Chip8EmulatorFP.ADDRESS_MASK o }

/-- The handler `Chip8EmulatorFP::op3xnn_with_F000`. -/
def Chip8EmulatorFP.op3xnn_with_F000 (o : Chip8EmulatorOptions) (opcode : Nat)
    (s : Chip8EmulatorBase) : Chip8EmulatorBase :=
  if s.rV ((opcode >>> 8) &&& 0xF) = opcode &&& 0xff then Chip8EmulatorFP.skipWithF000 o s
  else s

/-- The handler `Chip8EmulatorFP::op4xnn_with_F000`. -/
def Chip8EmulatorFP.op4xnn_with_F000 (o : Chip8EmulatorOptions) (opcode : Nat)
    (s : Chip8EmulatorBase) : Chip8EmulatorBase :=
  if s.rV ((opcode >>> 8) &&& 0xF) ≠ opcode &&& 0xFF then Chip8EmulatorFP.skipWithF000 o s
  else s

/-- The handler `Chip8EmulatorFP::op5xy0_with_F000`. -/
def Chip8EmulatorFP.op5xy0_with_F000 (o : Chip8EmulatorOptions) (opcode : Nat)
    (s : Chip8EmulatorBase) : Chip8EmulatorBase :=
  if s.rV ((opcode >>> 8) &&& 0xF) = s.rV ((opcode >>> 4) &&& 0xF) then
    Chip8EmulatorFP.skipWithF000 o s
  else s

/-- The handler `Chip8EmulatorFP::op9xy0_with_F000`. -/
def Chip8EmulatorFP.op9xy0_with_F000 (o : Chip8EmulatorOptions) (opcode : Nat)
    (s : Chip8EmulatorBase) : Chip8EmulatorBase :=
  if s.rV ((opcode >>> 8) &&& 0xF) ≠ s.rV ((opcode >>> 4) &&& 0xF) then
    Chip8EmulatorFP.skipWithF000 o s
  else s

/-- The indices at which `Chip8EmulatorFP::opBxy0_c8x` reads the array `_rV`, in the order of
the reads: `rx = _rV[(opcode >> 8) & 0xF]`, `ry = _rV[((opcode >> 8) & 0xF) + 1]` and
`col = _rV[(opcode >> 4) & 0xF] & 7`. -/
def Chip8EmulatorFP.opBxy0_c8x_registerReads (opcode : Nat) : List Nat :=
  [(opcode >>> 8) &&& 0xF, ((opcode >>> 8) &&& 0xF) + 1, (opcode >>> 4) &&& 0xF]

/-- The indices at which `Chip8EmulatorFP::opBxyn_c8x` reads the array `_rV`: the same three
reads as in `opBxy0_c8x`. -/
def Chip8EmulatorFP.opBxyn_c8x_registerReads (opcode : Nat) : List Nat :=
  [(opcode >>> 8) &&& 0xF, ((opcode >>> 8) &&& 0xF) + 1, (opcode >>> 4) &&& 0xF]

/-- The size of the array `_rV` (`std::array<uint8_t,16>`). -/
def Chip8EmulatorBase.registerCount : Nat := 16

/-! ## MegaChip blending -/

/-- The four bytes of a `uint32_t` colour in memory order, as the blend functions address them
through a `uint8_t*`. -/
structure ColorBytes where
  b0 : Nat
  b1 : Nat
  b2 : Nat
  b3 : Nat
  deriving DecidableEq

/-- One channel of `blendColorsAlpha`: `(a * *c2 + (255 - a) * *c1) >> 8`, stored in a
`uint8_t`; `c1` is the destination byte, `c2` the byte of the colour. -/
def blendChannelAlpha (a c1 c2 : Nat) : Nat :=
  ((a * c2 + (255 - a) * c1) >>> 8) % 256

/-- The function `blendColorsAlpha(dest, col, alpha)`: the new contents of `*dest`. -/
def blendColorsAlpha (dest col : ColorBytes) (alpha : Nat) : ColorBytes :=
  { b0 := blendChannelAlpha alpha dest.b0 col.b0
    b1 := blendChannelAlpha alpha dest.b1 col.b1
    b2 := blendChannelAlpha alpha dest.b2 col.b2
    b3 := 255 }

/-- The function `blendColorsAdd(dest, col)`: each channel is
`std::min((int)*c1 + *c2, 255)`, stored in a `uint8_t`. -/
def blendColorsAdd (dest col : ColorBytes) : ColorBytes :=
  { b0 := (min (dest.b0 + col.b0) 255) % 256
    b1 := (min (dest.b1 + col.b1) 255) % 256
    b2 := (min (dest.b2 + col.b2) 255) % 256
    b3 := 255 }

/-- The function `blendColorsMul(dest, col)`: each channel is `(int)*c1 * *c2 / 255`, stored in
a `uint8_t`. -/
def blendColorsMul (dest col : ColorBytes) : ColorBytes :=
  { b0 := (dest.b0 * col.b0 / 255) % 256
    b1 := (dest.b1 * col.b1 / 255) % 256
    b2 := (dest.b2 * col.b2 / 255) % 256
    b3 := 255 }

/-- The `switch (_blendMode)` of `opDxyn_megaChip` for one pixel: the new contents of the RGBA
pixel for the palette colour `col` (the blend modes are numbered as in `MegaChipBlendMode`:
1, 2, 3 alpha 25, 50, 75 per cent, 4 additive, 5 multiplicative, anything else normal). -/
def Chip8EmulatorFP.blendPixel (blendMode : Nat) (dest col : ColorBytes) : ColorBytes :=
  if blendMode = 1 then blendColorsAlpha dest col 63
  else if blendMode = 2 then blendColorsAlpha dest col 127
  else if blendMode = 3 then blendColorsAlpha dest col 191
  else if blendMode = 4 then blendColorsAdd dest col
  else if blendMode = 5 then blendColorsMul dest col
  else col

/-! ## Dispatch and `executeInstruction` -/

/-- The semantics of the handlers whose bodies are not embedded here (screen, audio, keyboard
and the remaining arithmetic): a parameter of the execution functions. -/
abbrev HandlerSemantics := OpcodeHandler → Nat → Chip8EmulatorBase → Chip8EmulatorBase

/-- The call `(this->*handler)(opcode)`. -/
def Chip8EmulatorFP.invoke (o : Chip8EmulatorOptions) (ext : HandlerSemantics) :
    OpcodeHandler → Nat → Chip8EmulatorBase → Chip8EmulatorBase
  | .opNop => fun _ s => s
  | .opInvalid => Chip8EmulatorFP.opInvalid
  | .op00EE => Chip8EmulatorFP.op00EE
  | .op00EE_cyclic => Chip8EmulatorFP.op00EE_cyclic
  | .op2nnn => Chip8EmulatorFP.op2nnn
  | .op2nnn_cyclic => Chip8EmulatorFP.op2nnn_cyclic
  | .opFx55 => Chip8EmulatorFP.opFx55 o
  | .opFx55_loadStoreIncIByX => Chip8EmulatorFP.opFx55_loadStoreIncIByX o
  | .opFx55_loadStoreDontIncI => Chip8EmulatorFP.opFx55_loadStoreDontIncI o
  | .opFx65 => Chip8EmulatorFP.opFx65 o
  | .opFx65_loadStoreIncIByX => Chip8EmulatorFP.opFx65_loadStoreIncIByX o
  | .opFx65_loadStoreDontIncI => Chip8EmulatorFP.opFx65_loadStoreDontIncI o
  | .op1nnn => Chip8EmulatorFP.op1nnn
  | .op8xy1 => Chip8EmulatorFP.op8xy1
  | .op8xy1_dontResetVf => Chip8EmulatorFP.op8xy1_dontResetVf
  | .op8xy2 => Chip8EmulatorFP.op8xy2
  | .op8xy2_dontResetVf => Chip8EmulatorFP.op8xy2_dontResetVf
  | .op8xy3 => Chip8EmulatorFP.op8xy3
  | .op8xy3_dontResetVf => Chip8EmulatorFP.op8xy3_dontResetVf
  | .op8xy6 => Chip8EmulatorFP.op8xy6
  | .op8xy6_justShiftVx => Chip8EmulatorFP.op8xy6_justShiftVx
  | .op8xyE => Chip8EmulatorFP.op8xyE
  | .op8xyE_justShiftVx => Chip8EmulatorFP.op8xyE_justShiftVx
  | .opFx0A => Chip8EmulatorFP.opFx0A
  | .op5xy2 => Chip8EmulatorFP.op5xy2 o
  | .opCxnn_counting => Chip8EmulatorFP.opCxnn_counting
  | .opFx33 => Chip8EmulatorFP.opFx33 o
  | .op8xy4 => Chip8EmulatorFP.op8xy4
  | .op8xy5 => Chip8EmulatorFP.op8xy5
  | .op8xy7 => Chip8EmulatorFP.op8xy7
  | .opFx29 => Chip8EmulatorFP.opFx29
  | .op3xnn => Chip8EmulatorFP.op3xnn
  | .op4xnn => Chip8EmulatorFP.op4xnn
  | .op5xy0 => Chip8EmulatorFP.op5xy0
  | .op9xy0 => Chip8EmulatorFP.op9xy0
  | .op3xnn_with_F000 => Chip8EmulatorFP.op3xnn_with_F000 o
  | .op4xnn_with_F000 => Chip8EmulatorFP.op4xnn_with_F000 o
  | .op5xy0_with_F000 => Chip8EmulatorFP.op5xy0_with_F000 o
  | .op9xy0_with_F000 => Chip8EmulatorFP.op9xy0_with_F000 o
  | h => ext h

/-- The opcode fetch `uint16_t opcode = (_memory[_rPC] << 8) | _memory[_rPC + 1]`. -/
def Chip8EmulatorFP.fetchOpcode (s : Chip8EmulatorBase) : Nat :=
  ((s.memory s.rPC <<< 8) ||| s.memory ((s.rPC + 1) % 4294967296)) % 65536

/-- The three statements every execution path shares: fetch, `++_cycleCounter`,
`_rPC = (_rPC + 2) & ADDRESS_MASK`, and the call through the handler table. -/
def Chip8EmulatorFP.fetchAndDispatch (o : Chip8EmulatorOptions) (tbl : HandlerTable)
    (ext : HandlerSemantics) (s : Chip8EmulatorBase) : Chip8EmulatorBase :=
  let opcode := Chip8EmulatorFP.fetchOpcode s
  let s1 := { s with cycleCounter := s.cycleCounter + 1,
                     rPC := ((s.rPC + 2) % 4294967296) &&& Chip8EmulatorFP.ADDRESS_MASK o }
  Chip8EmulatorFP.invoke o ext (tbl opcode) opcode s1

/-- Modelled from the spec: the body of `Chip8EmulatorBase::findBreakpoint` is not part of the
sources at hand; by §2 and §6 of the specification it looks the address up in the sparse map
from addresses to breakpoint metadata and returns the entry or none.  The value here says
whether an entry is found. -/
def Chip8EmulatorBase.findBreakpoint (s : Chip8EmulatorBase) (address : Nat) : Bool :=
  s.breakpoints.contains address

/-- The breakpoint check that ends `executeInstruction`. -/
def Chip8EmulatorFP.checkBreakpoint (s : Chip8EmulatorBase) : Chip8EmulatorBase :=
  if s.breakMap (s.rPC &&& 0xfff) ≠ 0 then
    (if s.findBreakpoint s.rPC then { s with execMode := .ePAUSED } else s)
  else s

/-- The function `Chip8EmulatorFP::executeInstructionNoBreakpoints()`. -/
def Chip8EmulatorFP.executeInstructionNoBreakpoints (o : Chip8EmulatorOptions)
    (tbl : HandlerTable) (ext : HandlerSemantics) (s : Chip8EmulatorBase) : Chip8EmulatorBase :=
  Chip8EmulatorFP.fetchAndDispatch o tbl ext s

/-- The function `Chip8EmulatorFP::executeInstruction()`.  Trace logging does not touch the
state and is left out. -/
def Chip8EmulatorFP.executeInstruction (o : Chip8EmulatorOptions) (tbl : HandlerTable)
    (ext : HandlerSemantics) (s : Chip8EmulatorBase) : Chip8EmulatorBase :=
  if s.execMode = .eRUNNING then
    Chip8EmulatorFP.checkBreakpoint (Chip8EmulatorFP.fetchAndDispatch o tbl ext s)
  else if s.execMode = .ePAUSED ∨ s.cpuState = .eERROR then s
  else
    let s1 := Chip8EmulatorFP.fetchAndDispatch o tbl ext s
    let s2 :=
      if s1.execMode = .eSTEP ∨ (s1.execMode = .eSTEPOVER ∧ s1.rSP ≤ s1.stepOverSP) then
        { s1 with execMode := .ePAUSED }
      else s1
    Chip8EmulatorFP.checkBreakpoint s2

/-- The function `Chip8EmulatorBase::setExecMode`:
`_execMode = mode; if(mode == eSTEPOVER) _stepOverSP = _rSP;`. -/
def Chip8EmulatorBase.setExecMode (mode : ExecMode) (s : Chip8EmulatorBase) : Chip8EmulatorBase :=
  let s1 := { s with execMode := mode }
  if mode = .eSTEPOVER then { s1 with stepOverSP := s1.rSP } else s1

/-- The function `Chip8EmulatorBase::handleTimer`.  `_randomSeed` is a `uint16_t`; the two
decrements are guarded by `> 0`, so they do not wrap.  `_frameCounter` is an `int`, taken as
unbounded here like the cycle counter.  The audio phase that is cleared when `_rST` is 0 is
not part of the state here. -/
def Chip8EmulatorBase.handleTimer (s : Chip8EmulatorBase) : Chip8EmulatorBase :=
  let s1 := { s with frameCounter := s.frameCounter + 1,
                     randomSeed := (s.randomSeed + 1) % 65536 }
  let s2 := if s1.rDT > 0 then { s1 with rDT := s1.rDT - 1 } else s1
  if s2.rST > 0 then { s2 with rST := s2.rST - 1 } else s2

/-- The condition `_breakpoints.empty() && !_options.optTraceLog` under which
`executeInstructions` skips the breakpoint check. -/
def Chip8EmulatorFP.skipsBreakpointCheck (o : Chip8EmulatorOptions) (s : Chip8EmulatorBase) :
    Bool :=
  s.breakpoints.isEmpty && !o.optTraceLog

/-- The loop `for (int i = 0; i < numInstructions; ++i) executeInstruction();` of
`executeInstructions`. -/
def Chip8EmulatorFP.executeInstructionLoop (o : Chip8EmulatorOptions) (tbl : HandlerTable)
    (ext : HandlerSemantics) : Nat → Chip8EmulatorBase → Chip8EmulatorBase
  | 0, s => s
  | n + 1, s =>
    Chip8EmulatorFP.executeInstructionLoop o tbl ext n
      (Chip8EmulatorFP.executeInstruction o tbl ext s)

/-- The loop of the MegaChip branch of `executeInstructions`,
`while (_execMode == eRUNNING && _cycleCounter < end)`, with one of the two execute functions
per round.  The loop has no bound of its own: `none` when `fuel` rounds do not end it. -/
def Chip8EmulatorFP.megaChipLoop (o : Chip8EmulatorOptions) (tbl : HandlerTable)
    (ext : HandlerSemantics) (endCycle : Int) : Nat → Chip8EmulatorBase →
    Option Chip8EmulatorBase
  | 0, s => if s.execMode = .eRUNNING ∧ s.cycleCounter < endCycle then none else some s
  | fuel + 1, s =>
    if s.execMode = .eRUNNING ∧ s.cycleCounter < endCycle then
      Chip8EmulatorFP.megaChipLoop o tbl ext endCycle fuel
        (if Chip8EmulatorFP.skipsBreakpointCheck o s then
          Chip8EmulatorFP.executeInstructionNoBreakpoints o tbl ext s
        else Chip8EmulatorFP.executeInstruction o tbl ext s)
    else some s

/-- The loop of the fast path of the instant-Dxyn branch of `executeInstructions`: fetch,
`_rPC = (_rPC + 2) & ADDRESS_MASK` and the call through the table, without a look at the
execution mode and without `++_cycleCounter`. -/
def Chip8EmulatorFP.instantDxynLoop (o : Chip8EmulatorOptions) (tbl : HandlerTable)
    (ext : HandlerSemantics) : Nat → Chip8EmulatorBase → Chip8EmulatorBase
  | 0, s => s
  | n + 1, s =>
    let opcode := Chip8EmulatorFP.fetchOpcode s
    let s1 := { s with rPC := ((s.rPC + 2) % 4294967296) &&& Chip8EmulatorFP.ADDRESS_MASK o }
    Chip8EmulatorFP.instantDxynLoop o tbl ext n
      (Chip8EmulatorFP.invoke o ext (tbl opcode) opcode s1)

/-- The loop of the last branch of `executeInstructions` (display wait): each round takes
`executeInstructionNoBreakpoints` when the machine is running and the breakpoint check can be
skipped, and `executeInstruction` otherwise. -/
def Chip8EmulatorFP.displayWaitLoop (o : Chip8EmulatorOptions) (tbl : HandlerTable)
    (ext : HandlerSemantics) : Nat → Chip8EmulatorBase → Chip8EmulatorBase
  | 0, s => s
  | n + 1, s =>
    Chip8EmulatorFP.displayWaitLoop o tbl ext n
      (if s.execMode = .eRUNNING ∧ Chip8EmulatorFP.skipsBreakpointCheck o s = true then
        Chip8EmulatorFP.executeInstructionNoBreakpoints o tbl ext s
      else Chip8EmulatorFP.executeInstruction o tbl ext s)

/-- The function `Chip8EmulatorFP::executeInstructions(int numInstructions)`.  The flags
`_isMegaChipMode` and `_isInstantDxyn` are read once, before the loops.  `fuel` bounds the
`while` loop of the MegaChip branch; the `for` loops run `numInstructions` times (not at all
for a negative count).  The bookkeeping of `_systemTime` is not part of the state here. -/
def Chip8EmulatorFP.executeInstructions (o : Chip8EmulatorOptions) (tbl : HandlerTable)
    (ext : HandlerSemantics) (fuel : Nat) (numInstructions : Int) (s : Chip8EmulatorBase) :
    Option Chip8EmulatorBase :=
  if s.execMode = .ePAUSED then some s
  else if s.isMegaChipMode then
    if s.execMode = .eRUNNING then
      Chip8EmulatorFP.megaChipLoop o tbl ext (s.cycleCounter + numInstructions) fuel s
    else some (Chip8EmulatorFP.executeInstructionLoop o tbl ext numInstructions.toNat s)
  else if s.isInstantDxyn then
    if s.execMode = .eRUNNING ∧ Chip8EmulatorFP.skipsBreakpointCheck o s = true then
      let s1 := Chip8EmulatorFP.instantDxynLoop o tbl ext numInstructions.toNat s
      some { s1 with cycleCounter := s1.cycleCounter + numInstructions }
    else some (Chip8EmulatorFP.executeInstructionLoop o tbl ext numInstructions.toNat s)
  else some (Chip8EmulatorFP.displayWaitLoop o tbl ext numInstructions.toNat s)

/-- The function `Chip8EmulatorBase::executeFor(int64_t micros)`: the new state and the returned
value.  The guard at its head is embedded.  The frame loops behind the guard compute with
floating point, the wall clock and `calcNextFrame`, whose body is not in the sources at hand;
they enter as the parameter `schedule`. -/
def Chip8EmulatorBase.executeFor (schedule : Int → Chip8EmulatorBase → Chip8EmulatorBase × Int)
    (micros : Int) (s : Chip8EmulatorBase) : Chip8EmulatorBase × Int :=
  if s.execMode = .ePAUSED ∨ s.cpuState = .eERROR then (s.setExecMode .ePAUSED, 0)
  else schedule micros s

/-! ## Program load -/

/-- The function `Cadmium::reloadRom(bool force)`, as far as it acts on the emulator core:
`_chipEmu->reset()` followed by
`std::memcpy(_chipEmu->memory() + 512, _romImage.data(),
std::min(_romImage.size(), size_t(_chipEmu->memSize() - 512)))`
(the two branches of the conditional in front of the copy issue the same call).  The audio
buffer, the screen update and the capture of the debugger are not part of the state here. -/
def Cadmium.reloadRom (o : Chip8EmulatorOptions) (host : Chip8EmulatorHost)
    (romImage : List Nat) (force : Bool) (s : Chip8EmulatorBase) : Chip8EmulatorBase :=
  if romImage ≠ [] ∨ force = true then
    let s1 := Chip8EmulatorFP.reset o host s
    let image := romImage.take (min romImage.length (Chip8EmulatorBase.memSize o - 512))
    { s1 with memory := memcpy s1.memory 512 image }
  else s

/-- A run of stack instructions given by their opcodes, each handled by `op2nnn` (opcode
`2nnn`) or by `op00EE` (any other opcode) of the chosen stack policy. -/
def runStackOps (cyclic : Bool) : List Nat → Chip8EmulatorBase → Chip8EmulatorBase
  | [], s => s
  | opcode :: rest, s =>
    let call := if cyclic then Chip8EmulatorFP.op2nnn_cyclic else Chip8EmulatorFP.op2nnn
    let ret := if cyclic then Chip8EmulatorFP.op00EE_cyclic else Chip8EmulatorFP.op00EE
    runStackOps cyclic rest (if opcode &&& 0xF000 = 0x2000 then call opcode s else ret opcode s)

/-- The table that the rules of `setHandler` describe: `opInvalid` in every slot, then each rule
in program order (`opcodeHandler_eq` shows that the constructor builds this table). -/
def Chip8EmulatorFP.ruleTable (o : Chip8EmulatorOptions) : HandlerTable :=
  (Chip8EmulatorFP.setHandlerRules o).foldl (fun t c => c.apply t) (fun _ => .opInvalid)

/-- The first `n` instructions of a run on the fast path (`executeInstructionNoBreakpoints`,
one call after the other). -/
def Chip8EmulatorFP.runNoBreakpoints (o : Chip8EmulatorOptions) (tbl : HandlerTable)
    (ext : HandlerSemantics) : Nat → Chip8EmulatorBase → Chip8EmulatorBase
  | 0, s => s
  | n + 1, s =>
    Chip8EmulatorFP.executeInstructionNoBreakpoints o tbl ext
      (Chip8EmulatorFP.runNoBreakpoints o tbl ext n s)

/-- The return address that the instruction at `_rPC` leaves for a call: the program counter
after the fetch. -/
def Chip8EmulatorFP.returnAddress (o : Chip8EmulatorOptions) (s : Chip8EmulatorBase) : Nat :=
  ((s.rPC + 2) % 4294967296) &&& Chip8EmulatorFP.ADDRESS_MASK o

/-- A running machine whose program counter is `pc`, with the two bytes `b0 b1` at `pc` and
zero in the rest of the memory. -/
def stateWithInstruction (pc b0 b1 : Nat) : Chip8EmulatorBase :=
  { rPC := pc, memory := fun a => if a = pc then b0 else if a = pc + 1 then b1 else 0 }

/-- Handler semantics that leave the state alone, for the handlers a run does not reach. -/
def idleHandlers : HandlerSemantics := fun _ _ s => s

/-- The number of `Cxnn` instructions among the first `n` instructions of a run on the fast
path. -/
def Chip8EmulatorFP.cxnnCount (o : Chip8EmulatorOptions) (tbl : HandlerTable)
    (ext : HandlerSemantics) : Nat → Chip8EmulatorBase → Nat
  | 0, _ => 0
  | n + 1, s =>
    Chip8EmulatorFP.cxnnCount o tbl ext n s
      + (if Chip8EmulatorFP.fetchOpcode (Chip8EmulatorFP.runNoBreakpoints o tbl ext n s)
            &&& 0xF000 = 0xC000 then 1 else 0)

/-! ## The hardware backend `Chip8VIP` -/

/-- Modelled from the spec: the class `Cdp1802` of the simulated CPU is not part of the sources
at hand.  The fields are what `Chip8VIP` reads and writes of it: the sixteen 16-bit registers
(`getR`, `setR`), the program counter (`PC()`), the execution mode of the CPU
(`getExecMode()`) and its cycle count (`getCycles()`).  `chips` stands for the rest of the CPU
and for the video chip `Cdp186x`, which the definitions here do not look into. -/
structure Cdp1802 (Hw : Type) where
  rR : Nat → Nat
  pc : Nat
  execMode : ExecMode
  cycles : Int
  chips : Hw

/-- Modelled from the spec: the record `_state` of `Chip8RealCoreBase` is not part of the sources
at hand; by §4 of the specification the shadow state holds V0–VF, I, PC, SP, DT, ST and the
stack contents, and `fetchState` stores the cycle count with them.  The scalar fields are wide
integers here, nothing is narrowed when `fetchState` assigns them; `sp` is signed, as the
value `(0xECF - R(2)) >> 1` is.  The field `frameCycle` is left out. -/
structure Chip8State where
  v : Nat → Nat
  i : Nat
  pc : Nat
  sp : Int
  dt : Nat
  st : Nat
  s : Nat → Nat
  cycles : Int

/-- The data members of `Chip8VIP` (with those of `Chip8VIP::Private` and of its base class) that
the embedded code reads or writes; `lastFC` and `endlessLoops` are the two `static` variables of
`executeCdp1802`.  Not modelled: the screen buffer, the key latch and the audio phase. -/
structure Chip8VIP (Hw : Type) where
  cpu : Cdp1802 Hw
  ram : Nat → Nat
  rom : Nat → Nat
  state : Chip8State
  cycles : Int
  frames : Int
  nextFrame : Int
  cpuState : CpuState
  execMode : ExecMode
  stepOverSP : Int
  backendStopped : Bool
  lastFC : Int
  endlessLoops : Int

/-- The functions and constants that `Chip8VIP` uses and that are not part of the sources at
hand: `_video.executeStep()` (the state after it and the value it returns),
`_cpu.executeInstruction()` (which calls `readByte` and `writeByte` back), the two calls
`_video.reset(); _cpu.reset();`, the accessor `opcode()`, `hasBreakPoint`, `findBreakpoint`
and the constant `MAX_MEMORY_SIZE`. -/
structure Chip8VIP.Hardware (Hw : Type) where
  videoStep : Chip8VIP Hw → Int × Chip8VIP Hw
  cpuStep : Chip8VIP Hw → Chip8VIP Hw
  resetChips : Cdp1802 Hw → Cdp1802 Hw
  opcode : Chip8VIP Hw → Nat
  hasBreakPoint : Chip8VIP Hw → Nat → Bool
  findBreakpoint : Chip8VIP Hw → Nat → Bool
  maxMemorySize : Nat

/-- The constant `Chip8VIP::Private::FETCH_LOOP_ENTRY`. -/
def Chip8VIP.FETCH_LOOP_ENTRY : Nat := 0x01B

/-- Modelled from the spec: the accessor `stackSize()` of the base class of `Chip8VIP` is not part
of the sources at hand; the stack of the specification has 16 entries. -/
def Chip8VIP.stackSize : Nat := 16

/-- Modelled from the spec: the accessor `getPC()` of the base class of `Chip8VIP` is not part of
the sources at hand; by §4 of the specification the breakpoint and step checks run against
the shadow PC, the field `pc` of the shadow state. -/
def Chip8VIP.getPC {Hw : Type} (s : Chip8VIP Hw) : Nat := s.state.pc

/-- Modelled from the spec: the accessor `getSP()` of the base class of `Chip8VIP` is not part of
the sources at hand; it is the field `sp` of the shadow state. -/
def Chip8VIP.getSP {Hw : Type} (s : Chip8VIP Hw) : Int := s.state.sp

/-- Modelled from the spec: the function `setExecMode` that `Chip8VIP` inherits is not part of
the sources at hand; it makes `mode` the execution mode and, like
`Chip8EmulatorBase::setExecMode`, records the stack depth for a step-over. -/
def Chip8VIP.setExecMode {Hw : Type} (mode : ExecMode) (s : Chip8VIP Hw) : Chip8VIP Hw :=
  let s1 := { s with execMode := mode }
  if mode = .eSTEPOVER then { s1 with stepOverSP := s1.getSP } else s1

/-- The function `Chip8VIP::readByte`: the byte read and the state after the call (the function
is `const` and assigns the `mutable` member `_cpuState`). -/
def Chip8VIP.readByte {Hw : Type} (addr : Nat) (s : Chip8VIP Hw) : Nat × Chip8VIP Hw :=
  if addr < 0x1000 then (s.ram addr, s)
  else if addr ≥ 0x8000 ∧ addr < 0x8200 then (s.rom (addr &&& 0x1ff), s)
  else (0, { s with cpuState := .eERROR })

/-- The function `Chip8VIP::readByteDMA`. -/
def Chip8VIP.readByteDMA {Hw : Type} (addr : Nat) (s : Chip8VIP Hw) : Nat :=
  if addr < 0x1000 then s.ram addr
  else if addr ≥ 0x8000 ∧ addr < 0x8200 then s.rom (addr &&& 0x1ff)
  else 0

/-- The function `Chip8VIP::writeByte`. -/
def Chip8VIP.writeByte {Hw : Type} (addr val : Nat) (s : Chip8VIP Hw) : Chip8VIP Hw :=
  if addr < 0x1000 then { s with ram := arrStore s.ram addr val }
  else
    let s1 := s.setExecMode .ePAUSED
    { s1 with cpuState := .eERROR }

/-- The first `n` rounds of the loop of `fetchState`:
`_state.s[i] = (_ram[base + 0xCD - i*2] << 8) | _ram[base + 0xCF - i*2 - 1];`
(the elements of `_state.s` are 16-bit). -/
def Chip8VIP.fetchStackLoop (ram : Nat → Nat) (base : Nat) (stack : Nat → Nat) :
    Nat → (Nat → Nat)
  | 0 => stack
  | n + 1 =>
    arrStore (Chip8VIP.fetchStackLoop ram base stack n) n
      (((ram (base + 0xCD - n * 2) <<< 8) ||| ram (base + 0xCF - n * 2 - 1)) % 65536)

/-- The function `Chip8VIP::fetchState`.  The loop `for(int i = 0; i < stackSize() && i <
_state.sp; ++i)` makes `min(stackSize(), _state.sp)` rounds, none for a negative `_state.sp`. -/
def Chip8VIP.fetchState {Hw : Type} (s : Chip8VIP Hw) : Chip8VIP Hw :=
  let base := s.cpu.rR 2 &&& 0xFF00
  let v := fun i => if i < 16 then s.ram (base + 0xF0 + i) else s.state.v i
  let sp : Int := ((0xECF : Int) - (s.cpu.rR 2 : Int)) >>> (1 : Nat)
  let stack := Chip8VIP.fetchStackLoop s.ram base s.state.s (min Chip8VIP.stackSize sp.toNat)
  { s with state :=
      { cycles := s.cycles
        v := v
        i := s.cpu.rR 0xA
        pc := s.cpu.rR 5
        sp := sp
        dt := s.cpu.rR 8 >>> 8
        st := s.cpu.rR 8 &&& 0xff
        s := stack } }

/-- The first `n` rounds of the loop of `forceState`:
`_ram[base + 0xCD - i*2] = _state.s[i] >> 8; _ram[base + 0xCD - i*2 + 1] = _state.s[i] & 0xFF;`
(the elements of `_ram` are bytes). -/
def Chip8VIP.forceStackLoop (base : Nat) (stack : Nat → Nat) (ram : Nat → Nat) :
    Nat → (Nat → Nat)
  | 0 => ram
  | n + 1 =>
    let ram1 := Chip8VIP.forceStackLoop base stack ram n
    let ram2 := arrStore ram1 (base + 0xCD - n * 2) ((stack n >>> 8) % 256)
    arrStore ram2 (base + 0xCD - n * 2 + 1) ((stack n &&& 0xFF) % 256)

/-- The function `Chip8VIP::forceState`; the casts `(uint16_t)` are the reductions modulo
65536. -/
def Chip8VIP.forceState {Hw : Type} (s : Chip8VIP Hw) : Chip8VIP Hw :=
  let st := { s.state with cycles := s.cycles }
  let base := s.cpu.rR 2 &&& 0xFF00
  let ram1 := fun a =>
    if base + 0xF0 ≤ a ∧ a < base + 0xF0 + 16 then st.v (a - (base + 0xF0)) else s.ram a
  let r1 := arrStore s.cpu.rR 0xA (st.i % 65536)
  let r2 := arrStore r1 0x5 (st.pc % 65536)
  let r3 := arrStore r2 0x8 (((st.dt <<< 8) ||| st.st) % 65536)
  let r4 := arrStore r3 0x2 ((((base : Int) + 0xCF - st.sp * 2) % 65536).toNat)
  let ram2 := Chip8VIP.forceStackLoop base st.s ram1 (min Chip8VIP.stackSize st.sp.toNat)
  { s with state := st, ram := ram2, cpu := { s.cpu with rR := r4 } }

/-- The mode checks of `executeCdp1802` at the fetch-loop entry:
`if(_cpu.getExecMode() == ePAUSED) { setExecMode(ePAUSED); _backendStopped = true; }
else if (_execMode == eSTEP || (_execMode == eSTEPOVER && getSP() <= _stepOverSP))
setExecMode(ePAUSED);`. -/
def Chip8VIP.checkStepModes {Hw : Type} (s : Chip8VIP Hw) : Chip8VIP Hw :=
  if s.cpu.execMode = .ePAUSED then
    let s1 := s.setExecMode .ePAUSED
    { s1 with backendStopped := true }
  else if s.execMode = .eSTEP ∨ (s.execMode = .eSTEPOVER ∧ s.getSP ≤ s.stepOverSP) then
    s.setExecMode .ePAUSED
  else s

/-- The endless-loop heuristic of `executeCdp1802` at the fetch-loop entry, from
`auto nextOp = opcode();` to the end of `if(newFrame) { ... }`; `fc` is the value that
`_video.executeStep()` returned. -/
def Chip8VIP.checkEndlessLoop {Hw : Type} (hw : Chip8VIP.Hardware Hw) (fc : Int)
    (s : Chip8VIP Hw) : Chip8VIP Hw :=
  let nextOp := hw.opcode s
  let newFrame := s.lastFC > fc
  let s1 : Chip8VIP Hw := { s with lastFC := fc }
  if newFrame then
    if nextOp &&& 0xF000 = 0x1000 ∧ hw.opcode s1 &&& 0xFFF = s1.getPC then
      let s2 : Chip8VIP Hw := { s1 with endlessLoops := s1.endlessLoops + 1 }
      if s2.endlessLoops > 2 then
        let s3 := s2.setExecMode .ePAUSED
        { s3 with endlessLoops := 0 }
      else s2
    else { s1 with endlessLoops := 0 }
  else s1

/-- The breakpoint check that ends the fetch-loop branch of `executeCdp1802`. -/
def Chip8VIP.checkBreakpoint {Hw : Type} (hw : Chip8VIP.Hardware Hw) (s : Chip8VIP Hw) :
    Chip8VIP Hw :=
  if hw.hasBreakPoint s s.getPC = true then
    (if hw.findBreakpoint s s.getPC = true then s.setExecMode .ePAUSED else s)
  else s

/-- The function `Chip8VIP::executeCdp1802`: the value it returns and the state after the call.
Trace logging does not touch the state and is left out. -/
def Chip8VIP.executeCdp1802 {Hw : Type} (hw : Chip8VIP.Hardware Hw) (s : Chip8VIP Hw) :
    Bool × Chip8VIP Hw :=
  let fc := (hw.videoStep s).1
  let s1 := hw.cpuStep (hw.videoStep s).2
  if s1.cpu.pc = Chip8VIP.FETCH_LOOP_ENTRY then
    let s2 : Chip8VIP Hw := s1.fetchState
    let s3 : Chip8VIP Hw := { s2 with cycles := s2.cycles + 1 }
    (true, Chip8VIP.checkBreakpoint hw (Chip8VIP.checkEndlessLoop hw fc s3.checkStepModes))
  else if s1.cpu.execMode = .ePAUSED then
    let s2 := s1.setExecMode .ePAUSED
    (false, { s2 with backendStopped := true })
  else (false, s1)

/-- The loop `while(!executeCdp1802() || getPC() != _options.startAddress);` of
`Chip8VIP::reset`.  The loop has no bound of its own: `none` when `fuel` calls of
`executeCdp1802` do not end it. -/
def Chip8VIP.fastForward {Hw : Type} (hw : Chip8VIP.Hardware Hw) (startAddress : Nat) :
    Nat → Chip8VIP Hw → Option (Chip8VIP Hw)
  | 0, _ => none
  | fuel + 1, s =>
    let r := Chip8VIP.executeCdp1802 hw s
    if r.1 = false ∨ r.2.getPC ≠ startAddress then
      Chip8VIP.fastForward hw startAddress fuel r.2
    else some r.2

/-- The statements of `Chip8VIP::reset` in front of its loop.  `interpreter` is the table
`_chip8tdp_cvip` or `_chip8_cvip` that the advanced option "interpreter" selects.  Trace logging
and the screen buffer are left out. -/
def Chip8VIP.beforeFastForward {Hw : Type} (hw : Chip8VIP.Hardware Hw)
    (interpreter : List Nat) (s : Chip8VIP Hw) : Chip8VIP Hw :=
  Chip8VIP.setExecMode .eRUNNING
    { s with ram := memcpy (memset s.ram 0 hw.maxMemorySize) 0 interpreter,
             cpu := hw.resetChips s.cpu, cycles := 0, frames := 0, nextFrame := 0,
             cpuState := .eNORMAL }

/-- The function `Chip8VIP::reset`: the statements in front of the loop, the fast-forward loop
and `setExecMode(_impl->_host.isHeadless() ? eRUNNING : ePAUSED)`. -/
def Chip8VIP.reset {Hw : Type} (hw : Chip8VIP.Hardware Hw) (o : Chip8EmulatorOptions)
    (host : Chip8EmulatorHost) (interpreter : List Nat) (fuel : Nat) (s : Chip8VIP Hw) :
    Option (Chip8VIP Hw) :=
  (Chip8VIP.fastForward hw o.startAddress fuel (Chip8VIP.beforeFastForward hw interpreter s)).map
    (fun t => t.setExecMode (if host.isHeadless then .eRUNNING else .ePAUSED))

/-- The state after the first `n` calls of `executeCdp1802`. -/
def Chip8VIP.afterSteps {Hw : Type} (hw : Chip8VIP.Hardware Hw) :
    Nat → Chip8VIP Hw → Chip8VIP Hw
  | 0, s => s
  | n + 1, s => (Chip8VIP.executeCdp1802 hw (Chip8VIP.afterSteps hw n s)).2

/-- A hardware backend in Running mode and CpuState Normal, with zeroed memories and
registers, whose chips have no further state. -/
def exampleVip : Chip8VIP Unit :=
  { cpu := { rR := fun _ => 0, pc := 0, execMode := .eRUNNING, cycles := 0, chips := () }
    ram := fun _ => 0
    rom := fun _ => 0
    state := { v := fun _ => 0, i := 0, pc := 0, sp := 0, dt := 0, st := 0, s := fun _ => 0,
               cycles := 0 }
    cycles := 0
    frames := 0
    nextFrame := 0
    cpuState := .eNORMAL
    execMode := .eRUNNING
    stepOverSP := 0
    backendStopped := false
    lastFC := 0
    endlessLoops := 0 }

/-- Hardware for examples: the video step does nothing and returns 0, each CPU instruction
advances the program counter by one, the reset of the chips puts the program counter at
`0x019`, the stack pointer R(2) at `0x0ECF` and `0x200` in R(5); there are no breakpoints. -/
def exampleHardware : Chip8VIP.Hardware Unit :=
  { videoStep := fun s => (0, s)
    cpuStep := fun s => { s with cpu := { s.cpu with pc := s.cpu.pc + 1 } }
    resetChips := fun c =>
      { c with pc := 0x019, rR := fun i => if i = 5 then 0x200 else if i = 2 then 0x0ECF else 0 }
    opcode := fun _ => 0
    hasBreakPoint := fun _ _ => false
    findBreakpoint := fun _ _ => false
    maxMemorySize := 4096 }

/-! ## Test images -/

/-- A ROM image for the runs near the top of the 4 KiB memory: the bytes `b0 b1`, `gap` zero
bytes, the bytes `c0 c1`, and `tail` zero bytes. -/
def topImage (b0 b1 : Nat) (gap : Nat) (c0 c1 : Nat) (tail : Nat) : List Nat :=
  [b0, b1] ++ (List.replicate gap 0 ++ ([c0, c1] ++ List.replicate tail 0))

/-! # Theorems -/

/-! ## The loops of `on` -/

/-- The shift loop strips the `j` trailing zero bits of `a <<< j` when `a` is odd and the fuel
exceeds `j`. -/
theorem onShiftLoop_shiftLeft (a : Nat) (ha : a &&& 1 ≠ 0) :
    ∀ (j fuel sh0 : Nat), j < fuel → onShiftLoop fuel (a <<< j) sh0 = some (a, sh0 + j) := by
  intro j
  induction j with
  | zero =>
    intro fuel sh0 hf
    obtain ⟨f, rfl⟩ : ∃ f, fuel = f + 1 := ⟨fuel - 1, by omega⟩
    rw [onShiftLoop, Nat.shiftLeft_zero, if_neg ha]
    rfl
  | succ j ih =>
    intro fuel sh0 hf
    obtain ⟨f, rfl⟩ : ∃ f, fuel = f + 1 := ⟨fuel - 1, by omega⟩
    have h1 : (a <<< (j + 1)) &&& 1 = 0 := by
      rw [Nat.and_one_is_mod, Nat.shiftLeft_eq, Nat.pow_succ, ← Nat.mul_assoc]
      exact Nat.mul_mod_left _ _
    have h2 : (a <<< (j + 1)) >>> 1 = a <<< j := by
      rw [Nat.shiftRight_eq_div_pow, Nat.shiftLeft_eq, Nat.shiftLeft_eq, Nat.pow_succ,
        ← Nat.mul_assoc]
      simp
    rw [onShiftLoop, if_pos h1, h2, ih f (sh0 + 1) (by omega)]
    congr 2
    omega

/-- A field of at most 16 bits has at most 65536 values. -/
theorem two_pow_le_65536 {k : Nat} (hk : k ≤ 16) : 2 ^ k ≤ 65536 := by
  have := Nat.pow_le_pow_right (show 0 < 2 by decide) hk
  simpa using this

/-- The fill loop for the mask `2^k - 1`: started at `val` with enough fuel it terminates and
assigns the slots `opcode | (v << sh)` for `val ≤ v < 2^k`, and no other slot. -/
theorem onFillLoop_spec (opcode sh : Nat) (handler : OpcodeHandler) (k : Nat) (hk : k ≤ 16) :
    ∀ (n val fuel : Nat) (tbl : HandlerTable), val + n = 2 ^ k → 0 < n → n ≤ fuel →
      onFillLoop opcode (2 ^ k - 1) sh handler fuel val tbl
        = some (fun s => if ∃ v, v < 2 ^ k ∧ (val ≤ v ∧ s = opcode ||| (v <<< sh))
                         then handler else tbl s) := by
  have h65 := two_pow_le_65536 hk
  have hdvd : 2 ^ k ∣ 65536 := by
    have : (65536 : Nat) = 2 ^ 16 := by norm_num
    rw [this]
    exact Nat.pow_dvd_pow 2 hk
  intro n
  induction n with
  | zero => intro val fuel tbl _ h0; omega
  | succ n ih =>
    intro val fuel tbl hv _ hf
    obtain ⟨f, rfl⟩ : ∃ f, fuel = f + 1 := ⟨fuel - 1, by omega⟩
    have hval : val < 2 ^ k := by omega
    have hidx : val &&& (2 ^ k - 1) = val := Nat.and_pow_two_sub_one_of_lt_two_pow hval
    have hcond : ((val + 1) % 65536) &&& (2 ^ k - 1) = (val + 1) % 2 ^ k := by
      rw [Nat.and_pow_two_sub_one_eq_mod, Nat.mod_mod_of_dvd _ hdvd]
    rw [onFillLoop]
    simp only [hidx, hcond]
    by_cases hn : n = 0
    · subst hn
      have hz : (val + 1) % 2 ^ k = 0 := by
        have : val + 1 = 2 ^ k := by omega
        rw [this]; exact Nat.mod_self _
      simp only [hz, ne_eq, not_true_eq_false, if_false]
      congr 1
      funext s
      simp only [HandlerTable.store]
      by_cases hs : s = opcode ||| (val <<< sh)
      · rw [if_pos hs, if_pos ⟨val, hval, Nat.le_refl _, hs⟩]
      · rw [if_neg hs, if_neg]
        rintro ⟨v, hv2, hv1, hv3⟩
        have : v = val := by omega
        subst this
        exact hs hv3
    · have hlt : val + 1 < 2 ^ k := by omega
      have hnz : (val + 1) % 2 ^ k ≠ 0 := by
        rw [Nat.mod_eq_of_lt hlt]; omega
      have hv' : (val + 1) % 65536 = val + 1 := Nat.mod_eq_of_lt (by omega)
      rw [if_pos hnz, hv', ih (val + 1) f _ (by omega) (by omega) (by omega)]
      congr 1
      funext s
      simp only [HandlerTable.store]
      by_cases hs : s = opcode ||| (val <<< sh)
      · have hR : ∃ v, v < 2 ^ k ∧ (val ≤ v ∧ s = opcode ||| (v <<< sh)) :=
          ⟨val, hval, Nat.le_refl _, hs⟩
        rw [if_pos hR, if_pos hs]
        exact ite_self _
      · by_cases hex : ∃ v, v < 2 ^ k ∧ (val + 1 ≤ v ∧ s = opcode ||| (v <<< sh))
        · rw [if_pos hex]
          obtain ⟨v, b, a, c⟩ := hex
          have hR : ∃ v, v < 2 ^ k ∧ (val ≤ v ∧ s = opcode ||| (v <<< sh)) :=
            ⟨v, b, by omega, c⟩
          rw [if_pos hR]
        · rw [if_neg hex, if_neg hs, if_neg]
          rintro ⟨v, hv2, hv1, hv3⟩
          by_cases hvv : v = val
          · subst hvv; exact hs hv3
          · exact hex ⟨v, hv2, by omega, hv3⟩

/-- A number below `2^n` has no bit at position `n` or above. -/
theorem testBit_eq_false_of_lt {x n i : Nat} (hx : x < 2 ^ n) (hi : n ≤ i) :
    x.testBit i = false :=
  Nat.testBit_lt_two_pow (Nat.lt_of_lt_of_le hx (Nat.pow_le_pow_right (by decide) hi))

/-- The bits of a 16-bit mask whose complement is the field `(2^k - 1) <<< sh`. -/
theorem mask_testBit (mask k sh : Nat) (hmask : mask < 65536)
    (hc : mask ^^^ 0xFFFF = (2 ^ k - 1) <<< sh) (i : Nat) :
    mask.testBit i = (decide (i < 16) && !(decide (sh ≤ i) && decide (i - sh < k))) := by
  have h1 := congrArg (fun n => n.testBit i) hc
  have h16 : (0xFFFF : Nat) = 2 ^ 16 - 1 := by norm_num
  simp only [Nat.testBit_xor, h16, Nat.testBit_two_pow_sub_one, Nat.testBit_shiftLeft] at h1
  by_cases hi : i < 16
  · simp only [hi, decide_True, Bool.true_and] at h1 ⊢
    rw [← h1]
    cases mask.testBit i <;> rfl
  · have : mask.testBit i = false :=
      testBit_eq_false_of_lt (n := 16) (by simpa using hmask) (by omega)
    simp [this, hi]

/-- The slots that match `opcode` under a mask whose complement is the field `(2^k - 1) <<< sh`
are the values `opcode | (v << sh)` with `v < 2^k`. -/
theorem field_match_iff (mask opcode k sh s : Nat) (hksh : k + sh ≤ 16) (hmask : mask < 65536)
    (hc : mask ^^^ 0xFFFF = (2 ^ k - 1) <<< sh) (hop : opcode < 65536)
    (hdis : opcode &&& (mask ^^^ 0xFFFF) = 0) :
    (s < 65536 ∧ s &&& mask = opcode) ↔ ∃ v, v < 2 ^ k ∧ s = opcode ||| (v <<< sh) := by
  have hm := mask_testBit mask k sh hmask hc
  have hopb : ∀ i, 16 ≤ i → opcode.testBit i = false := fun i hi =>
    testBit_eq_false_of_lt (n := 16) (by simpa using hop) hi
  have hd : ∀ i, opcode.testBit i = true → sh ≤ i → i - sh < k → False := by
    intro i h1 h2 h3
    have := congrArg (fun n => n.testBit i) hdis
    rw [hc] at this
    simp only [Nat.testBit_and, Nat.testBit_shiftLeft, Nat.testBit_two_pow_sub_one,
      Nat.zero_testBit] at this
    simp [h1, h2, h3] at this
  constructor
  · rintro ⟨hs, hsm⟩
    have hsb : ∀ i, 16 ≤ i → s.testBit i = false := fun i hi =>
      testBit_eq_false_of_lt (n := 16) (by simpa using hs) hi
    refine ⟨(s >>> sh) % 2 ^ k, Nat.mod_lt _ (Nat.two_pow_pos _), ?_⟩
    apply Nat.eq_of_testBit_eq
    intro i
    rw [← hsm]
    simp only [Nat.testBit_or, Nat.testBit_and, Nat.testBit_shiftLeft, Nat.testBit_mod_two_pow,
      Nat.testBit_shiftRight, hm]
    by_cases hi : i < 16
    · by_cases h1 : sh ≤ i
      · have e : sh + (i - sh) = i := by omega
        by_cases h2 : i - sh < k <;> simp [hi, h1, h2, e]
      · simp [hi, h1]
    · have : ¬ (sh ≤ i ∧ i - sh < k) := by omega
      by_cases h1 : sh ≤ i
      · have h2 : ¬ i - sh < k := fun h => this ⟨h1, h⟩
        simp [hi, hsb i (by omega), h1, h2]
      · simp [hi, hsb i (by omega), h1]
  · rintro ⟨v, hv, rfl⟩
    have hvs : v <<< sh < 2 ^ 16 := by
      rw [Nat.shiftLeft_eq]
      calc v * 2 ^ sh < 2 ^ k * 2 ^ sh := Nat.mul_lt_mul_of_pos_right hv (Nat.two_pow_pos _)
        _ = 2 ^ (k + sh) := (Nat.pow_add 2 k sh).symm
        _ ≤ 2 ^ 16 := Nat.pow_le_pow_right (by decide) hksh
    refine ⟨by simpa using Nat.or_lt_two_pow (n := 16) (by simpa using hop) hvs, ?_⟩
    apply Nat.eq_of_testBit_eq
    intro i
    simp only [Nat.testBit_or, Nat.testBit_and, Nat.testBit_shiftLeft, hm]
    by_cases hi : i < 16
    · by_cases ho : opcode.testBit i = true
      · have : ¬ (sh ≤ i ∧ i - sh < k) := fun h => hd i ho h.1 h.2
        by_cases h1 : sh ≤ i
        · have h2 : ¬ i - sh < k := fun h => this ⟨h1, h⟩
          simp [hi, ho, h1, h2]
        · simp [hi, ho, h1]
      · have ho' : opcode.testBit i = false := by simpa using ho
        by_cases h1 : sh ≤ i
        · by_cases h2 : i - sh < k
          · simp [hi, ho', h1, h2]
          · have : v.testBit (i - sh) = false := testBit_eq_false_of_lt hv (by omega)
            simp [hi, ho', h1, h2, this]
        · simp [hi, ho', h1]
    · simp [hi, hopb i (by omega)]

/-- The slots the fill loop assigns for the mask `2^k - 1`, in order. -/
theorem onFillSlots_spec (opcode sh : Nat) (k : Nat) (hk : k ≤ 16) :
    ∀ (n val fuel : Nat), val + n = 2 ^ k → 0 < n → n ≤ fuel →
      onFillSlots opcode (2 ^ k - 1) sh fuel val
        = some ((List.range' val n).map (fun v => opcode ||| (v <<< sh))) := by
  have h65 := two_pow_le_65536 hk
  have hdvd : 2 ^ k ∣ 65536 := by
    have : (65536 : Nat) = 2 ^ 16 := by norm_num
    rw [this]
    exact Nat.pow_dvd_pow 2 hk
  intro n
  induction n with
  | zero => intro val fuel _ h0; omega
  | succ n ih =>
    intro val fuel hv _ hf
    obtain ⟨f, rfl⟩ : ∃ f, fuel = f + 1 := ⟨fuel - 1, by omega⟩
    have hval : val < 2 ^ k := by omega
    have hidx : val &&& (2 ^ k - 1) = val := Nat.and_pow_two_sub_one_of_lt_two_pow hval
    have hcond : ((val + 1) % 65536) &&& (2 ^ k - 1) = (val + 1) % 2 ^ k := by
      rw [Nat.and_pow_two_sub_one_eq_mod, Nat.mod_mod_of_dvd _ hdvd]
    rw [onFillSlots]
    simp only [hidx, hcond]
    by_cases hn : n = 0
    · subst hn
      have hz : (val + 1) % 2 ^ k = 0 := by
        have : val + 1 = 2 ^ k := by omega
        rw [this]; exact Nat.mod_self _
      simp [hz]
    · have hlt : val + 1 < 2 ^ k := by omega
      have hnz : (val + 1) % 2 ^ k ≠ 0 := by
        rw [Nat.mod_eq_of_lt hlt]; omega
      have hv' : (val + 1) % 65536 = val + 1 := Nat.mod_eq_of_lt (by omega)
      rw [if_pos hnz, hv', ih (val + 1) f (by omega) (by omega) (by omega)]
      simp [List.range'_succ]

/-- The fill loop performs exactly the assignments that `onFillSlots` lists, whatever the
arguments. -/
theorem onFillLoop_eq_foldl (opcode argMask sh : Nat) (handler : OpcodeHandler) :
    ∀ (fuel val : Nat) (tbl : HandlerTable),
      onFillLoop opcode argMask sh handler fuel val tbl
        = (onFillSlots opcode argMask sh fuel val).map
            (fun l => l.foldl (fun t i => HandlerTable.store t i handler) tbl) := by
  intro fuel
  induction fuel with
  | zero => intro val tbl; rfl
  | succ f ih =>
    intro val tbl
    rw [onFillLoop, onFillSlots]
    by_cases hcnd : ((val + 1) % 65536) &&& argMask ≠ 0
    · rw [if_pos hcnd, if_pos hcnd, ih]
      cases onFillSlots opcode argMask sh f ((val + 1) % 65536) <;> rfl
    · rw [if_neg hcnd, if_neg hcnd]
      rfl

/-- The assignments of `on` are those that `onSlots` lists, whatever the arguments. -/
theorem on_eq_foldl (mask opcode : Nat) (handler : OpcodeHandler) (tbl : HandlerTable) :
    Chip8EmulatorFP.on mask opcode handler tbl
      = (Chip8EmulatorFP.onSlots mask opcode).map
          (fun l => l.foldl (fun t i => HandlerTable.store t i handler) tbl) := by
  unfold Chip8EmulatorFP.on Chip8EmulatorFP.onSlots
  by_cases hcnd : (mask % 65536) ^^^ 0xFFFF ≠ 0
  · rw [if_pos hcnd, if_pos hcnd]
    cases onShiftLoop 16 ((mask % 65536) ^^^ 0xFFFF) 0 with
    | none => rfl
    | some p => exact onFillLoop_eq_foldl _ _ _ _ _ _ _
  · rw [if_neg hcnd, if_neg hcnd]
    rfl

/-- A non-empty run of ones is odd. -/
theorem two_pow_sub_one_odd {k : Nat} (hk : 0 < k) : (2 ^ k - 1) &&& 1 ≠ 0 := by
  obtain ⟨j, rfl⟩ : ∃ j, k = j + 1 := ⟨k - 1, by omega⟩
  rw [Nat.and_one_is_mod, Nat.pow_succ]
  have := Nat.two_pow_pos j
  omega

/-- A non-empty field is not zero. -/
theorem field_ne_zero {k sh : Nat} (hk : 0 < k) : (2 ^ k - 1) <<< sh ≠ 0 := by
  rw [Nat.shiftLeft_eq]
  have h1 : 1 < 2 ^ k := Nat.one_lt_two_pow (by omega)
  have h2 := Nat.two_pow_pos sh
  exact Nat.mul_ne_zero (by omega) (by omega)

/-- What `on` does for a mask whose don't-care bits form the field `(2^k - 1) <<< sh`. -/
theorem on_contiguous (mask opcode k sh : Nat) (handler : OpcodeHandler) (tbl : HandlerTable)
    (hksh : k + sh ≤ 16) (hmask : mask < 65536)
    (hc : mask ^^^ 0xFFFF = (2 ^ k - 1) <<< sh) (hop : opcode < 65536)
    (hdis : opcode &&& (mask ^^^ 0xFFFF) = 0) :
    Chip8EmulatorFP.on mask opcode handler tbl
      = some (OnCall.apply ⟨mask, opcode, handler⟩ tbl) := by
  have hiff := fun s => field_match_iff mask opcode k sh s hksh hmask hc hop hdis
  unfold Chip8EmulatorFP.on
  simp only [Nat.mod_eq_of_lt hmask, hc]
  by_cases hk : k = 0
  · subst hk
    simp only [Nat.pow_zero, Nat.sub_self, Nat.zero_shiftLeft, ne_eq, not_true_eq_false,
      if_false]
    congr 1
    funext s
    simp only [HandlerTable.store, OnCall.apply]
    by_cases hs : s = opcode
    · rw [if_pos hs, if_pos ((hiff s).2 ⟨0, by simp, by simp [hs]⟩)]
    · rw [if_neg hs, if_neg]
      intro h
      obtain ⟨v, hv, e⟩ := (hiff s).1 h
      have : v = 0 := by simpa using hv
      subst this
      exact hs (by simpa using e)
  · have hk0 : 0 < k := by omega
    rw [if_pos (field_ne_zero hk0),
      onShiftLoop_shiftLeft _ (two_pow_sub_one_odd hk0) sh 16 0 (by omega)]
    simp only [Nat.zero_add]
    rw [onFillLoop_spec opcode sh handler k (by omega) (2 ^ k) 0 65536 tbl (by simp)
      (Nat.two_pow_pos k) (two_pow_le_65536 (by omega))]
    congr 1
    funext s
    simp only [OnCall.apply, Nat.zero_le, true_and]
    by_cases h : s < 65536 ∧ s &&& mask = opcode
    · rw [if_pos h, if_pos ((hiff s).1 h)]
    · rw [if_neg h, if_neg (fun h' => h ((hiff s).2 h'))]

/-- The slots `on` assigns for a mask whose don't-care bits form the field `(2^k - 1) <<< sh`. -/
theorem onSlots_contiguous (mask opcode k sh : Nat)
    (hksh : k + sh ≤ 16) (hmask : mask < 65536)
    (hc : mask ^^^ 0xFFFF = (2 ^ k - 1) <<< sh) :
    Chip8EmulatorFP.onSlots mask opcode
      = some ((List.range (2 ^ k)).map (fun v => opcode ||| (v <<< sh))) := by
  unfold Chip8EmulatorFP.onSlots
  simp only [Nat.mod_eq_of_lt hmask, hc]
  by_cases hk : k = 0
  · subst hk
    simp only [Nat.pow_zero, Nat.sub_self, Nat.zero_shiftLeft, ne_eq, not_true_eq_false,
      if_false]
    have h1 : List.range 1 = [0] := rfl
    rw [h1, List.map_cons, List.map_nil, Nat.zero_shiftLeft, Nat.or_zero]
  · have hk0 : 0 < k := by omega
    rw [if_pos (field_ne_zero hk0),
      onShiftLoop_shiftLeft _ (two_pow_sub_one_odd hk0) sh 16 0 (by omega)]
    simp only [Nat.zero_add]
    rw [onFillSlots_spec opcode sh k (by omega) (2 ^ k) 0 65536 (by simp)
      (Nat.two_pow_pos k) (two_pow_le_65536 (by omega)), List.range_eq_range']

/-- Moving the conditionals of `setHandler` into the handler arguments changes no call. -/
theorem setHandlerCalls_eq_rules (o : Chip8EmulatorOptions) :
    Chip8EmulatorFP.setHandlerCalls o = Chip8EmulatorFP.setHandlerRules o := by
  have hc : (if o.randomGen = "rand-lcg" then [(⟨0xF000, 0xC000, .opCxnn_randLCG⟩ : OnCall)]
      else if o.randomGen = "counting" then [⟨0xF000, 0xC000, .opCxnn_counting⟩]
      else [⟨0xF000, 0xC000, .opCxnn⟩]) = [⟨0xF000, 0xC000, cxnnHandler o⟩] := by
    unfold cxnnHandler
    split_ifs <;> rfl
  have hd :
    (if o.behaviorBase = .eCHIP8X then
            (if o.optInstantDxyn then [⟨0xF000, 0xD000, .opDxyn_0⟩]
             else [⟨0xF000, 0xD000, .opDxyn_displayWait_0⟩])
          else if o.optAllowHires then
            (if o.optAllowColors then
               (if o.optWrapSprites then [⟨0xF000, 0xD000, .opDxyn_HiresSupport_MultiColor_WrapSprite⟩]
                else [⟨0xF000, 0xD000, .opDxyn_HiresSupport_MultiColor⟩])
             else
               (if o.optWrapSprites then [⟨0xF000, 0xD000, .opDxyn_HiresSupport_WrapSprite⟩]
                else
                  (if o.optSCLoresDrawing then
                     [⟨0xF000, 0xD000, .opDxyn_HiresSupport_SChip1xLoresDraw⟩]
                   else [⟨0xF000, 0xD000, .opDxyn_HiresSupport⟩])))
          else
            (if o.optAllowColors then
               (if o.optWrapSprites then [⟨0xF000, 0xD000, .opDxyn_MultiColor_WrapSprite⟩]
                else [⟨0xF000, 0xD000, .opDxyn_MultiColor⟩])
             else
               (if o.optWrapSprites then [⟨0xF000, 0xD000, .opDxyn_WrapSprite⟩]
                else
                  (if o.optInstantDxyn then [⟨0xF000, 0xD000, .opDxyn_0⟩]
                   else [⟨0xF000, 0xD000, .opDxyn_displayWait_0⟩]))))
      = [(⟨0xF000, 0xD000, dxynHandler o⟩ : OnCall)] := by
    unfold dxynHandler
    split_ifs <;> rfl
  unfold Chip8EmulatorFP.setHandlerCalls Chip8EmulatorFP.setHandlerRules
  rw [hc, hd]
  have hm : ∀ (a b c d : OpcodeHandler),
      (if o.optModeChangeClear then [(⟨0xFFFF, 0x00FE, a⟩ : OnCall), ⟨0xFFFF, 0x00FF, b⟩]
        else [⟨0xFFFF, 0x00FE, c⟩, ⟨0xFFFF, 0x00FF, d⟩])
      = [⟨0xFFFF, 0x00FE, if o.optModeChangeClear then a else c⟩,
         ⟨0xFFFF, 0x00FF, if o.optModeChangeClear then b else d⟩] := by
    intro a b c d
    split_ifs <;> rfl
  simp only [hm]
  cases o.behaviorBase <;> rfl

/-- The masks and opcodes of the calls depend on the preset alone. -/
theorem setHandlerRules_keys (o : Chip8EmulatorOptions) :
    (Chip8EmulatorFP.setHandlerRules o).map (fun c => (c.mask, c.opcode))
      = callKeys o.behaviorBase := by
  unfold callKeys Chip8EmulatorFP.setHandlerRules
  cases o.behaviorBase <;> rfl

/-- A preset outside the ones named by `setHandler` gets the calls of plain CHIP-8. -/
theorem callKeys_other (tag : Nat) : callKeys (.other tag) = callKeys .eCHIP8 := rfl

/-- For every preset, every mask and opcode of `setHandler` has the shape `OnCall.ok`. -/
theorem callKeys_all_ok (b : SupportedPreset) :
    (callKeys b).all (fun k => OnCall.ok ⟨k.1, k.2, .opNop⟩) = true := by
  cases b <;> first | decide | (rw [callKeys_other]; decide)

/-- Every `on` call of `setHandler` has arguments of the shape `OnCall.ok`. -/
theorem setHandlerCalls_all_ok (o : Chip8EmulatorOptions) :
    (Chip8EmulatorFP.setHandlerCalls o).all OnCall.ok = true := by
  have h := callKeys_all_ok o.behaviorBase
  rw [← setHandlerRules_keys, List.all_eq_true] at h
  rw [setHandlerCalls_eq_rules, List.all_eq_true]
  intro c hc
  exact h (c.mask, c.opcode) (List.mem_map_of_mem _ hc)

/-- The don't-care bits of each of the six masks of `setHandler` form one field. -/
theorem OnCall.ok_field (c : OnCall) (h : c.ok = true) :
    ∃ k sh, k + sh ≤ 16 ∧ c.mask < 65536 ∧ c.mask ^^^ 0xFFFF = (2 ^ k - 1) <<< sh
      ∧ c.opcode < 65536 ∧ c.opcode &&& (c.mask ^^^ 0xFFFF) = 0 := by
  unfold OnCall.ok at h
  simp only [Bool.and_eq_true, Bool.or_eq_true, beq_iff_eq, decide_eq_true_eq] at h
  obtain ⟨⟨hm, ho⟩, hd⟩ := h
  rcases hm with ((((hm | hm) | hm) | hm) | hm) | hm
  · exact ⟨0, 0, by decide, by omega, by rw [hm]; decide, ho, hd⟩
  · exact ⟨12, 0, by decide, by omega, by rw [hm]; decide, ho, hd⟩
  · exact ⟨8, 4, by decide, by omega, by rw [hm]; decide, ho, hd⟩
  · exact ⟨4, 8, by decide, by omega, by rw [hm]; decide, ho, hd⟩
  · exact ⟨4, 0, by decide, by omega, by rw [hm]; decide, ho, hd⟩
  · exact ⟨8, 0, by decide, by omega, by rw [hm]; decide, ho, hd⟩

/-- For a call of the shape `OnCall.ok`, the loops of `on` do what the rule says. -/
theorem on_of_ok (c : OnCall) (h : c.ok = true) (tbl : HandlerTable) :
    Chip8EmulatorFP.on c.mask c.opcode c.handler tbl = some (c.apply tbl) := by
  obtain ⟨k, sh, h1, h2, h3, h4, h5⟩ := c.ok_field h
  exact on_contiguous c.mask c.opcode k sh c.handler tbl h1 h2 h3 h4 h5

/-- A list of calls of the shape `OnCall.ok` terminates and applies the rules in order. -/
theorem runOnCalls_of_ok :
    ∀ (cs : List OnCall) (tbl : HandlerTable), cs.all OnCall.ok = true →
      runOnCalls cs tbl = some (cs.foldl (fun t c => c.apply t) tbl) := by
  intro cs
  induction cs with
  | nil => intro tbl _; rfl
  | cons c cs ih =>
    intro tbl h
    rw [List.all_cons, Bool.and_eq_true] at h
    rw [runOnCalls, on_of_ok c h.1]
    exact ih _ h.2

/-- The table `setHandler` leaves: the rules applied in program order. -/
theorem setHandler_eq (o : Chip8EmulatorOptions) (tbl : HandlerTable) :
    Chip8EmulatorFP.setHandler o tbl
      = some ((Chip8EmulatorFP.setHandlerCalls o).foldl (fun t c => c.apply t) tbl) :=
  runOnCalls_of_ok _ _ (setHandlerCalls_all_ok o)

/-- A rule gives its handler to a slot it matches. -/
theorem OnCall.apply_of_hits (c : OnCall) (tbl : HandlerTable) (s : Nat)
    (h : c.hits s = true) : c.apply tbl s = c.handler := by
  unfold OnCall.hits at h
  simp only [Bool.and_eq_true, decide_eq_true_eq, beq_iff_eq] at h
  simp only [OnCall.apply, if_pos h]

/-- A rule leaves a slot it does not match. -/
theorem OnCall.apply_of_not_hits (c : OnCall) (tbl : HandlerTable) (s : Nat)
    (h : c.hits s = false) : c.apply tbl s = tbl s := by
  unfold OnCall.hits at h
  have : ¬ (s < 65536 ∧ s &&& c.mask = c.opcode) := by
    intro h'
    simp [h'.1, h'.2] at h
  simp only [OnCall.apply, if_neg this]

/-- A slot that no rule of the list matches keeps its handler. -/
theorem foldl_apply_of_no_hit (s : Nat) :
    ∀ (cs : List OnCall) (tbl : HandlerTable), cs.all (fun c => !c.hits s) = true →
      (cs.foldl (fun t c => c.apply t) tbl) s = tbl s := by
  intro cs
  induction cs with
  | nil => intro tbl _; rfl
  | cons c cs ih =>
    intro tbl h
    rw [List.all_cons, Bool.and_eq_true] at h
    rw [List.foldl_cons, ih _ h.2]
    exact c.apply_of_not_hits tbl s (by simpa using h.1)

/-- A slot matched by the rule `c`, and by no rule after it, gets the handler of `c`. -/
theorem foldl_apply_of_last_hit (s : Nat) (pre post : List OnCall) (c : OnCall)
    (tbl : HandlerTable) (hc : c.hits s = true)
    (hpost : post.all (fun c => !c.hits s) = true) :
    ((pre ++ c :: post).foldl (fun t c => c.apply t) tbl) s = c.handler := by
  rw [List.foldl_append, List.foldl_cons, foldl_apply_of_no_hit s post _ hpost]
  exact c.apply_of_hits _ s hc

/-- A field of `k` bits inside the low 16 bits has `k` set bits. -/
theorem popcount16_field : ∀ k, k ≤ 16 → ∀ sh, sh ≤ 16 → k + sh ≤ 16 →
    popcount16 ((2 ^ k - 1) <<< sh) = k := by
  decide

/-- The field value `v` can be read back from the slot `opcode | (v << sh)` when `opcode` has no
bit inside the field. -/
theorem slot_field (opcode k sh v : Nat) (hv : v < 2 ^ k)
    (hd : ∀ i, opcode.testBit i = true → sh ≤ i → i - sh < k → False) :
    ((opcode ||| (v <<< sh)) >>> sh) % 2 ^ k = v := by
  apply Nat.eq_of_testBit_eq
  intro i
  simp only [Nat.testBit_mod_two_pow, Nat.testBit_shiftRight, Nat.testBit_or,
    Nat.testBit_shiftLeft]
  by_cases hi : i < k
  · have : opcode.testBit (sh + i) = false := by
      cases h : opcode.testBit (sh + i)
      · rfl
      · exact (hd (sh + i) h (by omega) (by omega)).elim
    simp [hi, this]
  · have : v.testBit i = false := testBit_eq_false_of_lt hv (by omega)
    simp [hi, this]

/-- Two rules that a common slot matches agree on the bits both masks keep. -/
theorem OnCall.hits_disjoint (c c' : OnCall) (s : Nat) (h : c.hits s = true)
    (hd : (c.opcode &&& c'.mask != c'.opcode &&& c.mask) = true) : c'.hits s = false := by
  unfold OnCall.hits at h ⊢
  simp only [Bool.and_eq_true, decide_eq_true_eq, beq_iff_eq] at h
  cases hh : (decide (s < 65536) && (s &&& c'.mask == c'.opcode))
  · rfl
  · exfalso
    simp only [Bool.and_eq_true, decide_eq_true_eq, beq_iff_eq] at hh
    have : c.opcode &&& c'.mask = c'.opcode &&& c.mask := by
      rw [← h.2, ← hh.2, Nat.land_assoc, Nat.land_assoc, Nat.land_comm c.mask]
    simp [this] at hd

/-- The table the constructor builds: `opInvalid` everywhere, then the rules in order. -/
theorem opcodeHandler_eq (o : Chip8EmulatorOptions) :
    Chip8EmulatorFP.opcodeHandler o = some (Chip8EmulatorFP.ruleTable o) := by
  unfold Chip8EmulatorFP.opcodeHandler Chip8EmulatorFP.ruleTable
  rw [setHandler_eq, setHandlerCalls_eq_rules]

/-- The handler of a slot is that of the rule at position `n` when the slot matches the rule
and no later rule can match it as well. -/
theorem opcodeHandler_at (o : Chip8EmulatorOptions) (n m p : Nat) (h : OpcodeHandler) (s : Nat)
    (hget : (Chip8EmulatorFP.setHandlerRules o)[n]? = some ⟨m, p, h⟩)
    (hs : s < 65536) (hhit : s &&& m = p)
    (hpost : ((callKeys o.behaviorBase).drop (n + 1)).all
      (fun k => p &&& k.1 != k.2 &&& m) = true) :
    (Chip8EmulatorFP.opcodeHandler o).map (fun tbl => tbl s) = some h := by
  rw [opcodeHandler_eq, Option.map_some']
  unfold Chip8EmulatorFP.ruleTable
  congr 1
  obtain ⟨hn, hget'⟩ := List.getElem?_eq_some.1 hget
  have hsplit : Chip8EmulatorFP.setHandlerRules o
      = (Chip8EmulatorFP.setHandlerRules o).take n
        ++ ⟨m, p, h⟩ :: (Chip8EmulatorFP.setHandlerRules o).drop (n + 1) := by
    rw [← hget', List.getElem_cons_drop _ n hn, List.take_append_drop]
  have hc : (OnCall.hits ⟨m, p, h⟩ s) = true := by
    simp [OnCall.hits, hs, hhit]
  rw [hsplit]
  have := foldl_apply_of_last_hit s ((Chip8EmulatorFP.setHandlerRules o).take n)
    ((Chip8EmulatorFP.setHandlerRules o).drop (n + 1)) ⟨m, p, h⟩ (fun _ => .opInvalid) hc ?_
  · exact this
  · rw [← setHandlerRules_keys, ← List.map_drop, List.all_eq_true] at hpost
    rw [List.all_eq_true]
    intro c' hc'
    have hd := hpost (c'.mask, c'.opcode) (List.mem_map_of_mem _ hc')
    rw [OnCall.hits_disjoint ⟨m, p, h⟩ c' s hc hd]
    rfl

/-- The table entry of every `2nnn`, for every option set. -/
theorem opcodeHandler_2nnn (o : Chip8EmulatorOptions) (s : Nat) (hs : s < 65536)
    (h : s &&& 0xF000 = 0x2000) :
    (Chip8EmulatorFP.opcodeHandler o).map (fun tbl => tbl s)
      = some (if o.optCyclicStack then .op2nnn_cyclic else .op2nnn) := by
  refine opcodeHandler_at o 3 0xF000 0x2000 _ s (by rfl) hs h ?_
  cases o.behaviorBase <;> first | decide | (rw [callKeys_other]; decide)

/-- The table entry of `00EE`, for every option set. -/
theorem opcodeHandler_00EE (o : Chip8EmulatorOptions) :
    (Chip8EmulatorFP.opcodeHandler o).map (fun tbl => tbl 0x00EE)
      = some (if o.optCyclicStack then .op00EE_cyclic else .op00EE) := by
  refine opcodeHandler_at o 1 0xFFFF 0x00EE _ 0x00EE (by rfl) (by decide) (by decide) ?_
  cases o.behaviorBase <;> first | decide | (rw [callKeys_other]; decide)

/-- The table entry of every `Fx55`, for every option set. -/
theorem opcodeHandler_Fx55 (o : Chip8EmulatorOptions) (s : Nat) (hs : s < 65536)
    (h : s &&& 0xF0FF = 0xF055) :
    (Chip8EmulatorFP.opcodeHandler o).map (fun tbl => tbl s)
      = some (if o.optLoadStoreIncIByX then .opFx55_loadStoreIncIByX
          else (if o.optLoadStoreDontIncI then .opFx55_loadStoreDontIncI else .opFx55)) := by
  by_cases hx : o.behaviorBase = .eCHIP8X
  · refine opcodeHandler_at o 31 0xF0FF 0xF055 _ s ?_ hs h ?_
    · simp only [Chip8EmulatorFP.setHandlerRules, hx]; rfl
    · rw [hx]; decide
  · refine opcodeHandler_at o 32 0xF0FF 0xF055 _ s ?_ hs h ?_
    · simp only [Chip8EmulatorFP.setHandlerRules, if_pos hx]; rfl
    · revert hx
      cases o.behaviorBase <;> intro hx <;>
        first | exact absurd rfl hx | decide | (rw [callKeys_other]; decide)

/-- The table entry of every `Fx65`, for every option set. -/
theorem opcodeHandler_Fx65 (o : Chip8EmulatorOptions) (s : Nat) (hs : s < 65536)
    (h : s &&& 0xF0FF = 0xF065) :
    (Chip8EmulatorFP.opcodeHandler o).map (fun tbl => tbl s)
      = some (if o.optLoadStoreIncIByX then .opFx65_loadStoreIncIByX
          else (if o.optLoadStoreDontIncI then .opFx65_loadStoreDontIncI else .opFx65)) := by
  by_cases hx : o.behaviorBase = .eCHIP8X
  · refine opcodeHandler_at o 32 0xF0FF 0xF065 _ s ?_ hs h ?_
    · simp only [Chip8EmulatorFP.setHandlerRules, hx, ne_eq, not_true_eq_false, if_false,
        List.append_assoc, List.cons_append, List.nil_append, List.getElem?_cons_succ,
        List.getElem?_cons_zero]
    · rw [hx]; decide
  · refine opcodeHandler_at o 33 0xF0FF 0xF065 _ s ?_ hs h ?_
    · simp only [Chip8EmulatorFP.setHandlerRules, if_pos hx, List.append_assoc,
        List.cons_append, List.nil_append, List.getElem?_cons_succ, List.getElem?_cons_zero]
    · revert hx
      cases o.behaviorBase <;> intro hx <;>
        first | exact absurd rfl hx | decide | (rw [callKeys_other]; decide)

/-! ### `Fx55` / `Fx65` -/

/-- The three values of `ADDRESS_MASK`. -/
theorem ADDRESS_MASK_cases (o : Chip8EmulatorOptions) :
    Chip8EmulatorFP.ADDRESS_MASK o = 2 ^ 24 - 1 ∨ Chip8EmulatorFP.ADDRESS_MASK o = 2 ^ 16 - 1
      ∨ Chip8EmulatorFP.ADDRESS_MASK o = 2 ^ 12 - 1 := by
  unfold Chip8EmulatorFP.ADDRESS_MASK
  split_ifs
  · exact Or.inl (by norm_num)
  · exact Or.inr (Or.inl (by norm_num))
  · exact Or.inr (Or.inr (by norm_num))

/-- Masking with `ADDRESS_MASK` is reduction modulo the memory size. -/
theorem and_ADDRESS_MASK (o : Chip8EmulatorOptions) (x : Nat) :
    x &&& Chip8EmulatorFP.ADDRESS_MASK o = x % (Chip8EmulatorFP.ADDRESS_MASK o + 1) := by
  rcases ADDRESS_MASK_cases o with h | h | h <;> rw [h, Nat.and_pow_two_sub_one_eq_mod] <;> rfl

/-- The function `memSize()` returns `ADDRESS_MASK + 1`. -/
theorem memSize_eq (o : Chip8EmulatorOptions) :
    Chip8EmulatorBase.memSize o = Chip8EmulatorFP.ADDRESS_MASK o + 1 := by
  unfold Chip8EmulatorBase.memSize Chip8EmulatorBase.memoryBufferSize
    Chip8EmulatorFP.ADDRESS_MASK
  split_ifs <;> rfl

/-- The 32-bit wrap of an address sum disappears under `ADDRESS_MASK`. -/
theorem wrap_and_ADDRESS_MASK (o : Chip8EmulatorOptions) (x : Nat) :
    (x % 4294967296) &&& Chip8EmulatorFP.ADDRESS_MASK o = x &&& Chip8EmulatorFP.ADDRESS_MASK o := by
  rw [and_ADDRESS_MASK, and_ADDRESS_MASK]
  rcases ADDRESS_MASK_cases o with h | h | h <;> rw [h] <;> omega

/-- The addresses of one `Fx55`/`Fx65` are pairwise different. -/
theorem loadStore_addr_inj (o : Chip8EmulatorOptions) (rI i j : Nat) (hi : i < 16) (hj : j < 16)
    (h : ((rI + i) % 4294967296) &&& Chip8EmulatorFP.ADDRESS_MASK o
       = ((rI + j) % 4294967296) &&& Chip8EmulatorFP.ADDRESS_MASK o) : i = j := by
  rw [wrap_and_ADDRESS_MASK, wrap_and_ADDRESS_MASK, and_ADDRESS_MASK, and_ADDRESS_MASK] at h
  rcases ADDRESS_MASK_cases o with h' | h' | h' <;> rw [h'] at h <;> omega

/-- The store loop changes the memory only. -/
theorem fx55Loop_eq (mask : Nat) (s : Chip8EmulatorBase) (n : Nat) :
    fx55Loop mask s n = { s with memory := (fx55Loop mask s n).memory } := by
  induction n with
  | zero => rfl
  | succ n ih =>
    rw [fx55Loop]
    simp only []
    rw [ih]

/-- The store loop leaves `I`. -/
theorem fx55Loop_rI (mask : Nat) (s : Chip8EmulatorBase) (n : Nat) :
    (fx55Loop mask s n).rI = s.rI := by
  rw [fx55Loop_eq]

/-- The store loop leaves the V registers. -/
theorem fx55Loop_rV (mask : Nat) (s : Chip8EmulatorBase) (n : Nat) :
    (fx55Loop mask s n).rV = s.rV := by
  rw [fx55Loop_eq]

/-- After `n` rounds of the store loop the byte at the `i`-th address is `V[i]`. -/
theorem fx55Loop_memory (o : Chip8EmulatorOptions) (s : Chip8EmulatorBase) (n : Nat)
    (hn : n ≤ 16) (i : Nat) (hi : i < n) :
    (fx55Loop (Chip8EmulatorFP.ADDRESS_MASK o) s n).memory
      (((s.rI + i) % 4294967296) &&& Chip8EmulatorFP.ADDRESS_MASK o) = s.rV i := by
  induction n with
  | zero => omega
  | succ n ih =>
    rw [fx55Loop]
    simp only [fx55Loop_rI, fx55Loop_rV, arrStore]
    by_cases hin : i = n
    · subst hin
      simp
    · have hne : ((s.rI + i) % 4294967296) &&& Chip8EmulatorFP.ADDRESS_MASK o
          ≠ ((s.rI + n) % 4294967296) &&& Chip8EmulatorFP.ADDRESS_MASK o :=
        fun h => hin (loadStore_addr_inj o s.rI i n (by omega) (by omega) h)
      rw [if_neg hne]
      exact ih (by omega) (by omega)

/-- The store part of `Fx55` leaves `I`. -/
theorem fx55Store_rI (o : Chip8EmulatorOptions) (upto : Nat) (s : Chip8EmulatorBase) :
    (fx55Store o upto s).rI = s.rI := by
  unfold fx55Store
  simp only []
  split_ifs <;> simp [Chip8EmulatorBase.fixupSafetyPad, fx55Loop_rI]

/-- The store part of `Fx55` leaves the V registers. -/
theorem fx55Store_rV (o : Chip8EmulatorOptions) (upto : Nat) (s : Chip8EmulatorBase) :
    (fx55Store o upto s).rV = s.rV := by
  unfold fx55Store
  simp only []
  split_ifs <;> simp [Chip8EmulatorBase.fixupSafetyPad, fx55Loop_rV]

/-- After the store part of `Fx55` the byte at the `i`-th address is `V[i]`, also when the
safety pad was fixed up. -/
theorem fx55Store_memory (o : Chip8EmulatorOptions) (upto : Nat) (s : Chip8EmulatorBase)
    (hu : upto < 16) (i : Nat) (hi : i ≤ upto) :
    (fx55Store o upto s).memory
      (((s.rI + i) % 4294967296) &&& Chip8EmulatorFP.ADDRESS_MASK o) = s.rV i := by
  have hle : ((s.rI + i) % 4294967296) &&& Chip8EmulatorFP.ADDRESS_MASK o
      ≤ Chip8EmulatorFP.ADDRESS_MASK o := Nat.and_le_right
  have hm := fx55Loop_memory o s (upto + 1) (by omega) i (by omega)
  unfold fx55Store
  simp only []
  split_ifs
  · simp only [Chip8EmulatorBase.fixupSafetyPad, arrStore, memSize_eq]
    rw [if_neg (by omega)]
    exact hm
  · exact hm

/-- The load loop changes the V registers only. -/
theorem fx65Loop_eq (mask : Nat) (s : Chip8EmulatorBase) (n : Nat) :
    fx65Loop mask s n = { s with rV := (fx65Loop mask s n).rV } := by
  induction n with
  | zero => rfl
  | succ n ih =>
    rw [fx65Loop]
    simp only []
    rw [ih]

/-- The load loop leaves `I`. -/
theorem fx65Loop_rI (mask : Nat) (s : Chip8EmulatorBase) (n : Nat) :
    (fx65Loop mask s n).rI = s.rI := by
  rw [fx65Loop_eq]

/-- The load loop leaves the memory. -/
theorem fx65Loop_memory (mask : Nat) (s : Chip8EmulatorBase) (n : Nat) :
    (fx65Loop mask s n).memory = s.memory := by
  rw [fx65Loop_eq]

/-- After `n` rounds of the load loop the registers below `n` hold the bytes at their addresses
and the others are untouched. -/
theorem fx65Loop_rV (mask : Nat) (s : Chip8EmulatorBase) (n i : Nat) :
    (fx65Loop mask s n).rV i
      = if i < n then s.memory (((s.rI + i) % 4294967296) &&& mask) else s.rV i := by
  induction n with
  | zero => simp [fx65Loop]
  | succ n ih =>
    rw [fx65Loop]
    simp only [fx65Loop_rI, fx65Loop_memory, arrStore]
    by_cases hin : i = n
    · subst hin
      simp
    · rw [if_neg hin, ih]
      by_cases h1 : i < n
      · rw [if_pos h1, if_pos (by omega)]
      · rw [if_neg h1, if_neg (by omega)]

/-- The register index `x` of an opcode is below 16. -/
theorem nibble_lt (opcode : Nat) : (opcode >>> 8) &&& 0xF < 16 :=
  Nat.lt_succ_of_le Nat.and_le_right

/-- The round trip for one choice of store and load handler: any two functions that store like
`fx55Store` and load like `fx65Loop`, whatever they do to `I` afterwards. -/
theorem loadStore_roundtrip (o : Chip8EmulatorOptions) (s : Chip8EmulatorBase)
    (x : Nat) (hx : x < 16) (rV2 : Nat → Nat) (s1 s2 s3 : Chip8EmulatorBase)
    (h1 : s1.memory = (fx55Store o x s).memory)
    (h2 : s2 = { s1 with rI := s.rI, rV := rV2 })
    (h3 : s3.rV = (fx65Loop (Chip8EmulatorFP.ADDRESS_MASK o) s2 (x + 1)).rV) :
    (∀ i, i ≤ x → s3.rV i = s.rV i) ∧ (∀ i, x < i → s3.rV i = rV2 i) := by
  subst h2
  constructor
  · intro i hi
    rw [h3, fx65Loop_rV, if_pos (by omega)]
    simp only [h1]
    exact fx55Store_memory o x s hx i hi
  · intro i hi
    rw [h3, fx65Loop_rV, if_neg (by omega)]

/-- Reading a slot of the table the constructor built. -/
theorem table_get {o : Chip8EmulatorOptions} {tbl : HandlerTable} {s : Nat} {h : OpcodeHandler}
    (hT : Chip8EmulatorFP.opcodeHandler o = some tbl)
    (hl : (Chip8EmulatorFP.opcodeHandler o).map (fun tbl => tbl s) = some h) : tbl s = h := by
  rw [hT, Option.map_some'] at hl
  exact Option.some.inj hl

/-- A fetched opcode has 16 bits. -/
theorem fetchOpcode_lt (s : Chip8EmulatorBase) : Chip8EmulatorFP.fetchOpcode s < 65536 :=
  Nat.mod_lt _ (by decide)

/-! ### The stack -/

/-- A `2nnn` fetched on the fast path of a variant without cyclic stack runs `op2nnn` on the
state after the fetch. -/
theorem fetchAndDispatch_2nnn (o : Chip8EmulatorOptions) (tbl : HandlerTable)
    (ext : HandlerSemantics) (s : Chip8EmulatorBase)
    (hT : Chip8EmulatorFP.opcodeHandler o = some tbl) (hcyc : o.optCyclicStack = false)
    (hop : Chip8EmulatorFP.fetchOpcode s &&& 0xF000 = 0x2000) :
    Chip8EmulatorFP.fetchAndDispatch o tbl ext s
      = Chip8EmulatorFP.op2nnn (Chip8EmulatorFP.fetchOpcode s)
          { s with cycleCounter := s.cycleCounter + 1,
                   rPC := Chip8EmulatorFP.returnAddress o s } := by
  have ht := table_get hT (opcodeHandler_2nnn o _ (fetchOpcode_lt s) hop)
  unfold Chip8EmulatorFP.fetchAndDispatch
  simp only [ht, hcyc]
  rfl

/-- A `00EE` fetched in Running mode of a variant without cyclic stack runs `op00EE` on the
state after the fetch. -/
theorem fetchAndDispatch_00EE (o : Chip8EmulatorOptions) (tbl : HandlerTable)
    (ext : HandlerSemantics) (s : Chip8EmulatorBase)
    (hT : Chip8EmulatorFP.opcodeHandler o = some tbl) (hcyc : o.optCyclicStack = false)
    (hop : Chip8EmulatorFP.fetchOpcode s = 0x00EE) :
    Chip8EmulatorFP.fetchAndDispatch o tbl ext s
      = Chip8EmulatorFP.op00EE 0x00EE
          { s with cycleCounter := s.cycleCounter + 1,
                   rPC := Chip8EmulatorFP.returnAddress o s } := by
  have ht := table_get hT (opcodeHandler_00EE o)
  unfold Chip8EmulatorFP.fetchAndDispatch
  simp only [hop, ht, hcyc]
  rfl

/-- What `op2nnn` does below the overflow depth. -/
theorem op2nnn_of_lt (opcode : Nat) (s : Chip8EmulatorBase) (h : s.rSP < 16) :
    Chip8EmulatorFP.op2nnn opcode s
      = { s with stack := arrStore s.stack s.rSP (s.rPC % 65536), rSP := s.rSP + 1,
                 rPC := opcode &&& 0xFFF } := by
  unfold Chip8EmulatorFP.op2nnn
  have h1 : ¬ s.rSP = 16 := by omega
  have h2 : (s.rSP + 1) % 256 = s.rSP + 1 := Nat.mod_eq_of_lt (by omega)
  simp only [if_neg h1, h2]

/-- The invariant of a run of nested calls: depth, CPU state, mode, memory and the stack
slots already pushed. -/
theorem calls_invariant (o : Chip8EmulatorOptions) (tbl : HandlerTable)
    (ext : HandlerSemantics) (s : Chip8EmulatorBase)
    (hT : Chip8EmulatorFP.opcodeHandler o = some tbl) (hcyc : o.optCyclicStack = false)
    (hsp : s.rSP = 0)
    (hcalls : ∀ i, i ≤ 16 →
      Chip8EmulatorFP.fetchOpcode (Chip8EmulatorFP.runNoBreakpoints o tbl ext i s) &&& 0xF000
        = 0x2000) :
    ∀ n, n ≤ 16 →
      (Chip8EmulatorFP.runNoBreakpoints o tbl ext n s).rSP = n
      ∧ (Chip8EmulatorFP.runNoBreakpoints o tbl ext n s).cpuState = s.cpuState
      ∧ (Chip8EmulatorFP.runNoBreakpoints o tbl ext n s).execMode = s.execMode
      ∧ (∀ i, i < n → (Chip8EmulatorFP.runNoBreakpoints o tbl ext n s).stack i
          = Chip8EmulatorFP.returnAddress o (Chip8EmulatorFP.runNoBreakpoints o tbl ext i s)
              % 65536)
      ∧ (0 < n → (Chip8EmulatorFP.runNoBreakpoints o tbl ext n s).rPC ≤ 0xFFF) := by
  intro n
  induction n with
  | zero =>
    intro _
    exact ⟨hsp, rfl, rfl, fun i hi => absurd hi (Nat.not_lt_zero i), fun h => absurd h (by decide)⟩
  | succ n ih =>
    intro hn
    obtain ⟨h1, h2, h3, h4, _⟩ := ih (by omega)
    have hstep : Chip8EmulatorFP.runNoBreakpoints o tbl ext (n + 1) s
        = Chip8EmulatorFP.fetchAndDispatch o tbl ext
            (Chip8EmulatorFP.runNoBreakpoints o tbl ext n s) := rfl
    rw [hstep, fetchAndDispatch_2nnn o tbl ext _ hT hcyc (hcalls n (by omega)),
      op2nnn_of_lt _ _ (by show (Chip8EmulatorFP.runNoBreakpoints o tbl ext n s).rSP < 16; omega)]
    refine ⟨by simp only [h1], h2, h3, ?_, fun _ => Nat.and_le_right⟩
    intro i hi
    simp only [arrStore, h1]
    by_cases hin : i = n
    · rw [if_pos hin, hin]
    · rw [if_neg hin]
      exact h4 i (by omega)

/-- The cyclic call leaves the CPU state. -/
theorem op2nnn_cyclic_cpuState (opcode : Nat) (s : Chip8EmulatorBase) :
    (Chip8EmulatorFP.op2nnn_cyclic opcode s).cpuState = s.cpuState := rfl

/-- The cyclic return leaves the CPU state. -/
theorem op00EE_cyclic_cpuState (opcode : Nat) (s : Chip8EmulatorBase) :
    (Chip8EmulatorFP.op00EE_cyclic opcode s).cpuState = s.cpuState := by
  unfold Chip8EmulatorFP.op00EE_cyclic
  simp only []
  split_ifs <;> rfl

/-- No run of cyclic calls and returns changes the CPU state. -/
theorem runStackOps_cyclic_cpuState (ops : List Nat) :
    ∀ s : Chip8EmulatorBase, (runStackOps true ops s).cpuState = s.cpuState := by
  induction ops with
  | nil => intro s; rfl
  | cons opcode rest ih =>
    intro s
    rw [runStackOps, ih]
    simp only [if_true]
    split_ifs
    · exact op2nnn_cyclic_cpuState opcode s
    · exact op00EE_cyclic_cpuState opcode s

/-! ### Execution modes, timers and register instructions -/

/-- The table entry of every `1nnn`, for every option set. -/
theorem opcodeHandler_1nnn (o : Chip8EmulatorOptions) (s : Nat) (hs : s < 65536)
    (h : s &&& 0xF000 = 0x1000) :
    (Chip8EmulatorFP.opcodeHandler o).map (fun tbl => tbl s) = some .op1nnn := by
  refine opcodeHandler_at o 2 0xF000 0x1000 _ s (by rfl) hs h ?_
  cases o.behaviorBase <;> first | decide | (rw [callKeys_other]; decide)

/-- The table entry of every `8xy1`, for every option set. -/
theorem opcodeHandler_8xy1 (o : Chip8EmulatorOptions) (s : Nat) (hs : s < 65536)
    (h : s &&& 0xF00F = 0x8001) :
    (Chip8EmulatorFP.opcodeHandler o).map (fun tbl => tbl s)
      = some (if o.optDontResetVf then .op8xy1_dontResetVf else .op8xy1) := by
  refine opcodeHandler_at o 10 0xF00F 0x8001 _ s (by rfl) hs h ?_
  cases o.behaviorBase <;> first | decide | (rw [callKeys_other]; decide)

/-- The table entry of every `8xy2`, for every option set. -/
theorem opcodeHandler_8xy2 (o : Chip8EmulatorOptions) (s : Nat) (hs : s < 65536)
    (h : s &&& 0xF00F = 0x8002) :
    (Chip8EmulatorFP.opcodeHandler o).map (fun tbl => tbl s)
      = some (if o.optDontResetVf then .op8xy2_dontResetVf else .op8xy2) := by
  refine opcodeHandler_at o 11 0xF00F 0x8002 _ s (by rfl) hs h ?_
  cases o.behaviorBase <;> first | decide | (rw [callKeys_other]; decide)

/-- The table entry of every `8xy3`, for every option set. -/
theorem opcodeHandler_8xy3 (o : Chip8EmulatorOptions) (s : Nat) (hs : s < 65536)
    (h : s &&& 0xF00F = 0x8003) :
    (Chip8EmulatorFP.opcodeHandler o).map (fun tbl => tbl s)
      = some (if o.optDontResetVf then .op8xy3_dontResetVf else .op8xy3) := by
  refine opcodeHandler_at o 12 0xF00F 0x8003 _ s (by rfl) hs h ?_
  cases o.behaviorBase <;> first | decide | (rw [callKeys_other]; decide)

/-- The table entry of every `8xy6`, for every option set. -/
theorem opcodeHandler_8xy6 (o : Chip8EmulatorOptions) (s : Nat) (hs : s < 65536)
    (h : s &&& 0xF00F = 0x8006) :
    (Chip8EmulatorFP.opcodeHandler o).map (fun tbl => tbl s)
      = some (if o.optJustShiftVx then .op8xy6_justShiftVx else .op8xy6) := by
  refine opcodeHandler_at o 15 0xF00F 0x8006 _ s (by rfl) hs h ?_
  cases o.behaviorBase <;> first | decide | (rw [callKeys_other]; decide)

/-- The table entry of every `8xyE`, for every option set. -/
theorem opcodeHandler_8xyE (o : Chip8EmulatorOptions) (s : Nat) (hs : s < 65536)
    (h : s &&& 0xF00F = 0x800E) :
    (Chip8EmulatorFP.opcodeHandler o).map (fun tbl => tbl s)
      = some (if o.optJustShiftVx then .op8xyE_justShiftVx else .op8xyE) := by
  refine opcodeHandler_at o 17 0xF00F 0x800E _ s (by rfl) hs h ?_
  cases o.behaviorBase <;> first | decide | (rw [callKeys_other]; decide)

/-- The table entry of every `Fx0A`, for every option set. -/
theorem opcodeHandler_Fx0A (o : Chip8EmulatorOptions) (s : Nat) (hs : s < 65536)
    (h : s &&& 0xF0FF = 0xF00A) :
    (Chip8EmulatorFP.opcodeHandler o).map (fun tbl => tbl s) = some .opFx0A := by
  by_cases hx : o.behaviorBase = .eCHIP8X
  · refine opcodeHandler_at o 25 0xF0FF 0xF00A _ s ?_ hs h ?_
    · simp only [Chip8EmulatorFP.setHandlerRules, hx]; rfl
    · rw [hx]; decide
  · refine opcodeHandler_at o 26 0xF0FF 0xF00A _ s ?_ hs h ?_
    · simp only [Chip8EmulatorFP.setHandlerRules, if_pos hx]; rfl
    · revert hx
      cases o.behaviorBase <;> intro hx <;>
        first | exact absurd rfl hx | decide | (rw [callKeys_other]; decide)

/-- The store loop of `op5xy2` changes the memory only. -/
theorem op5xy2Loop_eq (mask x y : Nat) (s : Chip8EmulatorBase) (n : Nat) :
    op5xy2Loop mask x y s n = { s with memory := (op5xy2Loop mask x y s n).memory } := by
  induction n with
  | zero => rfl
  | succ n ih =>
    rw [op5xy2Loop]
    simp only []
    rw [ih]

/-- The handler `op5xy2` changes the memory only. -/
theorem op5xy2_eq (o : Chip8EmulatorOptions) (opcode : Nat) (s : Chip8EmulatorBase) :
    Chip8EmulatorFP.op5xy2 o opcode s
      = { s with memory := (Chip8EmulatorFP.op5xy2 o opcode s).memory } := by
  simp only [Chip8EmulatorFP.op5xy2, Chip8EmulatorBase.fixupSafetyPad]
  split_ifs <;> rw [op5xy2Loop_eq]

/-- The handler `op5xy2` leaves the execution mode alone. -/
theorem op5xy2_execMode (o : Chip8EmulatorOptions) (opcode : Nat) (s : Chip8EmulatorBase) :
    (Chip8EmulatorFP.op5xy2 o opcode s).execMode = s.execMode := by
  rw [op5xy2_eq]

/-- The handler `op5xy2` leaves the breakpoints alone. -/
theorem op5xy2_breakpoints (o : Chip8EmulatorOptions) (opcode : Nat) (s : Chip8EmulatorBase) :
    (Chip8EmulatorFP.op5xy2 o opcode s).breakpoints = s.breakpoints := by
  rw [op5xy2_eq]

/-- The load and store loops leave the execution mode alone. -/
theorem fx55Store_execMode (o : Chip8EmulatorOptions) (upto : Nat) (s : Chip8EmulatorBase) :
    (fx55Store o upto s).execMode = s.execMode := by
  simp only [fx55Store, Chip8EmulatorBase.fixupSafetyPad]
  split_ifs <;> rw [fx55Loop_eq]

/-- The load loop leaves the execution mode alone. -/
theorem fx65Loop_execMode (mask : Nat) (s : Chip8EmulatorBase) (n : Nat) :
    (fx65Loop mask s n).execMode = s.execMode := by
  rw [fx65Loop_eq]

set_option maxHeartbeats 1000000 in
/-- Every embedded handler leaves the execution mode alone or pauses; so does the dispatch,
when the handlers that are not embedded do. -/
theorem invoke_execMode (o : Chip8EmulatorOptions) (ext : HandlerSemantics)
    (hext : ∀ h opcode t, (ext h opcode t).execMode = t.execMode
      ∨ (ext h opcode t).execMode = .ePAUSED)
    (h : OpcodeHandler) (opcode : Nat) (s : Chip8EmulatorBase) :
    (Chip8EmulatorFP.invoke o ext h opcode s).execMode = s.execMode
      ∨ (Chip8EmulatorFP.invoke o ext h opcode s).execMode = .ePAUSED := by
  cases h <;> first
    | exact hext _ _ _
    | exact Or.inl rfl
    | exact Or.inr rfl
    | exact Or.inl (fx55Store_execMode o _ s)
    | exact Or.inl (fx65Loop_execMode _ s _)
    | exact Or.inl (op5xy2_execMode o _ s)
    | (simp only [Chip8EmulatorFP.invoke, Chip8EmulatorFP.op00EE, Chip8EmulatorFP.op00EE_cyclic,
        Chip8EmulatorFP.op2nnn, Chip8EmulatorFP.op2nnn_cyclic, Chip8EmulatorFP.op1nnn,
        Chip8EmulatorFP.opFx0A, Chip8EmulatorBase.errorHalt, Chip8EmulatorFP.op3xnn,
        Chip8EmulatorFP.op4xnn, Chip8EmulatorFP.op5xy0, Chip8EmulatorFP.op9xy0,
        Chip8EmulatorFP.op3xnn_with_F000, Chip8EmulatorFP.op4xnn_with_F000,
        Chip8EmulatorFP.op5xy0_with_F000, Chip8EmulatorFP.op9xy0_with_F000,
        Chip8EmulatorFP.skipWithF000]
       split_ifs <;> first | exact Or.inl rfl | exact Or.inr rfl)

/-- The program counter after the fetch of an instruction that does not end in the last two
bytes of the address space. -/
theorem returnAddress_of_le (o : Chip8EmulatorOptions) (s : Chip8EmulatorBase)
    (hpc : s.rPC + 2 ≤ Chip8EmulatorFP.ADDRESS_MASK o) :
    ((s.rPC + 2) % 4294967296) &&& Chip8EmulatorFP.ADDRESS_MASK o = s.rPC + 2 := by
  rw [wrap_and_ADDRESS_MASK, and_ADDRESS_MASK]
  exact Nat.mod_eq_of_lt (by omega)

/-- Rewinding the program counter by 2 after such a fetch gives the address of the
instruction. -/
theorem rewind_of_le (o : Chip8EmulatorOptions) (s : Chip8EmulatorBase)
    (hpc : s.rPC + 2 ≤ Chip8EmulatorFP.ADDRESS_MASK o) :
    (s.rPC + 2 + 4294967296 - 2) % 4294967296 = s.rPC := by
  rcases ADDRESS_MASK_cases o with h | h | h <;> rw [h] at hpc <;> omega

/-- The function `setExecMode` with a mode other than StepOver changes the mode only. -/
theorem setExecMode_of_ne (mode : ExecMode) (s : Chip8EmulatorBase) (h : mode ≠ .eSTEPOVER) :
    s.setExecMode mode = { s with execMode := mode } := by
  unfold Chip8EmulatorBase.setExecMode
  simp only [if_neg h]

/-- An `Fx0A` fetched through the table of any option set runs `opFx0A` on the state after the
fetch. -/
theorem fetchAndDispatch_Fx0A (o : Chip8EmulatorOptions) (tbl : HandlerTable)
    (ext : HandlerSemantics) (s : Chip8EmulatorBase)
    (hT : Chip8EmulatorFP.opcodeHandler o = some tbl)
    (hop : Chip8EmulatorFP.fetchOpcode s &&& 0xF0FF = 0xF00A) :
    Chip8EmulatorFP.fetchAndDispatch o tbl ext s
      = Chip8EmulatorFP.opFx0A (Chip8EmulatorFP.fetchOpcode s)
          { s with cycleCounter := s.cycleCounter + 1,
                   rPC := Chip8EmulatorFP.returnAddress o s } := by
  have ht := table_get hT (opcodeHandler_Fx0A o _ (fetchOpcode_lt s) hop)
  unfold Chip8EmulatorFP.fetchAndDispatch
  simp only [ht]
  rfl

/-- The breakpoint check changes the execution mode at most. -/
theorem checkBreakpoint_eq (s : Chip8EmulatorBase) :
    Chip8EmulatorFP.checkBreakpoint s
      = { s with execMode := (Chip8EmulatorFP.checkBreakpoint s).execMode } := by
  unfold Chip8EmulatorFP.checkBreakpoint
  split_ifs <;> rfl

/-- The key value `k + 1` of the host is stored as `k`. -/
theorem key_byte (k : Nat) (hk : k < 16) : ((((k : Int) + 1) - 1) % 256).toNat = k := by
  omega

/-- An `Fx0A` that finds key `k` pressed: the state after fetch and dispatch. -/
theorem fetchAndDispatch_Fx0A_key (o : Chip8EmulatorOptions) (tbl : HandlerTable)
    (ext : HandlerSemantics) (s : Chip8EmulatorBase) (k : Nat)
    (hT : Chip8EmulatorFP.opcodeHandler o = some tbl)
    (hop : Chip8EmulatorFP.fetchOpcode s &&& 0xF0FF = 0xF00A)
    (hkey : s.keyPressed = (k : Int) + 1) (hk : k < 16) :
    Chip8EmulatorFP.fetchAndDispatch o tbl ext s
      = { s with cycleCounter := s.cycleCounter + 1,
                 rPC := Chip8EmulatorFP.returnAddress o s,
                 rV := arrStore s.rV ((Chip8EmulatorFP.fetchOpcode s >>> 8) &&& 0xF) k,
                 cpuState := .eNORMAL } := by
  have hne : ((k : Int) + 1) ≠ 0 := by omega
  rw [fetchAndDispatch_Fx0A o tbl ext s hT hop]
  unfold Chip8EmulatorFP.opFx0A
  simp only [hkey, hne, ne_eq, not_false_eq_true, if_true, key_byte k hk]

/-- An `Fx0A` that finds no key pressed: the state after fetch and dispatch. -/
theorem fetchAndDispatch_Fx0A_none (o : Chip8EmulatorOptions) (tbl : HandlerTable)
    (ext : HandlerSemantics) (s : Chip8EmulatorBase)
    (hT : Chip8EmulatorFP.opcodeHandler o = some tbl)
    (hop : Chip8EmulatorFP.fetchOpcode s &&& 0xF0FF = 0xF00A)
    (hkey : s.keyPressed = 0) :
    Chip8EmulatorFP.fetchAndDispatch o tbl ext s
      = { s with cycleCounter := s.cycleCounter + 1,
                 rPC := (Chip8EmulatorFP.returnAddress o s + 4294967296 - 2) % 4294967296,
                 cpuState := .eWAITING } := by
  rw [fetchAndDispatch_Fx0A o tbl ext s hT hop]
  unfold Chip8EmulatorFP.opFx0A
  simp only [hkey, ne_eq, not_true_eq_false, if_false]

/-- A paused machine does not execute. -/
theorem executeInstruction_paused (o : Chip8EmulatorOptions) (tbl : HandlerTable)
    (ext : HandlerSemantics) (s : Chip8EmulatorBase) (h : s.execMode = .ePAUSED) :
    Chip8EmulatorFP.executeInstruction o tbl ext s = s := by
  unfold Chip8EmulatorFP.executeInstruction
  rw [if_neg (by rw [h]; decide), if_pos (Or.inl h)]

/-- A loop of `executeInstruction` on a paused machine changes nothing. -/
theorem executeInstructionLoop_paused (o : Chip8EmulatorOptions) (tbl : HandlerTable)
    (ext : HandlerSemantics) (n : Nat) (s : Chip8EmulatorBase) (h : s.execMode = .ePAUSED) :
    Chip8EmulatorFP.executeInstructionLoop o tbl ext n s = s := by
  induction n with
  | zero => rfl
  | succ n ih =>
    unfold Chip8EmulatorFP.executeInstructionLoop
    rw [executeInstruction_paused o tbl ext s h, ih]

/-- The dispatch leaves the execution mode alone or pauses. -/
theorem fetchAndDispatch_execMode (o : Chip8EmulatorOptions) (tbl : HandlerTable)
    (ext : HandlerSemantics)
    (hext : ∀ h opcode t, (ext h opcode t).execMode = t.execMode
      ∨ (ext h opcode t).execMode = .ePAUSED) (s : Chip8EmulatorBase) :
    (Chip8EmulatorFP.fetchAndDispatch o tbl ext s).execMode = s.execMode
      ∨ (Chip8EmulatorFP.fetchAndDispatch o tbl ext s).execMode = .ePAUSED :=
  invoke_execMode o ext hext _ _ _

/-- One `executeInstruction` in Step mode: the instruction at PC is fetched and dispatched and
the machine is paused. -/
theorem executeInstruction_step (o : Chip8EmulatorOptions) (tbl : HandlerTable)
    (ext : HandlerSemantics)
    (hext : ∀ h opcode t, (ext h opcode t).execMode = t.execMode
      ∨ (ext h opcode t).execMode = .ePAUSED)
    (s : Chip8EmulatorBase) (hstep : s.execMode = .eSTEP) (hcpu : s.cpuState = .eNORMAL) :
    Chip8EmulatorFP.executeInstruction o tbl ext s
      = { Chip8EmulatorFP.fetchAndDispatch o tbl ext s with execMode := .ePAUSED } := by
  unfold Chip8EmulatorFP.executeInstruction
  rw [if_neg (by rw [hstep]; decide),
    if_neg (by rw [hstep, hcpu]; decide)]
  have hm := fetchAndDispatch_execMode o tbl ext hext s
  rw [hstep] at hm
  simp only []
  generalize Chip8EmulatorFP.fetchAndDispatch o tbl ext s = t at hm ⊢
  have hpause : t.execMode = .ePAUSED → t = { t with execMode := .ePAUSED } := by
    intro h
    cases t
    simp only at h
    subst h
    rfl
  rcases hm with hm | hm
  · rw [if_pos (Or.inl hm)]
    unfold Chip8EmulatorFP.checkBreakpoint
    split_ifs <;> rfl
  · rw [if_neg (by rw [hm]; rintro (h | ⟨h, _⟩) <;> exact absurd h (by decide))]
    unfold Chip8EmulatorFP.checkBreakpoint
    split_ifs
    · rfl
    · exact hpause hm
    · exact hpause hm

/-- The display-wait loop on a paused machine changes nothing. -/
theorem displayWaitLoop_paused (o : Chip8EmulatorOptions) (tbl : HandlerTable)
    (ext : HandlerSemantics) (n : Nat) (s : Chip8EmulatorBase) (h : s.execMode = .ePAUSED) :
    Chip8EmulatorFP.displayWaitLoop o tbl ext n s = s := by
  induction n with
  | zero => rfl
  | succ n ih =>
    unfold Chip8EmulatorFP.displayWaitLoop
    rw [if_neg (by rw [h]; rintro ⟨h1, _⟩; exact absurd h1 (by decide)),
      executeInstruction_paused o tbl ext s h, ih]

/-- The function `setExecMode(eSTEPOVER)` records the stack depth. -/
theorem setExecMode_stepOver (s : Chip8EmulatorBase) :
    s.setExecMode .eSTEPOVER = { s with execMode := .eSTEPOVER, stepOverSP := s.rSP } := by
  unfold Chip8EmulatorBase.setExecMode
  simp only [if_true]

/-- A `2nnn` below depth 16, under either stack policy: the depth grows by one, the execution
mode and the recorded depth stay. -/
theorem fetchAndDispatch_call_depth (o : Chip8EmulatorOptions) (tbl : HandlerTable)
    (ext : HandlerSemantics) (s : Chip8EmulatorBase)
    (hT : Chip8EmulatorFP.opcodeHandler o = some tbl)
    (hop : Chip8EmulatorFP.fetchOpcode s &&& 0xF000 = 0x2000) (hsp : s.rSP < 16) :
    (Chip8EmulatorFP.fetchAndDispatch o tbl ext s).rSP = s.rSP + 1
    ∧ (Chip8EmulatorFP.fetchAndDispatch o tbl ext s).execMode = s.execMode
    ∧ (Chip8EmulatorFP.fetchAndDispatch o tbl ext s).stepOverSP = s.stepOverSP := by
  have ht := table_get hT (opcodeHandler_2nnn o _ (fetchOpcode_lt s) hop)
  have h1 : ¬ s.rSP = 16 := by omega
  have h2 : (s.rSP + 1) % 256 = s.rSP + 1 := Nat.mod_eq_of_lt (by omega)
  unfold Chip8EmulatorFP.fetchAndDispatch
  cases hc : o.optCyclicStack <;>
    simp only [ht, hc, if_true, if_false, Bool.false_eq_true, Chip8EmulatorFP.invoke,
      Chip8EmulatorFP.op2nnn, Chip8EmulatorFP.op2nnn_cyclic, if_neg h1, h2] <;>
    exact ⟨trivial, trivial, trivial⟩

/-- A `00EE` at a depth above 0, under either stack policy, outside StepOut mode: the depth
shrinks by one, the execution mode and the recorded depth stay. -/
theorem fetchAndDispatch_return_depth (o : Chip8EmulatorOptions) (tbl : HandlerTable)
    (ext : HandlerSemantics) (s : Chip8EmulatorBase)
    (hT : Chip8EmulatorFP.opcodeHandler o = some tbl)
    (hop : Chip8EmulatorFP.fetchOpcode s = 0x00EE) (hsp : 0 < s.rSP) (hsp2 : s.rSP < 256)
    (hmode : s.execMode ≠ .eSTEPOUT) :
    (Chip8EmulatorFP.fetchAndDispatch o tbl ext s).rSP + 1 = s.rSP
    ∧ (Chip8EmulatorFP.fetchAndDispatch o tbl ext s).execMode = s.execMode
    ∧ (Chip8EmulatorFP.fetchAndDispatch o tbl ext s).stepOverSP = s.stepOverSP := by
  have ht := table_get hT (opcodeHandler_00EE o)
  have h1 : ¬ s.rSP = 0 := by omega
  have h2 : (s.rSP + 256 - 1) % 256 + 1 = s.rSP := by omega
  unfold Chip8EmulatorFP.fetchAndDispatch
  cases hc : o.optCyclicStack <;>
    simp only [hop, ht, hc, if_true, if_false, Bool.false_eq_true, Chip8EmulatorFP.invoke,
      Chip8EmulatorFP.op00EE, Chip8EmulatorFP.op00EE_cyclic, if_neg h1, if_neg hmode] <;>
    exact ⟨h2, trivial, trivial⟩

/-- A state whose execution mode is Paused is the state with the mode set to Paused. -/
theorem eq_pause_of_paused (t : Chip8EmulatorBase) (h : t.execMode = .ePAUSED) :
    t = { t with execMode := .ePAUSED } := by
  cases t
  simp only at h
  subst h
  rfl

/-- The breakpoint check leaves the state alone when no breakpoint is found at PC. -/
theorem checkBreakpoint_of_not_found (t : Chip8EmulatorBase)
    (ht : t.findBreakpoint t.rPC = false) : Chip8EmulatorFP.checkBreakpoint t = t := by
  unfold Chip8EmulatorFP.checkBreakpoint
  rw [ht]
  simp only [Bool.false_eq_true, if_false, ite_self]

/-- One `executeInstruction` in StepOver mode when no breakpoint is found at the new PC: the
instruction at PC is fetched and dispatched, and the machine is paused when the stack depth is
at most the recorded one. -/
theorem executeInstruction_stepOver (o : Chip8EmulatorOptions) (tbl : HandlerTable)
    (ext : HandlerSemantics)
    (hext : ∀ h opcode t, (ext h opcode t).execMode = t.execMode
      ∨ (ext h opcode t).execMode = .ePAUSED)
    (u : Chip8EmulatorBase) (hmode : u.execMode = .eSTEPOVER) (hcpu : u.cpuState = .eNORMAL)
    (hbp : (Chip8EmulatorFP.fetchAndDispatch o tbl ext u).findBreakpoint
      (Chip8EmulatorFP.fetchAndDispatch o tbl ext u).rPC = false) :
    Chip8EmulatorFP.executeInstruction o tbl ext u
      = if (Chip8EmulatorFP.fetchAndDispatch o tbl ext u).rSP
            ≤ (Chip8EmulatorFP.fetchAndDispatch o tbl ext u).stepOverSP then
          { Chip8EmulatorFP.fetchAndDispatch o tbl ext u with execMode := .ePAUSED }
        else Chip8EmulatorFP.fetchAndDispatch o tbl ext u := by
  unfold Chip8EmulatorFP.executeInstruction
  rw [if_neg (by rw [hmode]; decide), if_neg (by rw [hmode, hcpu]; decide)]
  have hm := fetchAndDispatch_execMode o tbl ext hext u
  rw [hmode] at hm
  simp only []
  generalize Chip8EmulatorFP.fetchAndDispatch o tbl ext u = r at hm hbp ⊢
  have hcb := checkBreakpoint_of_not_found
  by_cases hle : r.rSP ≤ r.stepOverSP
  · rw [if_pos hle]
    rcases hm with hm | hm
    · rw [if_pos (Or.inr ⟨hm, hle⟩)]
      exact hcb _ hbp
    · rw [if_neg (by rw [hm]; rintro (h | ⟨h, _⟩) <;> exact absurd h (by decide)), hcb _ hbp]
      exact eq_pause_of_paused r hm
  · rw [if_neg hle]
    rcases hm with hm | hm
    · rw [if_neg (by rw [hm]; rintro (h | ⟨_, h⟩)
                     · exact absurd h (by decide)
                     · exact hle h)]
      exact hcb _ hbp
    · rw [if_neg (by rw [hm]; rintro (h | ⟨h, _⟩) <;> exact absurd h (by decide))]
      exact hcb _ hbp

/-- The function `handleTimer` in closed form. -/
theorem handleTimer_eq (s : Chip8EmulatorBase) :
    s.handleTimer = { s with frameCounter := s.frameCounter + 1,
                             randomSeed := (s.randomSeed + 1) % 65536,
                             rDT := s.rDT - 1, rST := s.rST - 1 } := by
  unfold Chip8EmulatorBase.handleTimer
  simp only []
  by_cases h1 : 0 < s.rDT <;> by_cases h2 : 0 < s.rST
  · simp only [gt_iff_lt, h1, h2, if_true]
  · have : s.rST - 1 = s.rST := by omega
    simp only [gt_iff_lt, h1, h2, if_true, if_false, this]
  · have : s.rDT - 1 = s.rDT := by omega
    simp only [gt_iff_lt, h1, h2, if_true, if_false, this]
  · have e1 : s.rDT - 1 = s.rDT := by omega
    have e2 : s.rST - 1 = s.rST := by omega
    simp only [gt_iff_lt, h1, h2, if_false, e1, e2]

/-- The timers, the frame counter and the rest of the machine after `n` calls of
`handleTimer`. -/
theorem handleTimer_iterate (n : Nat) (s : Chip8EmulatorBase) :
    (Chip8EmulatorBase.handleTimer^[n] s).rDT = s.rDT - n
    ∧ (Chip8EmulatorBase.handleTimer^[n] s).rST = s.rST - n
    ∧ (Chip8EmulatorBase.handleTimer^[n] s).frameCounter = s.frameCounter + n
    ∧ (Chip8EmulatorBase.handleTimer^[n] s).rV = s.rV
    ∧ (Chip8EmulatorBase.handleTimer^[n] s).rI = s.rI
    ∧ (Chip8EmulatorBase.handleTimer^[n] s).rPC = s.rPC
    ∧ (Chip8EmulatorBase.handleTimer^[n] s).rSP = s.rSP
    ∧ (Chip8EmulatorBase.handleTimer^[n] s).stack = s.stack
    ∧ (Chip8EmulatorBase.handleTimer^[n] s).memory = s.memory := by
  induction n generalizing s with
  | zero => exact ⟨rfl, rfl, by simp, rfl, rfl, rfl, rfl, rfl, rfl⟩
  | succ n ih =>
    rw [Function.iterate_succ_apply]
    obtain ⟨h1, h2, h3, h4, h5, h6, h7, h8, h9⟩ := ih s.handleTimer
    rw [h1, h2, h3, h4, h5, h6, h7, h8, h9, handleTimer_eq]
    refine ⟨?_, ?_, ?_, rfl, rfl, rfl, rfl, rfl, rfl⟩
    · show s.rDT - 1 - n = s.rDT - (n + 1); omega
    · show s.rST - 1 - n = s.rST - (n + 1); omega
    · show s.frameCounter + 1 + (n : Int) = s.frameCounter + ((n + 1 : Nat) : Int)
      push_cast; ring

/-- Every embedded handler leaves the breakpoints alone; so does the dispatch, when the
handlers that are not embedded do. -/
theorem invoke_breakpoints (o : Chip8EmulatorOptions) (ext : HandlerSemantics)
    (hext : ∀ h opcode t, (ext h opcode t).breakpoints = t.breakpoints)
    (h : OpcodeHandler) (opcode : Nat) (s : Chip8EmulatorBase) :
    (Chip8EmulatorFP.invoke o ext h opcode s).breakpoints = s.breakpoints := by
  cases h <;> first
    | exact hext _ _ _
    | rfl
    | exact op5xy2_breakpoints o _ s
    | (simp only [Chip8EmulatorFP.invoke, Chip8EmulatorFP.opFx55,
        Chip8EmulatorFP.opFx55_loadStoreIncIByX, Chip8EmulatorFP.opFx55_loadStoreDontIncI,
        fx55Store, Chip8EmulatorBase.fixupSafetyPad]
       split_ifs <;> rw [fx55Loop_eq])
    | (simp only [Chip8EmulatorFP.invoke, Chip8EmulatorFP.opFx65,
        Chip8EmulatorFP.opFx65_loadStoreIncIByX, Chip8EmulatorFP.opFx65_loadStoreDontIncI]
       rw [fx65Loop_eq])
    | (simp only [Chip8EmulatorFP.invoke, Chip8EmulatorFP.op00EE, Chip8EmulatorFP.op00EE_cyclic,
        Chip8EmulatorFP.op2nnn, Chip8EmulatorFP.op2nnn_cyclic, Chip8EmulatorFP.op1nnn,
        Chip8EmulatorFP.opFx0A, Chip8EmulatorBase.errorHalt, Chip8EmulatorFP.op3xnn,
        Chip8EmulatorFP.op4xnn, Chip8EmulatorFP.op5xy0, Chip8EmulatorFP.op9xy0,
        Chip8EmulatorFP.op3xnn_with_F000, Chip8EmulatorFP.op4xnn_with_F000,
        Chip8EmulatorFP.op5xy0_with_F000, Chip8EmulatorFP.op9xy0_with_F000,
        Chip8EmulatorFP.skipWithF000]
       split_ifs <;> rfl)

/-- The option `optTraceLog` plays no part in the dispatch. -/
theorem invoke_traceLog (o : Chip8EmulatorOptions) (b : Bool) (ext : HandlerSemantics)
    (h : OpcodeHandler) :
    Chip8EmulatorFP.invoke { o with optTraceLog := b } ext h = Chip8EmulatorFP.invoke o ext h := by
  cases h <;> rfl

/-- The option `optTraceLog` plays no part in `executeInstruction`. -/
theorem executeInstruction_traceLog (o : Chip8EmulatorOptions) (b : Bool) (tbl : HandlerTable)
    (ext : HandlerSemantics) (s : Chip8EmulatorBase) :
    Chip8EmulatorFP.executeInstruction { o with optTraceLog := b } tbl ext s
      = Chip8EmulatorFP.executeInstruction o tbl ext s := by
  have hfd : Chip8EmulatorFP.fetchAndDispatch { o with optTraceLog := b } tbl ext s
      = Chip8EmulatorFP.fetchAndDispatch o tbl ext s := by
    have hm : Chip8EmulatorFP.ADDRESS_MASK { o with optTraceLog := b }
        = Chip8EmulatorFP.ADDRESS_MASK o := rfl
    unfold Chip8EmulatorFP.fetchAndDispatch
    simp only [invoke_traceLog, hm]
  unfold Chip8EmulatorFP.executeInstruction
  rw [hfd]

/-- The dispatch leaves the breakpoints alone. -/
theorem fetchAndDispatch_breakpoints (o : Chip8EmulatorOptions) (tbl : HandlerTable)
    (ext : HandlerSemantics)
    (hext : ∀ h opcode t, (ext h opcode t).breakpoints = t.breakpoints)
    (s : Chip8EmulatorBase) :
    (Chip8EmulatorFP.fetchAndDispatch o tbl ext s).breakpoints = s.breakpoints :=
  invoke_breakpoints o ext hext _ _ _

/-- With an empty breakpoint map the breakpoint check does nothing. -/
theorem checkBreakpoint_of_empty (t : Chip8EmulatorBase) (h : t.breakpoints = []) :
    Chip8EmulatorFP.checkBreakpoint t = t :=
  checkBreakpoint_of_not_found t (by unfold Chip8EmulatorBase.findBreakpoint; rw [h]; rfl)

/-- In Running mode with an empty breakpoint map, `executeInstruction` does what
`executeInstructionNoBreakpoints` does. -/
theorem executeInstruction_running_of_empty (o : Chip8EmulatorOptions) (tbl : HandlerTable)
    (ext : HandlerSemantics)
    (hext : ∀ h opcode t, (ext h opcode t).breakpoints = t.breakpoints)
    (s : Chip8EmulatorBase) (hrun : s.execMode = .eRUNNING) (hbp : s.breakpoints = []) :
    Chip8EmulatorFP.executeInstruction o tbl ext s
      = Chip8EmulatorFP.executeInstructionNoBreakpoints o tbl ext s := by
  unfold Chip8EmulatorFP.executeInstruction Chip8EmulatorFP.executeInstructionNoBreakpoints
  rw [if_pos hrun]
  exact checkBreakpoint_of_empty _ ((fetchAndDispatch_breakpoints o tbl ext hext s).trans hbp)

/-- The function `executeInstruction` leaves the breakpoints alone. -/
theorem executeInstruction_breakpoints (o : Chip8EmulatorOptions) (tbl : HandlerTable)
    (ext : HandlerSemantics)
    (hext : ∀ h opcode t, (ext h opcode t).breakpoints = t.breakpoints)
    (s : Chip8EmulatorBase) :
    (Chip8EmulatorFP.executeInstruction o tbl ext s).breakpoints = s.breakpoints := by
  have hfd := fetchAndDispatch_breakpoints o tbl ext hext s
  unfold Chip8EmulatorFP.executeInstruction
  split_ifs
  · rw [checkBreakpoint_eq]; exact hfd
  · rfl
  · simp only []
    rw [checkBreakpoint_eq]
    split_ifs <;> exact hfd

/-- One round of the loops of `executeInstructions` that choose between the two execute
functions: with an empty breakpoint map the outcome is that of `executeInstruction`, whatever
`optTraceLog` is. -/
theorem round_of_empty (o : Chip8EmulatorOptions) (tbl : HandlerTable) (ext : HandlerSemantics)
    (hext : ∀ h opcode t, (ext h opcode t).breakpoints = t.breakpoints)
    (s : Chip8EmulatorBase) (hbp : s.breakpoints = []) (c : Prop) [Decidable c]
    (hc : c → s.execMode = .eRUNNING) :
    (if c then Chip8EmulatorFP.executeInstructionNoBreakpoints o tbl ext s
      else Chip8EmulatorFP.executeInstruction o tbl ext s)
      = Chip8EmulatorFP.executeInstruction o tbl ext s := by
  by_cases h : c
  · rw [if_pos h, executeInstruction_running_of_empty o tbl ext hext s (hc h) hbp]
  · rw [if_neg h]

/-- With an empty breakpoint map the display-wait loop is the loop of `executeInstruction`. -/
theorem displayWaitLoop_of_empty (o : Chip8EmulatorOptions) (tbl : HandlerTable)
    (ext : HandlerSemantics)
    (hext : ∀ h opcode t, (ext h opcode t).breakpoints = t.breakpoints)
    (n : Nat) (s : Chip8EmulatorBase) (hbp : s.breakpoints = []) :
    Chip8EmulatorFP.displayWaitLoop o tbl ext n s
      = Chip8EmulatorFP.executeInstructionLoop o tbl ext n s := by
  induction n generalizing s with
  | zero => rfl
  | succ n ih =>
    unfold Chip8EmulatorFP.displayWaitLoop Chip8EmulatorFP.executeInstructionLoop
    rw [round_of_empty o tbl ext hext s hbp _ (fun h => h.1)]
    exact ih _ ((executeInstruction_breakpoints o tbl ext hext s).trans hbp)

/-- The option `optTraceLog` plays no part in the loop of `executeInstruction`. -/
theorem executeInstructionLoop_traceLog (o : Chip8EmulatorOptions) (b : Bool)
    (tbl : HandlerTable) (ext : HandlerSemantics) (n : Nat) (s : Chip8EmulatorBase) :
    Chip8EmulatorFP.executeInstructionLoop { o with optTraceLog := b } tbl ext n s
      = Chip8EmulatorFP.executeInstructionLoop o tbl ext n s := by
  induction n generalizing s with
  | zero => rfl
  | succ n ih =>
    unfold Chip8EmulatorFP.executeInstructionLoop
    rw [executeInstruction_traceLog, ih]

/-- With an empty breakpoint map the loop of the MegaChip branch does not depend on
`optTraceLog`. -/
theorem megaChipLoop_traceLog (o : Chip8EmulatorOptions) (b : Bool) (tbl : HandlerTable)
    (ext : HandlerSemantics)
    (hext : ∀ h opcode t, (ext h opcode t).breakpoints = t.breakpoints)
    (e : Int) (fuel : Nat) (s : Chip8EmulatorBase) (hbp : s.breakpoints = []) :
    Chip8EmulatorFP.megaChipLoop { o with optTraceLog := b } tbl ext e fuel s
      = Chip8EmulatorFP.megaChipLoop o tbl ext e fuel s := by
  induction fuel generalizing s with
  | zero => rfl
  | succ fuel ih =>
    unfold Chip8EmulatorFP.megaChipLoop
    by_cases hc : s.execMode = .eRUNNING ∧ s.cycleCounter < e
    · rw [if_pos hc, if_pos hc,
        round_of_empty _ tbl ext hext s hbp _ (fun _ => hc.1),
        round_of_empty o tbl ext hext s hbp _ (fun _ => hc.1),
        executeInstruction_traceLog]
      exact ih _ ((executeInstruction_breakpoints o tbl ext hext s).trans hbp)
    · rw [if_neg hc, if_neg hc]

/-- The handler `op1nnn` on a jump to the address of the jump itself, entered after the fetch
has advanced PC by 2: the machine is paused and PC is the address of the jump again. -/
theorem invoke_selfJump (o : Chip8EmulatorOptions) (tbl : HandlerTable)
    (ext : HandlerSemantics) (s : Chip8EmulatorBase)
    (hT : Chip8EmulatorFP.opcodeHandler o = some tbl)
    (hop : Chip8EmulatorFP.fetchOpcode s &&& 0xF000 = 0x1000)
    (hself : Chip8EmulatorFP.fetchOpcode s &&& 0xFFF = s.rPC)
    (hpc : s.rPC + 2 ≤ Chip8EmulatorFP.ADDRESS_MASK o) (cc : Int) :
    Chip8EmulatorFP.invoke o ext (tbl (Chip8EmulatorFP.fetchOpcode s))
        (Chip8EmulatorFP.fetchOpcode s)
        { s with cycleCounter := cc,
                 rPC := ((s.rPC + 2) % 4294967296) &&& Chip8EmulatorFP.ADDRESS_MASK o }
      = { s with cycleCounter := cc, execMode := .ePAUSED } := by
  have ht := table_get hT (opcodeHandler_1nnn o _ (fetchOpcode_lt s) hop)
  rw [ht, returnAddress_of_le o s hpc]
  simp only [Chip8EmulatorFP.invoke, Chip8EmulatorFP.op1nnn, rewind_of_le o s hpc, hself,
    if_true]

/-- The fast loop of the instant-Dxyn branch on a jump to itself: every round pauses the
machine anew and none stops the loop; the cycle counter is not touched. -/
theorem instantDxynLoop_selfJump (o : Chip8EmulatorOptions) (tbl : HandlerTable)
    (ext : HandlerSemantics) (n : Nat) (s : Chip8EmulatorBase)
    (hT : Chip8EmulatorFP.opcodeHandler o = some tbl)
    (hop : Chip8EmulatorFP.fetchOpcode s &&& 0xF000 = 0x1000)
    (hself : Chip8EmulatorFP.fetchOpcode s &&& 0xFFF = s.rPC)
    (hpc : s.rPC + 2 ≤ Chip8EmulatorFP.ADDRESS_MASK o) :
    Chip8EmulatorFP.instantDxynLoop o tbl ext (n + 1) s = { s with execMode := .ePAUSED } := by
  induction n generalizing s with
  | zero =>
    unfold Chip8EmulatorFP.instantDxynLoop
    simp only []
    rw [invoke_selfJump o tbl ext s hT hop hself hpc s.cycleCounter]
    rfl
  | succ n ih =>
    unfold Chip8EmulatorFP.instantDxynLoop
    simp only []
    rw [invoke_selfJump o tbl ext s hT hop hself hpc s.cycleCounter]
    exact ih { s with cycleCounter := s.cycleCounter, execMode := .ePAUSED } hop hself hpc

/-- The loop of `executeInstruction` on a running machine with an empty breakpoint map that
faces a jump to itself: the first round executes the jump and pauses, the others do nothing. -/
theorem executeInstructionLoop_selfJump (o : Chip8EmulatorOptions) (tbl : HandlerTable)
    (ext : HandlerSemantics) (n : Nat) (s : Chip8EmulatorBase)
    (hT : Chip8EmulatorFP.opcodeHandler o = some tbl)
    (hrun : s.execMode = .eRUNNING) (hbp : s.breakpoints = [])
    (hop : Chip8EmulatorFP.fetchOpcode s &&& 0xF000 = 0x1000)
    (hself : Chip8EmulatorFP.fetchOpcode s &&& 0xFFF = s.rPC)
    (hpc : s.rPC + 2 ≤ Chip8EmulatorFP.ADDRESS_MASK o) :
    Chip8EmulatorFP.executeInstructionLoop o tbl ext (n + 1) s
      = { s with cycleCounter := s.cycleCounter + 1, execMode := .ePAUSED } := by
  have h1 : Chip8EmulatorFP.executeInstruction o tbl ext s
      = { s with cycleCounter := s.cycleCounter + 1, execMode := .ePAUSED } := by
    unfold Chip8EmulatorFP.executeInstruction Chip8EmulatorFP.fetchAndDispatch
    rw [if_pos hrun]
    simp only []
    rw [invoke_selfJump o tbl ext s hT hop hself hpc (s.cycleCounter + 1)]
    exact checkBreakpoint_of_empty _ hbp
  unfold Chip8EmulatorFP.executeInstructionLoop
  rw [h1]
  exact executeInstructionLoop_paused o tbl ext n _ rfl

/-- The option `optTraceLog` plays no part in the dispatch table. -/
theorem opcodeHandler_traceLog (o : Chip8EmulatorOptions) (b : Bool) :
    Chip8EmulatorFP.opcodeHandler { o with optTraceLog := b }
      = Chip8EmulatorFP.opcodeHandler o := by
  rw [opcodeHandler_eq, opcodeHandler_eq]
  rfl

/-- The results of the two shifts of a byte, as the handlers store them. -/
theorem shift_byte (v : Nat) (hv : v < 256) :
    (v >>> 1) % 256 = v >>> 1 ∧ (v &&& 1) % 256 = v &&& 1 ∧ (v >>> 7) % 256 = v >>> 7 := by
  refine ⟨Nat.mod_eq_of_lt ?_, Nat.mod_eq_of_lt ?_, Nat.mod_eq_of_lt ?_⟩
  · rw [Nat.shiftRight_eq_div_pow]; omega
  · exact Nat.lt_of_le_of_lt Nat.and_le_right (by decide)
  · rw [Nat.shiftRight_eq_div_pow]; omega

/-- What a handler that stores `v` in Vx and then `c` in VF leaves in the registers. -/
theorem store_then_vf (rV : Nat → Nat) (x v c : Nat) :
    arrStore (arrStore rV x v) 0xF c 0xF = c
    ∧ (x ≠ 0xF → arrStore (arrStore rV x v) 0xF c x = v)
    ∧ (∀ i, i ≠ x → i ≠ 0xF → arrStore (arrStore rV x v) 0xF c i = rV i) := by
  refine ⟨if_pos rfl, fun hx => ?_, fun i hi hf => ?_⟩
  · simp only [arrStore, if_neg hx, if_true]
  · simp only [arrStore, if_neg hf, if_neg hi]

/-- A register file for the examples: V0 = `a`, V1 = `b`, VF = `f`, the others 0. -/
theorem exampleRegisters_byte (a b f : Nat) (ha : a < 256) (hb : b < 256) (hf : f < 256) (i : Nat) :
    (if i = 0 then a else if i = 1 then b else if i = 15 then f else 0) < 256 := by
  split_ifs <;> first | assumption | decide

/-- The result of a logic operation on two bytes is a byte. -/
theorem logic_byte (a b : Nat) (ha : a < 256) (hb : b < 256) :
    (a ||| b) % 256 = a ||| b ∧ (a &&& b) % 256 = a &&& b ∧ (a ^^^ b) % 256 = a ^^^ b := by
  refine ⟨Nat.mod_eq_of_lt ?_, Nat.mod_eq_of_lt ?_, Nat.mod_eq_of_lt ?_⟩
  · exact Nat.or_lt_two_pow (n := 8) ha hb
  · exact Nat.lt_of_le_of_lt Nat.and_le_left ha
  · exact Nat.xor_lt_two_pow (n := 8) ha hb

/-- What a handler that stores `v` in Vx only leaves in the registers. -/
theorem store_only (rV : Nat → Nat) (x v : Nat) :
    arrStore rV x v x = v ∧ (∀ i, i ≠ x → arrStore rV x v i = rV i) :=
  ⟨if_pos rfl, fun _ hi => if_neg hi⟩

/-! ### The safety pad -/

/-- The store loop of `op5xy2` leaves `I`. -/
theorem op5xy2Loop_rI (mask x y : Nat) (s : Chip8EmulatorBase) (n : Nat) :
    (op5xy2Loop mask x y s n).rI = s.rI := by
  rw [op5xy2Loop_eq]

/-- The store loop of `op5xy2` leaves the V registers. -/
theorem op5xy2Loop_rV (mask x y : Nat) (s : Chip8EmulatorBase) (n : Nat) :
    (op5xy2Loop mask x y s n).rV = s.rV := by
  rw [op5xy2Loop_eq]

/-- After `n` rounds of the store loop of `op5xy2` the byte at the `i`-th address is the `i`-th
register of the range. -/
theorem op5xy2Loop_memory (o : Chip8EmulatorOptions) (x y : Nat) (s : Chip8EmulatorBase)
    (n : Nat) (hn : n ≤ 16) (i : Nat) (hi : i < n) :
    (op5xy2Loop (Chip8EmulatorFP.ADDRESS_MASK o) x y s n).memory
      (((s.rI + i) % 4294967296) &&& Chip8EmulatorFP.ADDRESS_MASK o)
      = s.rV (if x < y then x + i else x - i) := by
  induction n with
  | zero => omega
  | succ n ih =>
    rw [op5xy2Loop]
    simp only [op5xy2Loop_rI, op5xy2Loop_rV, arrStore]
    by_cases hin : i = n
    · subst hin
      simp
    · have hne : ((s.rI + i) % 4294967296) &&& Chip8EmulatorFP.ADDRESS_MASK o
          ≠ ((s.rI + n) % 4294967296) &&& Chip8EmulatorFP.ADDRESS_MASK o :=
        fun h => hin (loadStore_addr_inj o s.rI i n (by omega) (by omega) h)
      rw [if_neg hne]
      exact ih (by omega) (by omega)

/-- The masked addresses of the stores are never the index of the safety pad. -/
theorem masked_ne_memSize (o : Chip8EmulatorOptions) (a : Nat) :
    a &&& Chip8EmulatorFP.ADDRESS_MASK o ≠ Chip8EmulatorBase.memSize o := by
  have hle : a &&& Chip8EmulatorFP.ADDRESS_MASK o ≤ Chip8EmulatorFP.ADDRESS_MASK o :=
    Nat.and_le_right
  rw [memSize_eq]
  omega

/-- The store loop of `Fx55` leaves the safety pad. -/
theorem fx55Loop_pad (o : Chip8EmulatorOptions) (s : Chip8EmulatorBase) (n : Nat) :
    (fx55Loop (Chip8EmulatorFP.ADDRESS_MASK o) s n).memory (Chip8EmulatorBase.memSize o)
      = s.memory (Chip8EmulatorBase.memSize o) := by
  induction n with
  | zero => rfl
  | succ n ih =>
    rw [fx55Loop]
    simp only [arrStore]
    rw [if_neg (Ne.symm (masked_ne_memSize o _)), ih]

/-- The store loop of `op5xy2` leaves the safety pad. -/
theorem op5xy2Loop_pad (o : Chip8EmulatorOptions) (x y : Nat) (s : Chip8EmulatorBase) (n : Nat) :
    (op5xy2Loop (Chip8EmulatorFP.ADDRESS_MASK o) x y s n).memory (Chip8EmulatorBase.memSize o)
      = s.memory (Chip8EmulatorBase.memSize o) := by
  induction n with
  | zero => rfl
  | succ n ih =>
    rw [op5xy2Loop]
    simp only [arrStore]
    rw [if_neg (Ne.symm (masked_ne_memSize o _)), ih]

/-- After `fixupSafetyPad` the safety pad holds the first byte of the memory. -/
theorem fixupSafetyPad_mirror (o : Chip8EmulatorOptions) (s : Chip8EmulatorBase) :
    (Chip8EmulatorBase.fixupSafetyPad o s).memory (Chip8EmulatorBase.memSize o)
      = (Chip8EmulatorBase.fixupSafetyPad o s).memory 0 := by
  have h0 : (0 : Nat) ≠ Chip8EmulatorBase.memSize o := by
    rw [memSize_eq]; omega
  simp only [Chip8EmulatorBase.fixupSafetyPad, arrStore, if_true, if_neg h0]

/-- An address sum of the handlers does not wrap at 32 bits when `I` is inside the address
space. -/
theorem addr_sum_lt (o : Chip8EmulatorOptions) (rI i : Nat)
    (hI : rI ≤ Chip8EmulatorFP.ADDRESS_MASK o) (hi : i < 16) :
    (rI + i) % 4294967296 = rI + i := by
  apply Nat.mod_eq_of_lt
  rcases ADDRESS_MASK_cases o with h | h | h <;> rw [h] at hI <;> omega

/-- The store part of `Fx55` with a range that wraps past the top of the memory: the safety pad
is fixed up, and the first byte of the memory is the register that the wrap brings there. -/
theorem fx55Store_wrap (o : Chip8EmulatorOptions) (upto : Nat) (s : Chip8EmulatorBase)
    (hu : upto < 16) (hI : s.rI ≤ Chip8EmulatorFP.ADDRESS_MASK o)
    (hw : s.rI + upto > Chip8EmulatorFP.ADDRESS_MASK o) :
    (fx55Store o upto s).memory (Chip8EmulatorBase.memSize o) = (fx55Store o upto s).memory 0
    ∧ (fx55Store o upto s).memory 0 = s.rV (Chip8EmulatorFP.ADDRESS_MASK o + 1 - s.rI) := by
  constructor
  · unfold fx55Store
    simp only [fx55Loop_rI, addr_sum_lt o s.rI upto hI hu]
    rw [if_pos hw]
    exact fixupSafetyPad_mirror o _
  · have h := fx55Store_memory o upto s hu (Chip8EmulatorFP.ADDRESS_MASK o + 1 - s.rI)
      (by omega)
    have ha : ((s.rI + (Chip8EmulatorFP.ADDRESS_MASK o + 1 - s.rI)) % 4294967296)
        &&& Chip8EmulatorFP.ADDRESS_MASK o = 0 := by
      rw [wrap_and_ADDRESS_MASK, and_ADDRESS_MASK,
        show s.rI + (Chip8EmulatorFP.ADDRESS_MASK o + 1 - s.rI)
          = Chip8EmulatorFP.ADDRESS_MASK o + 1 by omega]
      exact Nat.mod_self _
    rw [ha] at h
    exact h

/-- The handler `op5xy2` with a range that wraps past the top of the memory: the safety pad is
fixed up, and the first byte of the memory is the register that the wrap brings there. -/
theorem op5xy2_wrap (o : Chip8EmulatorOptions) (opcode : Nat) (s : Chip8EmulatorBase)
    (x y l : Nat) (hx : x = (opcode >>> 8) &&& 0xF) (hy : y = (opcode >>> 4) &&& 0xF)
    (hl : l = if x < y then y - x else x - y)
    (hI : s.rI ≤ Chip8EmulatorFP.ADDRESS_MASK o)
    (hw : s.rI + l > Chip8EmulatorFP.ADDRESS_MASK o) :
    (Chip8EmulatorFP.op5xy2 o opcode s).memory (Chip8EmulatorBase.memSize o)
      = (Chip8EmulatorFP.op5xy2 o opcode s).memory 0
    ∧ (Chip8EmulatorFP.op5xy2 o opcode s).memory 0
      = s.rV (if x < y then x + (Chip8EmulatorFP.ADDRESS_MASK o + 1 - s.rI)
              else x - (Chip8EmulatorFP.ADDRESS_MASK o + 1 - s.rI)) := by
  have hx16 : x < 16 := by rw [hx]; exact nibble_lt _
  have hy16 : y < 16 := by
    rw [hy]
    exact Nat.lt_succ_of_le Nat.and_le_right
  have hl16 : l < 16 := by rw [hl]; split_ifs <;> omega
  have hfix : Chip8EmulatorFP.op5xy2 o opcode s
      = Chip8EmulatorBase.fixupSafetyPad o
          (op5xy2Loop (Chip8EmulatorFP.ADDRESS_MASK o) x y s (l + 1)) := by
    unfold Chip8EmulatorFP.op5xy2
    simp only [← hx, ← hy, ← hl, op5xy2Loop_rI, addr_sum_lt o s.rI l hI hl16]
    rw [if_pos (by omega)]
  refine ⟨?_, ?_⟩
  · rw [hfix]
    exact fixupSafetyPad_mirror o _
  · have h0 : (0 : Nat) ≠ Chip8EmulatorBase.memSize o := by
      rw [memSize_eq]; omega
    have h := op5xy2Loop_memory o x y s (l + 1) (by omega)
      (Chip8EmulatorFP.ADDRESS_MASK o + 1 - s.rI) (by omega)
    have ha : ((s.rI + (Chip8EmulatorFP.ADDRESS_MASK o + 1 - s.rI)) % 4294967296)
        &&& Chip8EmulatorFP.ADDRESS_MASK o = 0 := by
      rw [wrap_and_ADDRESS_MASK, and_ADDRESS_MASK,
        show s.rI + (Chip8EmulatorFP.ADDRESS_MASK o + 1 - s.rI)
          = Chip8EmulatorFP.ADDRESS_MASK o + 1 by omega]
      exact Nat.mod_self _
    rw [ha] at h
    rw [hfix]
    simp only [Chip8EmulatorBase.fixupSafetyPad, arrStore, if_neg h0]
    exact h

/-! ### The shared part of the handler table -/


/-- The `(mask, opcode)` pairs of the calls that every variant other than CHIP-8X shares. -/
theorem baseCalls_keys (o : Chip8EmulatorOptions) (hb : o.behaviorBase ≠ .eCHIP8X) :
    (Chip8EmulatorFP.baseCalls o).map (fun c => (c.mask, c.opcode))
      = Chip8EmulatorFP.baseKeys := by
  rw [Chip8EmulatorFP.baseCalls, if_pos hb, setHandlerCalls_eq_rules, List.map_take,
    setHandlerRules_keys]
  revert hb
  cases o.behaviorBase <;> intro hb <;> first | exact absurd rfl hb | rfl

/-- Two different rules of the shared part disagree on a bit that both masks keep. -/
theorem baseKeys_disjoint :
    ∀ k1 ∈ Chip8EmulatorFP.baseKeys, ∀ k2 ∈ Chip8EmulatorFP.baseKeys,
      k1 = k2 ∨ (k1.2 &&& k2.1 != k2.2 &&& k1.1) = true := by
  decide

/-- Every call of the shared part has arguments of the shape `OnCall.ok`. -/
theorem baseCalls_all_ok (o : Chip8EmulatorOptions) :
    (Chip8EmulatorFP.baseCalls o).all OnCall.ok = true := by
  have h := setHandlerCalls_all_ok o
  rw [List.all_eq_true] at h ⊢
  intro c hc
  exact h c (List.mem_of_mem_take hc)

/-- For a call of the shape `OnCall.ok`, `on` assigns the slots that match the rule. -/
theorem onSlots_of_ok (c : OnCall) (h : c.ok = true) :
    ∃ slots, Chip8EmulatorFP.onSlots c.mask c.opcode = some slots
      ∧ ∀ s, s ∈ slots ↔ c.hits s = true := by
  obtain ⟨k, sh, h1, h2, h3, h4, h5⟩ := c.ok_field h
  refine ⟨_, onSlots_contiguous c.mask c.opcode k sh h1 h2 h3, fun s => ?_⟩
  have hh : c.hits s = true ↔ (s < 65536 ∧ s &&& c.mask = c.opcode) := by
    simp only [OnCall.hits, Bool.and_eq_true, decide_eq_true_eq, beq_iff_eq]
  rw [hh, field_match_iff c.mask c.opcode k sh s h1 h2 h3 h4 h5, List.mem_map]
  constructor
  · rintro ⟨v, hv, rfl⟩
    exact ⟨v, List.mem_range.1 hv, rfl⟩
  · rintro ⟨v, hv, rfl⟩
    exact ⟨v, List.mem_range.2 hv, rfl⟩

/-- Two rules that no slot matches both can be applied in either order. -/
theorem OnCall.apply_comm (c c' : OnCall) (tbl : HandlerTable)
    (h : ∀ s, c.hits s = true → c'.hits s = false) :
    c'.apply (c.apply tbl) = c.apply (c'.apply tbl) := by
  funext s
  cases hc : c.hits s
  · rw [c.apply_of_not_hits _ s hc]
    cases hc' : c'.hits s
    · rw [c'.apply_of_not_hits _ s hc', c'.apply_of_not_hits _ s hc',
        c.apply_of_not_hits _ s hc]
    · rw [c'.apply_of_hits _ s hc', c'.apply_of_hits _ s hc']
  · have hc' := h s hc
    rw [c'.apply_of_not_hits _ s hc', c.apply_of_hits _ s hc, c.apply_of_hits _ s hc]

/-- Two calls of the shared part are the same call or match no common slot. -/
theorem baseCalls_disjoint (o : Chip8EmulatorOptions) (hb : o.behaviorBase ≠ .eCHIP8X)
    (c c' : OnCall) (hc : c ∈ Chip8EmulatorFP.baseCalls o)
    (hc' : c' ∈ Chip8EmulatorFP.baseCalls o) :
    (c.mask, c.opcode) = (c'.mask, c'.opcode) ∨ ∀ s, c.hits s = true → c'.hits s = false := by
  have hk := baseCalls_keys o hb
  have m1 : (c.mask, c.opcode) ∈ Chip8EmulatorFP.baseKeys := by
    rw [← hk]; exact List.mem_map_of_mem _ hc
  have m2 : (c'.mask, c'.opcode) ∈ Chip8EmulatorFP.baseKeys := by
    rw [← hk]; exact List.mem_map_of_mem _ hc'
  rcases baseKeys_disjoint _ m1 _ m2 with h | h
  · exact Or.inl h
  · exact Or.inr (fun s hs => OnCall.hits_disjoint c c' s hs h)

/-- Calls of the shared part at different positions have different masks or opcodes. -/
theorem baseCalls_key_ne (o : Chip8EmulatorOptions) (hb : o.behaviorBase ≠ .eCHIP8X)
    (i j : Nat) (ci cj : OnCall) (hij : i ≠ j)
    (hi : (Chip8EmulatorFP.baseCalls o)[i]? = some ci)
    (hj : (Chip8EmulatorFP.baseCalls o)[j]? = some cj) :
    (ci.mask, ci.opcode) ≠ (cj.mask, cj.opcode) := by
  have hk := baseCalls_keys o hb
  have hnd : Chip8EmulatorFP.baseKeys.Nodup := by decide
  have e1 : Chip8EmulatorFP.baseKeys[i]? = some (ci.mask, ci.opcode) := by
    rw [← hk, List.getElem?_map, hi]; rfl
  have e2 : Chip8EmulatorFP.baseKeys[j]? = some (cj.mask, cj.opcode) := by
    rw [← hk, List.getElem?_map, hj]; rfl
  intro e
  rw [← e] at e2
  obtain ⟨hi', e1'⟩ := List.getElem?_eq_some.1 e1
  obtain ⟨hj', e2'⟩ := List.getElem?_eq_some.1 e2
  exact hij ((List.Nodup.getElem_inj_iff hnd).1 (e1'.trans e2'.symm))

/-- The table that a permutation of the shared calls builds is the one the program order
builds. -/
theorem baseCalls_perm (o : Chip8EmulatorOptions) (hb : o.behaviorBase ≠ .eCHIP8X)
    (cs : List OnCall) (hp : cs.Perm (Chip8EmulatorFP.baseCalls o)) (tbl : HandlerTable) :
    runOnCalls cs tbl
      = some ((Chip8EmulatorFP.baseCalls o).foldl (fun t c => c.apply t) tbl) := by
  have hok : cs.all OnCall.ok = true := by
    have h := baseCalls_all_ok o
    rw [List.all_eq_true] at h ⊢
    exact fun c hc => h c (hp.subset hc)
  rw [runOnCalls_of_ok cs tbl hok]
  congr 1
  refine (List.Perm.foldl_eq' hp.symm ?_ tbl).symm
  intro x hx y hy z
  rcases baseCalls_disjoint o hb x y hx hy with h | h
  · have hnd : ((Chip8EmulatorFP.baseCalls o).map (fun c => (c.mask, c.opcode))).Nodup := by
      rw [baseCalls_keys o hb]; decide
    have : x = y := List.inj_on_of_nodup_map hnd hx hy h
    rw [this]
  · exact OnCall.apply_comm x y z h

/-! ### The counting generator -/


/-- The value of a slot of a table built by rules is the value it had or the handler of a rule
of the list that matches the slot. -/
theorem foldl_apply_mem (s : Nat) :
    ∀ (cs : List OnCall) (tbl : HandlerTable),
      (cs.foldl (fun t c => c.apply t) tbl) s = tbl s
      ∨ ∃ c ∈ cs, c.hits s = true ∧ (cs.foldl (fun t c => c.apply t) tbl) s = c.handler := by
  intro cs
  induction cs with
  | nil => intro tbl; exact Or.inl rfl
  | cons c cs ih =>
    intro tbl
    rw [List.foldl_cons]
    rcases ih (c.apply tbl) with h | ⟨c', hc', hh, he⟩
    · cases hc : c.hits s
      · rw [h, c.apply_of_not_hits tbl s hc]
        exact Or.inl rfl
      · rw [h, c.apply_of_hits tbl s hc]
        refine Or.inr ⟨c, List.mem_cons_self _ _, hc, ?_⟩
        rfl
    · exact Or.inr ⟨c', List.mem_cons_of_mem _ hc', hh, he⟩

set_option maxHeartbeats 1000000 in
/-- The two handlers that step the simple random generator are installed by the rule for
`Cxnn` only. -/
theorem rules_rand (o : Chip8EmulatorOptions) (c : OnCall)
    (hc : c ∈ Chip8EmulatorFP.setHandlerRules o)
    (h : c.handler = .opCxnn_counting ∨ c.handler = .opCxnn_randLCG) :
    c.mask = 0xF000 ∧ c.opcode = 0xC000 := by
  unfold Chip8EmulatorFP.setHandlerRules at hc
  simp only [List.mem_append, List.mem_cons, List.mem_singleton, List.not_mem_nil, or_false]
    at hc
  rcases hc with ((hc | hc) | hc) | hc
  · repeat' (rcases hc with rfl | hc)
    all_goals first
      | (exfalso; revert h; simp only []; decide)
      | (exfalso; revert h; simp only []; split_ifs <;> decide)
  · split_ifs at hc <;>
      first
        | exact absurd hc (List.not_mem_nil _)
        | (simp only [List.mem_singleton] at hc
           subst hc; exfalso; revert h; simp only []; decide)
  · repeat' (rcases hc with rfl | hc)
    all_goals first
      | exact ⟨rfl, rfl⟩
      | (exfalso; revert h; simp only []; decide)
      | (exfalso; revert h; simp only [dxynHandler]; split_ifs <;> decide)
  · revert hc
    cases o.behaviorBase <;> intro hc <;>
      simp only [List.mem_cons, List.mem_singleton, List.not_mem_nil, or_false] at hc
    all_goals repeat' (rcases hc with rfl | hc)
    all_goals first
      | (exfalso; revert h; simp only []; decide)
      | (exfalso; revert h; simp only []; split_ifs <;> decide)


/-- The table entry of every `Cxnn`, for every option set. -/
theorem opcodeHandler_Cxnn (o : Chip8EmulatorOptions) (s : Nat) (hs : s < 65536)
    (h : s &&& 0xF000 = 0xC000) :
    (Chip8EmulatorFP.opcodeHandler o).map (fun tbl => tbl s) = some (cxnnHandler o) := by
  by_cases hx : o.behaviorBase = .eCHIP8X
  · refine opcodeHandler_at o 20 0xF000 0xC000 _ s ?_ hs h ?_
    · simp only [Chip8EmulatorFP.setHandlerRules, hx]; rfl
    · rw [hx]; decide
  · refine opcodeHandler_at o 21 0xF000 0xC000 _ s ?_ hs h ?_
    · simp only [Chip8EmulatorFP.setHandlerRules, if_pos hx]; rfl
    · revert hx
      cases o.behaviorBase <;> intro hx <;>
        first | exact absurd rfl hx | decide | (rw [callKeys_other]; decide)

/-- A slot whose handler steps the simple random generator holds a `Cxnn`. -/
theorem ruleTable_rand (o : Chip8EmulatorOptions) (s : Nat)
    (h : Chip8EmulatorFP.ruleTable o s = .opCxnn_counting
      ∨ Chip8EmulatorFP.ruleTable o s = .opCxnn_randLCG) :
    s &&& 0xF000 = 0xC000 := by
  unfold Chip8EmulatorFP.ruleTable at h
  rcases foldl_apply_mem s (Chip8EmulatorFP.setHandlerRules o) (fun _ => .opInvalid)
    with e | ⟨c, hc, hh, e⟩
  · rw [e] at h
    rcases h with h | h <;> exact absurd h (by decide)
  · rw [e] at h
    obtain ⟨hm, hp⟩ := rules_rand o c hc h
    unfold OnCall.hits at hh
    simp only [Bool.and_eq_true, decide_eq_true_eq, beq_iff_eq] at hh
    rw [← hm, ← hp]
    exact hh.2

/-- Every embedded handler other than `opCxnn_counting` leaves the state and the seed of the
simple random generator alone; so does the dispatch to a handler other than `opCxnn_randLCG`,
when the handlers that are not embedded do. -/
theorem invoke_simpleRand (o : Chip8EmulatorOptions) (ext : HandlerSemantics)
    (hext : ∀ h opcode t, h ≠ .opCxnn_randLCG →
      (ext h opcode t).simpleRandState = t.simpleRandState
      ∧ (ext h opcode t).simpleRandSeed = t.simpleRandSeed)
    (h : OpcodeHandler) (opcode : Nat) (s : Chip8EmulatorBase)
    (h1 : h ≠ .opCxnn_counting) (h2 : h ≠ .opCxnn_randLCG) :
    (Chip8EmulatorFP.invoke o ext h opcode s).simpleRandState = s.simpleRandState
    ∧ (Chip8EmulatorFP.invoke o ext h opcode s).simpleRandSeed = s.simpleRandSeed := by
  cases h <;> first
    | exact absurd rfl h1
    | exact absurd rfl h2
    | exact hext _ _ _ (by decide)
    | exact ⟨rfl, rfl⟩
    | (simp only [Chip8EmulatorFP.invoke]; rw [op5xy2_eq]; exact ⟨rfl, rfl⟩)
    | (simp only [Chip8EmulatorFP.invoke, Chip8EmulatorFP.opFx55,
        Chip8EmulatorFP.opFx55_loadStoreIncIByX, Chip8EmulatorFP.opFx55_loadStoreDontIncI,
        fx55Store, Chip8EmulatorBase.fixupSafetyPad]
       split_ifs <;> rw [fx55Loop_eq] <;> exact ⟨rfl, rfl⟩)
    | (simp only [Chip8EmulatorFP.invoke, Chip8EmulatorFP.opFx65,
        Chip8EmulatorFP.opFx65_loadStoreIncIByX, Chip8EmulatorFP.opFx65_loadStoreDontIncI]
       rw [fx65Loop_eq]; exact ⟨rfl, rfl⟩)
    | (simp only [Chip8EmulatorFP.invoke, Chip8EmulatorFP.op00EE, Chip8EmulatorFP.op00EE_cyclic,
        Chip8EmulatorFP.op2nnn, Chip8EmulatorFP.op2nnn_cyclic, Chip8EmulatorFP.op1nnn,
        Chip8EmulatorFP.opFx0A, Chip8EmulatorBase.errorHalt, Chip8EmulatorFP.op3xnn,
        Chip8EmulatorFP.op4xnn, Chip8EmulatorFP.op5xy0, Chip8EmulatorFP.op9xy0,
        Chip8EmulatorFP.op3xnn_with_F000, Chip8EmulatorFP.op4xnn_with_F000,
        Chip8EmulatorFP.op5xy0_with_F000, Chip8EmulatorFP.op9xy0_with_F000,
        Chip8EmulatorFP.skipWithF000]
       split_ifs <;> exact ⟨rfl, rfl⟩)

/-- The handler `opCxnn_counting` leaves the seed of the generator alone. -/
theorem opCxnn_counting_seed (opcode : Nat) (s : Chip8EmulatorBase) :
    (Chip8EmulatorFP.opCxnn_counting opcode s).simpleRandSeed = s.simpleRandSeed := rfl

/-- One instruction of a machine with the counting generator: a `Cxnn` stores the low byte of
the generator state, masked, in Vx and steps the state; any other instruction leaves the
state of the generator.  The seed is left in both cases. -/
theorem fetchAndDispatch_counting (o : Chip8EmulatorOptions) (tbl : HandlerTable)
    (ext : HandlerSemantics) (s : Chip8EmulatorBase)
    (hT : Chip8EmulatorFP.opcodeHandler o = some tbl) (hgen : o.randomGen = "counting")
    (hext : ∀ h opcode t, h ≠ .opCxnn_randLCG →
      (ext h opcode t).simpleRandState = t.simpleRandState
      ∧ (ext h opcode t).simpleRandSeed = t.simpleRandSeed) :
    (Chip8EmulatorFP.fetchAndDispatch o tbl ext s).simpleRandSeed = s.simpleRandSeed
    ∧ (Chip8EmulatorFP.fetchOpcode s &&& 0xF000 = 0xC000 →
        (Chip8EmulatorFP.fetchAndDispatch o tbl ext s).simpleRandState
          = (s.simpleRandState + 1) % 4294967296
        ∧ (Chip8EmulatorFP.fetchAndDispatch o tbl ext s).rV
          = arrStore s.rV ((Chip8EmulatorFP.fetchOpcode s >>> 8) &&& 0xF)
              ((s.simpleRandState % 256) &&& (Chip8EmulatorFP.fetchOpcode s &&& 0xFF)))
    ∧ (Chip8EmulatorFP.fetchOpcode s &&& 0xF000 ≠ 0xC000 →
        (Chip8EmulatorFP.fetchAndDispatch o tbl ext s).simpleRandState
          = s.simpleRandState) := by
  have htbl : tbl = Chip8EmulatorFP.ruleTable o := by
    rw [opcodeHandler_eq] at hT
    exact (Option.some.inj hT).symm
  have hcx : cxnnHandler o = .opCxnn_counting := by
    unfold cxnnHandler
    rw [hgen]
    rfl
  by_cases hop : Chip8EmulatorFP.fetchOpcode s &&& 0xF000 = 0xC000
  · have ht := table_get hT (opcodeHandler_Cxnn o _ (fetchOpcode_lt s) hop)
    rw [hcx] at ht
    have e : Chip8EmulatorFP.fetchAndDispatch o tbl ext s
        = Chip8EmulatorFP.opCxnn_counting (Chip8EmulatorFP.fetchOpcode s)
            { s with cycleCounter := s.cycleCounter + 1,
                     rPC := ((s.rPC + 2) % 4294967296) &&& Chip8EmulatorFP.ADDRESS_MASK o } := by
      unfold Chip8EmulatorFP.fetchAndDispatch
      simp only [ht, Chip8EmulatorFP.invoke]
    rw [e]
    exact ⟨rfl, fun _ => ⟨rfl, rfl⟩, fun h => absurd hop h⟩
  · have hne : tbl (Chip8EmulatorFP.fetchOpcode s) ≠ .opCxnn_counting
        ∧ tbl (Chip8EmulatorFP.fetchOpcode s) ≠ .opCxnn_randLCG := by
      rw [htbl]
      exact ⟨fun h => hop (ruleTable_rand o _ (Or.inl h)),
        fun h => hop (ruleTable_rand o _ (Or.inr h))⟩
    have h := invoke_simpleRand o ext hext (tbl (Chip8EmulatorFP.fetchOpcode s))
      (Chip8EmulatorFP.fetchOpcode s)
      { s with cycleCounter := s.cycleCounter + 1,
               rPC := ((s.rPC + 2) % 4294967296) &&& Chip8EmulatorFP.ADDRESS_MASK o }
      hne.1 hne.2
    exact ⟨h.2, fun h' => absurd h' hop, fun _ => h.1⟩

/-- A run with the counting generator: the seed stays, and the low byte of the generator state
has advanced by the number of `Cxnn` instructions executed. -/
theorem runNoBreakpoints_counting (o : Chip8EmulatorOptions) (tbl : HandlerTable)
    (ext : HandlerSemantics) (s : Chip8EmulatorBase)
    (hT : Chip8EmulatorFP.opcodeHandler o = some tbl) (hgen : o.randomGen = "counting")
    (hext : ∀ h opcode t, h ≠ .opCxnn_randLCG →
      (ext h opcode t).simpleRandState = t.simpleRandState
      ∧ (ext h opcode t).simpleRandSeed = t.simpleRandSeed) (n : Nat) :
    (Chip8EmulatorFP.runNoBreakpoints o tbl ext n s).simpleRandSeed = s.simpleRandSeed
    ∧ (Chip8EmulatorFP.runNoBreakpoints o tbl ext n s).simpleRandState % 256
      = (s.simpleRandState + Chip8EmulatorFP.cxnnCount o tbl ext n s) % 256 := by
  induction n with
  | zero => exact ⟨rfl, rfl⟩
  | succ n ih =>
    have h := fetchAndDispatch_counting o tbl ext
      (Chip8EmulatorFP.runNoBreakpoints o tbl ext n s) hT hgen hext
    rw [Chip8EmulatorFP.runNoBreakpoints, Chip8EmulatorFP.cxnnCount,
      Chip8EmulatorFP.executeInstructionNoBreakpoints]
    refine ⟨h.1.trans ih.1, ?_⟩
    by_cases hop : Chip8EmulatorFP.fetchOpcode
        (Chip8EmulatorFP.runNoBreakpoints o tbl ext n s) &&& 0xF000 = 0xC000
    · rw [(h.2.1 hop).1, if_pos hop]
      have := ih.2
      omega
    · rw [h.2.2 hop, if_neg hop]
      exact ih.2


/-! ### The hardware backend -/

/-- The function `setExecMode` of the backend leaves the CPU and the shadow state. -/
theorem Chip8VIP.setExecMode_core {Hw : Type} (mode : ExecMode) (s : Chip8VIP Hw) :
    (s.setExecMode mode).cpu = s.cpu ∧ (s.setExecMode mode).state = s.state := by
  unfold Chip8VIP.setExecMode
  split_ifs <;> exact ⟨rfl, rfl⟩

/-- The mode checks at the fetch-loop entry leave the CPU and the shadow state. -/
theorem Chip8VIP.checkStepModes_core {Hw : Type} (s : Chip8VIP Hw) :
    s.checkStepModes.cpu = s.cpu ∧ s.checkStepModes.state = s.state := by
  unfold Chip8VIP.checkStepModes
  split_ifs
  · exact Chip8VIP.setExecMode_core _ s
  · exact Chip8VIP.setExecMode_core _ s
  · exact ⟨rfl, rfl⟩

/-- The endless-loop heuristic leaves the CPU and the shadow state. -/
theorem Chip8VIP.checkEndlessLoop_core {Hw : Type} (hw : Chip8VIP.Hardware Hw) (fc : Int)
    (s : Chip8VIP Hw) :
    (Chip8VIP.checkEndlessLoop hw fc s).cpu = s.cpu
    ∧ (Chip8VIP.checkEndlessLoop hw fc s).state = s.state := by
  unfold Chip8VIP.checkEndlessLoop
  simp only []
  split_ifs
  · exact Chip8VIP.setExecMode_core _ _
  · exact ⟨rfl, rfl⟩
  · exact ⟨rfl, rfl⟩
  · exact ⟨rfl, rfl⟩

/-- The breakpoint check leaves the CPU and the shadow state. -/
theorem Chip8VIP.checkBreakpoint_core {Hw : Type} (hw : Chip8VIP.Hardware Hw)
    (s : Chip8VIP Hw) :
    (Chip8VIP.checkBreakpoint hw s).cpu = s.cpu
    ∧ (Chip8VIP.checkBreakpoint hw s).state = s.state := by
  unfold Chip8VIP.checkBreakpoint
  split_ifs
  · exact Chip8VIP.setExecMode_core _ s
  · exact ⟨rfl, rfl⟩
  · exact ⟨rfl, rfl⟩

/-- What `executeCdp1802` returns and what it leaves of the CPU and the shadow state: the CPU is
as the instruction left it, the result is `true` exactly when the program counter is at the
fetch-loop entry, and then the shadow PC is the register R(5). -/
theorem Chip8VIP.executeCdp1802_spec {Hw : Type} (hw : Chip8VIP.Hardware Hw) (s : Chip8VIP Hw) :
    (Chip8VIP.executeCdp1802 hw s).2.cpu = (hw.cpuStep (hw.videoStep s).2).cpu
    ∧ ((Chip8VIP.executeCdp1802 hw s).1 = true
        ↔ (Chip8VIP.executeCdp1802 hw s).2.cpu.pc = Chip8VIP.FETCH_LOOP_ENTRY)
    ∧ ((Chip8VIP.executeCdp1802 hw s).1 = true →
        (Chip8VIP.executeCdp1802 hw s).2.getPC = (Chip8VIP.executeCdp1802 hw s).2.cpu.rR 5) := by
  have hcpu : (Chip8VIP.executeCdp1802 hw s).2.cpu = (hw.cpuStep (hw.videoStep s).2).cpu := by
    unfold Chip8VIP.executeCdp1802
    simp only []
    split_ifs
    · rw [(Chip8VIP.checkBreakpoint_core hw _).1, (Chip8VIP.checkEndlessLoop_core hw _ _).1,
        (Chip8VIP.checkStepModes_core _).1]
      rfl
    · exact (Chip8VIP.setExecMode_core _ _).1
    · rfl
  refine ⟨hcpu, ?_, ?_⟩
  · rw [hcpu]
    unfold Chip8VIP.executeCdp1802
    simp only []
    split_ifs with h1 h2
    · exact ⟨fun _ => h1, fun _ => rfl⟩
    · exact ⟨fun h => absurd h (by decide), fun h => absurd h h1⟩
    · exact ⟨fun h => absurd h (by decide), fun h => absurd h h1⟩
  · rw [hcpu]
    unfold Chip8VIP.executeCdp1802
    simp only []
    split_ifs with h1 h2
    · intro _
      unfold Chip8VIP.getPC
      rw [(Chip8VIP.checkBreakpoint_core hw _).2, (Chip8VIP.checkEndlessLoop_core hw _ _).2,
        (Chip8VIP.checkStepModes_core _).2]
      rfl
    · intro h; exact absurd h (by decide)
    · intro h; exact absurd h (by decide)

/-- The state after `n + 1` calls of `executeCdp1802` is the state `n` calls after the first. -/
theorem Chip8VIP.afterSteps_succ {Hw : Type} (hw : Chip8VIP.Hardware Hw) (n : Nat)
    (s : Chip8VIP Hw) :
    Chip8VIP.afterSteps hw (n + 1) s
      = Chip8VIP.afterSteps hw n (Chip8VIP.executeCdp1802 hw s).2 := by
  induction n with
  | zero => rfl
  | succ n ih =>
    rw [Chip8VIP.afterSteps, ih]
    rfl

/-- The fast-forward loop continues after a call of `executeCdp1802` unless the program counter
of the CPU is at the fetch-loop entry and the register R(5) holds the start address. -/
theorem Chip8VIP.fastForward_step {Hw : Type} (hw : Chip8VIP.Hardware Hw) (start : Nat)
    (fuel : Nat) (s : Chip8VIP Hw) :
    Chip8VIP.fastForward hw start (fuel + 1) s
      = if (Chip8VIP.executeCdp1802 hw s).2.cpu.pc = Chip8VIP.FETCH_LOOP_ENTRY
            ∧ (Chip8VIP.executeCdp1802 hw s).2.cpu.rR 5 = start then
          some (Chip8VIP.executeCdp1802 hw s).2
        else Chip8VIP.fastForward hw start fuel (Chip8VIP.executeCdp1802 hw s).2 := by
  have hspec := Chip8VIP.executeCdp1802_spec hw s
  rw [Chip8VIP.fastForward]
  by_cases h1 : (Chip8VIP.executeCdp1802 hw s).1 = true
  · have hpc := hspec.2.1.1 h1
    have hget := hspec.2.2 h1
    by_cases h2 : (Chip8VIP.executeCdp1802 hw s).2.cpu.rR 5 = start
    · rw [if_neg, if_pos ⟨hpc, h2⟩]
      rintro (h | h)
      · rw [h1] at h; exact absurd h (by decide)
      · exact h (hget.trans h2)
    · rw [if_pos, if_neg (fun h => h2 h.2)]
      exact Or.inr (fun h => h2 (hget.symm.trans h))
  · have hpc : ¬ (Chip8VIP.executeCdp1802 hw s).2.cpu.pc = Chip8VIP.FETCH_LOOP_ENTRY :=
      fun h => h1 (hspec.2.1.2 h)
    rw [if_pos, if_neg (fun h => hpc h.1)]
    exact Or.inl (by simpa using h1)

/-- When the fast-forward loop ends, it has made `n + 1` calls of `executeCdp1802` for some `n`
below the fuel; the CPU is then at the fetch-loop entry with the start address in R(5) and in
the shadow PC, and it was not so after any smaller number of calls. -/
theorem Chip8VIP.fastForward_some {Hw : Type} (hw : Chip8VIP.Hardware Hw) (start : Nat) :
    ∀ (fuel : Nat) (s t : Chip8VIP Hw), Chip8VIP.fastForward hw start fuel s = some t →
      ∃ n, n < fuel ∧ t = Chip8VIP.afterSteps hw (n + 1) s
        ∧ t.cpu.pc = Chip8VIP.FETCH_LOOP_ENTRY ∧ t.cpu.rR 5 = start ∧ t.getPC = start
        ∧ ∀ m, m < n → ¬ ((Chip8VIP.afterSteps hw (m + 1) s).cpu.pc = Chip8VIP.FETCH_LOOP_ENTRY
            ∧ (Chip8VIP.afterSteps hw (m + 1) s).cpu.rR 5 = start) := by
  intro fuel
  induction fuel with
  | zero => intro s t h; exact absurd h (by simp [Chip8VIP.fastForward])
  | succ fuel ih =>
    intro s t h
    rw [Chip8VIP.fastForward_step] at h
    by_cases hr : (Chip8VIP.executeCdp1802 hw s).2.cpu.pc = Chip8VIP.FETCH_LOOP_ENTRY
        ∧ (Chip8VIP.executeCdp1802 hw s).2.cpu.rR 5 = start
    · rw [if_pos hr] at h
      have ht : t = (Chip8VIP.executeCdp1802 hw s).2 := (Option.some.inj h).symm
      have hspec := Chip8VIP.executeCdp1802_spec hw s
      refine ⟨0, Nat.succ_pos _, ht, ?_, ?_, ?_, fun m hm => absurd hm (Nat.not_lt_zero _)⟩
      · rw [ht]; exact hr.1
      · rw [ht]; exact hr.2
      · rw [ht, hspec.2.2 (hspec.2.1.2 hr.1)]; exact hr.2
    · rw [if_neg hr] at h
      obtain ⟨n, hn, ht, h1, h2, h3, hmin⟩ := ih _ t h
      refine ⟨n + 1, Nat.succ_lt_succ hn, ?_, h1, h2, h3, ?_⟩
      · rw [Chip8VIP.afterSteps_succ]; exact ht
      · intro m hm
        cases m with
        | zero => exact hr
        | succ m =>
          rw [Chip8VIP.afterSteps_succ]
          exact hmin m (by omega)

/-- The fast-forward loop ends when some number of calls of `executeCdp1802` brings the CPU to
the fetch-loop entry with the start address in R(5) and the fuel covers these calls. -/
theorem Chip8VIP.fastForward_total {Hw : Type} (hw : Chip8VIP.Hardware Hw) (start : Nat) :
    ∀ (n : Nat) (s : Chip8VIP Hw),
      (Chip8VIP.afterSteps hw (n + 1) s).cpu.pc = Chip8VIP.FETCH_LOOP_ENTRY →
      (Chip8VIP.afterSteps hw (n + 1) s).cpu.rR 5 = start →
      ∀ fuel, n < fuel → ∃ t, Chip8VIP.fastForward hw start fuel s = some t := by
  intro n
  induction n with
  | zero =>
    intro s h1 h2 fuel hf
    obtain ⟨f, rfl⟩ : ∃ f, fuel = f + 1 := ⟨fuel - 1, by omega⟩
    rw [Chip8VIP.fastForward_step, if_pos ⟨h1, h2⟩]
    exact ⟨_, rfl⟩
  | succ n ih =>
    intro s h1 h2 fuel hf
    obtain ⟨f, rfl⟩ : ∃ f, fuel = f + 1 := ⟨fuel - 1, by omega⟩
    rw [Chip8VIP.fastForward_step]
    split_ifs
    · exact ⟨_, rfl⟩
    · rw [Chip8VIP.afterSteps_succ] at h1 h2
      exact ih _ h1 h2 f (by omega)


/-- The page of a 16-bit address: masking with `0xFF00` clears the low byte. -/
theorem and_FF00 (x : Nat) : x &&& 0xFF00 = 256 * ((x / 256) % 256) := by
  apply Nat.eq_of_testBit_eq
  intro i
  have hm : (0xFF00 : Nat) = (2 ^ 8 - 1) <<< 8 := by decide
  have h256 : (256 : Nat) = 2 ^ 8 := by decide
  rw [Nat.testBit_and, hm, Nat.testBit_shiftLeft, Nat.testBit_two_pow_sub_one, h256,
    Nat.testBit_mul_pow_two, Nat.testBit_mod_two_pow, ← Nat.shiftRight_eq_div_pow,
    Nat.testBit_shiftRight]
  by_cases h8 : 8 ≤ i
  · have e : 8 + (i - 8) = i := by omega
    simp [h8, e, Bool.and_comm]
  · simp [h8]

/-- Adding an offset below 256 to a page base stays in the page. -/
theorem page_add (r d : Nat) (hd : d < 256) : ((r &&& 0xFF00) + d) &&& 0xFF00 = r &&& 0xFF00 := by
  rw [and_FF00 ((r &&& 0xFF00) + d), and_FF00 r]
  omega

/-- A 16-bit word `hi << 8 | lo` splits back into its two bytes. -/
theorem word_bytes (hi lo : Nat) (hhi : hi < 256) (hlo : lo < 256) :
    (hi <<< 8) ||| lo = hi * 256 + lo
    ∧ (((hi <<< 8) ||| lo) % 65536) >>> 8 = hi ∧ (((hi <<< 8) ||| lo) % 65536) &&& 0xff = lo := by
  have hor : (hi <<< 8) ||| lo = hi * 256 + lo := by
    rw [Nat.shiftLeft_eq, Nat.mul_comm, ← Nat.mul_add_lt_is_or (show lo < 2 ^ 8 from hlo)]
  have hand : ∀ x : Nat, x &&& 0xff = x % 256 := fun x =>
    Nat.and_pow_two_sub_one_eq_mod x 8
  rw [hor, hand, Nat.shiftRight_eq_div_pow]
  refine ⟨rfl, ?_, ?_⟩ <;> omega

/-- The two bytes of a 16-bit stack entry, as `forceState` stores them, give the entry back as
`fetchState` reads them. -/
theorem stack_entry_bytes (e : Nat) (he : e < 65536) :
    ((((e >>> 8) % 256) <<< 8) ||| ((e &&& 0xFF) % 256)) % 65536 = e := by
  have hand : e &&& 0xFF = e % 256 := Nat.and_pow_two_sub_one_eq_mod e 8
  rw [hand, (word_bytes ((e >>> 8) % 256) (e % 256 % 256) (Nat.mod_lt _ (by decide))
    (Nat.mod_lt _ (by decide))).1, Nat.shiftRight_eq_div_pow]
  omega

/-- The loop of `forceState` leaves every byte above the stack area. -/
theorem Chip8VIP.forceStackLoop_above (base : Nat) (stack ram : Nat → Nat) (n a : Nat)
    (ha : base + 0xCF ≤ a) :
    Chip8VIP.forceStackLoop base stack ram n a = ram a := by
  induction n with
  | zero => rfl
  | succ n ih =>
    rw [Chip8VIP.forceStackLoop]
    simp only [arrStore]
    rw [if_neg (by omega), if_neg (by omega), ih]

/-- After `n` rounds of the loop of `forceState` the two bytes of entry `i` are in place. -/
theorem Chip8VIP.forceStackLoop_at (base : Nat) (stack ram : Nat → Nat) (n : Nat)
    (hn : n ≤ 16) (i : Nat) (hi : i < n) :
    Chip8VIP.forceStackLoop base stack ram n (base + 0xCD - i * 2) = (stack i >>> 8) % 256
    ∧ Chip8VIP.forceStackLoop base stack ram n (base + 0xCF - i * 2 - 1)
        = (stack i &&& 0xFF) % 256 := by
  induction n with
  | zero => omega
  | succ n ih =>
    rw [Chip8VIP.forceStackLoop]
    simp only [arrStore]
    by_cases hin : i = n
    · subst hin
      rw [if_neg (by omega), if_pos rfl, if_pos (by omega)]
      exact ⟨rfl, rfl⟩
    · rw [if_neg (by omega), if_neg (by omega), if_neg (by omega), if_neg (by omega)]
      exact ih (by omega) (by omega)

/-- The loop of `fetchState` leaves the entries it does not reach. -/
theorem Chip8VIP.fetchStackLoop_above (ram : Nat → Nat) (base : Nat) (stack : Nat → Nat)
    (n i : Nat) (hi : n ≤ i) :
    Chip8VIP.fetchStackLoop ram base stack n i = stack i := by
  induction n with
  | zero => rfl
  | succ n ih =>
    rw [Chip8VIP.fetchStackLoop]
    simp only [arrStore]
    rw [if_neg (by omega), ih (by omega)]

/-- After `n` rounds of the loop of `fetchState` entry `i` is the word at its two bytes. -/
theorem Chip8VIP.fetchStackLoop_at (ram : Nat → Nat) (base : Nat) (stack : Nat → Nat)
    (n i : Nat) (hi : i < n) :
    Chip8VIP.fetchStackLoop ram base stack n i
      = ((ram (base + 0xCD - i * 2) <<< 8) ||| ram (base + 0xCF - i * 2 - 1)) % 65536 := by
  induction n with
  | zero => omega
  | succ n ih =>
    rw [Chip8VIP.fetchStackLoop]
    simp only [arrStore]
    by_cases hin : i = n
    · subst hin
      rw [if_pos rfl]
    · rw [if_neg hin, ih (by omega)]

/-- The memory that `reset` leaves: zeroes, the small font at 0 and the big font at 80. -/
theorem reset_memory (o : Chip8EmulatorOptions) (host : Chip8EmulatorHost)
    (s : Chip8EmulatorBase) :
    (Chip8EmulatorFP.reset o host s).memory
      = if (Chip8EmulatorBase.getBigFontData o).length ≠ 0 then
          memcpy (memcpy (memset s.memory 0 (Chip8EmulatorBase.memoryBufferSize o)) 0
            (Chip8EmulatorBase.getSmallFontData o)) (16 * 5) (Chip8EmulatorBase.getBigFontData o)
        else
          memcpy (memset s.memory 0 (Chip8EmulatorBase.memoryBufferSize o)) 0
            (Chip8EmulatorBase.getSmallFontData o) := by
  unfold Chip8EmulatorFP.reset Chip8EmulatorBase.reset
  by_cases hx : o.behaviorBase = .eCHIP8X
  · rw [if_pos hx]
  · rw [if_neg hx]

/-- The small font has 80 bytes and starts with `0xF0`. -/
theorem smallFont_head (o : Chip8EmulatorOptions) :
    (Chip8EmulatorBase.getSmallFontData o).length = 80
      ∧ (Chip8EmulatorBase.getSmallFontData o).getD 0 0 = 0xF0 := by
  unfold Chip8EmulatorBase.getSmallFontData
  cases o.behaviorBase <;> exact ⟨rfl, rfl⟩

/-- The big fonts have at most 256 bytes. -/
theorem bigFont_length (o : Chip8EmulatorOptions) :
    (Chip8EmulatorBase.getBigFontData o).length ≤ 256 := by
  unfold Chip8EmulatorBase.getBigFontData
  cases o.behaviorBase <;>
    simp only [g_ship10BigFont, g_ship11BigFont, g_megachip8BigFont, g_octoBigFont,
      List.length_cons, List.length_nil] <;> omega

/-- Right after `reset` the first byte of the memory is the first byte of the font, `0xF0`, and
the safety pad is 0. -/
theorem reset_pad (o : Chip8EmulatorOptions) (host : Chip8EmulatorHost)
    (s : Chip8EmulatorBase) :
    (Chip8EmulatorFP.reset o host s).memory 0 = 0xF0
      ∧ (Chip8EmulatorFP.reset o host s).memory (Chip8EmulatorBase.memSize o) = 0 := by
  have hms : Chip8EmulatorBase.memSize o = Chip8EmulatorFP.ADDRESS_MASK o + 1 := memSize_eq o
  have hbuf : Chip8EmulatorBase.memoryBufferSize o = Chip8EmulatorFP.ADDRESS_MASK o + 2 := by
    unfold Chip8EmulatorBase.memoryBufferSize Chip8EmulatorFP.ADDRESS_MASK
    split_ifs <;> rfl
  have hmask : 4095 ≤ Chip8EmulatorFP.ADDRESS_MASK o := by
    rcases ADDRESS_MASK_cases o with h | h | h <;> rw [h] <;> norm_num
  have hsmall := smallFont_head o
  have hbig := bigFont_length o
  rw [reset_memory]
  constructor
  · split_ifs
    · simp only [memcpy, hsmall.1]
      rw [if_neg (by omega), if_pos (by omega)]
      exact hsmall.2
    · simp only [memcpy, hsmall.1]
      rw [if_pos (by omega)]
      exact hsmall.2
  · split_ifs
    · simp only [memcpy, memset, hsmall.1, hms, hbuf]
      rw [if_neg (by omega), if_neg (by omega), if_pos (by omega)]
    · simp only [memcpy, memset, hsmall.1, hms, hbuf]
      rw [if_neg (by omega), if_pos (by omega)]

/-! ### Arithmetic, skips and fonts -/

/-- The table entry of every `8xy4`, for every option set. -/
theorem opcodeHandler_8xy4 (o : Chip8EmulatorOptions) (s : Nat) (hs : s < 65536)
    (h : s &&& 0xF00F = 0x8004) :
    (Chip8EmulatorFP.opcodeHandler o).map (fun tbl => tbl s) = some .op8xy4 := by
  refine opcodeHandler_at o 13 0xF00F 0x8004 _ s (by rfl) hs h ?_
  cases o.behaviorBase <;> first | decide | (rw [callKeys_other]; decide)

/-- The table entry of every `8xy5`, for every option set. -/
theorem opcodeHandler_8xy5 (o : Chip8EmulatorOptions) (s : Nat) (hs : s < 65536)
    (h : s &&& 0xF00F = 0x8005) :
    (Chip8EmulatorFP.opcodeHandler o).map (fun tbl => tbl s) = some .op8xy5 := by
  refine opcodeHandler_at o 14 0xF00F 0x8005 _ s (by rfl) hs h ?_
  cases o.behaviorBase <;> first | decide | (rw [callKeys_other]; decide)

/-- The table entry of every `8xy7`, for every option set. -/
theorem opcodeHandler_8xy7 (o : Chip8EmulatorOptions) (s : Nat) (hs : s < 65536)
    (h : s &&& 0xF00F = 0x8007) :
    (Chip8EmulatorFP.opcodeHandler o).map (fun tbl => tbl s) = some .op8xy7 := by
  refine opcodeHandler_at o 16 0xF00F 0x8007 _ s (by rfl) hs h ?_
  cases o.behaviorBase <;> first | decide | (rw [callKeys_other]; decide)

/-- The table entry of every `Fx33`, for every option set. -/
theorem opcodeHandler_Fx33 (o : Chip8EmulatorOptions) (s : Nat) (hs : s < 65536)
    (h : s &&& 0xF0FF = 0xF033) :
    (Chip8EmulatorFP.opcodeHandler o).map (fun tbl => tbl s) = some .opFx33 := by
  by_cases hx : o.behaviorBase = .eCHIP8X
  · refine opcodeHandler_at o 30 0xF0FF 0xF033 _ s ?_ hs h ?_
    · simp only [Chip8EmulatorFP.setHandlerRules, hx]; rfl
    · rw [hx]; decide
  · refine opcodeHandler_at o 31 0xF0FF 0xF033 _ s ?_ hs h ?_
    · simp only [Chip8EmulatorFP.setHandlerRules, if_pos hx]; rfl
    · revert hx
      cases o.behaviorBase <;> intro hx <;>
        first | exact absurd rfl hx | decide | (rw [callKeys_other]; decide)

/-- The table entry of every `Fx29` in the variants other than SCHIP 1.0. -/
theorem opcodeHandler_Fx29 (o : Chip8EmulatorOptions) (hb : o.behaviorBase ≠ .eSCHIP10)
    (s : Nat) (hs : s < 65536) (h : s &&& 0xF0FF = 0xF029) :
    (Chip8EmulatorFP.opcodeHandler o).map (fun tbl => tbl s) = some .opFx29 := by
  by_cases hx : o.behaviorBase = .eCHIP8X
  · refine opcodeHandler_at o 29 0xF0FF 0xF029 _ s ?_ hs h ?_
    · simp only [Chip8EmulatorFP.setHandlerRules, hx]; rfl
    · rw [hx]; decide
  · refine opcodeHandler_at o 30 0xF0FF 0xF029 _ s ?_ hs h ?_
    · simp only [Chip8EmulatorFP.setHandlerRules, if_pos hx]; rfl
    · revert hx hb
      cases o.behaviorBase <;> intro hx hb <;> first
        | exact absurd rfl hx
        | exact absurd rfl hb
        | decide
        | (rw [callKeys_other]; decide)

/-- The table entries of the conditional skips in the XO-CHIP and Chicueyi tables. -/
theorem opcodeHandler_skips_F000 (o : Chip8EmulatorOptions)
    (hb : o.behaviorBase = .eXOCHIP ∨ o.behaviorBase = .eCHICUEYI) (s : Nat) (hs : s < 65536) :
    (s &&& 0xF000 = 0x3000 →
      (Chip8EmulatorFP.opcodeHandler o).map (fun tbl => tbl s) = some .op3xnn_with_F000)
    ∧ (s &&& 0xF000 = 0x4000 →
      (Chip8EmulatorFP.opcodeHandler o).map (fun tbl => tbl s) = some .op4xnn_with_F000)
    ∧ (s &&& 0xF00F = 0x5000 →
      (Chip8EmulatorFP.opcodeHandler o).map (fun tbl => tbl s) = some .op5xy0_with_F000)
    ∧ (s &&& 0xF00F = 0x9000 →
      (Chip8EmulatorFP.opcodeHandler o).map (fun tbl => tbl s) = some .op9xy0_with_F000) := by
  rcases hb with hb | hb
  · refine ⟨fun h => ?_, fun h => ?_, fun h => ?_, fun h => ?_⟩
    · refine opcodeHandler_at o 41 0xF000 0x3000 _ s ?_ hs h ?_
      · simp only [Chip8EmulatorFP.setHandlerRules, hb]; rfl
      · rw [hb]; decide
    · refine opcodeHandler_at o 42 0xF000 0x4000 _ s ?_ hs h ?_
      · simp only [Chip8EmulatorFP.setHandlerRules, hb]; rfl
      · rw [hb]; decide
    · refine opcodeHandler_at o 43 0xF00F 0x5000 _ s ?_ hs h ?_
      · simp only [Chip8EmulatorFP.setHandlerRules, hb]; rfl
      · rw [hb]; decide
    · refine opcodeHandler_at o 46 0xF00F 0x9000 _ s ?_ hs h ?_
      · simp only [Chip8EmulatorFP.setHandlerRules, hb]; rfl
      · rw [hb]; decide
  · refine ⟨fun h => ?_, fun h => ?_, fun h => ?_, fun h => ?_⟩
    · refine opcodeHandler_at o 41 0xF000 0x3000 _ s ?_ hs h ?_
      · simp only [Chip8EmulatorFP.setHandlerRules, hb]; rfl
      · rw [hb]; decide
    · refine opcodeHandler_at o 42 0xF000 0x4000 _ s ?_ hs h ?_
      · simp only [Chip8EmulatorFP.setHandlerRules, hb]; rfl
      · rw [hb]; decide
    · refine opcodeHandler_at o 43 0xF00F 0x5000 _ s ?_ hs h ?_
      · simp only [Chip8EmulatorFP.setHandlerRules, hb]; rfl
      · rw [hb]; decide
    · refine opcodeHandler_at o 47 0xF00F 0x9000 _ s ?_ hs h ?_
      · simp only [Chip8EmulatorFP.setHandlerRules, hb]; rfl
      · rw [hb]; decide

/-- The 16-bit sum of two bytes: its low byte and its carry. -/
theorem add_bytes (a b : Nat) (ha : a < 256) (hb : b < 256) :
    ((a + b) % 65536) % 256 = (a + b) % 256
    ∧ (((a + b) % 65536) >>> 8) % 256 = if a + b > 255 then 1 else 0 := by
  rw [Nat.shiftRight_eq_div_pow]
  constructor
  · omega
  · split_ifs <;> omega

/-- The 16-bit difference of two bytes: its low byte and the borrow test `result > 255`. -/
theorem sub_bytes (a b : Nat) (ha : a < 256) (hb : b < 256) :
    ((((a : Int) - (b : Int)) % 65536).toNat) % 256 = (a + 256 - b) % 256
    ∧ (if ((((a : Int) - (b : Int)) % 65536).toNat) > 255 then 0 else 1)
        = if a ≥ b then 1 else 0 := by
  constructor
  · omega
  · split_ifs <;> omega

/-- The three stores of `opFx33` go to three different addresses, and the bytes there are the
digits in the order of the stores. -/
theorem opFx33_memory (o : Chip8EmulatorOptions) (opcode : Nat) (s : Chip8EmulatorBase) :
    (Chip8EmulatorFP.opFx33 o opcode s).memory (s.rI &&& Chip8EmulatorFP.ADDRESS_MASK o)
        = s.rV ((opcode >>> 8) &&& 0xF) / 100
    ∧ (Chip8EmulatorFP.opFx33 o opcode s).memory
        (((s.rI + 1) % 4294967296) &&& Chip8EmulatorFP.ADDRESS_MASK o)
        = (s.rV ((opcode >>> 8) &&& 0xF) / 10) % 10
    ∧ (Chip8EmulatorFP.opFx33 o opcode s).memory
        (((s.rI + 2) % 4294967296) &&& Chip8EmulatorFP.ADDRESS_MASK o)
        = s.rV ((opcode >>> 8) &&& 0xF) % 10
    ∧ (∀ a, a ≠ s.rI &&& Chip8EmulatorFP.ADDRESS_MASK o →
        a ≠ ((s.rI + 1) % 4294967296) &&& Chip8EmulatorFP.ADDRESS_MASK o →
        a ≠ ((s.rI + 2) % 4294967296) &&& Chip8EmulatorFP.ADDRESS_MASK o →
        (Chip8EmulatorFP.opFx33 o opcode s).memory a = s.memory a) := by
  have e0 : s.rI &&& Chip8EmulatorFP.ADDRESS_MASK o
      = ((s.rI + 0) % 4294967296) &&& Chip8EmulatorFP.ADDRESS_MASK o := by
    rw [wrap_and_ADDRESS_MASK, Nat.add_zero]
  have h01 : s.rI &&& Chip8EmulatorFP.ADDRESS_MASK o
      ≠ ((s.rI + 1) % 4294967296) &&& Chip8EmulatorFP.ADDRESS_MASK o := by
    rw [e0]
    intro h
    exact absurd (loadStore_addr_inj o s.rI 0 1 (by decide) (by decide) h) (by decide)
  have h02 : s.rI &&& Chip8EmulatorFP.ADDRESS_MASK o
      ≠ ((s.rI + 2) % 4294967296) &&& Chip8EmulatorFP.ADDRESS_MASK o := by
    rw [e0]
    intro h
    exact absurd (loadStore_addr_inj o s.rI 0 2 (by decide) (by decide) h) (by decide)
  have h12 : ((s.rI + 1) % 4294967296) &&& Chip8EmulatorFP.ADDRESS_MASK o
      ≠ ((s.rI + 2) % 4294967296) &&& Chip8EmulatorFP.ADDRESS_MASK o := by
    intro h
    exact absurd (loadStore_addr_inj o s.rI 1 2 (by decide) (by decide) h) (by decide)
  unfold Chip8EmulatorFP.opFx33
  simp only [arrStore]
  refine ⟨?_, ?_, ?_, ?_⟩
  · simp only [if_neg h02, if_neg h01, if_true]
  · simp only [if_neg h12, if_true]
  · simp only [if_true]
  · intro a ha0 ha1 ha2
    simp only [if_neg ha2, if_neg ha1, if_neg ha0]

/-- Right after `reset` the first 80 bytes of the memory are the small font of the variant. -/
theorem reset_font (o : Chip8EmulatorOptions) (host : Chip8EmulatorHost)
    (s : Chip8EmulatorBase) (a : Nat) (ha : a < 80) :
    (Chip8EmulatorFP.reset o host s).memory a
      = (Chip8EmulatorBase.getSmallFontData o).getD a 0 := by
  have hsmall := (smallFont_head o).1
  rw [reset_memory]
  split_ifs
  · simp only [memcpy, hsmall]
    rw [if_neg (by omega), if_pos (by omega)]
    rfl
  · simp only [memcpy, hsmall]
    rw [if_pos (by omega)]
    rfl

/-- One channel of the additive blending of two bytes is the saturated sum. -/
theorem add_channel (d c : Nat) :
    (min (d + c) 255) % 256 = min (d + c) 255 ∧ ((min (d + 0) 255) % 256 = min d 255) := by
  constructor <;> omega

/-- One channel of the multiplicative blending of two bytes needs no truncation and is at most
either factor. -/
theorem mul_channel (d c : Nat) (hd : d < 256) (hc : c < 256) :
    (d * c / 255) % 256 = d * c / 255 ∧ d * c / 255 ≤ d ∧ d * c / 255 ≤ c := by
  have h1 : d * c / 255 ≤ d := by
    apply Nat.div_le_of_le_mul
    calc d * c ≤ d * 255 := Nat.mul_le_mul_left d (by omega)
      _ = 255 * d := Nat.mul_comm d 255
  have h2 : d * c / 255 ≤ c := by
    apply Nat.div_le_of_le_mul
    exact Nat.mul_le_mul_right c (by omega)
  refine ⟨?_, h1, h2⟩
  apply Nat.mod_eq_of_lt
  omega

/-- A weighted sum `x` of two bytes with weights adding up to 255, divided by 256: the quotient
is a byte, at most the larger byte and at least the smaller byte less 1. -/
theorem weighted_shift (x lo hi : Nat) (hlo : 255 * lo ≤ x) (hhi : x ≤ 255 * hi)
    (hb : hi < 256) :
    (x / 256) % 256 = x / 256 ∧ x / 256 ≤ hi ∧ lo ≤ x / 256 + 1 := by
  have h1 : x / 256 ≤ hi := Nat.div_le_of_le_mul (by omega)
  have h2 : lo - 1 ≤ x / 256 := (Nat.le_div_iff_mul_le (by decide)).2 (by omega)
  refine ⟨Nat.mod_eq_of_lt (by omega), h1, by omega⟩

/-- For the three alpha values of the MegaChip blend modes, one channel of `blendColorsAlpha`
needs no truncation, is at most the larger input and at least the smaller input less 1. -/
theorem alpha_channel (a d c : Nat) (ha : a = 63 ∨ a = 127 ∨ a = 191) (hd : d < 256)
    (hc : c < 256) :
    blendChannelAlpha a d c = (a * c + (255 - a) * d) / 256
    ∧ blendChannelAlpha a d c ≤ max d c
    ∧ min d c ≤ blendChannelAlpha a d c + 1 := by
  unfold blendChannelAlpha
  rw [Nat.shiftRight_eq_div_pow, (by decide : (2 : Nat) ^ 8 = 256)]
  rcases Nat.le_total d c with hle | hle
  · rw [max_eq_right hle, min_eq_left hle]
    have h := weighted_shift (a * c + (255 - a) * d) d c
      (by rcases ha with h | h | h <;> subst h <;> omega)
      (by rcases ha with h | h | h <;> subst h <;> omega) hc
    rw [h.1]
    exact ⟨rfl, h.2⟩
  · rw [max_eq_left hle, min_eq_right hle]
    have h := weighted_shift (a * c + (255 - a) * d) c d
      (by rcases ha with h | h | h <;> subst h <;> omega)
      (by rcases ha with h | h | h <;> subst h <;> omega) hd
    rw [h.1]
    exact ⟨rfl, h.2⟩

/-- Blending a byte onto itself loses one level, except for 0. -/
theorem alpha_channel_same (a d : Nat) (ha : a = 63 ∨ a = 127 ∨ a = 191) (hd : d < 256) :
    blendChannelAlpha a d d = d - 1 := by
  have hq : (a * d + (255 - a) * d) / 256 = d - 1 := by
    rcases Nat.eq_zero_or_pos d with h0 | h0
    · subst h0
      simp only [Nat.mul_zero, Nat.add_zero, Nat.zero_div, Nat.zero_sub]
    · apply Nat.div_eq_of_lt_le <;> rcases ha with h | h | h <;> subst h <;> omega
  unfold blendChannelAlpha
  rw [Nat.shiftRight_eq_div_pow, (by decide : (2 : Nat) ^ 8 = 256), hq]
  exact Nat.mod_eq_of_lt (by omega)

/-- On a memory of bytes the test of `CONDITIONAL_SKIP_DISTANCE(0xF000, 0xFFFF)` is the test
that the two bytes at PC are `F0 00`. -/
theorem skipDistance_F000 (o : Chip8EmulatorOptions) (s : Chip8EmulatorBase)
    (hmem : ∀ a, s.memory a < 256) :
    Chip8EmulatorFP.CONDITIONAL_SKIP_DISTANCE o 0xF000 0xFFFF s
      = if s.memory (s.rPC &&& Chip8EmulatorFP.ADDRESS_MASK o) = 0xF0
            ∧ s.memory (((s.rPC + 1) % 4294967296) &&& Chip8EmulatorFP.ADDRESS_MASK o) = 0x00
        then 4 else 2 := by
  have hb : ∀ m : Nat, m < 256 → m &&& 255 = m := fun m hm => by
    rw [Nat.and_pow_two_sub_one_eq_mod m 8]
    exact Nat.mod_eq_of_lt hm
  unfold Chip8EmulatorFP.CONDITIONAL_SKIP_DISTANCE
  rw [(by decide : (0xFFFF : Nat) >>> 8 = 255), (by decide : (0xFFFF : Nat) &&& 0xff = 255),
    (by decide : (0xF000 : Nat) >>> 8 = 0xF0), (by decide : (0xF000 : Nat) &&& 0xff = 0x00),
    hb _ (hmem _), hb _ (hmem _)]

/-- A memory that holds one byte and is 0 elsewhere is a memory of bytes. -/
theorem oneByteMemory_byte (p v : Nat) (hv : v < 256) (a : Nat) :
    (if a = p then v else 0) < 256 := by
  split_ifs
  · exact hv
  · decide

/-- A call followed by a return, without cyclic stack and below the overflow depth. -/
theorem op00EE_op2nnn (op1 op2 : Nat) (s : Chip8EmulatorBase) (hpc : s.rPC < 65536)
    (hsp : s.rSP < 16) :
    (Chip8EmulatorFP.op00EE op2 (Chip8EmulatorFP.op2nnn op1 s)).rPC = s.rPC
    ∧ (Chip8EmulatorFP.op00EE op2 (Chip8EmulatorFP.op2nnn op1 s)).rSP = s.rSP
    ∧ (Chip8EmulatorFP.op00EE op2 (Chip8EmulatorFP.op2nnn op1 s)).cpuState = s.cpuState := by
  have h1 : ¬ s.rSP + 1 = 0 := by omega
  have h2 : (s.rSP + 1 + 256 - 1) % 256 = s.rSP := by omega
  have h3 : s.rPC % 65536 = s.rPC := Nat.mod_eq_of_lt hpc
  rw [op2nnn_of_lt op1 s hsp]
  unfold Chip8EmulatorFP.op00EE
  simp only [if_neg h1, h2, h3, arrStore, if_true]
  split_ifs <;> exact ⟨rfl, rfl, rfl⟩

/-- A call followed by a return, with cyclic stack. -/
theorem op00EE_op2nnn_cyclic (op1 op2 : Nat) (s : Chip8EmulatorBase) (hpc : s.rPC < 65536)
    (hsp : s.rSP < 256) :
    (Chip8EmulatorFP.op00EE_cyclic op2 (Chip8EmulatorFP.op2nnn_cyclic op1 s)).rPC = s.rPC
    ∧ (Chip8EmulatorFP.op00EE_cyclic op2 (Chip8EmulatorFP.op2nnn_cyclic op1 s)).rSP = s.rSP
    ∧ (Chip8EmulatorFP.op00EE_cyclic op2 (Chip8EmulatorFP.op2nnn_cyclic op1 s)).cpuState
        = s.cpuState := by
  have h2 : ((s.rSP + 1) % 256 + 256 - 1) % 256 = s.rSP := by omega
  have h3 : s.rPC % 65536 = s.rPC := Nat.mod_eq_of_lt hpc
  unfold Chip8EmulatorFP.op00EE_cyclic Chip8EmulatorFP.op2nnn_cyclic
  simp only [h2, h3, arrStore, if_true]
  split_ifs <;> exact ⟨rfl, rfl, rfl⟩

/-- The bytes of `topImage`. -/
theorem topImage_bytes (b0 b1 gap c0 c1 tail : Nat) :
    (topImage b0 b1 gap c0 c1 tail)[0]? = some b0
    ∧ (topImage b0 b1 gap c0 c1 tail)[1]? = some b1
    ∧ (topImage b0 b1 gap c0 c1 tail)[2 + gap]? = some c0
    ∧ (topImage b0 b1 gap c0 c1 tail)[2 + gap + 1]? = some c1 := by
  unfold topImage
  have hlen : ∀ n, (List.replicate n 0 : List Nat).length = n := fun n =>
    List.length_replicate n 0
  refine ⟨by simp, by simp, ?_, ?_⟩
  · rw [List.getElem?_append_right (by simp only [List.length_cons, List.length_nil]; omega),
      List.getElem?_append_right
        (by simp only [List.length_cons, List.length_nil, hlen]; omega)]
    simp only [List.length_cons, List.length_nil, hlen]
    rw [show 2 + gap - (0 + 1 + 1) - gap = 0 by omega]
    rfl
  · rw [List.getElem?_append_right (by simp only [List.length_cons, List.length_nil]; omega),
      List.getElem?_append_right
        (by simp only [List.length_cons, List.length_nil, hlen]; omega)]
    simp only [List.length_cons, List.length_nil, hlen]
    rw [show 2 + gap + 1 - (0 + 1 + 1) - gap = 1 by omega]
    simp

/-- The bytes of the image that fit below `memSize()` are in the memory after `reloadRom`. -/
theorem reloadRom_byte (o : Chip8EmulatorOptions) (host : Chip8EmulatorHost)
    (romImage : List Nat) (force : Bool) (s : Chip8EmulatorBase) (i b : Nat)
    (hi : i < Chip8EmulatorBase.memSize o - 512) (hb : romImage[i]? = some b) :
    (Cadmium.reloadRom o host romImage force s).memory (512 + i) = b := by
  have hlen : i < romImage.length := by
    rcases Nat.lt_or_ge i romImage.length with h | h
    · exact h
    · rw [List.getElem?_eq_none h] at hb
      exact absurd hb (by simp)
  have hne : romImage ≠ [] := by
    intro h
    rw [h] at hlen
    exact absurd hlen (by simp)
  have hi2 : i < min romImage.length (Chip8EmulatorBase.memSize o - 512) := by omega
  have hl : (romImage.take (min romImage.length (Chip8EmulatorBase.memSize o - 512))).length
      = min romImage.length (Chip8EmulatorBase.memSize o - 512) := by
    rw [List.length_take]
    omega
  rw [Cadmium.reloadRom, if_pos (Or.inl hne)]
  simp only [memcpy, hl]
  rw [if_pos ⟨by omega, by omega⟩, show 512 + i - 512 = i by omega, List.getD_eq_getElem?_getD,
    List.getElem?_take_of_lt hi2, hb]
  rfl

/-- Outside the memory, `reloadRom` changes what `reset` changes. -/
theorem reloadRom_frame (o : Chip8EmulatorOptions) (host : Chip8EmulatorHost)
    (romImage : List Nat) (force : Bool) (s : Chip8EmulatorBase)
    (hload : romImage ≠ [] ∨ force = true) :
    Cadmium.reloadRom o host romImage force s
      = { Chip8EmulatorFP.reset o host s with
          memory := (Cadmium.reloadRom o host romImage force s).memory } := by
  rw [Cadmium.reloadRom, if_pos hload]

/-- A jump `1nnn` fetched at an address `a` with `a + 2 ≤ ADDRESS_MASK`: the state after the
instruction. -/
theorem fetchAndDispatch_1nnn (o : Chip8EmulatorOptions) (tbl : HandlerTable)
    (ext : HandlerSemantics) (s : Chip8EmulatorBase) (nnn : Nat)
    (hT : Chip8EmulatorFP.opcodeHandler o = some tbl)
    (hop : Chip8EmulatorFP.fetchOpcode s &&& 0xF000 = 0x1000)
    (hn : nnn = Chip8EmulatorFP.fetchOpcode s &&& 0xFFF)
    (hpc : s.rPC + 2 ≤ Chip8EmulatorFP.ADDRESS_MASK o) :
    Chip8EmulatorFP.fetchAndDispatch o tbl ext s
      = { s with
          cycleCounter := s.cycleCounter + 1
          rPC := nnn
          execMode := if nnn = s.rPC then .ePAUSED else s.execMode } := by
  have hget := table_get hT (opcodeHandler_1nnn o _ (fetchOpcode_lt s) hop)
  unfold Chip8EmulatorFP.fetchAndDispatch
  simp only []
  rw [hget, returnAddress_of_le o s hpc]
  simp only [Chip8EmulatorFP.invoke, Chip8EmulatorFP.op1nnn, rewind_of_le o s hpc, ← hn]
  by_cases h : nnn = s.rPC
  · simp only [h, if_true]
  · simp only [h, if_false]

/-- The opcode fetched from two known bytes. -/
theorem fetchOpcode_bytes (s : Chip8EmulatorBase) (pc hi lo : Nat) (hpc : s.rPC = pc)
    (hpc2 : pc + 1 < 4294967296)
    (h0 : s.memory pc = hi) (h1 : s.memory (pc + 1) = lo) :
    Chip8EmulatorFP.fetchOpcode s = ((hi <<< 8) ||| lo) % 65536 := by
  unfold Chip8EmulatorFP.fetchOpcode
  rw [hpc, Nat.mod_eq_of_lt hpc2, h0, h1]

/-- The state of the plain CHIP-8 after loading an image that starts with the jump `1FFC` or
`1FFE` and running the jump. -/
theorem run_jump_plain (host : Chip8EmulatorHost) (romImage : List Nat)
    (ext : HandlerSemantics) (s0 : Chip8EmulatorBase) (lo : Nat) (hlo : lo = 0xFC ∨ lo = 0xFE)
    (h0 : romImage[0]? = some 0x1F) (h1 : romImage[1]? = some lo) :
    Chip8EmulatorFP.runNoBreakpoints {} (Chip8EmulatorFP.ruleTable {}) ext 1
        (Cadmium.reloadRom {} host romImage false s0)
      = { Cadmium.reloadRom {} host romImage false s0 with
          cycleCounter := 1
          rPC := 0xF00 + lo } := by
  have hne : romImage ≠ [] := by
    intro h
    rw [h] at h0
    exact absurd h0 (by simp)
  have hfr := reloadRom_frame {} host romImage false s0 (Or.inl hne)
  have hpc : (Cadmium.reloadRom {} host romImage false s0).rPC = 0x200 := by
    rw [hfr]
    rfl
  have hcc : (Cadmium.reloadRom {} host romImage false s0).cycleCounter = 0 := by
    rw [hfr]
    rfl
  have hm0 := reloadRom_byte {} host romImage false s0 0 0x1F (by decide) h0
  have hm1 := reloadRom_byte {} host romImage false s0 1 lo (by decide) h1
  have hop := fetchOpcode_bytes _ 0x200 0x1F lo hpc (by decide) hm0 hm1
  have hstep := fetchAndDispatch_1nnn {} (Chip8EmulatorFP.ruleTable {}) ext
    (Cadmium.reloadRom {} host romImage false s0) (0xF00 + lo) (opcodeHandler_eq {})
    (by rw [hop]; rcases hlo with h | h <;> rw [h] <;> decide)
    (by rw [hop]; rcases hlo with h | h <;> rw [h] <;> decide)
    (by rw [hpc]; decide)
  have hne2 : ¬ (0xF00 + lo = (Cadmium.reloadRom {} host romImage false s0).rPC) := by
    rw [hpc]
    omega
  rw [if_neg hne2, hcc] at hstep
  exact hstep

/-- The table entries of the colour instructions `Bxy0` and `Bxyn` in the CHIP-8X table. -/
theorem opcodeHandler_Bxyn_c8x (o : Chip8EmulatorOptions) (hb : o.behaviorBase = .eCHIP8X)
    (s : Nat) (hs : s < 65536) :
    (s &&& 0xF00F = 0xB000 →
      (Chip8EmulatorFP.opcodeHandler o).map (fun tbl => tbl s) = some .opBxy0_c8x)
    ∧ (s &&& 0xF000 = 0xB000 → s &&& 0xF ≠ 0 →
      (Chip8EmulatorFP.opcodeHandler o).map (fun tbl => tbl s) = some .opBxyn_c8x) := by
  constructor
  · intro h
    refine opcodeHandler_at o 36 0xF00F 0xB000 _ s ?_ hs h ?_
    · simp only [Chip8EmulatorFP.setHandlerRules, hb]; rfl
    · rw [hb]; decide
  · intro h hn
    have hlow : ∀ k : Nat, k &&& 0xF = 0 → ¬ s &&& 0xF00F = k := by
      intro k hk e
      apply hn
      rw [← hk, ← e, Nat.and_assoc]
      rfl
    have hhigh : ∀ k : Nat, k &&& 0xF000 ≠ 0xB000 → ¬ s &&& 0xF0FF = k := by
      intro k hk e
      apply hk
      rw [← e, Nat.and_assoc]
      exact h
    rw [opcodeHandler_eq, Option.map_some']
    unfold Chip8EmulatorFP.ruleTable
    congr 1
    have hsplit : Chip8EmulatorFP.setHandlerRules o
        = (Chip8EmulatorFP.setHandlerRules o).take 35
          ++ ⟨0xF000, 0xB000, .opBxyn_c8x⟩ ::
            [ ⟨0xF00F, 0xB000, .opBxy0_c8x⟩, ⟨0xF0FF, 0xE0F2, .opExF2_c8x⟩,
              ⟨0xF0FF, 0xE0F5, .opExF5_c8x⟩, ⟨0xF0FF, 0xF0F8, .opFxF8_c8x⟩,
              ⟨0xF0FF, 0xF0FB, .opFxFB_c8x⟩ ] := by
      simp only [Chip8EmulatorFP.setHandlerRules, hb]
      rfl
    rw [hsplit]
    refine foldl_apply_of_last_hit s _ _ ⟨0xF000, 0xB000, .opBxyn_c8x⟩ (fun _ => .opInvalid)
      ?_ ?_
    · simp [OnCall.hits, hs, h]
    · simp only [List.all_cons, List.all_nil, OnCall.hits, Bool.and_true, Bool.and_eq_true,
        Bool.not_eq_true', Bool.and_eq_false_imp, decide_eq_true_eq, beq_eq_false_iff_ne, ne_eq]
      exact ⟨fun _ => hlow 0xB000 (by decide), fun _ => hhigh 0xE0F2 (by decide),
        fun _ => hhigh 0xE0F5 (by decide), fun _ => hhigh 0xF0F8 (by decide),
        fun _ => hhigh 0xF0FB (by decide)⟩

/-! ## The claims -/

/-- C1: for every option set, host and prior state, right after `Chip8EmulatorFP::reset()` the
program counter is the configured start address, all sixteen V registers are 0, I, SP, DT, ST
and the cycle counter are 0 and the CPU state is Normal. -/
theorem C1_reset_state (o : Chip8EmulatorOptions) (host : Chip8EmulatorHost)
    (s : Chip8EmulatorBase) :
    (Chip8EmulatorFP.reset o host s).rPC = o.startAddress
    ∧ (∀ i : Fin 16, (Chip8EmulatorFP.reset o host s).rV i = 0)
    ∧ (Chip8EmulatorFP.reset o host s).rI = 0
    ∧ (Chip8EmulatorFP.reset o host s).rSP = 0
    ∧ (Chip8EmulatorFP.reset o host s).rDT = 0
    ∧ (Chip8EmulatorFP.reset o host s).rST = 0
    ∧ (Chip8EmulatorFP.reset o host s).cycleCounter = 0
    ∧ (Chip8EmulatorFP.reset o host s).cpuState = .eNORMAL := by
  unfold Chip8EmulatorFP.reset Chip8EmulatorBase.reset
  by_cases hx : o.behaviorBase = .eCHIP8X
  · rw [if_pos hx]
    refine ⟨rfl, ?_, rfl, rfl, rfl, rfl, rfl, rfl⟩
    intro i
    simp [memset, i.isLt]
  · rw [if_neg hx]
    refine ⟨rfl, ?_, rfl, rfl, rfl, rfl, rfl, rfl⟩
    intro i
    simp [memset, i.isLt]

/-- C2 (counterexample): for the mask `0xF0F0`, whose don't-care bits `0x0F0F` are not
contiguous, and the pattern `0x1010`, slot `0x1110` matches the pattern under the mask but
`on` does not install the handler `opNop` there: the slot keeps the handler `opInvalid` it had,
and `on` assigns only 16 of the 256 matching slots. -/
theorem C2_on_noncontiguous_counterexample :
    (0x1010 &&& (0xF0F0 ^^^ 0xFFFF) = 0 ∧ 0x1110 < 65536 ∧ 0x1110 &&& 0xF0F0 = 0x1010)
    ∧ (Chip8EmulatorFP.on 0xF0F0 0x1010 .opNop (fun _ => .opInvalid)).map (fun t => t 0x1110)
        = some .opInvalid
    ∧ OpcodeHandler.opInvalid ≠ OpcodeHandler.opNop
    ∧ (Chip8EmulatorFP.onSlots 0xF0F0 0x1010).map List.length = some 16 := by
  decide

/-- C2 (amended): for every 16-bit mask whose don't-care bits form one contiguous run
`(2^k - 1) <<< sh` and every 16-bit pattern with `(pattern & ~mask) == 0`, `on(mask, pattern, h)`
terminates and afterwards slot `s` holds `h` for every 16-bit `s` with `(s & mask) == pattern`. -/
theorem C2_on_installs_contiguous (mask pattern k sh : Nat) (h : OpcodeHandler)
    (tbl : HandlerTable) (hksh : k + sh ≤ 16) (hmask : mask < 65536)
    (hc : mask ^^^ 0xFFFF = (2 ^ k - 1) <<< sh) (hp16 : pattern < 65536)
    (hpat : pattern &&& (mask ^^^ 0xFFFF) = 0) :
    ∃ tbl', Chip8EmulatorFP.on mask pattern h tbl = some tbl'
      ∧ ∀ s, s < 65536 → s &&& mask = pattern → tbl' s = h := by
  refine ⟨_, on_contiguous mask pattern k sh h tbl hksh hmask hc hp16 hpat, ?_⟩
  intro s hs hm
  simp only [OnCall.apply, if_pos (And.intro hs hm)]

/-- C2 (witness): the mask `0xF00F` of the `8xy_` rules, with the two-nibble field `x`, `y`. -/
theorem C2_on_installs_contiguous_witness :
    ∃ tbl', Chip8EmulatorFP.on 0xF00F 0x8006 .op8xy6 (fun _ => .opInvalid) = some tbl'
      ∧ ∀ s, s < 65536 → s &&& 0xF00F = 0x8006 → tbl' s = .op8xy6 :=
  C2_on_installs_contiguous 0xF00F 0x8006 8 4 .op8xy6 (fun _ => .opInvalid) (by decide)
    (by decide) (by decide) (by decide) (by decide)

/-- C3: for every option set, each `on(mask, pattern, handler)` call that `setHandler` issues
uses one of the six masks, terminates, assigns exactly the slots `s` with
`(s & mask) == pattern` (each once, `2^popcount(~mask & 0xFFFF)` of them), leaves the handler
there and leaves every other slot as it was. -/
theorem C3_on_writes_exactly_matching_slots (o : Chip8EmulatorOptions) (c : OnCall)
    (hc : c ∈ Chip8EmulatorFP.setHandlerCalls o) (tbl : HandlerTable) :
    c.mask ∈ [0xFFFF, 0xF000, 0xF00F, 0xF0FF, 0xFFF0, 0xFF00]
    ∧ ∃ slots tbl', Chip8EmulatorFP.onSlots c.mask c.opcode = some slots
      ∧ Chip8EmulatorFP.on c.mask c.opcode c.handler tbl = some tbl'
      ∧ tbl' = slots.foldl (fun t i => HandlerTable.store t i c.handler) tbl
      ∧ slots.Nodup
      ∧ slots.length = 2 ^ popcount16 (c.mask ^^^ 0xFFFF)
      ∧ (∀ s, s ∈ slots ↔ (s < 65536 ∧ s &&& c.mask = c.opcode))
      ∧ (∀ s, s ∈ slots → tbl' s = c.handler)
      ∧ (∀ s, s ∉ slots → tbl' s = tbl s) := by
  have hok : c.ok = true := List.all_eq_true.1 (setHandlerCalls_all_ok o) c hc
  obtain ⟨k, sh, h1, h2, h3, h4, h5⟩ := c.ok_field hok
  have hmask : c.mask ∈ [0xFFFF, 0xF000, 0xF00F, 0xF0FF, 0xFFF0, 0xFF00] := by
    unfold OnCall.ok at hok
    simp only [Bool.and_eq_true, Bool.or_eq_true, beq_iff_eq, decide_eq_true_eq] at hok
    simp only [List.mem_cons, List.mem_singleton, List.not_mem_nil, or_false]
    tauto
  have hiff := fun s => field_match_iff c.mask c.opcode k sh s h1 h2 h3 h4 h5
  have hslots := onSlots_contiguous c.mask c.opcode k sh h1 h2 h3
  have hon := on_contiguous c.mask c.opcode k sh c.handler tbl h1 h2 h3 h4 h5
  have hmem : ∀ s, s ∈ (List.range (2 ^ k)).map (fun v => c.opcode ||| (v <<< sh))
      ↔ (s < 65536 ∧ s &&& c.mask = c.opcode) := by
    intro s
    rw [hiff s, List.mem_map]
    constructor
    · rintro ⟨v, hv, rfl⟩
      exact ⟨v, List.mem_range.1 hv, rfl⟩
    · rintro ⟨v, hv, rfl⟩
      exact ⟨v, List.mem_range.2 hv, rfl⟩
  have hd : ∀ i, c.opcode.testBit i = true → sh ≤ i → i - sh < k → False := by
    intro i t1 t2 t3
    have := congrArg (fun n => n.testBit i) h5
    rw [h3] at this
    simp only [Nat.testBit_and, Nat.testBit_shiftLeft, Nat.testBit_two_pow_sub_one,
      Nat.zero_testBit] at this
    simp [t1, t2, t3] at this
  refine ⟨hmask, _, _, hslots, hon, ?_, ?_, ?_, hmem, ?_, ?_⟩
  · have := on_eq_foldl c.mask c.opcode c.handler tbl
    rw [hon, hslots, Option.map_some'] at this
    exact Option.some.inj this
  · apply List.Nodup.map_on _ (List.nodup_range _)
    intro v hv w hw e
    have e1 := slot_field c.opcode k sh v (List.mem_range.1 hv) hd
    have e2 := slot_field c.opcode k sh w (List.mem_range.1 hw) hd
    rw [← e1, ← e2, e]
  · rw [List.length_map, List.length_range, h3, popcount16_field k (by omega) sh (by omega) h1]
  · intro s hs
    simp only [OnCall.apply, if_pos ((hmem s).1 hs)]
  · intro s hs
    have : ¬ (s < 65536 ∧ s &&& c.mask = c.opcode) := fun h => hs ((hmem s).2 h)
    simp only [OnCall.apply, if_neg this]

/-- C3 (witness): the call `on(0xF0FF, 0xF055, opFx55)` of the plain CHIP-8 configuration. -/
theorem C3_on_writes_exactly_matching_slots_witness :
    (⟨0xF0FF, 0xF055, .opFx55⟩ : OnCall) ∈ Chip8EmulatorFP.setHandlerCalls {}
    ∧ ∃ slots tbl', Chip8EmulatorFP.onSlots 0xF0FF 0xF055 = some slots
      ∧ Chip8EmulatorFP.on 0xF0FF 0xF055 .opFx55 (fun _ => .opInvalid) = some tbl'
      ∧ slots.length = 16
      ∧ (∀ s, s ∈ slots ↔ (s < 65536 ∧ s &&& 0xF0FF = 0xF055)) := by
  have hmem : (⟨0xF0FF, 0xF055, .opFx55⟩ : OnCall) ∈ Chip8EmulatorFP.setHandlerCalls {} := by
    decide
  obtain ⟨_, slots, tbl', h1, h2, _, _, h5, h6, _, _⟩ :=
    C3_on_writes_exactly_matching_slots {} ⟨0xF0FF, 0xF055, .opFx55⟩ hmem (fun _ => .opInvalid)
  exact ⟨hmem, slots, tbl', h1, h2, h5, h6⟩

/-- C4: for every option set the constructor's table exists (every slot has a handler), and
every 16-bit opcode that matches none of the `(mask, pattern)` rules of `setHandler` for these
options dispatches to `opInvalid`. -/
theorem C4_unmapped_opcodes_are_invalid (o : Chip8EmulatorOptions) :
    ∃ tbl, Chip8EmulatorFP.opcodeHandler o = some tbl
      ∧ ∀ s, s < 65536 →
          (∀ c ∈ Chip8EmulatorFP.setHandlerCalls o, s &&& c.mask ≠ c.opcode) →
          tbl s = .opInvalid := by
  refine ⟨_, opcodeHandler_eq o, ?_⟩
  intro s _ hno
  unfold Chip8EmulatorFP.ruleTable
  rw [foldl_apply_of_no_hit s]
  rw [List.all_eq_true]
  intro c hc
  have := hno c (by rw [setHandlerCalls_eq_rules]; exact hc)
  simp [OnCall.hits, this]

/-- C4 (witness): the opcodes `0000`, `5001`, `8008`, `E000` and `F0FF` of plain CHIP-8. -/
theorem C4_unmapped_opcodes_are_invalid_witness :
    ∃ tbl, Chip8EmulatorFP.opcodeHandler {} = some tbl
      ∧ tbl 0x0000 = .opInvalid ∧ tbl 0x5001 = .opInvalid ∧ tbl 0x8008 = .opInvalid
      ∧ tbl 0xE000 = .opInvalid ∧ tbl 0xF0FF = .opInvalid := by
  obtain ⟨tbl, h1, h2⟩ := C4_unmapped_opcodes_are_invalid {}
  exact ⟨tbl, h1, h2 0x0000 (by decide) (by decide), h2 0x5001 (by decide) (by decide),
    h2 0x8008 (by decide) (by decide), h2 0xE000 (by decide) (by decide),
    h2 0xF0FF (by decide) (by decide)⟩

/-- C5: for every option set (hence each of the 12-, 16- and 24-bit address masks), every
state `s`, every register index `x` and each of the three load/store policies: storing with
`Fx55`, then setting `I` back to `s.I` and overwriting the V registers with arbitrary values
`rV2`, then loading with `Fx65` leaves `V0..Vx` equal to those of `s` and the registers above
`Vx` equal to `rV2`. -/
theorem C5_store_load_roundtrip (o : Chip8EmulatorOptions) (s : Chip8EmulatorBase)
    (opcode55 opcode65 : Nat) (rV2 : Nat → Nat)
    (hx : (opcode55 >>> 8) &&& 0xF = (opcode65 >>> 8) &&& 0xF) :
    ((∀ i, i ≤ (opcode55 >>> 8) &&& 0xF →
        (Chip8EmulatorFP.opFx65 o opcode65
          { Chip8EmulatorFP.opFx55 o opcode55 s with rI := s.rI, rV := rV2 }).rV i = s.rV i)
      ∧ (∀ i, (opcode55 >>> 8) &&& 0xF < i →
        (Chip8EmulatorFP.opFx65 o opcode65
          { Chip8EmulatorFP.opFx55 o opcode55 s with rI := s.rI, rV := rV2 }).rV i = rV2 i))
    ∧ ((∀ i, i ≤ (opcode55 >>> 8) &&& 0xF →
        (Chip8EmulatorFP.opFx65_loadStoreIncIByX o opcode65
          { Chip8EmulatorFP.opFx55_loadStoreIncIByX o opcode55 s with
            rI := s.rI, rV := rV2 }).rV i = s.rV i)
      ∧ (∀ i, (opcode55 >>> 8) &&& 0xF < i →
        (Chip8EmulatorFP.opFx65_loadStoreIncIByX o opcode65
          { Chip8EmulatorFP.opFx55_loadStoreIncIByX o opcode55 s with
            rI := s.rI, rV := rV2 }).rV i = rV2 i))
    ∧ ((∀ i, i ≤ (opcode55 >>> 8) &&& 0xF →
        (Chip8EmulatorFP.opFx65_loadStoreDontIncI o opcode65
          { Chip8EmulatorFP.opFx55_loadStoreDontIncI o opcode55 s with
            rI := s.rI, rV := rV2 }).rV i = s.rV i)
      ∧ (∀ i, (opcode55 >>> 8) &&& 0xF < i →
        (Chip8EmulatorFP.opFx65_loadStoreDontIncI o opcode65
          { Chip8EmulatorFP.opFx55_loadStoreDontIncI o opcode55 s with
            rI := s.rI, rV := rV2 }).rV i = rV2 i)) := by
  have hlt := nibble_lt opcode55
  refine ⟨?_, ?_, ?_⟩
  · exact loadStore_roundtrip o s _ hlt rV2 (Chip8EmulatorFP.opFx55 o opcode55 s) _ _ rfl rfl
      (by rw [hx]; rfl)
  · exact loadStore_roundtrip o s _ hlt rV2
      (Chip8EmulatorFP.opFx55_loadStoreIncIByX o opcode55 s) _ _ rfl rfl (by rw [hx]; rfl)
  · exact loadStore_roundtrip o s _ hlt rV2
      (Chip8EmulatorFP.opFx55_loadStoreDontIncI o opcode55 s) _ _ rfl rfl (by rw [hx]; rfl)

/-- C5 (witness): the plain configuration, `I = 0xFFE` (the four bytes wrap around the top of
the 4 KiB memory) and x = 3. -/
theorem C5_store_load_roundtrip_witness :
    ((0xF355 >>> 8) &&& 0xF = (0xF365 >>> 8) &&& 0xF)
    ∧ (∀ i, i ≤ 3 →
        (Chip8EmulatorFP.opFx65 {} 0xF365
          { Chip8EmulatorFP.opFx55 {} 0xF355 { rI := 0xFFE, rV := fun i => i + 1 } with
            rI := 0xFFE, rV := fun _ => 0 }).rV i = i + 1) :=
  ⟨by decide,
    (C5_store_load_roundtrip {} { rI := 0xFFE, rV := fun i => i + 1 } 0xF355 0xF365
      (fun _ => 0) (by decide)).1.1⟩

/-- C6: executing `Fx55` or `Fx65` through the table built for the options `o` sets `I` to
`(I + x) & ADDRESS_MASK` when `optLoadStoreIncIByX` is set (whatever `optLoadStoreDontIncI`
is), leaves `I` when only `optLoadStoreDontIncI` is set, and sets it to
`(I + x + 1) & ADDRESS_MASK` otherwise; `Fx55` changes no V register and `Fx65` no memory
byte. -/
theorem C6_load_store_increment (o : Chip8EmulatorOptions) (tbl : HandlerTable)
    (ext : HandlerSemantics) (s : Chip8EmulatorBase)
    (hT : Chip8EmulatorFP.opcodeHandler o = some tbl) :
    (Chip8EmulatorFP.fetchOpcode s &&& 0xF0FF = 0xF055 →
      (Chip8EmulatorFP.fetchAndDispatch o tbl ext s).rI
        = (if o.optLoadStoreIncIByX then
            (s.rI + ((Chip8EmulatorFP.fetchOpcode s >>> 8) &&& 0xF))
              &&& Chip8EmulatorFP.ADDRESS_MASK o
          else if o.optLoadStoreDontIncI then s.rI
          else (s.rI + ((Chip8EmulatorFP.fetchOpcode s >>> 8) &&& 0xF) + 1)
              &&& Chip8EmulatorFP.ADDRESS_MASK o)
      ∧ ∀ i, (Chip8EmulatorFP.fetchAndDispatch o tbl ext s).rV i = s.rV i)
    ∧ (Chip8EmulatorFP.fetchOpcode s &&& 0xF0FF = 0xF065 →
      (Chip8EmulatorFP.fetchAndDispatch o tbl ext s).rI
        = (if o.optLoadStoreIncIByX then
            (s.rI + ((Chip8EmulatorFP.fetchOpcode s >>> 8) &&& 0xF))
              &&& Chip8EmulatorFP.ADDRESS_MASK o
          else if o.optLoadStoreDontIncI then s.rI
          else (s.rI + ((Chip8EmulatorFP.fetchOpcode s >>> 8) &&& 0xF) + 1)
              &&& Chip8EmulatorFP.ADDRESS_MASK o)
      ∧ ∀ a, (Chip8EmulatorFP.fetchAndDispatch o tbl ext s).memory a = s.memory a) := by
  have e1 : ∀ opc (t : Chip8EmulatorBase), (Chip8EmulatorFP.opFx55 o opc t).rI
      = (t.rI + ((opc >>> 8) &&& 0xF) + 1) &&& Chip8EmulatorFP.ADDRESS_MASK o
      ∧ (Chip8EmulatorFP.opFx55 o opc t).rV = t.rV := fun opc t => by
    simp only [Chip8EmulatorFP.opFx55, fx55Store_rI, fx55Store_rV, wrap_and_ADDRESS_MASK,
      and_self]
  have e2 : ∀ opc (t : Chip8EmulatorBase), (Chip8EmulatorFP.opFx55_loadStoreIncIByX o opc t).rI
      = (t.rI + ((opc >>> 8) &&& 0xF)) &&& Chip8EmulatorFP.ADDRESS_MASK o
      ∧ (Chip8EmulatorFP.opFx55_loadStoreIncIByX o opc t).rV = t.rV := fun opc t => by
    simp only [Chip8EmulatorFP.opFx55_loadStoreIncIByX, fx55Store_rI, fx55Store_rV,
      wrap_and_ADDRESS_MASK, and_self]
  have e3 : ∀ opc (t : Chip8EmulatorBase), (Chip8EmulatorFP.opFx55_loadStoreDontIncI o opc t).rI
      = t.rI ∧ (Chip8EmulatorFP.opFx55_loadStoreDontIncI o opc t).rV = t.rV := fun opc t => by
    simp only [Chip8EmulatorFP.opFx55_loadStoreDontIncI, fx55Store_rI, fx55Store_rV, and_self]
  have f1 : ∀ opc (t : Chip8EmulatorBase), (Chip8EmulatorFP.opFx65 o opc t).rI
      = (t.rI + ((opc >>> 8) &&& 0xF) + 1) &&& Chip8EmulatorFP.ADDRESS_MASK o
      ∧ (Chip8EmulatorFP.opFx65 o opc t).memory = t.memory := fun opc t => by
    simp only [Chip8EmulatorFP.opFx65, fx65Loop_rI, fx65Loop_memory, wrap_and_ADDRESS_MASK,
      and_self]
  have f2 : ∀ opc (t : Chip8EmulatorBase), (Chip8EmulatorFP.opFx65_loadStoreIncIByX o opc t).rI
      = (t.rI + ((opc >>> 8) &&& 0xF)) &&& Chip8EmulatorFP.ADDRESS_MASK o
      ∧ (Chip8EmulatorFP.opFx65_loadStoreIncIByX o opc t).memory = t.memory := fun opc t => by
    simp only [Chip8EmulatorFP.opFx65_loadStoreIncIByX, fx65Loop_rI, fx65Loop_memory,
      wrap_and_ADDRESS_MASK, and_self]
  have f3 : ∀ opc (t : Chip8EmulatorBase), (Chip8EmulatorFP.opFx65_loadStoreDontIncI o opc t).rI
      = t.rI ∧ (Chip8EmulatorFP.opFx65_loadStoreDontIncI o opc t).memory = t.memory :=
    fun opc t => by
      simp only [Chip8EmulatorFP.opFx65_loadStoreDontIncI, fx65Loop_rI, fx65Loop_memory,
        and_self]
  constructor
  · intro hop
    have ht := table_get hT (opcodeHandler_Fx55 o _ (fetchOpcode_lt s) hop)
    unfold Chip8EmulatorFP.fetchAndDispatch
    simp only [ht]
    cases h1 : o.optLoadStoreIncIByX <;> cases h2 : o.optLoadStoreDontIncI <;>
      simp [Chip8EmulatorFP.invoke, e1, e2, e3]
  · intro hop
    have ht := table_get hT (opcodeHandler_Fx65 o _ (fetchOpcode_lt s) hop)
    unfold Chip8EmulatorFP.fetchAndDispatch
    simp only [ht]
    cases h1 : o.optLoadStoreIncIByX <;> cases h2 : o.optLoadStoreDontIncI <;>
      simp [Chip8EmulatorFP.invoke, f1, f2, f3]

/-- C6 (witness): `F355` at `0x200` with `I = 0x300` in the plain configuration, where `I`
advances by x + 1 = 4. -/
theorem C6_load_store_increment_witness :
    (Chip8EmulatorFP.fetchOpcode { stateWithInstruction 0x200 0xF3 0x55 with rI := 0x300 }
        &&& 0xF0FF = 0xF055)
    ∧ (Chip8EmulatorFP.fetchAndDispatch {} (Chip8EmulatorFP.ruleTable {}) idleHandlers
        { stateWithInstruction 0x200 0xF3 0x55 with rI := 0x300 }).rI = 0x304 :=
  ⟨by decide,
    ((C6_load_store_increment {} (Chip8EmulatorFP.ruleTable {}) idleHandlers
      { stateWithInstruction 0x200 0xF3 0x55 with rI := 0x300 } (opcodeHandler_eq {})).1
        (by decide)).1⟩

/-- C7: in a variant without cyclic stack, starting at stack depth 0 with CPU state Normal,
sixteen consecutive `2nnn` instructions succeed: after the `n`-th (`n ≤ 16`) SP is `n`, the CPU
state is still Normal and the mode unchanged, and after the sixteenth slot `i` holds the return
address of the `i`-th call, the address behind the call instruction.  A slot has 16 bits: it
holds the return address modulo 2^16, which is the return address itself whenever that fits,
as it does from the second call on.  The 17th call sets the CPU state to Error and the mode to
Paused. -/
theorem C7_sixteen_calls_then_overflow (o : Chip8EmulatorOptions) (tbl : HandlerTable)
    (ext : HandlerSemantics) (s : Chip8EmulatorBase)
    (hT : Chip8EmulatorFP.opcodeHandler o = some tbl) (hcyc : o.optCyclicStack = false)
    (hsp : s.rSP = 0) (hcpu : s.cpuState = .eNORMAL)
    (hcalls : ∀ i, i ≤ 16 →
      Chip8EmulatorFP.fetchOpcode (Chip8EmulatorFP.runNoBreakpoints o tbl ext i s) &&& 0xF000
        = 0x2000) :
    (∀ n, n ≤ 16 →
      (Chip8EmulatorFP.runNoBreakpoints o tbl ext n s).rSP = n
      ∧ (Chip8EmulatorFP.runNoBreakpoints o tbl ext n s).cpuState = .eNORMAL
      ∧ (Chip8EmulatorFP.runNoBreakpoints o tbl ext n s).execMode = s.execMode)
    ∧ (∀ i, i < 16 → (Chip8EmulatorFP.runNoBreakpoints o tbl ext 16 s).stack i
        = Chip8EmulatorFP.returnAddress o (Chip8EmulatorFP.runNoBreakpoints o tbl ext i s)
            % 65536)
    ∧ (∀ i, i < 16 →
        Chip8EmulatorFP.returnAddress o (Chip8EmulatorFP.runNoBreakpoints o tbl ext i s)
          < 65536 →
        (Chip8EmulatorFP.runNoBreakpoints o tbl ext 16 s).stack i
          = Chip8EmulatorFP.returnAddress o (Chip8EmulatorFP.runNoBreakpoints o tbl ext i s))
    ∧ (∀ i, 0 < i → i < 16 →
        Chip8EmulatorFP.returnAddress o (Chip8EmulatorFP.runNoBreakpoints o tbl ext i s)
          < 65536)
    ∧ (Chip8EmulatorFP.runNoBreakpoints o tbl ext 17 s).cpuState = .eERROR
    ∧ (Chip8EmulatorFP.runNoBreakpoints o tbl ext 17 s).execMode = .ePAUSED := by
  have inv := calls_invariant o tbl ext s hT hcyc hsp hcalls
  refine ⟨?_, ?_, ?_, ?_, ?_⟩
  · intro n hn
    obtain ⟨h1, h2, h3, _, _⟩ := inv n hn
    exact ⟨h1, h2.trans hcpu, h3⟩
  · exact (inv 16 (Nat.le_refl _)).2.2.2.1
  · intro i hi hfit
    rw [(inv 16 (Nat.le_refl _)).2.2.2.1 i hi, Nat.mod_eq_of_lt hfit]
  · intro i hi0 hi
    have hpc := (inv i (by omega)).2.2.2.2 hi0
    unfold Chip8EmulatorFP.returnAddress
    have h1 : ((Chip8EmulatorFP.runNoBreakpoints o tbl ext i s).rPC + 2) % 4294967296
        ≤ 0x1001 := by omega
    exact Nat.lt_of_le_of_lt Nat.and_le_left (by omega)
  · have h16 := (inv 16 (Nat.le_refl _)).1
    have hstep : Chip8EmulatorFP.runNoBreakpoints o tbl ext 17 s
        = Chip8EmulatorFP.fetchAndDispatch o tbl ext
            (Chip8EmulatorFP.runNoBreakpoints o tbl ext 16 s) := rfl
    rw [hstep, fetchAndDispatch_2nnn o tbl ext _ hT hcyc (hcalls 16 (Nat.le_refl _))]
    unfold Chip8EmulatorFP.op2nnn
    simp only [h16, if_true, Chip8EmulatorBase.errorHalt]
    exact ⟨trivial, trivial⟩

/-- C7 (witness): the plain configuration running `2200` at `0x200`, a call of itself. -/
theorem C7_sixteen_calls_then_overflow_witness :
    (Chip8EmulatorFP.runNoBreakpoints {} (Chip8EmulatorFP.ruleTable {}) idleHandlers 16
        (stateWithInstruction 0x200 0x22 0x00)).rSP = 16
    ∧ (Chip8EmulatorFP.runNoBreakpoints {} (Chip8EmulatorFP.ruleTable {}) idleHandlers 16
        (stateWithInstruction 0x200 0x22 0x00)).cpuState = .eNORMAL
    ∧ (Chip8EmulatorFP.runNoBreakpoints {} (Chip8EmulatorFP.ruleTable {}) idleHandlers 17
        (stateWithInstruction 0x200 0x22 0x00)).cpuState = .eERROR :=
  have h := C7_sixteen_calls_then_overflow {} (Chip8EmulatorFP.ruleTable {}) idleHandlers
    (stateWithInstruction 0x200 0x22 0x00) (opcodeHandler_eq {}) rfl rfl rfl (by decide)
  ⟨(h.1 16 (Nat.le_refl _)).1, (h.1 16 (Nat.le_refl _)).2.1, h.2.2.2.2.1⟩

/-- C8 (what the code does): a `2nnn` that overflows the stack of a variant without cyclic
stack (Running mode, SP = 16, the instruction not in the last two bytes of the address space) is
not undone.  `errorHalt` rewinds PC and the cycle counter and sets Error and Paused, but `op2nnn`
goes on after it: the rewound PC is stored in element 16 of the 16-entry stack, SP becomes 17
and PC becomes `nnn`. -/
theorem C8_overflowing_call_is_not_undone (o : Chip8EmulatorOptions) (tbl : HandlerTable)
    (ext : HandlerSemantics) (s : Chip8EmulatorBase)
    (hT : Chip8EmulatorFP.opcodeHandler o = some tbl) (hcyc : o.optCyclicStack = false)
    (hrun : s.execMode = .eRUNNING) (hsp : s.rSP = 16)
    (hop : Chip8EmulatorFP.fetchOpcode s &&& 0xF000 = 0x2000)
    (hpc : s.rPC + 2 ≤ Chip8EmulatorFP.ADDRESS_MASK o) :
    (Chip8EmulatorFP.executeInstruction o tbl ext s).rPC
        = Chip8EmulatorFP.fetchOpcode s &&& 0xFFF
    ∧ (Chip8EmulatorFP.executeInstruction o tbl ext s).rSP = 17
    ∧ (Chip8EmulatorFP.executeInstruction o tbl ext s).stack 16 = s.rPC % 65536
    ∧ (∀ i, i ≠ 16 → (Chip8EmulatorFP.executeInstruction o tbl ext s).stack i = s.stack i)
    ∧ (Chip8EmulatorFP.executeInstruction o tbl ext s).cycleCounter = s.cycleCounter
    ∧ (Chip8EmulatorFP.executeInstruction o tbl ext s).cpuState = .eERROR
    ∧ (Chip8EmulatorFP.executeInstruction o tbl ext s).execMode = .ePAUSED := by
  have hret : Chip8EmulatorFP.returnAddress o s = s.rPC + 2 := by
    unfold Chip8EmulatorFP.returnAddress
    rw [wrap_and_ADDRESS_MASK, and_ADDRESS_MASK]
    exact Nat.mod_eq_of_lt (by omega)
  have hlt : s.rPC + 2 < 4294967296 := by
    rcases ADDRESS_MASK_cases o with h | h | h <;> rw [h] at hpc <;> omega
  have hrew : (s.rPC + 2 + 4294967296 - 2) % 4294967296 = s.rPC := by omega
  unfold Chip8EmulatorFP.executeInstruction
  rw [if_pos hrun, fetchAndDispatch_2nnn o tbl ext s hT hcyc hop]
  unfold Chip8EmulatorFP.op2nnn Chip8EmulatorFP.checkBreakpoint
  simp only [hsp, if_true, Chip8EmulatorBase.errorHalt, hret, hrew]
  split_ifs <;>
    refine ⟨rfl, rfl, ?_, ?_, ?_, rfl, rfl⟩ <;>
    first
      | (simp only [arrStore, if_true]; done)
      | (intro i hi; simp only [arrStore, if_neg hi])
      | (show s.cycleCounter + 1 - 1 = s.cycleCounter; omega)

/-- C8 (witness): the plain configuration at depth 16, running `2300` at `0x200`: afterwards
PC is `0x300`, SP is 17 and `0x200` sits in element 16 of the stack. -/
theorem C8_overflowing_call_is_not_undone_witness :
    (Chip8EmulatorFP.executeInstruction {} (Chip8EmulatorFP.ruleTable {}) idleHandlers
        { stateWithInstruction 0x200 0x23 0x00 with rSP := 16 }).rPC = 0x300
    ∧ (Chip8EmulatorFP.executeInstruction {} (Chip8EmulatorFP.ruleTable {}) idleHandlers
        { stateWithInstruction 0x200 0x23 0x00 with rSP := 16 }).rSP = 17
    ∧ (Chip8EmulatorFP.executeInstruction {} (Chip8EmulatorFP.ruleTable {}) idleHandlers
        { stateWithInstruction 0x200 0x23 0x00 with rSP := 16 }).stack 16 = 0x200 :=
  have h := C8_overflowing_call_is_not_undone {} (Chip8EmulatorFP.ruleTable {}) idleHandlers
    { stateWithInstruction 0x200 0x23 0x00 with rSP := 16 } (opcodeHandler_eq {}) rfl rfl rfl
    (by decide) (by decide)
  ⟨h.1, h.2.1, h.2.2.1⟩

/-- C9 (what the code does): a `00EE` on the empty stack of a variant without cyclic stack
(Running mode, SP = 0) is not undone.  `errorHalt` sets Error and Paused and rewinds the cycle
counter, but `op00EE` goes on after it: SP wraps to 255 and PC is loaded from element 255 of the
16-entry stack. -/
theorem C9_underflowing_return_is_not_undone (o : Chip8EmulatorOptions) (tbl : HandlerTable)
    (ext : HandlerSemantics) (s : Chip8EmulatorBase)
    (hT : Chip8EmulatorFP.opcodeHandler o = some tbl) (hcyc : o.optCyclicStack = false)
    (hrun : s.execMode = .eRUNNING) (hsp : s.rSP = 0)
    (hop : Chip8EmulatorFP.fetchOpcode s = 0x00EE) :
    (Chip8EmulatorFP.executeInstruction o tbl ext s).rPC = s.stack 255
    ∧ (Chip8EmulatorFP.executeInstruction o tbl ext s).rSP = 255
    ∧ (Chip8EmulatorFP.executeInstruction o tbl ext s).cycleCounter = s.cycleCounter
    ∧ (Chip8EmulatorFP.executeInstruction o tbl ext s).cpuState = .eERROR
    ∧ (Chip8EmulatorFP.executeInstruction o tbl ext s).execMode = .ePAUSED := by
  unfold Chip8EmulatorFP.executeInstruction
  rw [if_pos hrun, fetchAndDispatch_00EE o tbl ext s hT hcyc hop]
  unfold Chip8EmulatorFP.op00EE Chip8EmulatorFP.checkBreakpoint
  simp only [hsp, if_true, Chip8EmulatorBase.errorHalt]
  split_ifs <;>
    refine ⟨rfl, rfl, ?_, rfl, rfl⟩ <;>
    (show s.cycleCounter + 1 - 1 = s.cycleCounter; omega)

/-- C9 (witness): the plain configuration with an empty stack, running `00EE` at `0x200`, the
storage behind the stack being zero: afterwards SP is 255 and PC is 0, the content of stack
element 255, not `0x200`. -/
theorem C9_underflowing_return_is_not_undone_witness :
    (Chip8EmulatorFP.executeInstruction {} (Chip8EmulatorFP.ruleTable {}) idleHandlers
        (stateWithInstruction 0x200 0x00 0xEE)).rPC = 0
    ∧ (Chip8EmulatorFP.executeInstruction {} (Chip8EmulatorFP.ruleTable {}) idleHandlers
        (stateWithInstruction 0x200 0x00 0xEE)).rSP = 255 :=
  have h := C9_underflowing_return_is_not_undone {} (Chip8EmulatorFP.ruleTable {}) idleHandlers
    (stateWithInstruction 0x200 0x00 0xEE) (opcodeHandler_eq {}) rfl rfl rfl (by decide)
  ⟨h.1, h.2.1⟩

/-- C10: in a variant with cyclic stack the table dispatches `2nnn` to `op2nnn_cyclic` and
`00EE` to `op00EE_cyclic`.  For every SP, `op2nnn_cyclic` stores the return address (modulo
2^16, the width of a slot) in slot `SP mod 16` and nowhere else, sets SP to `(SP + 1) mod 256`
and PC to `nnn`, and changes neither the CPU state nor the execution mode; `op00EE_cyclic` sets
SP to `(SP - 1) mod 256`, loads PC from slot `(SP - 1) mod 16` and changes neither the CPU state
nor the stack; so no sequence of such calls and returns changes the CPU state, in particular
none makes it Error. -/
theorem C10_cyclic_stack_never_faults (o : Chip8EmulatorOptions) (tbl : HandlerTable)
    (hT : Chip8EmulatorFP.opcodeHandler o = some tbl) (hcyc : o.optCyclicStack = true) :
    (∀ opcode, opcode < 65536 → opcode &&& 0xF000 = 0x2000 → tbl opcode = .op2nnn_cyclic)
    ∧ tbl 0x00EE = .op00EE_cyclic
    ∧ (∀ (opcode : Nat) (s : Chip8EmulatorBase),
        (Chip8EmulatorFP.op2nnn_cyclic opcode s).stack (s.rSP % 16) = s.rPC % 65536
        ∧ (s.rPC < 65536 →
            (Chip8EmulatorFP.op2nnn_cyclic opcode s).stack (s.rSP % 16) = s.rPC)
        ∧ (∀ i, i ≠ s.rSP % 16 → (Chip8EmulatorFP.op2nnn_cyclic opcode s).stack i = s.stack i)
        ∧ (Chip8EmulatorFP.op2nnn_cyclic opcode s).rSP = (s.rSP + 1) % 256
        ∧ (Chip8EmulatorFP.op2nnn_cyclic opcode s).rPC = opcode &&& 0xFFF
        ∧ (Chip8EmulatorFP.op2nnn_cyclic opcode s).cpuState = s.cpuState
        ∧ (Chip8EmulatorFP.op2nnn_cyclic opcode s).execMode = s.execMode)
    ∧ (∀ (opcode : Nat) (s : Chip8EmulatorBase),
        (Chip8EmulatorFP.op00EE_cyclic opcode s).rPC = s.stack ((s.rSP + 15) % 16)
        ∧ (Chip8EmulatorFP.op00EE_cyclic opcode s).rSP = (s.rSP + 255) % 256
        ∧ (Chip8EmulatorFP.op00EE_cyclic opcode s).cpuState = s.cpuState
        ∧ (Chip8EmulatorFP.op00EE_cyclic opcode s).stack = s.stack)
    ∧ (∀ (ops : List Nat) (s : Chip8EmulatorBase),
        (runStackOps true ops s).cpuState = s.cpuState) := by
  have h15 : ∀ x : Nat, x &&& 0xF = x % 16 := fun x => Nat.and_pow_two_sub_one_eq_mod x 4
  refine ⟨?_, ?_, ?_, ?_, runStackOps_cyclic_cpuState⟩
  · intro opcode h16 hop
    have := table_get hT (opcodeHandler_2nnn o opcode h16 hop)
    rw [this, hcyc]
    rfl
  · have := table_get hT (opcodeHandler_00EE o)
    rw [this, hcyc]
    rfl
  · intro opcode s
    unfold Chip8EmulatorFP.op2nnn_cyclic
    simp only [h15, arrStore, if_true]
    refine ⟨trivial, fun hfit => Nat.mod_eq_of_lt hfit, ?_, trivial, trivial, trivial, trivial⟩
    intro i hi
    rw [if_neg hi]
  · intro opcode s
    have hsp : (s.rSP + 256 - 1) % 256 = (s.rSP + 255) % 256 := by omega
    have hidx : (s.rSP + 255) % 256 % 16 = (s.rSP + 15) % 16 := by omega
    unfold Chip8EmulatorFP.op00EE_cyclic
    simp only [h15, hsp, hidx]
    split_ifs <;> exact ⟨rfl, rfl, rfl, rfl⟩

/-- C10 (witness): the plain configuration with `optCyclicStack` set, a call at SP = 255 and a
return at SP = 0. -/
theorem C10_cyclic_stack_never_faults_witness :
    (Chip8EmulatorFP.ruleTable { optCyclicStack := true }) 0x2300 = .op2nnn_cyclic
    ∧ (Chip8EmulatorFP.op2nnn_cyclic 0x2300 { rSP := 255, rPC := 0x202 }).stack 15 = 0x202
    ∧ (Chip8EmulatorFP.op2nnn_cyclic 0x2300 { rSP := 255, rPC := 0x202 }).rSP = 0
    ∧ (Chip8EmulatorFP.op00EE_cyclic 0x00EE { rSP := 0 }).rSP = 255
    ∧ (Chip8EmulatorFP.op00EE_cyclic 0x00EE { rSP := 0 }).cpuState = .eNORMAL :=
  have h := C10_cyclic_stack_never_faults { optCyclicStack := true }
    (Chip8EmulatorFP.ruleTable { optCyclicStack := true }) (opcodeHandler_eq _) rfl
  ⟨h.1 0x2300 (by decide) (by decide),
    (h.2.2.1 0x2300 { rSP := 255, rPC := 0x202 }).1,
    (h.2.2.1 0x2300 { rSP := 255, rPC := 0x202 }).2.2.2.1,
    (h.2.2.2.1 0x00EE { rSP := 0 }).2.1,
    (h.2.2.2.1 0x00EE { rSP := 0 }).2.2.1⟩

/-- C11: in Running mode, with PC + 2 <= ADDRESS_MASK, an instruction whose table entry is
`opInvalid` is undone by `executeInstruction`: the state afterwards is the state before with
CpuState Error, execution mode Paused and the fault message; so PC and the cycle counter are
the ones before the instruction and no V register, I, SP, stack slot, timer or memory byte
has changed. -/
theorem C11_invalid_opcode_is_undone (o : Chip8EmulatorOptions) (tbl : HandlerTable)
    (ext : HandlerSemantics) (s : Chip8EmulatorBase)
    (hrun : s.execMode = .eRUNNING)
    (hpc : s.rPC + 2 ≤ Chip8EmulatorFP.ADDRESS_MASK o)
    (hinv : tbl (Chip8EmulatorFP.fetchOpcode s) = .opInvalid) :
    Chip8EmulatorFP.executeInstruction o tbl ext s
        = { s with execMode := .ePAUSED, cpuState := .eERROR,
                   errorMessage := "INVALID OPCODE: " ++ hex4 (Chip8EmulatorFP.fetchOpcode s) }
    ∧ (Chip8EmulatorFP.executeInstruction o tbl ext s).rPC = s.rPC
    ∧ (Chip8EmulatorFP.executeInstruction o tbl ext s).cycleCounter = s.cycleCounter
    ∧ (Chip8EmulatorFP.executeInstruction o tbl ext s).cpuState = .eERROR
    ∧ (Chip8EmulatorFP.executeInstruction o tbl ext s).execMode = .ePAUSED
    ∧ (Chip8EmulatorFP.executeInstruction o tbl ext s).rV = s.rV
    ∧ (Chip8EmulatorFP.executeInstruction o tbl ext s).rI = s.rI
    ∧ (Chip8EmulatorFP.executeInstruction o tbl ext s).rSP = s.rSP
    ∧ (Chip8EmulatorFP.executeInstruction o tbl ext s).stack = s.stack
    ∧ (Chip8EmulatorFP.executeInstruction o tbl ext s).rDT = s.rDT
    ∧ (Chip8EmulatorFP.executeInstruction o tbl ext s).rST = s.rST
    ∧ (Chip8EmulatorFP.executeInstruction o tbl ext s).memory = s.memory := by
  have hcc : s.cycleCounter + 1 - 1 = s.cycleCounter := by omega
  have key : Chip8EmulatorFP.executeInstruction o tbl ext s
      = { s with execMode := .ePAUSED, cpuState := .eERROR,
                 errorMessage := "INVALID OPCODE: " ++ hex4 (Chip8EmulatorFP.fetchOpcode s) } := by
    unfold Chip8EmulatorFP.executeInstruction
    rw [if_pos hrun]
    unfold Chip8EmulatorFP.fetchAndDispatch
    simp only [hinv, Chip8EmulatorFP.invoke, Chip8EmulatorFP.opInvalid,
      Chip8EmulatorBase.errorHalt, returnAddress_of_le o s hpc, rewind_of_le o s hpc, hcc]
    unfold Chip8EmulatorFP.checkBreakpoint
    split_ifs <;> rfl
  rw [key]
  exact ⟨rfl, rfl, rfl, rfl, rfl, rfl, rfl, rfl, rfl, rfl, rfl, rfl⟩

/-- C11 (witness): the plain configuration running the unmapped opcode `0000` at `0x200`. -/
theorem C11_invalid_opcode_is_undone_witness :
    (Chip8EmulatorFP.executeInstruction {} (Chip8EmulatorFP.ruleTable {}) idleHandlers
        (stateWithInstruction 0x200 0x00 0x00)).rPC = 0x200
    ∧ (Chip8EmulatorFP.executeInstruction {} (Chip8EmulatorFP.ruleTable {}) idleHandlers
        (stateWithInstruction 0x200 0x00 0x00)).cycleCounter = 0
    ∧ (Chip8EmulatorFP.executeInstruction {} (Chip8EmulatorFP.ruleTable {}) idleHandlers
        (stateWithInstruction 0x200 0x00 0x00)).cpuState = .eERROR
    ∧ (Chip8EmulatorFP.executeInstruction {} (Chip8EmulatorFP.ruleTable {}) idleHandlers
        (stateWithInstruction 0x200 0x00 0x00)).execMode = .ePAUSED :=
  have h := C11_invalid_opcode_is_undone {} (Chip8EmulatorFP.ruleTable {}) idleHandlers
    (stateWithInstruction 0x200 0x00 0x00) rfl (by decide) (by decide)
  ⟨h.2.1, h.2.2.1, h.2.2.2.1, h.2.2.2.2.1⟩

/-- C12 (what the code does): the fault state can be left without `reset()`.  `setExecMode`
does not look at CpuState, so a machine in CpuState Error can be set to Running;
`executeInstruction` in Running mode then runs the handler of the opcode at PC whatever
CpuState is (the cycle counter advances), and when that opcode is `Fx0A` and the host reports
key `k` the handler stores `k` in Vx and sets CpuState to Normal. -/
theorem C12_error_state_left_by_running (o : Chip8EmulatorOptions) (tbl : HandlerTable)
    (ext : HandlerSemantics) (s : Chip8EmulatorBase) (k : Nat)
    (hT : Chip8EmulatorFP.opcodeHandler o = some tbl)
    (herr : s.cpuState = .eERROR)
    (hop : Chip8EmulatorFP.fetchOpcode s &&& 0xF0FF = 0xF00A)
    (hkey : s.keyPressed = (k : Int) + 1) (hk : k < 16) :
    (s.setExecMode .eRUNNING).execMode = .eRUNNING
    ∧ (s.setExecMode .eRUNNING).cpuState = .eERROR
    ∧ (Chip8EmulatorFP.executeInstruction o tbl ext (s.setExecMode .eRUNNING)).cpuState
        = .eNORMAL
    ∧ (Chip8EmulatorFP.executeInstruction o tbl ext (s.setExecMode .eRUNNING)).rV
        ((Chip8EmulatorFP.fetchOpcode s >>> 8) &&& 0xF) = k
    ∧ (Chip8EmulatorFP.executeInstruction o tbl ext (s.setExecMode .eRUNNING)).cycleCounter
        = s.cycleCounter + 1 := by
  have hset := setExecMode_of_ne .eRUNNING s (by decide)
  have hrun : (s.setExecMode .eRUNNING).execMode = .eRUNNING := by rw [hset]
  have hop2 : Chip8EmulatorFP.fetchOpcode (s.setExecMode .eRUNNING) &&& 0xF0FF = 0xF00A := by
    rw [hset]; exact hop
  have hkey2 : (s.setExecMode .eRUNNING).keyPressed = (k : Int) + 1 := by
    rw [hset]; exact hkey
  refine ⟨hrun, by rw [hset]; exact herr, ?_⟩
  have hf : Chip8EmulatorFP.fetchOpcode (s.setExecMode .eRUNNING)
      = Chip8EmulatorFP.fetchOpcode s := by rw [hset]; rfl
  unfold Chip8EmulatorFP.executeInstruction
  rw [if_pos hrun, checkBreakpoint_eq,
    fetchAndDispatch_Fx0A_key o tbl ext _ k hT hop2 hkey2 hk, hf]
  exact ⟨rfl, if_pos rfl, by rw [hset]⟩

/-- C12 (witness): a machine halted in CpuState Error whose PC points at `F00A`, with the host
reporting key 5: after `setExecMode(eRUNNING)` and one `executeInstruction` CpuState is Normal
and V0 holds 5. -/
theorem C12_error_state_left_by_running_witness :
    (Chip8EmulatorFP.executeInstruction {} (Chip8EmulatorFP.ruleTable {}) idleHandlers
        (Chip8EmulatorBase.setExecMode .eRUNNING
          { stateWithInstruction 0x200 0xF0 0x0A with
            execMode := .ePAUSED, cpuState := .eERROR, keyPressed := 6 })).cpuState = .eNORMAL
    ∧ (Chip8EmulatorFP.executeInstruction {} (Chip8EmulatorFP.ruleTable {}) idleHandlers
        (Chip8EmulatorBase.setExecMode .eRUNNING
          { stateWithInstruction 0x200 0xF0 0x0A with
            execMode := .ePAUSED, cpuState := .eERROR, keyPressed := 6 })).rV 0 = 5 :=
  have h := C12_error_state_left_by_running {} (Chip8EmulatorFP.ruleTable {}) idleHandlers
    { stateWithInstruction 0x200 0xF0 0x0A with
      execMode := .ePAUSED, cpuState := .eERROR, keyPressed := 6 } 5
    (opcodeHandler_eq {}) rfl (by decide) rfl (by decide)
  ⟨h.2.2.1, h.2.2.2.1⟩

/-- C13: with CpuState Error, `executeInstruction` in Step, StepOver or StepOut mode returns
the state as it is (nothing is executed and the mode stays), and `executeFor(micros)` sets the
execution mode to Paused, changes nothing else and returns 0, for every `micros` and in every
execution mode. -/
theorem C13_error_suppresses_stepping (o : Chip8EmulatorOptions) (tbl : HandlerTable)
    (ext : HandlerSemantics) (s : Chip8EmulatorBase)
    (schedule : Int → Chip8EmulatorBase → Chip8EmulatorBase × Int) (micros : Int)
    (herr : s.cpuState = .eERROR) :
    (s.execMode = .eSTEP ∨ s.execMode = .eSTEPOVER ∨ s.execMode = .eSTEPOUT →
      Chip8EmulatorFP.executeInstruction o tbl ext s = s)
    ∧ Chip8EmulatorBase.executeFor schedule micros s = ({ s with execMode := .ePAUSED }, 0) := by
  constructor
  · intro hmode
    have hrun : s.execMode ≠ .eRUNNING := by
      rcases hmode with h | h | h <;> rw [h] <;> decide
    unfold Chip8EmulatorFP.executeInstruction
    rw [if_neg hrun, if_pos (Or.inr herr)]
  · unfold Chip8EmulatorBase.executeFor
    rw [if_pos (Or.inr herr), setExecMode_of_ne .ePAUSED s (by decide)]

/-- C13 (witness): a machine in CpuState Error and StepOver mode facing a call `2300`: the
state after `executeInstruction` is the state before, and `executeFor(1000)` returns 0 and
leaves the machine Paused. -/
theorem C13_error_suppresses_stepping_witness :
    Chip8EmulatorFP.executeInstruction {} (Chip8EmulatorFP.ruleTable {}) idleHandlers
        { stateWithInstruction 0x200 0x23 0x00 with
          execMode := .eSTEPOVER, cpuState := .eERROR }
      = { stateWithInstruction 0x200 0x23 0x00 with
          execMode := .eSTEPOVER, cpuState := .eERROR }
    ∧ (Chip8EmulatorBase.executeFor (fun _ t => (t, 1)) 1000
        { stateWithInstruction 0x200 0x23 0x00 with
          execMode := .eSTEPOVER, cpuState := .eERROR }).2 = 0
    ∧ (Chip8EmulatorBase.executeFor (fun _ t => (t, 1)) 1000
        { stateWithInstruction 0x200 0x23 0x00 with
          execMode := .eSTEPOVER, cpuState := .eERROR }).1.execMode = .ePAUSED :=
  have h := C13_error_suppresses_stepping {} (Chip8EmulatorFP.ruleTable {}) idleHandlers
    { stateWithInstruction 0x200 0x23 0x00 with execMode := .eSTEPOVER, cpuState := .eERROR }
    (fun _ t => (t, 1)) 1000 rfl
  ⟨h.1 (Or.inr (Or.inl rfl)), congrArg Prod.snd h.2, congrArg (fun p => p.1.execMode) h.2⟩

/-- C14: in Step mode with CpuState Normal, `executeInstructions(n)` with n >= 1 returns, in
each of its three branches (whatever the MegaChip and instant-Dxyn flags are), the state that
one fetch and dispatch of the instruction at PC leaves, with the execution mode Paused: one
handler is invoked, and the remaining rounds of the loop (any number of them) change nothing.
The handlers that are not embedded are taken to do with the execution mode what every handler
of the sources does: leave it alone or pause. -/
theorem C14_step_executes_one_instruction (o : Chip8EmulatorOptions) (tbl : HandlerTable)
    (ext : HandlerSemantics)
    (hext : ∀ h opcode t, (ext h opcode t).execMode = t.execMode
      ∨ (ext h opcode t).execMode = .ePAUSED)
    (fuel : Nat) (n : Int) (s : Chip8EmulatorBase)
    (hstep : s.execMode = .eSTEP) (hcpu : s.cpuState = .eNORMAL) (hn : 1 ≤ n) :
    Chip8EmulatorFP.executeInstructions o tbl ext fuel n s
        = some { Chip8EmulatorFP.fetchAndDispatch o tbl ext s with execMode := .ePAUSED }
    ∧ Chip8EmulatorFP.executeInstruction o tbl ext s
        = { Chip8EmulatorFP.fetchAndDispatch o tbl ext s with execMode := .ePAUSED }
    ∧ (∀ k, Chip8EmulatorFP.executeInstructionLoop o tbl ext k
          (Chip8EmulatorFP.executeInstruction o tbl ext s)
        = Chip8EmulatorFP.executeInstruction o tbl ext s)
    ∧ (∀ k, Chip8EmulatorFP.displayWaitLoop o tbl ext k
          (Chip8EmulatorFP.executeInstruction o tbl ext s)
        = Chip8EmulatorFP.executeInstruction o tbl ext s) := by
  have h1 := executeInstruction_step o tbl ext hext s hstep hcpu
  have hp : (Chip8EmulatorFP.executeInstruction o tbl ext s).execMode = .ePAUSED := by
    rw [h1]
  have hloop := fun k => executeInstructionLoop_paused o tbl ext k _ hp
  have hwait := fun k => displayWaitLoop_paused o tbl ext k _ hp
  refine ⟨?_, h1, hloop, hwait⟩
  obtain ⟨m, hm⟩ : ∃ m, n.toNat = m + 1 := ⟨n.toNat - 1, by omega⟩
  have e1 : Chip8EmulatorFP.executeInstructionLoop o tbl ext n.toNat s
      = Chip8EmulatorFP.executeInstruction o tbl ext s := by
    rw [hm]
    exact hloop m
  have e2 : Chip8EmulatorFP.displayWaitLoop o tbl ext n.toNat s
      = Chip8EmulatorFP.executeInstruction o tbl ext s := by
    rw [hm]
    unfold Chip8EmulatorFP.displayWaitLoop
    rw [if_neg (by rw [hstep]; rintro ⟨h, _⟩; exact absurd h (by decide))]
    exact hwait m
  unfold Chip8EmulatorFP.executeInstructions
  rw [e1, e2, h1]
  simp only [hstep, false_and, if_false,
    (by decide : ¬ ExecMode.eSTEP = ExecMode.ePAUSED),
    (by decide : ¬ ExecMode.eSTEP = ExecMode.eRUNNING)]
  split_ifs <;> rfl

/-- C14 (witness): the plain configuration in Step mode facing the call `2300`, asked for 5
instructions: the outcome is the one call (PC = 0x300, SP = 1, one cycle) and the machine is
paused. -/
theorem C14_step_executes_one_instruction_witness :
    (Chip8EmulatorFP.executeInstructions {} (Chip8EmulatorFP.ruleTable {}) idleHandlers 0 5
        { stateWithInstruction 0x200 0x23 0x00 with execMode := .eSTEP }).map
      (fun t => (t.rPC, t.rSP, t.cycleCounter, t.execMode))
      = some (0x300, 1, 1, .ePAUSED) :=
  (congrArg (Option.map (fun t => (t.rPC, t.rSP, t.cycleCounter, t.execMode)))
    (C14_step_executes_one_instruction {} (Chip8EmulatorFP.ruleTable {}) idleHandlers
      (fun _ _ _ => Or.inl rfl) 0 5
      { stateWithInstruction 0x200 0x23 0x00 with execMode := .eSTEP } rfl rfl
      (by decide)).1).trans (by decide)

/-- C15: `setExecMode(eSTEPOVER)` records the stack depth, `_stepOverSP = _rSP`, and changes
nothing but the mode.  Each `executeInstruction` in StepOver mode with CpuState Normal and no
breakpoint at the new PC executes one instruction (one fetch and dispatch) and then sets the
mode to Paused if and only if SP is at most the recorded depth; so when the instruction has
left the mode alone the machine is paused afterwards iff SP <= d.  A `2nnn` at the recorded
depth or deeper (below 16) leaves SP above it and the mode StepOver; a `00EE` is followed by
the pause iff it brings SP down to the recorded depth or below.  The handlers that are not
embedded are taken to leave the execution mode alone or pause, as every handler of the
sources does. -/
theorem C15_step_over_pauses_at_recorded_depth (o : Chip8EmulatorOptions) (tbl : HandlerTable)
    (ext : HandlerSemantics)
    (hext : ∀ h opcode t, (ext h opcode t).execMode = t.execMode
      ∨ (ext h opcode t).execMode = .ePAUSED)
    (hT : Chip8EmulatorFP.opcodeHandler o = some tbl)
    (s u : Chip8EmulatorBase) (hmode : u.execMode = .eSTEPOVER) (hcpu : u.cpuState = .eNORMAL)
    (hbp : (Chip8EmulatorFP.fetchAndDispatch o tbl ext u).findBreakpoint
      (Chip8EmulatorFP.fetchAndDispatch o tbl ext u).rPC = false) :
    s.setExecMode .eSTEPOVER = { s with execMode := .eSTEPOVER, stepOverSP := s.rSP }
    ∧ Chip8EmulatorFP.executeInstruction o tbl ext u
        = (if (Chip8EmulatorFP.fetchAndDispatch o tbl ext u).rSP
              ≤ (Chip8EmulatorFP.fetchAndDispatch o tbl ext u).stepOverSP then
            { Chip8EmulatorFP.fetchAndDispatch o tbl ext u with execMode := .ePAUSED }
          else Chip8EmulatorFP.fetchAndDispatch o tbl ext u)
    ∧ ((Chip8EmulatorFP.fetchAndDispatch o tbl ext u).execMode = .eSTEPOVER →
        ((Chip8EmulatorFP.executeInstruction o tbl ext u).execMode = .ePAUSED
          ↔ (Chip8EmulatorFP.fetchAndDispatch o tbl ext u).rSP
              ≤ (Chip8EmulatorFP.fetchAndDispatch o tbl ext u).stepOverSP)
        ∧ ((Chip8EmulatorFP.executeInstruction o tbl ext u).execMode = .eSTEPOVER
          ↔ ¬ (Chip8EmulatorFP.fetchAndDispatch o tbl ext u).rSP
              ≤ (Chip8EmulatorFP.fetchAndDispatch o tbl ext u).stepOverSP))
    ∧ (Chip8EmulatorFP.fetchOpcode u &&& 0xF000 = 0x2000 → u.rSP < 16 →
        u.stepOverSP ≤ u.rSP →
        (Chip8EmulatorFP.executeInstruction o tbl ext u).execMode = .eSTEPOVER
        ∧ (Chip8EmulatorFP.executeInstruction o tbl ext u).rSP = u.rSP + 1
        ∧ (Chip8EmulatorFP.executeInstruction o tbl ext u).stepOverSP = u.stepOverSP)
    ∧ (Chip8EmulatorFP.fetchOpcode u = 0x00EE → 0 < u.rSP → u.rSP < 256 →
        (Chip8EmulatorFP.executeInstruction o tbl ext u).rSP + 1 = u.rSP
        ∧ (Chip8EmulatorFP.executeInstruction o tbl ext u).stepOverSP = u.stepOverSP
        ∧ ((Chip8EmulatorFP.executeInstruction o tbl ext u).execMode = .ePAUSED
          ↔ u.rSP ≤ u.stepOverSP + 1)
        ∧ ((Chip8EmulatorFP.executeInstruction o tbl ext u).execMode = .eSTEPOVER
          ↔ ¬ u.rSP ≤ u.stepOverSP + 1)) := by
  have hex := executeInstruction_stepOver o tbl ext hext u hmode hcpu hbp
  have hiff : ∀ r : Chip8EmulatorBase, r.execMode = .eSTEPOVER →
      ((if r.rSP ≤ r.stepOverSP then { r with execMode := .ePAUSED } else r).execMode
          = .ePAUSED ↔ r.rSP ≤ r.stepOverSP)
      ∧ ((if r.rSP ≤ r.stepOverSP then { r with execMode := .ePAUSED } else r).execMode
          = .eSTEPOVER ↔ ¬ r.rSP ≤ r.stepOverSP)
      ∧ (if r.rSP ≤ r.stepOverSP then { r with execMode := .ePAUSED } else r).rSP = r.rSP
      ∧ (if r.rSP ≤ r.stepOverSP then { r with execMode := .ePAUSED } else r).stepOverSP
          = r.stepOverSP := by
    intro r hr
    by_cases hle : r.rSP ≤ r.stepOverSP
    · rw [if_pos hle]
      exact ⟨⟨fun _ => hle, fun _ => rfl⟩,
        ⟨fun h => absurd (show ExecMode.ePAUSED = ExecMode.eSTEPOVER from h) (by decide),
          fun h => absurd hle h⟩,
        rfl, rfl⟩
    · rw [if_neg hle]
      exact ⟨⟨fun h => absurd (hr.symm.trans h) (by decide), fun h => absurd h hle⟩,
        ⟨fun _ => hle, fun _ => hr⟩, rfl, rfl⟩
  refine ⟨setExecMode_stepOver s, hex, ?_, ?_, ?_⟩
  · intro hr
    rw [hex]
    exact ⟨(hiff _ hr).1, (hiff _ hr).2.1⟩
  · intro hop hsp hd
    obtain ⟨h1, h2, h3⟩ := fetchAndDispatch_call_depth o tbl ext u hT hop hsp
    have hr := h2.trans hmode
    have hnle : ¬ (Chip8EmulatorFP.fetchAndDispatch o tbl ext u).rSP
        ≤ (Chip8EmulatorFP.fetchAndDispatch o tbl ext u).stepOverSP := by
      rw [h1, h3]; omega
    rw [hex]
    exact ⟨(hiff _ hr).2.1.2 hnle, (hiff _ hr).2.2.1.trans h1, (hiff _ hr).2.2.2.trans h3⟩
  · intro hop hsp hsp2
    obtain ⟨h1, h2, h3⟩ := fetchAndDispatch_return_depth o tbl ext u hT hop hsp hsp2
      (by rw [hmode]; decide)
    have hr := h2.trans hmode
    have hle : (Chip8EmulatorFP.fetchAndDispatch o tbl ext u).rSP
        ≤ (Chip8EmulatorFP.fetchAndDispatch o tbl ext u).stepOverSP ↔ u.rSP ≤ u.stepOverSP + 1 := by
      rw [h3, ← h1]; omega
    rw [hex]
    refine ⟨by rw [(hiff _ hr).2.2.1]; exact h1, (hiff _ hr).2.2.2.trans h3, ?_, ?_⟩
    · exact (hiff _ hr).1.trans hle
    · exact (hiff _ hr).2.1.trans (not_congr hle)

/-- C15 (witness): the plain configuration.  StepOver is set at depth 0 in front of the call
`2300`: the call leaves the machine in StepOver at depth 1.  One level down, a `00EE` at depth 1
with recorded depth 0 brings SP back to 0 and the machine is paused. -/
theorem C15_step_over_pauses_at_recorded_depth_witness :
    ((Chip8EmulatorFP.executeInstruction {} (Chip8EmulatorFP.ruleTable {}) idleHandlers
        (Chip8EmulatorBase.setExecMode .eSTEPOVER (stateWithInstruction 0x200 0x23 0x00))).execMode
        = .eSTEPOVER
      ∧ (Chip8EmulatorFP.executeInstruction {} (Chip8EmulatorFP.ruleTable {}) idleHandlers
        (Chip8EmulatorBase.setExecMode .eSTEPOVER (stateWithInstruction 0x200 0x23 0x00))).rSP
        = 1)
    ∧ ((Chip8EmulatorFP.executeInstruction {} (Chip8EmulatorFP.ruleTable {}) idleHandlers
        { stateWithInstruction 0x300 0x00 0xEE with
          execMode := .eSTEPOVER, rSP := 1 }).execMode = .ePAUSED
      ∧ (Chip8EmulatorFP.executeInstruction {} (Chip8EmulatorFP.ruleTable {}) idleHandlers
        { stateWithInstruction 0x300 0x00 0xEE with
          execMode := .eSTEPOVER, rSP := 1 }).rSP + 1 = 1) :=
  have h1 := C15_step_over_pauses_at_recorded_depth {} (Chip8EmulatorFP.ruleTable {})
    idleHandlers (fun _ _ _ => Or.inl rfl) (opcodeHandler_eq {})
    (stateWithInstruction 0x200 0x23 0x00)
    (Chip8EmulatorBase.setExecMode .eSTEPOVER (stateWithInstruction 0x200 0x23 0x00))
    rfl rfl (by decide)
  have h2 := C15_step_over_pauses_at_recorded_depth {} (Chip8EmulatorFP.ruleTable {})
    idleHandlers (fun _ _ _ => Or.inl rfl) (opcodeHandler_eq {})
    (stateWithInstruction 0x200 0x23 0x00)
    { stateWithInstruction 0x300 0x00 0xEE with execMode := .eSTEPOVER, rSP := 1 }
    rfl rfl (by decide)
  have c := h1.2.2.2.1 (by decide) (by decide) (by decide)
  have r := h2.2.2.2.2 (by decide) (by decide) (by decide)
  ⟨⟨c.1, c.2.1⟩, ⟨r.2.2.1.2 (by decide), r.1⟩⟩

/-- C16: `handleTimer` increases the frame counter by exactly one, decreases DT by one when
DT > 0 and ST by one when ST > 0, leaves a timer that is 0 at 0, and changes no V register,
I, PC, SP, stack slot or memory byte; after `n` calls DT has gone down by `n` (stopping at 0),
so after n >= DT calls DT is 0, and likewise ST. -/
theorem C16_handleTimer_counts_down (s : Chip8EmulatorBase) :
    s.handleTimer.frameCounter = s.frameCounter + 1
    ∧ (0 < s.rDT → s.handleTimer.rDT + 1 = s.rDT)
    ∧ (s.rDT = 0 → s.handleTimer.rDT = 0)
    ∧ (0 < s.rST → s.handleTimer.rST + 1 = s.rST)
    ∧ (s.rST = 0 → s.handleTimer.rST = 0)
    ∧ s.handleTimer.rV = s.rV ∧ s.handleTimer.rI = s.rI ∧ s.handleTimer.rPC = s.rPC
    ∧ s.handleTimer.rSP = s.rSP ∧ s.handleTimer.stack = s.stack
    ∧ s.handleTimer.memory = s.memory
    ∧ (∀ n, (Chip8EmulatorBase.handleTimer^[n] s).rDT = s.rDT - n)
    ∧ (∀ n, s.rDT ≤ n → (Chip8EmulatorBase.handleTimer^[n] s).rDT = 0)
    ∧ (∀ n, s.rST ≤ n → (Chip8EmulatorBase.handleTimer^[n] s).rST = 0)
    ∧ (∀ n, (Chip8EmulatorBase.handleTimer^[n] s).frameCounter = s.frameCounter + n) := by
  rw [handleTimer_eq]
  refine ⟨rfl, ?_, ?_, ?_, ?_, rfl, rfl, rfl, rfl, rfl, rfl, ?_, ?_, ?_, ?_⟩
  · intro h; show s.rDT - 1 + 1 = s.rDT; omega
  · intro h; show s.rDT - 1 = 0; omega
  · intro h; show s.rST - 1 + 1 = s.rST; omega
  · intro h; show s.rST - 1 = 0; omega
  · exact fun n => (handleTimer_iterate n s).1
  · intro n h; rw [(handleTimer_iterate n s).1]; omega
  · intro n h; rw [(handleTimer_iterate n s).2.1]; omega
  · exact fun n => (handleTimer_iterate n s).2.2.1

/-- C16 (witness): with DT = 3 and ST = 0, one call gives DT = 2 and ST = 0, and five calls
give DT = 0. -/
theorem C16_handleTimer_counts_down_witness :
    (Chip8EmulatorBase.handleTimer { rDT := 3 }).rDT + 1 = 3
    ∧ (Chip8EmulatorBase.handleTimer { rDT := 3 }).rST = 0
    ∧ (Chip8EmulatorBase.handleTimer^[5] { rDT := 3 }).rDT = 0 :=
  have h := C16_handleTimer_counts_down { rDT := 3 }
  ⟨h.2.1 (by decide), h.2.2.2.2.1 rfl, h.2.2.2.2.2.2.2.2.2.2.2.2.1 5 (by decide)⟩

/-- C17 (what the code does): for a running machine with an empty breakpoint map,
`executeInstructions(n)` gives the same state with trace logging off (fast path) and on (slow
path) in the MegaChip branch and in the display-wait branch, but not in the instant-Dxyn
branch.  There the fast loop neither looks at the execution mode nor counts cycles per
instruction: on a jump to itself (which pauses the machine) it runs all `n` rounds and then
adds `n` to the cycle counter, while the slow path stops after the first instruction with the
cycle counter advanced by 1.  The handlers that are not embedded are taken to leave the
breakpoint map alone. -/
theorem C17_instant_fast_path_runs_past_pause (o : Chip8EmulatorOptions) (tbl : HandlerTable)
    (ext : HandlerSemantics)
    (hext : ∀ h opcode t, (ext h opcode t).breakpoints = t.breakpoints)
    (hT : Chip8EmulatorFP.opcodeHandler o = some tbl)
    (fuel : Nat) (n : Int) (s : Chip8EmulatorBase)
    (hrun : s.execMode = .eRUNNING) (hbp : s.breakpoints = []) :
    (s.isMegaChipMode = true ∨ s.isInstantDxyn = false →
      Chip8EmulatorFP.executeInstructions { o with optTraceLog := false } tbl ext fuel n s
        = Chip8EmulatorFP.executeInstructions { o with optTraceLog := true } tbl ext fuel n s)
    ∧ (s.isMegaChipMode = false → s.isInstantDxyn = true → 1 ≤ n →
        Chip8EmulatorFP.fetchOpcode s &&& 0xF000 = 0x1000 →
        Chip8EmulatorFP.fetchOpcode s &&& 0xFFF = s.rPC →
        s.rPC + 2 ≤ Chip8EmulatorFP.ADDRESS_MASK o →
        Chip8EmulatorFP.executeInstructions { o with optTraceLog := false } tbl ext fuel n s
          = some { s with execMode := .ePAUSED, cycleCounter := s.cycleCounter + n }
        ∧ Chip8EmulatorFP.executeInstructions { o with optTraceLog := true } tbl ext fuel n s
          = some { s with execMode := .ePAUSED, cycleCounter := s.cycleCounter + 1 }) := by
  have hnp : s.execMode ≠ .ePAUSED := by rw [hrun]; decide
  have hfast : Chip8EmulatorFP.skipsBreakpointCheck { o with optTraceLog := false } s = true := by
    unfold Chip8EmulatorFP.skipsBreakpointCheck
    rw [hbp]; rfl
  have hslow : ¬ Chip8EmulatorFP.skipsBreakpointCheck { o with optTraceLog := true } s = true := by
    unfold Chip8EmulatorFP.skipsBreakpointCheck
    rw [hbp]
    exact Bool.false_ne_true
  constructor
  · intro hbranch
    unfold Chip8EmulatorFP.executeInstructions
    rw [if_neg hnp, if_neg hnp, if_pos hrun, if_pos hrun]
    by_cases hm : s.isMegaChipMode = true
    · rw [if_pos hm, if_pos hm, megaChipLoop_traceLog o false tbl ext hext _ _ s hbp,
        megaChipLoop_traceLog o true tbl ext hext _ _ s hbp]
    · have hi : ¬ s.isInstantDxyn = true := by
        rcases hbranch with h | h
        · exact absurd h hm
        · rw [h]; decide
      rw [if_neg hm, if_neg hm, if_neg hi, if_neg hi,
        displayWaitLoop_of_empty _ tbl ext hext _ s hbp,
        displayWaitLoop_of_empty _ tbl ext hext _ s hbp,
        executeInstructionLoop_traceLog o false, executeInstructionLoop_traceLog o true]
  · intro hm hi hn hop hself hpc
    obtain ⟨m, hm'⟩ : ∃ m, n.toNat = m + 1 := ⟨n.toNat - 1, by omega⟩
    have hmf : ¬ s.isMegaChipMode = true := by rw [hm]; decide
    unfold Chip8EmulatorFP.executeInstructions
    rw [if_neg hnp, if_neg hnp, if_neg hmf, if_neg hmf, if_pos hi, if_pos hi,
      if_pos ⟨hrun, hfast⟩, if_neg (fun h => hslow h.2), hm',
      instantDxynLoop_selfJump _ tbl ext m s ((opcodeHandler_traceLog o false).trans hT)
        hop hself hpc,
      executeInstructionLoop_selfJump _ tbl ext m s ((opcodeHandler_traceLog o true).trans hT)
        hrun hbp hop hself hpc]
    exact ⟨rfl, rfl⟩

/-- C17 (witness): the plain configuration with the instant-Dxyn flag set, running the jump
`1200` at `0x200` for a batch of 5: the fast path ends with the cycle counter at 5, the slow
path with the cycle counter at 1. -/
theorem C17_instant_fast_path_runs_past_pause_witness :
    (Chip8EmulatorFP.executeInstructions { optTraceLog := false } (Chip8EmulatorFP.ruleTable {})
        idleHandlers 0 5 { stateWithInstruction 0x200 0x12 0x00 with isInstantDxyn := true }).map
      (fun t => t.cycleCounter) = some 5
    ∧ (Chip8EmulatorFP.executeInstructions { optTraceLog := true } (Chip8EmulatorFP.ruleTable {})
        idleHandlers 0 5 { stateWithInstruction 0x200 0x12 0x00 with isInstantDxyn := true }).map
      (fun t => t.cycleCounter) = some 1 :=
  have h := (C17_instant_fast_path_runs_past_pause {} (Chip8EmulatorFP.ruleTable {})
    idleHandlers (fun _ _ _ => rfl) (opcodeHandler_eq {}) 0 5
    { stateWithInstruction 0x200 0x12 0x00 with isInstantDxyn := true } rfl rfl).2
      rfl rfl (by decide) (by decide) (by decide) (by decide)
  ⟨congrArg (Option.map (fun t => t.cycleCounter)) h.1,
   congrArg (Option.map (fun t => t.cycleCounter)) h.2⟩

/-- C18: `Fx0A`, fetched through the table of any option set.  When the host reports no key
(`getKeyPressed()` returns 0) the handler rewinds PC by 2, sets CpuState to Waiting and changes
no V register (nor anything but PC and CpuState); for an instruction at an address `a` with
a + 2 <= ADDRESS_MASK, PC is `a` again and the same opcode is fetched on the next step.  When
the host reports key `k` in 0..15 (`getKeyPressed()` returns k + 1) the handler sets Vx = k,
leaves the other registers, sets CpuState to Normal and does not rewind PC. -/
theorem C18_key_wait_rewinds_until_key (o : Chip8EmulatorOptions) (tbl : HandlerTable)
    (ext : HandlerSemantics) (s : Chip8EmulatorBase)
    (hT : Chip8EmulatorFP.opcodeHandler o = some tbl)
    (hop : Chip8EmulatorFP.fetchOpcode s &&& 0xF0FF = 0xF00A) :
    (s.keyPressed = 0 →
      Chip8EmulatorFP.executeInstructionNoBreakpoints o tbl ext s
        = { s with cycleCounter := s.cycleCounter + 1,
                   rPC := (Chip8EmulatorFP.returnAddress o s + 4294967296 - 2) % 4294967296,
                   cpuState := .eWAITING }
      ∧ (Chip8EmulatorFP.executeInstructionNoBreakpoints o tbl ext s).cpuState = .eWAITING
      ∧ (Chip8EmulatorFP.executeInstructionNoBreakpoints o tbl ext s).rV = s.rV
      ∧ (s.rPC + 2 ≤ Chip8EmulatorFP.ADDRESS_MASK o →
          (Chip8EmulatorFP.executeInstructionNoBreakpoints o tbl ext s).rPC = s.rPC
          ∧ Chip8EmulatorFP.fetchOpcode
              (Chip8EmulatorFP.executeInstructionNoBreakpoints o tbl ext s)
            = Chip8EmulatorFP.fetchOpcode s))
    ∧ (∀ k : Nat, k < 16 → s.keyPressed = (k : Int) + 1 →
      (Chip8EmulatorFP.executeInstructionNoBreakpoints o tbl ext s).rV
          ((Chip8EmulatorFP.fetchOpcode s >>> 8) &&& 0xF) = k
      ∧ (∀ i, i ≠ (Chip8EmulatorFP.fetchOpcode s >>> 8) &&& 0xF →
          (Chip8EmulatorFP.executeInstructionNoBreakpoints o tbl ext s).rV i = s.rV i)
      ∧ (Chip8EmulatorFP.executeInstructionNoBreakpoints o tbl ext s).cpuState = .eNORMAL
      ∧ (Chip8EmulatorFP.executeInstructionNoBreakpoints o tbl ext s).rPC
          = Chip8EmulatorFP.returnAddress o s
      ∧ (s.rPC + 2 ≤ Chip8EmulatorFP.ADDRESS_MASK o →
          (Chip8EmulatorFP.executeInstructionNoBreakpoints o tbl ext s).rPC = s.rPC + 2)) := by
  unfold Chip8EmulatorFP.executeInstructionNoBreakpoints
  constructor
  · intro hkey
    rw [fetchAndDispatch_Fx0A_none o tbl ext s hT hop hkey]
    refine ⟨rfl, rfl, rfl, ?_⟩
    intro hpc
    have hr : (Chip8EmulatorFP.returnAddress o s + 4294967296 - 2) % 4294967296 = s.rPC := by
      unfold Chip8EmulatorFP.returnAddress
      rw [returnAddress_of_le o s hpc, rewind_of_le o s hpc]
    refine ⟨hr, ?_⟩
    unfold Chip8EmulatorFP.fetchOpcode
    simp only [hr]
  · intro k hk hkey
    rw [fetchAndDispatch_Fx0A_key o tbl ext s k hT hop hkey hk]
    refine ⟨if_pos rfl, fun i hi => if_neg hi, rfl, rfl, ?_⟩
    intro hpc
    exact returnAddress_of_le o s hpc

/-- C18 (witness): the plain configuration at `F30A` in `0x200`.  Without a key PC is `0x200`
again and CpuState is Waiting; with key 7 (the host returns 8) V3 is 7, CpuState is Normal
and PC is `0x202`. -/
theorem C18_key_wait_rewinds_until_key_witness :
    ((Chip8EmulatorFP.executeInstructionNoBreakpoints {} (Chip8EmulatorFP.ruleTable {})
        idleHandlers (stateWithInstruction 0x200 0xF3 0x0A)).rPC = 0x200
      ∧ (Chip8EmulatorFP.executeInstructionNoBreakpoints {} (Chip8EmulatorFP.ruleTable {})
        idleHandlers (stateWithInstruction 0x200 0xF3 0x0A)).cpuState = .eWAITING)
    ∧ ((Chip8EmulatorFP.executeInstructionNoBreakpoints {} (Chip8EmulatorFP.ruleTable {})
        idleHandlers { stateWithInstruction 0x200 0xF3 0x0A with keyPressed := 8 }).rV 3 = 7
      ∧ (Chip8EmulatorFP.executeInstructionNoBreakpoints {} (Chip8EmulatorFP.ruleTable {})
        idleHandlers { stateWithInstruction 0x200 0xF3 0x0A with keyPressed := 8 }).cpuState
        = .eNORMAL
      ∧ (Chip8EmulatorFP.executeInstructionNoBreakpoints {} (Chip8EmulatorFP.ruleTable {})
        idleHandlers { stateWithInstruction 0x200 0xF3 0x0A with keyPressed := 8 }).rPC
        = 0x202) :=
  have h0 := (C18_key_wait_rewinds_until_key {} (Chip8EmulatorFP.ruleTable {}) idleHandlers
    (stateWithInstruction 0x200 0xF3 0x0A) (opcodeHandler_eq {}) (by decide)).1 rfl
  have h1 := (C18_key_wait_rewinds_until_key {} (Chip8EmulatorFP.ruleTable {}) idleHandlers
    { stateWithInstruction 0x200 0xF3 0x0A with keyPressed := 8 } (opcodeHandler_eq {})
    (by decide)).2 7 (by decide) rfl
  ⟨⟨(h0.2.2.2 (by decide)).1, h0.2.1⟩, ⟨h1.1, h1.2.2.1, h1.2.2.2.2 (by decide)⟩⟩

/-- C19 (counterexample): with `optJustShiftVx` the register Vy does not always stay as it
was.  In `8006` (x = y = 0) with V0 = 2 the register V0, which is Vy, ends as 1; in `80F6`
(x = 0, y = F) with V0 = 1 and VF = 0 the register VF, which is Vy, ends as 1. -/
theorem C19_shift_in_place_changes_vy_counterexample :
    (Chip8EmulatorFP.invoke { optJustShiftVx := true } idleHandlers
        (Chip8EmulatorFP.ruleTable { optJustShiftVx := true } 0x8006) 0x8006
        { rV := fun i => if i = 0 then 2 else 0 }).rV ((0x8006 >>> 4) &&& 0xF) = 1
    ∧ ({ rV := fun i => if i = 0 then 2 else 0 } : Chip8EmulatorBase).rV ((0x8006 >>> 4) &&& 0xF)
        = 2
    ∧ (Chip8EmulatorFP.invoke { optJustShiftVx := true } idleHandlers
        (Chip8EmulatorFP.ruleTable { optJustShiftVx := true } 0x80F6) 0x80F6
        { rV := fun i => if i = 0 then 1 else 0 }).rV ((0x80F6 >>> 4) &&& 0xF) = 1
    ∧ ({ rV := fun i => if i = 0 then 1 else 0 } : Chip8EmulatorBase).rV ((0x80F6 >>> 4) &&& 0xF)
        = 0 := by
  decide

/-- C19 (amended): `8xy6` and `8xyE`, dispatched through the table of any option set, on byte
registers, with x and y the two register numbers of the opcode.  The shifted value `src` is Vy
without `optJustShiftVx` and the old Vx with it.  For `8xy6` VF ends as `src & 1` and Vx (when
x is not F) as `src >> 1`; for `8xyE` VF ends as `src >> 7` and Vx (when x is not F) as
`(src << 1) mod 256`.  VF is written last, so for x = F the register holds the shifted-out
bit.  The registers other than Vx and VF are unchanged; so Vy is unchanged when y differs from
x and from F.  Nothing but the register file changes. -/
theorem C19_shift_policy (o : Chip8EmulatorOptions) (tbl : HandlerTable)
    (ext : HandlerSemantics) (s t : Chip8EmulatorBase) (opcode x y src : Nat)
    (hT : Chip8EmulatorFP.opcodeHandler o = some tbl) (hop : opcode < 65536)
    (hV : ∀ i, s.rV i < 256)
    (hx : x = (opcode >>> 8) &&& 0xF) (hy : y = (opcode >>> 4) &&& 0xF)
    (hsrc : src = if o.optJustShiftVx then s.rV x else s.rV y)
    (ht : t = Chip8EmulatorFP.invoke o ext (tbl opcode) opcode s) :
    (opcode &&& 0xF00F = 0x8006 →
      t.rV 0xF = src &&& 1 ∧ (x ≠ 0xF → t.rV x = src >>> 1)
      ∧ (∀ i, i ≠ x → i ≠ 0xF → t.rV i = s.rV i)
      ∧ (y ≠ x → y ≠ 0xF → t.rV y = s.rV y)
      ∧ t = { s with rV := t.rV })
    ∧ (opcode &&& 0xF00F = 0x800E →
      t.rV 0xF = src >>> 7 ∧ (x ≠ 0xF → t.rV x = (src <<< 1) % 256)
      ∧ (∀ i, i ≠ x → i ≠ 0xF → t.rV i = s.rV i)
      ∧ (y ≠ x → y ≠ 0xF → t.rV y = s.rV y)
      ∧ t = { s with rV := t.rV }) := by
  subst hx hy
  obtain ⟨x1, x2, x3⟩ := shift_byte _ (hV ((opcode >>> 8) &&& 0xF))
  obtain ⟨y1, y2, y3⟩ := shift_byte _ (hV ((opcode >>> 4) &&& 0xF))
  have key : ∀ c v : Nat,
      (t.rV 0xF = c ∧ ((opcode >>> 8) &&& 0xF ≠ 0xF → t.rV ((opcode >>> 8) &&& 0xF) = v)
        ∧ (∀ i, i ≠ (opcode >>> 8) &&& 0xF → i ≠ 0xF → t.rV i = s.rV i)) →
      t = { s with rV := t.rV } →
      t.rV 0xF = c ∧ ((opcode >>> 8) &&& 0xF ≠ 0xF → t.rV ((opcode >>> 8) &&& 0xF) = v)
        ∧ (∀ i, i ≠ (opcode >>> 8) &&& 0xF → i ≠ 0xF → t.rV i = s.rV i)
        ∧ ((opcode >>> 4) &&& 0xF ≠ (opcode >>> 8) &&& 0xF → (opcode >>> 4) &&& 0xF ≠ 0xF →
            t.rV ((opcode >>> 4) &&& 0xF) = s.rV ((opcode >>> 4) &&& 0xF))
        ∧ t = { s with rV := t.rV } :=
    fun c v h he => ⟨h.1, h.2.1, h.2.2, fun h1 h2 => h.2.2 _ h1 h2, he⟩
  constructor
  · intro hp
    have htab := table_get hT (opcodeHandler_8xy6 o opcode hop hp)
    apply key
    · rw [ht, htab, hsrc]
      cases hq : o.optJustShiftVx
      · simp only [Bool.false_eq_true, if_false, Chip8EmulatorFP.invoke, Chip8EmulatorFP.op8xy6,
          y1, y2]
        exact store_then_vf _ _ _ _
      · simp only [if_true, Chip8EmulatorFP.invoke, Chip8EmulatorFP.op8xy6_justShiftVx, x1, x2]
        exact store_then_vf _ _ _ _
    · rw [ht, htab]
      cases o.optJustShiftVx <;> rfl
  · intro hp
    have htab := table_get hT (opcodeHandler_8xyE o opcode hop hp)
    apply key
    · rw [ht, htab, hsrc]
      cases hq : o.optJustShiftVx
      · simp only [Bool.false_eq_true, if_false, Chip8EmulatorFP.invoke, Chip8EmulatorFP.op8xyE,
          y3]
        exact store_then_vf _ _ _ _
      · simp only [if_true, Chip8EmulatorFP.invoke, Chip8EmulatorFP.op8xyE_justShiftVx, x3]
        exact store_then_vf _ _ _ _
    · rw [ht, htab]
      cases o.optJustShiftVx <;> rfl

/-- C19 (witness): `8016` with V0 = 0x12, V1 = 0x87 and VF = 9.  Without `optJustShiftVx` V0
ends as 0x43 and VF as 1 (from V1); with it V0 ends as 0x09 and VF as 0 (from V0) and V1 is
still 0x87. -/
theorem C19_shift_policy_witness :
    ((Chip8EmulatorFP.invoke {} idleHandlers (Chip8EmulatorFP.ruleTable {} 0x8016) 0x8016
        { rV := fun i => if i = 0 then 0x12 else if i = 1 then 0x87 else if i = 15 then 9 else 0
          }).rV 0xF = 1
      ∧ (Chip8EmulatorFP.invoke {} idleHandlers (Chip8EmulatorFP.ruleTable {} 0x8016) 0x8016
        { rV := fun i => if i = 0 then 0x12 else if i = 1 then 0x87 else if i = 15 then 9 else 0
          }).rV 0 = 0x43)
    ∧ ((Chip8EmulatorFP.invoke { optJustShiftVx := true } idleHandlers
        (Chip8EmulatorFP.ruleTable { optJustShiftVx := true } 0x8016) 0x8016
        { rV := fun i => if i = 0 then 0x12 else if i = 1 then 0x87 else if i = 15 then 9 else 0
          }).rV 0xF = 0
      ∧ (Chip8EmulatorFP.invoke { optJustShiftVx := true } idleHandlers
        (Chip8EmulatorFP.ruleTable { optJustShiftVx := true } 0x8016) 0x8016
        { rV := fun i => if i = 0 then 0x12 else if i = 1 then 0x87 else if i = 15 then 9 else 0
          }).rV 0 = 0x09
      ∧ (Chip8EmulatorFP.invoke { optJustShiftVx := true } idleHandlers
        (Chip8EmulatorFP.ruleTable { optJustShiftVx := true } 0x8016) 0x8016
        { rV := fun i => if i = 0 then 0x12 else if i = 1 then 0x87 else if i = 15 then 9 else 0
          }).rV 1 = 0x87) :=
  have h1 := (C19_shift_policy {} (Chip8EmulatorFP.ruleTable {}) idleHandlers
    { rV := fun i => if i = 0 then 0x12 else if i = 1 then 0x87 else if i = 15 then 9 else 0 }
    _ 0x8016 0 1 0x87 (opcodeHandler_eq {}) (by decide)
    (exampleRegisters_byte 0x12 0x87 9 (by decide) (by decide) (by decide))
    rfl rfl rfl rfl).1 (by decide)
  have h2 := (C19_shift_policy { optJustShiftVx := true }
    (Chip8EmulatorFP.ruleTable { optJustShiftVx := true }) idleHandlers
    { rV := fun i => if i = 0 then 0x12 else if i = 1 then 0x87 else if i = 15 then 9 else 0 }
    _ 0x8016 0 1 0x12 (opcodeHandler_eq _) (by decide)
    (exampleRegisters_byte 0x12 0x87 9 (by decide) (by decide) (by decide))
    rfl rfl rfl rfl).1 (by decide)
  ⟨⟨h1.1, h1.2.1 (by decide)⟩, ⟨h2.1, h2.2.1 (by decide), h2.2.2.2.1 (by decide) (by decide)⟩⟩

/-- C20: `8xy1`, `8xy2` and `8xy3`, dispatched through the table of any option set, on byte
registers, with x and y the two register numbers of the opcode.  Without `optDontResetVf`, VF
is 0 afterwards for every x and y, Vx holds Vx OR Vy (AND, XOR) when x is not F, and the
registers other than Vx and VF are unchanged.  With `optDontResetVf`, Vx holds Vx OR Vy (AND,
XOR) for every x, and every register other than Vx (VF among them when x is not F) is
unchanged.  Nothing but the register file changes. -/
theorem C20_logic_ops_and_vf (o : Chip8EmulatorOptions) (tbl : HandlerTable)
    (ext : HandlerSemantics) (s t : Chip8EmulatorBase) (opcode x y : Nat)
    (hT : Chip8EmulatorFP.opcodeHandler o = some tbl) (hop : opcode < 65536)
    (hV : ∀ i, s.rV i < 256)
    (hx : x = (opcode >>> 8) &&& 0xF) (hy : y = (opcode >>> 4) &&& 0xF)
    (ht : t = Chip8EmulatorFP.invoke o ext (tbl opcode) opcode s) :
    (opcode &&& 0xF00F = 0x8001 →
      t = { s with rV := t.rV }
      ∧ (o.optDontResetVf = false →
          t.rV 0xF = 0 ∧ (x ≠ 0xF → t.rV x = s.rV x ||| s.rV y)
          ∧ (∀ i, i ≠ x → i ≠ 0xF → t.rV i = s.rV i))
      ∧ (o.optDontResetVf = true →
          t.rV x = s.rV x ||| s.rV y ∧ (∀ i, i ≠ x → t.rV i = s.rV i)))
    ∧ (opcode &&& 0xF00F = 0x8002 →
      t = { s with rV := t.rV }
      ∧ (o.optDontResetVf = false →
          t.rV 0xF = 0 ∧ (x ≠ 0xF → t.rV x = s.rV x &&& s.rV y)
          ∧ (∀ i, i ≠ x → i ≠ 0xF → t.rV i = s.rV i))
      ∧ (o.optDontResetVf = true →
          t.rV x = s.rV x &&& s.rV y ∧ (∀ i, i ≠ x → t.rV i = s.rV i)))
    ∧ (opcode &&& 0xF00F = 0x8003 →
      t = { s with rV := t.rV }
      ∧ (o.optDontResetVf = false →
          t.rV 0xF = 0 ∧ (x ≠ 0xF → t.rV x = s.rV x ^^^ s.rV y)
          ∧ (∀ i, i ≠ x → i ≠ 0xF → t.rV i = s.rV i))
      ∧ (o.optDontResetVf = true →
          t.rV x = s.rV x ^^^ s.rV y ∧ (∀ i, i ≠ x → t.rV i = s.rV i))) := by
  subst hx hy
  obtain ⟨h1, h2, h3⟩ := logic_byte _ _ (hV ((opcode >>> 8) &&& 0xF)) (hV ((opcode >>> 4) &&& 0xF))
  refine ⟨fun hp => ?_, fun hp => ?_, fun hp => ?_⟩
  · rw [ht, table_get hT (opcodeHandler_8xy1 o opcode hop hp)]
    refine ⟨?_, ?_, ?_⟩
    · cases o.optDontResetVf <;> rfl
    · intro hq
      simp only [hq, Bool.false_eq_true, if_false, Chip8EmulatorFP.invoke,
        Chip8EmulatorFP.op8xy1, h1]
      exact store_then_vf _ _ _ _
    · intro hq
      simp only [hq, if_true, Chip8EmulatorFP.invoke, Chip8EmulatorFP.op8xy1_dontResetVf, h1]
      exact store_only _ _ _
  · rw [ht, table_get hT (opcodeHandler_8xy2 o opcode hop hp)]
    refine ⟨?_, ?_, ?_⟩
    · cases o.optDontResetVf <;> rfl
    · intro hq
      simp only [hq, Bool.false_eq_true, if_false, Chip8EmulatorFP.invoke,
        Chip8EmulatorFP.op8xy2, h2]
      exact store_then_vf _ _ _ _
    · intro hq
      simp only [hq, if_true, Chip8EmulatorFP.invoke, Chip8EmulatorFP.op8xy2_dontResetVf, h2]
      exact store_only _ _ _
  · rw [ht, table_get hT (opcodeHandler_8xy3 o opcode hop hp)]
    refine ⟨?_, ?_, ?_⟩
    · cases o.optDontResetVf <;> rfl
    · intro hq
      simp only [hq, Bool.false_eq_true, if_false, Chip8EmulatorFP.invoke,
        Chip8EmulatorFP.op8xy3, h3]
      exact store_then_vf _ _ _ _
    · intro hq
      simp only [hq, if_true, Chip8EmulatorFP.invoke, Chip8EmulatorFP.op8xy3_dontResetVf, h3]
      exact store_only _ _ _

/-- C20 (witness): `8011` with V0 = 0x0C, V1 = 0x0A and VF = 9.  Without `optDontResetVf` V0
ends as 0x0E and VF as 0; with it V0 ends as 0x0E and VF is still 9. -/
theorem C20_logic_ops_and_vf_witness :
    ((Chip8EmulatorFP.invoke {} idleHandlers (Chip8EmulatorFP.ruleTable {} 0x8011) 0x8011
        { rV := fun i => if i = 0 then 0x0C else if i = 1 then 0x0A else if i = 15 then 9 else 0
          }).rV 0 = 0x0E
      ∧ (Chip8EmulatorFP.invoke {} idleHandlers (Chip8EmulatorFP.ruleTable {} 0x8011) 0x8011
        { rV := fun i => if i = 0 then 0x0C else if i = 1 then 0x0A else if i = 15 then 9 else 0
          }).rV 0xF = 0)
    ∧ ((Chip8EmulatorFP.invoke { optDontResetVf := true } idleHandlers
        (Chip8EmulatorFP.ruleTable { optDontResetVf := true } 0x8011) 0x8011
        { rV := fun i => if i = 0 then 0x0C else if i = 1 then 0x0A else if i = 15 then 9 else 0
          }).rV 0 = 0x0E
      ∧ (Chip8EmulatorFP.invoke { optDontResetVf := true } idleHandlers
        (Chip8EmulatorFP.ruleTable { optDontResetVf := true } 0x8011) 0x8011
        { rV := fun i => if i = 0 then 0x0C else if i = 1 then 0x0A else if i = 15 then 9 else 0
          }).rV 0xF = 9) :=
  have h1 := ((C20_logic_ops_and_vf {} (Chip8EmulatorFP.ruleTable {}) idleHandlers
    { rV := fun i => if i = 0 then 0x0C else if i = 1 then 0x0A else if i = 15 then 9 else 0 }
    _ 0x8011 0 1 (opcodeHandler_eq {}) (by decide)
    (exampleRegisters_byte 0x0C 0x0A 9 (by decide) (by decide) (by decide))
    rfl rfl rfl).1 (by decide)).2.1 rfl
  have h2 := ((C20_logic_ops_and_vf { optDontResetVf := true }
    (Chip8EmulatorFP.ruleTable { optDontResetVf := true }) idleHandlers
    { rV := fun i => if i = 0 then 0x0C else if i = 1 then 0x0A else if i = 15 then 9 else 0 }
    _ 0x8011 0 1 (opcodeHandler_eq _) (by decide)
    (exampleRegisters_byte 0x0C 0x0A 9 (by decide) (by decide) (by decide))
    rfl rfl rfl).1 (by decide)).2.2 rfl
  ⟨⟨h1.2.1 (by decide), h1.1⟩, ⟨h2.1, h2.2 15 (by decide)⟩⟩

/-- C21 (what the code does): the safety pad does not mirror the first memory byte in the
states the claim names.  Right after `reset()`, for every option set, host and prior state,
`memory[0]` is `0xF0`, the first byte of the small font, and `memory[memSize()]` is 0: `reset`
zeroes the buffer and copies the fonts without a call of `fixupSafetyPad`.  Loading a program
image (`reloadRom`) changes neither byte.  `Fx33` with I = 0 writes the hundreds digit of Vx to
address 0, and `Fx55` (policy without increment) with I = 0 writes V0 there; both leave the
safety pad as it was. -/
theorem C21_safety_pad_is_stale (o : Chip8EmulatorOptions) (host : Chip8EmulatorHost)
    (romImage : List Nat) (opcode : Nat) (s : Chip8EmulatorBase) :
    ((Chip8EmulatorFP.reset o host s).memory 0 = 0xF0
      ∧ (Chip8EmulatorFP.reset o host s).memory (Chip8EmulatorBase.memSize o) = 0)
    ∧ ((Cadmium.reloadRom o host romImage true s).memory 0 = 0xF0
      ∧ (Cadmium.reloadRom o host romImage true s).memory (Chip8EmulatorBase.memSize o) = 0)
    ∧ ((Chip8EmulatorFP.opFx33 o opcode { s with rI := 0 }).memory 0
          = s.rV ((opcode >>> 8) &&& 0xF) / 100
      ∧ (Chip8EmulatorFP.opFx33 o opcode { s with rI := 0 }).memory
          (Chip8EmulatorBase.memSize o) = s.memory (Chip8EmulatorBase.memSize o))
    ∧ ((Chip8EmulatorFP.opFx55_loadStoreDontIncI o opcode { s with rI := 0 }).memory 0 = s.rV 0
      ∧ (Chip8EmulatorFP.opFx55_loadStoreDontIncI o opcode { s with rI := 0 }).memory
          (Chip8EmulatorBase.memSize o) = s.memory (Chip8EmulatorBase.memSize o)) := by
  have hms : Chip8EmulatorBase.memSize o = Chip8EmulatorFP.ADDRESS_MASK o + 1 := memSize_eq o
  have hmask : 4095 ≤ Chip8EmulatorFP.ADDRESS_MASK o := by
    rcases ADDRESS_MASK_cases o with h | h | h <;> rw [h] <;> norm_num
  have hr := reset_pad o host s
  refine ⟨hr, ?_, ?_, ?_⟩
  · have hl : min romImage.length (Chip8EmulatorBase.memSize o - 512)
        ≤ Chip8EmulatorBase.memSize o - 512 := Nat.min_le_right _ _
    simp only [Cadmium.reloadRom, or_true, if_true, memcpy, List.length_take]
    rw [if_neg (by omega), if_neg (by omega)]
    exact hr
  · have h1 : ((0 + 1) % 4294967296) &&& Chip8EmulatorFP.ADDRESS_MASK o = 1 := by
      rw [and_ADDRESS_MASK]
      exact Nat.mod_eq_of_lt (show 1 < Chip8EmulatorFP.ADDRESS_MASK o + 1 by omega)
    have h2 : ((0 + 2) % 4294967296) &&& Chip8EmulatorFP.ADDRESS_MASK o = 2 := by
      rw [and_ADDRESS_MASK]
      exact Nat.mod_eq_of_lt (show 2 < Chip8EmulatorFP.ADDRESS_MASK o + 1 by omega)
    have h01 : (0 : Nat) ≠ 1 := by decide
    have h02 : (0 : Nat) ≠ 2 := by decide
    have hp0 : Chip8EmulatorFP.ADDRESS_MASK o + 1 ≠ 0 := by omega
    have hp1 : Chip8EmulatorFP.ADDRESS_MASK o + 1 ≠ 1 := by omega
    have hp2 : Chip8EmulatorFP.ADDRESS_MASK o + 1 ≠ 2 := by omega
    simp only [Chip8EmulatorFP.opFx33, Nat.zero_and, h1, h2, arrStore, hms, if_neg h01,
      if_neg h02, if_neg hp0, if_neg hp1, if_neg hp2, if_true, and_self]
  · have hx16 : (opcode >>> 8) &&& 0xF < 16 := nibble_lt _
    have hno : ¬ ((0 + ((opcode >>> 8) &&& 0xF)) % 4294967296
        > Chip8EmulatorFP.ADDRESS_MASK o) := by omega
    have hst : fx55Store o ((opcode >>> 8) &&& 0xF) { s with rI := 0 }
        = fx55Loop (Chip8EmulatorFP.ADDRESS_MASK o) { s with rI := 0 }
            (((opcode >>> 8) &&& 0xF) + 1) := by
      unfold fx55Store
      simp only [fx55Loop_rI]
      rw [if_neg hno]
    unfold Chip8EmulatorFP.opFx55_loadStoreDontIncI
    simp only []
    rw [hst]
    constructor
    · have h := fx55Loop_memory o { s with rI := 0 } (((opcode >>> 8) &&& 0xF) + 1)
        (by omega) 0 (by omega)
      simpa using h
    · exact fx55Loop_pad o _ _

/-- C22: for every option set, opcode and state with I ≤ ADDRESS_MASK, `x` and `y` the two
register nibbles of the opcode: when I + x > ADDRESS_MASK, after each of the three `Fx55`
handlers the safety pad `memory[memSize()]` equals the new `memory[0]`, which is the register
that the wrap brings to address 0; when I + |x - y| > ADDRESS_MASK, the same holds after
`5xy2`. -/
theorem C22_wrapping_store_fixes_pad (o : Chip8EmulatorOptions) (opcode : Nat)
    (s : Chip8EmulatorBase) (x y l : Nat)
    (hx : x = (opcode >>> 8) &&& 0xF) (hy : y = (opcode >>> 4) &&& 0xF)
    (hl : l = if x < y then y - x else x - y)
    (hI : s.rI ≤ Chip8EmulatorFP.ADDRESS_MASK o) :
    (s.rI + x > Chip8EmulatorFP.ADDRESS_MASK o →
      ((Chip8EmulatorFP.opFx55 o opcode s).memory (Chip8EmulatorBase.memSize o)
          = (Chip8EmulatorFP.opFx55 o opcode s).memory 0
        ∧ (Chip8EmulatorFP.opFx55 o opcode s).memory 0
          = s.rV (Chip8EmulatorFP.ADDRESS_MASK o + 1 - s.rI))
      ∧ ((Chip8EmulatorFP.opFx55_loadStoreIncIByX o opcode s).memory
            (Chip8EmulatorBase.memSize o)
          = (Chip8EmulatorFP.opFx55_loadStoreIncIByX o opcode s).memory 0
        ∧ (Chip8EmulatorFP.opFx55_loadStoreIncIByX o opcode s).memory 0
          = s.rV (Chip8EmulatorFP.ADDRESS_MASK o + 1 - s.rI))
      ∧ ((Chip8EmulatorFP.opFx55_loadStoreDontIncI o opcode s).memory
            (Chip8EmulatorBase.memSize o)
          = (Chip8EmulatorFP.opFx55_loadStoreDontIncI o opcode s).memory 0
        ∧ (Chip8EmulatorFP.opFx55_loadStoreDontIncI o opcode s).memory 0
          = s.rV (Chip8EmulatorFP.ADDRESS_MASK o + 1 - s.rI)))
    ∧ (s.rI + l > Chip8EmulatorFP.ADDRESS_MASK o →
      (Chip8EmulatorFP.op5xy2 o opcode s).memory (Chip8EmulatorBase.memSize o)
          = (Chip8EmulatorFP.op5xy2 o opcode s).memory 0
        ∧ (Chip8EmulatorFP.op5xy2 o opcode s).memory 0
          = s.rV (if x < y then x + (Chip8EmulatorFP.ADDRESS_MASK o + 1 - s.rI)
                  else x - (Chip8EmulatorFP.ADDRESS_MASK o + 1 - s.rI))) := by
  have hx16 : x < 16 := by rw [hx]; exact nibble_lt _
  refine ⟨fun hw => ?_, fun hw => op5xy2_wrap o opcode s x y l hx hy hl hI hw⟩
  have h := fx55Store_wrap o x s hx16 hI hw
  rw [hx] at h
  exact ⟨h, h, h⟩

/-- C22 (witness): `F255` with I = `0xFFE` on the 4 KiB memory and `5312` with I = `0xFFFF` on
the 64 KiB memory of XO-CHIP, the registers holding `0x10 + i`: V2 lands at address 0 and in
the safety pad. -/
theorem C22_wrapping_store_fixes_pad_witness :
    (Chip8EmulatorFP.opFx55 {} 0xF255
        { rI := 0xFFE, rV := fun i => 0x10 + i, memory := fun _ => 0xEE }).memory 0x1000 = 0x12
    ∧ (Chip8EmulatorFP.opFx55 {} 0xF255
        { rI := 0xFFE, rV := fun i => 0x10 + i, memory := fun _ => 0xEE }).memory 0 = 0x12
    ∧ (Chip8EmulatorFP.op5xy2 { behaviorBase := .eXOCHIP, optHas16BitAddr := true } 0x5312
        { rI := 0xFFFF, rV := fun i => 0x10 + i, memory := fun _ => 0xEE }).memory 0x10000 = 0x12
    ∧ (Chip8EmulatorFP.op5xy2 { behaviorBase := .eXOCHIP, optHas16BitAddr := true } 0x5312
        { rI := 0xFFFF, rV := fun i => 0x10 + i, memory := fun _ => 0xEE }).memory 0 = 0x12 :=
  have h1 := (C22_wrapping_store_fixes_pad {} 0xF255
    { rI := 0xFFE, rV := fun i => 0x10 + i, memory := fun _ => 0xEE } 2 5 3 rfl rfl rfl
    (by decide)).1 (by decide)
  have h2 := (C22_wrapping_store_fixes_pad
    { behaviorBase := .eXOCHIP, optHas16BitAddr := true } 0x5312
    { rI := 0xFFFF, rV := fun i => 0x10 + i, memory := fun _ => 0xEE } 3 1 2 rfl rfl rfl
    (by decide)).2 (by decide)
  ⟨h1.1.1.trans h1.1.2, h1.1.2, h2.1.trans h2.2, h2.2⟩

/-- C23: `reloadRom` with an image to load (a non-empty image, or `force`) resets the core and
then copies `romImage[i]` to `memory[0x200 + i]` for every `i` below
`len = min(romImage.size(), memSize() - 0x200)`; every other byte is as `reset` left it, the
copy ends at or below `memSize()`, so no index from `memSize()` on is written, and nothing but
the memory differs from the state after `reset`. -/
theorem C23_reloadRom_copies_image (o : Chip8EmulatorOptions) (host : Chip8EmulatorHost)
    (romImage : List Nat) (force : Bool) (s before after : Chip8EmulatorBase) (len : Nat)
    (hload : romImage ≠ [] ∨ force = true)
    (hb : before = Chip8EmulatorFP.reset o host s)
    (ha : after = Cadmium.reloadRom o host romImage force s)
    (hlen : len = min romImage.length (Chip8EmulatorBase.memSize o - 0x200)) :
    (∀ i, i < len → romImage[i]? = some (after.memory (0x200 + i)))
    ∧ (∀ a, a < 0x200 ∨ 0x200 + len ≤ a → after.memory a = before.memory a)
    ∧ 0x200 + len ≤ Chip8EmulatorBase.memSize o
    ∧ (∀ a, Chip8EmulatorBase.memSize o ≤ a → after.memory a = before.memory a)
    ∧ after = { before with memory := after.memory } := by
  have hms : 0x200 ≤ Chip8EmulatorBase.memSize o := by
    rw [memSize_eq]
    rcases ADDRESS_MASK_cases o with h | h | h <;> rw [h] <;> norm_num
  have hA : after
      = { before with memory := memcpy before.memory 512 (romImage.take len) } := by
    rw [ha, hb, hlen, Cadmium.reloadRom, if_pos hload]
  have hl : (romImage.take len).length = len := by
    rw [List.length_take, hlen]
    omega
  have hmem : ∀ a, after.memory a
      = if 512 ≤ a ∧ a < 512 + len then (romImage.take len).getD (a - 512) 0
        else before.memory a := by
    intro a
    rw [hA]
    simp only [memcpy, hl]
  have hle : 0x200 + len ≤ Chip8EmulatorBase.memSize o := by
    rw [hlen]; omega
  refine ⟨?_, ?_, hle, ?_, ?_⟩
  · intro i hi
    rw [hmem, if_pos ⟨by omega, by omega⟩]
    have hi2 : i < romImage.length := by rw [hlen] at hi; omega
    rw [show 0x200 + i - 512 = i by omega, List.getD_eq_getElem?_getD,
      List.getElem?_take_of_lt hi, List.getElem?_eq_getElem hi2]
    rfl
  · intro a h
    rw [hmem, if_neg (by omega)]
  · intro a h
    rw [hmem, if_neg (by omega)]
  · rw [hA]

/-- C23 (witness): the two-byte image `12 00`, and an image of 4000 bytes `0xAA` on the 4 KiB
memory, of which the 3584 bytes up to address `0xFFF` are copied while `memory[0x1000]` keeps
the value `reset` gave it. -/
theorem C23_reloadRom_copies_image_witness :
    (Cadmium.reloadRom {} {} [0x12, 0x00] false {}).memory 0x200 = 0x12
    ∧ (Cadmium.reloadRom {} {} [0x12, 0x00] false {}).memory 0x202
        = (Chip8EmulatorFP.reset {} {} {}).memory 0x202
    ∧ (List.replicate 4000 0xAA)[3583]?
        = some ((Cadmium.reloadRom {} {} (List.replicate 4000 0xAA) false {}).memory 0xFFF)
    ∧ (Cadmium.reloadRom {} {} (List.replicate 4000 0xAA) false {}).memory 0x1000
        = (Chip8EmulatorFP.reset {} {} {}).memory 0x1000 :=
  have h1 := C23_reloadRom_copies_image {} {} [0x12, 0x00] false {} _ _ 2
    (Or.inl (by decide)) rfl rfl (by decide)
  have h2 := C23_reloadRom_copies_image {} {} (List.replicate 4000 0xAA) false {} _ _ 3584
    (Or.inl (by decide)) rfl rfl (by rw [List.length_replicate]; decide)
  ⟨(Option.some.inj (h1.1 0 (by decide))).symm, h1.2.1 0x202 (Or.inr (by decide)),
    h2.1 3583 (by decide), h2.2.2.2.1 0x1000 (by decide)⟩

/-- C24: for every option set `memSize()` is 16 MiB for MegaChip, 64 KiB with 16-bit addressing
and 4 KiB otherwise, the buffer has `memSize() + 1` bytes, `ADDRESS_MASK` is `memSize() - 1`,
and for every value `a` both `a & ADDRESS_MASK` and `(a & ADDRESS_MASK) + 1` are indices inside
the buffer. -/
theorem C24_memory_sizes (o : Chip8EmulatorOptions) :
    Chip8EmulatorBase.memSize o
        = (if o.behaviorBase = .eMEGACHIP then 16 * 1024 * 1024
           else if o.optHas16BitAddr = true then 64 * 1024 else 4 * 1024)
    ∧ Chip8EmulatorBase.memoryBufferSize o = Chip8EmulatorBase.memSize o + 1
    ∧ Chip8EmulatorFP.ADDRESS_MASK o = Chip8EmulatorBase.memSize o - 1
    ∧ ∀ a : Nat,
        a &&& Chip8EmulatorFP.ADDRESS_MASK o < Chip8EmulatorBase.memoryBufferSize o
        ∧ (a &&& Chip8EmulatorFP.ADDRESS_MASK o) + 1 < Chip8EmulatorBase.memoryBufferSize o := by
  have hbuf : Chip8EmulatorBase.memoryBufferSize o = Chip8EmulatorBase.memSize o + 1 := by
    unfold Chip8EmulatorBase.memSize Chip8EmulatorBase.memoryBufferSize
    split_ifs <;> rfl
  refine ⟨?_, hbuf, ?_, ?_⟩
  · unfold Chip8EmulatorBase.memSize Chip8EmulatorBase.memoryBufferSize
    split_ifs <;> rfl
  · rw [memSize_eq]; rfl
  · intro a
    have hle : a &&& Chip8EmulatorFP.ADDRESS_MASK o ≤ Chip8EmulatorFP.ADDRESS_MASK o :=
      Nat.and_le_right
    rw [hbuf, memSize_eq]
    omega

/-- C25: for every option set other than CHIP-8X, the calls of `on` that `setHandler` issues in
front of its `switch` are the 34 rules from `00E0` to `Fx65` listed here; any two of them at
different positions assign disjoint sets of slots, and running the calls in any order
(`cs` a permutation of them) on any table ends with the same table as the program order. -/
theorem C25_base_calls_commute (o : Chip8EmulatorOptions) (hb : o.behaviorBase ≠ .eCHIP8X) :
    (Chip8EmulatorFP.baseCalls o).map (fun c => (c.mask, c.opcode))
      = [(0xFFFF, 0x00E0), (0xFFFF, 0x00EE), (0xF000, 0x1000), (0xF000, 0x2000),
         (0xF000, 0x3000), (0xF000, 0x4000), (0xF00F, 0x5000), (0xF000, 0x6000),
         (0xF000, 0x7000), (0xF00F, 0x8000), (0xF00F, 0x8001), (0xF00F, 0x8002),
         (0xF00F, 0x8003), (0xF00F, 0x8004), (0xF00F, 0x8005), (0xF00F, 0x8006),
         (0xF00F, 0x8007), (0xF00F, 0x800E), (0xF00F, 0x9000), (0xF000, 0xA000),
         (0xF000, 0xB000), (0xF000, 0xC000), (0xF000, 0xD000), (0xF0FF, 0xE09E),
         (0xF0FF, 0xE0A1), (0xF0FF, 0xF007), (0xF0FF, 0xF00A), (0xF0FF, 0xF015),
         (0xF0FF, 0xF018), (0xF0FF, 0xF01E), (0xF0FF, 0xF029), (0xF0FF, 0xF033),
         (0xF0FF, 0xF055), (0xF0FF, 0xF065)]
    ∧ (∃ rest, Chip8EmulatorFP.setHandlerCalls o = Chip8EmulatorFP.baseCalls o ++ rest)
    ∧ (∀ (i j : Nat) (ci cj : OnCall), i ≠ j → (Chip8EmulatorFP.baseCalls o)[i]? = some ci →
        (Chip8EmulatorFP.baseCalls o)[j]? = some cj →
        ∃ si sj, Chip8EmulatorFP.onSlots ci.mask ci.opcode = some si
          ∧ Chip8EmulatorFP.onSlots cj.mask cj.opcode = some sj
          ∧ ∀ s, s ∈ si → s ∉ sj)
    ∧ (∀ (cs : List OnCall) (tbl : HandlerTable), cs.Perm (Chip8EmulatorFP.baseCalls o) →
        ∃ t, runOnCalls (Chip8EmulatorFP.baseCalls o) tbl = some t
          ∧ runOnCalls cs tbl = some t) := by
  refine ⟨baseCalls_keys o hb, ⟨_, (List.take_append_drop _ _).symm⟩, ?_, ?_⟩
  · intro i j ci cj hij hi hj
    have mi : ci ∈ Chip8EmulatorFP.baseCalls o := List.mem_iff_getElem?.2 ⟨i, hi⟩
    have mj : cj ∈ Chip8EmulatorFP.baseCalls o := List.mem_iff_getElem?.2 ⟨j, hj⟩
    have hok := List.all_eq_true.1 (baseCalls_all_ok o)
    obtain ⟨si, hsi, hmi⟩ := onSlots_of_ok ci (hok ci mi)
    obtain ⟨sj, hsj, hmj⟩ := onSlots_of_ok cj (hok cj mj)
    refine ⟨si, sj, hsi, hsj, fun s hs hs' => ?_⟩
    rcases baseCalls_disjoint o hb ci cj mi mj with h | h
    · exact baseCalls_key_ne o hb i j ci cj hij hi hj h
    · have := h s ((hmi s).1 hs)
      rw [(hmj s).1 hs'] at this
      exact absurd this (by decide)
  · intro cs tbl hp
    exact ⟨_, baseCalls_perm o hb _ (List.Perm.refl _) tbl, baseCalls_perm o hb cs hp tbl⟩

/-- C25 (witness): the plain CHIP-8 configuration: the rules `8xy6` and `Fx55` share no slot,
and the calls in reverse order build the same table. -/
theorem C25_base_calls_commute_witness :
    (∃ si sj, Chip8EmulatorFP.onSlots 0xF00F 0x8006 = some si
      ∧ Chip8EmulatorFP.onSlots 0xF0FF 0xF055 = some sj ∧ ∀ s, s ∈ si → s ∉ sj)
    ∧ ∃ t, runOnCalls (Chip8EmulatorFP.baseCalls {}) (fun _ => .opInvalid) = some t
      ∧ runOnCalls (Chip8EmulatorFP.baseCalls {}).reverse (fun _ => .opInvalid) = some t :=
  have h := C25_base_calls_commute {} (by decide)
  ⟨h.2.2.1 15 32 ⟨0xF00F, 0x8006, .op8xy6⟩ ⟨0xF0FF, 0xF055, .opFx55⟩ (by decide) (by decide)
      (by decide),
    h.2.2.2 _ _ (List.reverse_perm _)⟩

/-- C26: with the random generator "counting", in a run that starts from the state after
`reset()` with any memory contents (the loaded program), when the instruction after the first
`n` is a `Cxnn` and `k` of the first `n` instructions were `Cxnn`, it sets Vx to
`((seed + k) mod 256) & nn` and changes no other V register, where `seed` is `_simpleRandSeed`;
the value depends on the seed and on `k` only, and a `reset()` after the run puts the generator
state back to the seed.  The handlers that are not embedded are assumed to leave the state and
the seed of the generator alone (`opCxnn_randLCG`, which steps the state, excepted). -/
theorem C26_counting_generator (o : Chip8EmulatorOptions) (host : Chip8EmulatorHost)
    (tbl : HandlerTable) (ext : HandlerSemantics) (prior start : Chip8EmulatorBase)
    (image : Nat → Nat) (seed n k x nn : Nat)
    (hT : Chip8EmulatorFP.opcodeHandler o = some tbl)
    (hgen : o.randomGen = "counting")
    (hext : ∀ h opcode t, h ≠ .opCxnn_randLCG →
      (ext h opcode t).simpleRandState = t.simpleRandState
      ∧ (ext h opcode t).simpleRandSeed = t.simpleRandSeed)
    (hseed : seed = prior.simpleRandSeed)
    (hstart : start = { Chip8EmulatorFP.reset o host prior with memory := image })
    (hk : k = Chip8EmulatorFP.cxnnCount o tbl ext n start)
    (hop : Chip8EmulatorFP.fetchOpcode (Chip8EmulatorFP.runNoBreakpoints o tbl ext n start)
      &&& 0xF000 = 0xC000)
    (hx : x = (Chip8EmulatorFP.fetchOpcode (Chip8EmulatorFP.runNoBreakpoints o tbl ext n start)
      >>> 8) &&& 0xF)
    (hnn : nn = Chip8EmulatorFP.fetchOpcode (Chip8EmulatorFP.runNoBreakpoints o tbl ext n start)
      &&& 0xFF) :
    (Chip8EmulatorFP.runNoBreakpoints o tbl ext (n + 1) start).rV x = ((seed + k) % 256) &&& nn
    ∧ (∀ i, i ≠ x → (Chip8EmulatorFP.runNoBreakpoints o tbl ext (n + 1) start).rV i
        = (Chip8EmulatorFP.runNoBreakpoints o tbl ext n start).rV i)
    ∧ (Chip8EmulatorFP.reset o host
        (Chip8EmulatorFP.runNoBreakpoints o tbl ext (n + 1) start)).simpleRandState = seed
    ∧ (Chip8EmulatorFP.reset o host
        (Chip8EmulatorFP.runNoBreakpoints o tbl ext (n + 1) start)).simpleRandSeed = seed := by
  have hs0 : start.simpleRandState = seed ∧ start.simpleRandSeed = seed := by
    rw [hstart, hseed]
    unfold Chip8EmulatorFP.reset Chip8EmulatorBase.reset
    split_ifs <;> exact ⟨rfl, rfl⟩
  have hrun := runNoBreakpoints_counting o tbl ext start hT hgen hext
  have hstep := fetchAndDispatch_counting o tbl ext
    (Chip8EmulatorFP.runNoBreakpoints o tbl ext n start) hT hgen hext
  have hreset : ∀ t : Chip8EmulatorBase,
      (Chip8EmulatorFP.reset o host t).simpleRandState = t.simpleRandSeed
      ∧ (Chip8EmulatorFP.reset o host t).simpleRandSeed = t.simpleRandSeed := by
    intro t
    unfold Chip8EmulatorFP.reset Chip8EmulatorBase.reset
    split_ifs <;> exact ⟨rfl, rfl⟩
  have hrv := (hstep.2.1 hop).2
  have hst := (hrun n).2
  rw [hs0.1, ← hk] at hst
  refine ⟨?_, ?_, ?_, ?_⟩
  · rw [Chip8EmulatorFP.runNoBreakpoints, Chip8EmulatorFP.executeInstructionNoBreakpoints, hrv,
      ← hx, ← hnn, hst]
    simp only [arrStore, if_true]
  · intro i hi
    rw [Chip8EmulatorFP.runNoBreakpoints, Chip8EmulatorFP.executeInstructionNoBreakpoints, hrv,
      ← hx]
    simp only [arrStore, if_neg hi]
  · rw [(hreset _).1, (hrun (n + 1)).1, hs0.2]
  · rw [(hreset _).2, (hrun (n + 1)).1, hs0.2]

/-- C26 (witness): the program `C1FF C2FF` with seed `0x1FE`: the second `Cxnn` (k = 1) sets V2
to `0xFF`, and a `reset()` after the run restores the generator state `0x1FE`. -/
theorem C26_counting_generator_witness :
    (Chip8EmulatorFP.runNoBreakpoints { randomGen := "counting" }
        (Chip8EmulatorFP.ruleTable { randomGen := "counting" }) idleHandlers 2
        { Chip8EmulatorFP.reset { randomGen := "counting" } {} { simpleRandSeed := 0x1FE } with
          memory := fun a => if a = 0x200 then 0xC1 else if a = 0x202 then 0xC2 else 0xFF }).rV 2
      = 0xFF
    ∧ (Chip8EmulatorFP.reset { randomGen := "counting" } {}
        (Chip8EmulatorFP.runNoBreakpoints { randomGen := "counting" }
          (Chip8EmulatorFP.ruleTable { randomGen := "counting" }) idleHandlers 2
          { Chip8EmulatorFP.reset { randomGen := "counting" } {} { simpleRandSeed := 0x1FE } with
            memory := fun a => if a = 0x200 then 0xC1 else if a = 0x202 then 0xC2 else 0xFF })
        ).simpleRandState = 0x1FE :=
  have h := C26_counting_generator { randomGen := "counting" } {}
    (Chip8EmulatorFP.ruleTable { randomGen := "counting" }) idleHandlers
    { simpleRandSeed := 0x1FE }
    { Chip8EmulatorFP.reset { randomGen := "counting" } {} { simpleRandSeed := 0x1FE } with
      memory := fun a => if a = 0x200 then 0xC1 else if a = 0x202 then 0xC2 else 0xFF }
    (fun a => if a = 0x200 then 0xC1 else if a = 0x202 then 0xC2 else 0xFF)
    0x1FE 1 1 2 0xFF (opcodeHandler_eq _) rfl (fun _ _ _ _ => ⟨rfl, rfl⟩) rfl rfl
    (by decide) (by decide) (by decide) (by decide)
  ⟨h.1, h.2.2.1⟩

/-- C27: for every simulated hardware and every prior state, with `s0` the state in which
`Chip8VIP::reset` enters its loop: when `reset` returns `t`, the program counter of the CPU is
`0x01B`, the shadow PC is the register R(5) extracted there and equals the start address, and
the loop made `n + 1` calls of `executeCdp1802` with both conditions false after each smaller
number of calls; and when both conditions hold after `n + 1` calls, `reset` returns (fuel
above `n`). -/
theorem C27_reset_stops_at_first_fetch {Hw : Type} (hw : Chip8VIP.Hardware Hw)
    (o : Chip8EmulatorOptions) (host : Chip8EmulatorHost) (interpreter : List Nat)
    (s s0 : Chip8VIP Hw) (hs0 : s0 = Chip8VIP.beforeFastForward hw interpreter s) :
    (∀ fuel t, Chip8VIP.reset hw o host interpreter fuel s = some t →
      t.cpu.pc = 0x01B ∧ t.state.pc = t.cpu.rR 5 ∧ t.state.pc = o.startAddress
      ∧ ∃ n, n < fuel
        ∧ t = Chip8VIP.setExecMode (if host.isHeadless then .eRUNNING else .ePAUSED)
            (Chip8VIP.afterSteps hw (n + 1) s0)
        ∧ ∀ m, m < n → ¬ ((Chip8VIP.afterSteps hw (m + 1) s0).cpu.pc = 0x01B
            ∧ (Chip8VIP.afterSteps hw (m + 1) s0).cpu.rR 5 = o.startAddress))
    ∧ (∀ n, (Chip8VIP.afterSteps hw (n + 1) s0).cpu.pc = 0x01B →
        (Chip8VIP.afterSteps hw (n + 1) s0).cpu.rR 5 = o.startAddress →
        ∀ fuel, n < fuel → ∃ t, Chip8VIP.reset hw o host interpreter fuel s = some t) := by
  constructor
  · intro fuel t h
    unfold Chip8VIP.reset at h
    rw [← hs0] at h
    obtain ⟨u, hu, ht⟩ := Option.map_eq_some'.1 h
    obtain ⟨n, hn, hun, h1, h2, h3, hmin⟩ := Chip8VIP.fastForward_some hw _ fuel s0 u hu
    have hcore := Chip8VIP.setExecMode_core
      (if host.isHeadless then ExecMode.eRUNNING else ExecMode.ePAUSED) u
    rw [ht] at hcore
    refine ⟨?_, ?_, ?_, n, hn, ?_, hmin⟩
    · rw [hcore.1]; exact h1
    · rw [hcore.1, hcore.2, h2]; exact h3
    · rw [hcore.2]; exact h3
    · rw [← ht, hun]
  · intro n h1 h2 fuel hf
    obtain ⟨u, hu⟩ := Chip8VIP.fastForward_total hw _ n s0 h1 h2 fuel hf
    unfold Chip8VIP.reset
    rw [← hs0, hu]
    exact ⟨_, rfl⟩

/-- C27 (witness): hardware whose program counter counts up from `0x019` with `0x200` in R(5):
`reset` returns after exactly two calls of `executeCdp1802`, with the program counter at
`0x01B` and the shadow PC `0x200`. -/
theorem C27_reset_stops_at_first_fetch_witness :
    ∃ t, Chip8VIP.reset exampleHardware {} {} [] 5 exampleVip = some t
      ∧ t.cpu.pc = 0x01B ∧ t.state.pc = 0x200
      ∧ t = Chip8VIP.setExecMode .ePAUSED
          (Chip8VIP.afterSteps exampleHardware 2
            (Chip8VIP.beforeFastForward exampleHardware [] exampleVip)) := by
  have h := C27_reset_stops_at_first_fetch exampleHardware {} {} [] exampleVip _ rfl
  obtain ⟨t, ht⟩ := h.2 1 (by decide) (by decide) 5 (by decide)
  obtain ⟨h1, _, h3, n, _, hn, hmin⟩ := h.1 5 t ht
  refine ⟨t, ht, h1, h3, ?_⟩
  have hn1 : n = 1 := by
    rcases Nat.lt_trichotomy n 1 with hlt | heq | hgt
    · have h0 : n = 0 := by omega
      subst h0
      rw [hn] at h1
      exact absurd h1 (by decide)
    · exact heq
    · exact absurd ⟨by decide, by decide⟩ (hmin 1 hgt)
  rw [hn, hn1]
  rfl

/-- C28 (counterexample): on a backend in Running mode and CpuState Normal, `writeByte` at
`0x8000`, an address inside the ROM window, changes CpuState to Error; and `readByte` at
`0x2000`, an address outside both windows, sets CpuState to Error but leaves the execution mode
Running, while `writeByte` at the same address pauses. -/
theorem C28_read_and_write_faults_differ_counterexample :
    ((0x8000 ≤ 0x8000 ∧ 0x8000 < 0x8200)
      ∧ exampleVip.cpuState = .eNORMAL
      ∧ (Chip8VIP.writeByte 0x8000 0 exampleVip).cpuState = .eERROR)
    ∧ ((¬ 0x2000 < 0x1000 ∧ ¬ (0x8000 ≤ 0x2000 ∧ 0x2000 < 0x8200) ∧ 0x2000 < 65536)
      ∧ exampleVip.execMode = .eRUNNING
      ∧ (Chip8VIP.readByte 0x2000 exampleVip).2.cpuState = .eERROR
      ∧ (Chip8VIP.readByte 0x2000 exampleVip).2.execMode = .eRUNNING
      ∧ (Chip8VIP.writeByte 0x2000 0 exampleVip).execMode = .ePAUSED) := by
  decide

/-- C28 (amended): `writeByte` at an address outside the RAM window `[0, 0x1000)` (the ROM
window included) sets CpuState to Error and the execution mode to Paused and writes nothing;
inside the RAM window it stores the byte and leaves CpuState and the mode.  `readByte` at an
address outside both windows sets CpuState to Error and returns 0; inside the RAM window or the
ROM window `[0x8000, 0x8200)` it returns the byte and leaves the whole state. -/
theorem C28_bus_faults {Hw : Type} (addr val : Nat) (s : Chip8VIP Hw) :
    (¬ addr < 0x1000 →
      (Chip8VIP.writeByte addr val s).cpuState = .eERROR
      ∧ (Chip8VIP.writeByte addr val s).execMode = .ePAUSED
      ∧ (Chip8VIP.writeByte addr val s).ram = s.ram)
    ∧ (addr < 0x1000 →
      (Chip8VIP.writeByte addr val s).cpuState = s.cpuState
      ∧ (Chip8VIP.writeByte addr val s).execMode = s.execMode
      ∧ (Chip8VIP.writeByte addr val s).ram = arrStore s.ram addr val)
    ∧ (¬ addr < 0x1000 → ¬ (0x8000 ≤ addr ∧ addr < 0x8200) →
      (Chip8VIP.readByte addr s).2.cpuState = .eERROR ∧ (Chip8VIP.readByte addr s).1 = 0)
    ∧ (addr < 0x1000 →
      (Chip8VIP.readByte addr s).2 = s ∧ (Chip8VIP.readByte addr s).1 = s.ram addr)
    ∧ (0x8000 ≤ addr ∧ addr < 0x8200 →
      (Chip8VIP.readByte addr s).2 = s
      ∧ (Chip8VIP.readByte addr s).1 = s.rom (addr &&& 0x1ff)) := by
  refine ⟨fun h => ?_, fun h => ?_, fun h1 h2 => ?_, fun h => ?_, fun h => ?_⟩
  · unfold Chip8VIP.writeByte
    rw [if_neg h]
    exact ⟨rfl, rfl, rfl⟩
  · unfold Chip8VIP.writeByte
    rw [if_pos h]
    exact ⟨rfl, rfl, rfl⟩
  · unfold Chip8VIP.readByte
    rw [if_neg h1, if_neg h2]
    exact ⟨rfl, rfl⟩
  · unfold Chip8VIP.readByte
    rw [if_pos h]
    exact ⟨rfl, rfl⟩
  · have h1 : ¬ addr < 0x1000 := by omega
    unfold Chip8VIP.readByte
    rw [if_neg h1, if_pos h]
    exact ⟨rfl, rfl⟩

/-- C28 (witness): writes at `0x1000` and `0xFFF`, reads at `0x8200`, `0xFFF` and `0x81FF`. -/
theorem C28_bus_faults_witness :
    (Chip8VIP.writeByte 0x1000 7 exampleVip).cpuState = .eERROR
    ∧ (Chip8VIP.writeByte 0x1000 7 exampleVip).execMode = .ePAUSED
    ∧ (Chip8VIP.writeByte 0xFFF 7 exampleVip).cpuState = .eNORMAL
    ∧ (Chip8VIP.writeByte 0xFFF 7 exampleVip).ram 0xFFF = 7
    ∧ (Chip8VIP.readByte 0x8200 exampleVip).2.cpuState = .eERROR
    ∧ (Chip8VIP.readByte 0xFFF exampleVip).2 = exampleVip
    ∧ (Chip8VIP.readByte 0x81FF exampleVip).2 = exampleVip :=
  have h1 := (C28_bus_faults 0x1000 7 exampleVip).1 (by decide)
  have h2 := (C28_bus_faults 0xFFF 7 exampleVip).2.1 (by decide)
  have h3 := (C28_bus_faults 0x8200 7 exampleVip).2.2.1 (by decide) (by decide)
  have h4 := (C28_bus_faults 0xFFF 7 exampleVip).2.2.2.1 (by decide)
  have h5 := (C28_bus_faults 0x81FF 7 exampleVip).2.2.2.2 (by decide)
  ⟨h1.1, h1.2.1, h2.1, by rw [h2.2.2]; rfl, h3.1, h4.1, h5.1⟩

/-- C29 (what the code does): `forceState` followed by `fetchState`, for a shadow state with
0 ≤ SP ≤ 16, 16-bit I and PC, byte timers and 16-bit stack entries below SP, and
`base = R(2) & 0xFF00`.  V0..VF, I, PC, DT and ST come back for every base.  SP and the stack
entries come back when the base is `0x0E00`: `fetchState` computes SP as `(0xECF - R(2)) >> 1`,
with the page `0x0E` fixed, while `forceState` sets R(2) to `base + 0xCF - 2 * SP`.  With
R(2) = `0x0DCF` (base `0x0D00`) and SP = 0 the round trip returns SP = 128. -/
theorem C29_shadow_sp_is_absolute {Hw : Type} (s t : Chip8VIP Hw) (base : Nat)
    (hbase : base = s.cpu.rR 2 &&& 0xFF00)
    (hsp : 0 ≤ s.state.sp ∧ s.state.sp ≤ 16)
    (hi : s.state.i < 65536) (hpc : s.state.pc < 65536)
    (hdt : s.state.dt < 256) (hst : s.state.st < 256)
    (hs : ∀ i : Nat, (i : Int) < s.state.sp → s.state.s i < 65536)
    (ht : t = s.forceState.fetchState) :
    ((∀ i, i < 16 → t.state.v i = s.state.v i)
      ∧ t.state.i = s.state.i ∧ t.state.pc = s.state.pc
      ∧ t.state.dt = s.state.dt ∧ t.state.st = s.state.st)
    ∧ (base = 0x0E00 → t.state.sp = s.state.sp ∧ ∀ i, t.state.s i = s.state.s i)
    ∧ (Chip8VIP.fetchState (Chip8VIP.forceState
        { exampleVip with
          cpu := { exampleVip.cpu with rR := fun r => if r = 2 then 0x0DCF else 0 } })
      ).state.sp = 128 := by
  obtain ⟨k, hk⟩ : ∃ k : Nat, s.state.sp = (k : Int) := ⟨s.state.sp.toNat, by omega⟩
  have hk16 : k ≤ 16 := by omega
  have hbm : base = 256 * ((s.cpu.rR 2 / 256) % 256) := by rw [hbase, and_FF00]
  have hR2 : ((((s.cpu.rR 2 &&& 0xFF00 : Nat) : Int) + 0xCF - s.state.sp * 2) % 65536).toNat
      = base + (0xCF - 2 * k) := by
    rw [← hbase, hk]
    omega
  have hpage : (base + (0xCF - 2 * k)) &&& 0xFF00 = base := by
    rw [hbase]
    exact page_add _ _ (by omega)
  have hrR : s.forceState.cpu.rR
      = arrStore (arrStore (arrStore (arrStore s.cpu.rR 0xA (s.state.i % 65536)) 0x5
          (s.state.pc % 65536)) 0x8 (((s.state.dt <<< 8) ||| s.state.st) % 65536)) 0x2
          (base + (0xCF - 2 * k)) := by
    rw [← hR2]
    rfl
  have hram : s.forceState.ram
      = Chip8VIP.forceStackLoop base s.state.s
          (fun a => if base + 0xF0 ≤ a ∧ a < base + 0xF0 + 16 then
            s.state.v (a - (base + 0xF0)) else s.ram a) (min 16 k) := by
    have : s.state.sp.toNat = k := by omega
    rw [hbase, ← this]
    rfl
  have hr2 : s.forceState.cpu.rR 2 = base + (0xCF - 2 * k) := by
    rw [hrR]; rfl
  have hr5 : s.forceState.cpu.rR 5 = s.state.pc := by
    rw [hrR]
    exact Nat.mod_eq_of_lt hpc
  have hrA : s.forceState.cpu.rR 0xA = s.state.i := by
    rw [hrR]
    exact Nat.mod_eq_of_lt hi
  have hr8 : s.forceState.cpu.rR 8 = ((s.state.dt <<< 8) ||| s.state.st) % 65536 := by
    rw [hrR]; rfl
  have hw := word_bytes s.state.dt s.state.st hdt hst
  have hbase' : s.forceState.cpu.rR 2 &&& 0xFF00 = base := by rw [hr2, hpage]
  have htv : ∀ i, i < 16 → t.state.v i = s.forceState.ram (base + 0xF0 + i) := by
    intro i hi16
    rw [ht, ← hbase']
    simp only [Chip8VIP.fetchState, if_pos hi16]
  have hti : t.state.i = s.forceState.cpu.rR 0xA := by rw [ht]; rfl
  have htpc : t.state.pc = s.forceState.cpu.rR 5 := by rw [ht]; rfl
  have htdt : t.state.dt = s.forceState.cpu.rR 8 >>> 8 := by rw [ht]; rfl
  have htst : t.state.st = s.forceState.cpu.rR 8 &&& 0xff := by rw [ht]; rfl
  have htsp : t.state.sp = ((0xECF : Int) - (s.forceState.cpu.rR 2 : Int)) >>> (1 : Nat) := by
    rw [ht]; rfl
  have hts : t.state.s = Chip8VIP.fetchStackLoop s.forceState.ram
      (s.forceState.cpu.rR 2 &&& 0xFF00) s.state.s
      (min Chip8VIP.stackSize
        (((0xECF : Int) - (s.forceState.cpu.rR 2 : Int)) >>> (1 : Nat)).toNat) := by
    rw [ht]; rfl
  refine ⟨⟨?_, ?_, ?_, ?_, ?_⟩, ?_, ?_⟩
  · intro i hi16
    have e1 : base + 0xCF ≤ base + 0xF0 + i := by omega
    have e2 : base + 0xF0 ≤ base + 0xF0 + i ∧ base + 0xF0 + i < base + 0xF0 + 16 :=
      ⟨by omega, by omega⟩
    have e3 : base + 0xF0 + i - (base + 0xF0) = i := by omega
    rw [htv i hi16, hram, Chip8VIP.forceStackLoop_above _ _ _ _ _ e1]
    simp only [if_pos e2, e3]
  · rw [hti, hrA]
  · rw [htpc, hr5]
  · rw [htdt, hr8, hw.2.1]
  · rw [htst, hr8, hw.2.2]
  · intro hE
    have hsp' : ((0xECF : Int) - (s.forceState.cpu.rR 2 : Int)) >>> (1 : Nat) = (k : Int) := by
      rw [hr2, hE, Int.shiftRight_eq_div_pow]
      omega
    refine ⟨by rw [htsp, hsp', hk], fun i => ?_⟩
    rw [hts, hsp', hbase', hram]
    have hmin : min Chip8VIP.stackSize (k : Int).toNat = k := by
      unfold Chip8VIP.stackSize
      omega
    rw [hmin, Nat.min_eq_right hk16]
    by_cases hik : i < k
    · have hb := Chip8VIP.forceStackLoop_at base s.state.s
        (fun a => if base + 0xF0 ≤ a ∧ a < base + 0xF0 + 16 then
            s.state.v (a - (base + 0xF0)) else s.ram a) k hk16 i hik
      rw [Chip8VIP.fetchStackLoop_at _ _ _ _ _ hik, hb.1, hb.2]
      exact stack_entry_bytes _ (hs i (by omega))
    · exact Chip8VIP.fetchStackLoop_above _ _ _ _ _ (by omega)
  · decide

/-- C29 (witness): on the page `0x0E00` a shadow state with SP = 1 and the stack entry `0x200`
comes back; on the page `0x0D00` SP = 0 comes back as 128. -/
theorem C29_shadow_sp_is_absolute_witness :
    (Chip8VIP.fetchState (Chip8VIP.forceState
        { exampleVip with
          cpu := { exampleVip.cpu with rR := fun r => if r = 2 then 0x0ECF else 0 }
          state := { exampleVip.state with sp := 1, pc := 0x202, s := fun _ => 0x200 } })
      ).state.sp = 1
    ∧ (Chip8VIP.fetchState (Chip8VIP.forceState
        { exampleVip with
          cpu := { exampleVip.cpu with rR := fun r => if r = 2 then 0x0ECF else 0 }
          state := { exampleVip.state with sp := 1, pc := 0x202, s := fun _ => 0x200 } })
      ).state.s 0 = 0x200
    ∧ (Chip8VIP.fetchState (Chip8VIP.forceState
        { exampleVip with
          cpu := { exampleVip.cpu with rR := fun r => if r = 2 then 0x0DCF else 0 } })
      ).state.sp = 128 :=
  have h := C29_shadow_sp_is_absolute
    { exampleVip with
      cpu := { exampleVip.cpu with rR := fun r => if r = 2 then 0x0ECF else 0 }
      state := { exampleVip.state with sp := 1, pc := 0x202, s := fun _ => 0x200 } }
    _ 0x0E00 (by decide) (by decide) (by decide) (by decide) (by decide) (by decide)
    (fun _ _ => (by decide : (0x200 : Nat) < 65536)) rfl
  ⟨(h.2.1 rfl).1, (h.2.1 rfl).2 0, h.2.2⟩

/-- C31: for every option set, every opcode and all byte contents of the registers, the table
entry of `8xy4` sets VF to 1 if Vx + Vy > 255 and to 0 otherwise and, for x other than F, Vx to
(Vx + Vy) mod 256; `8xy5` sets VF to 1 if Vx >= Vy (else 0) and Vx to (Vx - Vy) mod 256; `8xy7`
sets VF to 1 if Vy >= Vx (else 0) and Vx to (Vy - Vx) mod 256.  The flag is written last, so
for x = F the register holds the flag.  No other register changes and the state is otherwise
the same (I, PC, memory and all other fields). -/
theorem C31_add_sub_and_vf (o : Chip8EmulatorOptions) (tbl : HandlerTable)
    (ext : HandlerSemantics) (s t : Chip8EmulatorBase) (opcode x y : Nat)
    (hT : Chip8EmulatorFP.opcodeHandler o = some tbl) (hop : opcode < 65536)
    (hV : ∀ i, s.rV i < 256)
    (hx : x = (opcode >>> 8) &&& 0xF) (hy : y = (opcode >>> 4) &&& 0xF)
    (ht : t = Chip8EmulatorFP.invoke o ext (tbl opcode) opcode s) :
    (opcode &&& 0xF00F = 0x8004 →
      t = { s with rV := t.rV }
      ∧ t.rV 0xF = (if s.rV x + s.rV y > 255 then 1 else 0)
      ∧ (x ≠ 0xF → t.rV x = (s.rV x + s.rV y) % 256)
      ∧ (∀ i, i ≠ x → i ≠ 0xF → t.rV i = s.rV i))
    ∧ (opcode &&& 0xF00F = 0x8005 →
      t = { s with rV := t.rV }
      ∧ t.rV 0xF = (if s.rV x ≥ s.rV y then 1 else 0)
      ∧ (x ≠ 0xF → t.rV x = (s.rV x + 256 - s.rV y) % 256)
      ∧ (∀ i, i ≠ x → i ≠ 0xF → t.rV i = s.rV i))
    ∧ (opcode &&& 0xF00F = 0x8007 →
      t = { s with rV := t.rV }
      ∧ t.rV 0xF = (if s.rV y ≥ s.rV x then 1 else 0)
      ∧ (x ≠ 0xF → t.rV x = (s.rV y + 256 - s.rV x) % 256)
      ∧ (∀ i, i ≠ x → i ≠ 0xF → t.rV i = s.rV i)) := by
  subst hx hy
  have hvx := hV ((opcode >>> 8) &&& 0xF)
  have hvy := hV ((opcode >>> 4) &&& 0xF)
  refine ⟨fun hp => ?_, fun hp => ?_, fun hp => ?_⟩
  · rw [ht, table_get hT (opcodeHandler_8xy4 o opcode hop hp)]
    refine ⟨rfl, ?_⟩
    simp only [Chip8EmulatorFP.invoke, Chip8EmulatorFP.op8xy4, (add_bytes _ _ hvx hvy).1,
      (add_bytes _ _ hvx hvy).2]
    exact store_then_vf _ _ _ _
  · rw [ht, table_get hT (opcodeHandler_8xy5 o opcode hop hp)]
    refine ⟨rfl, ?_⟩
    simp only [Chip8EmulatorFP.invoke, Chip8EmulatorFP.op8xy5, (sub_bytes _ _ hvx hvy).1,
      (sub_bytes _ _ hvx hvy).2]
    exact store_then_vf _ _ _ _
  · rw [ht, table_get hT (opcodeHandler_8xy7 o opcode hop hp)]
    refine ⟨rfl, ?_⟩
    simp only [Chip8EmulatorFP.invoke, Chip8EmulatorFP.op8xy7, (sub_bytes _ _ hvy hvx).1,
      (sub_bytes _ _ hvy hvx).2]
    exact store_then_vf _ _ _ _

/-- C31 (witness): on the plain CHIP-8 table, `8014` with V0 = 0xF0, V1 = 0x20 gives V0 = 0x10
and VF = 1; `8015` with V0 = 0x10, V1 = 0x20 gives V0 = 0xF0 and VF = 0; `8F07` leaves the flag
in VF. -/
theorem C31_add_sub_and_vf_witness :
    ((Chip8EmulatorFP.invoke {} idleHandlers (Chip8EmulatorFP.ruleTable {} 0x8014) 0x8014
        { rV := fun i => if i = 0 then 0xF0 else if i = 1 then 0x20 else if i = 15 then 9 else 0
          }).rV 0 = 0x10
      ∧ (Chip8EmulatorFP.invoke {} idleHandlers (Chip8EmulatorFP.ruleTable {} 0x8014) 0x8014
        { rV := fun i => if i = 0 then 0xF0 else if i = 1 then 0x20 else if i = 15 then 9 else 0
          }).rV 0xF = 1)
    ∧ ((Chip8EmulatorFP.invoke {} idleHandlers (Chip8EmulatorFP.ruleTable {} 0x8015) 0x8015
        { rV := fun i => if i = 0 then 0x10 else if i = 1 then 0x20 else if i = 15 then 9 else 0
          }).rV 0 = 0xF0
      ∧ (Chip8EmulatorFP.invoke {} idleHandlers (Chip8EmulatorFP.ruleTable {} 0x8015) 0x8015
        { rV := fun i => if i = 0 then 0x10 else if i = 1 then 0x20 else if i = 15 then 9 else 0
          }).rV 0xF = 0)
    ∧ (Chip8EmulatorFP.invoke {} idleHandlers (Chip8EmulatorFP.ruleTable {} 0x8F07) 0x8F07
        { rV := fun i => if i = 0 then 0x20 else if i = 1 then 0 else if i = 15 then 0x20 else 0
          }).rV 0xF = 1 :=
  have h1 := (C31_add_sub_and_vf {} (Chip8EmulatorFP.ruleTable {}) idleHandlers
    { rV := fun i => if i = 0 then 0xF0 else if i = 1 then 0x20 else if i = 15 then 9 else 0 }
    _ 0x8014 0 1 (opcodeHandler_eq {}) (by decide)
    (exampleRegisters_byte 0xF0 0x20 9 (by decide) (by decide) (by decide))
    rfl rfl rfl).1 (by decide)
  have h2 := (C31_add_sub_and_vf {} (Chip8EmulatorFP.ruleTable {}) idleHandlers
    { rV := fun i => if i = 0 then 0x10 else if i = 1 then 0x20 else if i = 15 then 9 else 0 }
    _ 0x8015 0 1 (opcodeHandler_eq {}) (by decide)
    (exampleRegisters_byte 0x10 0x20 9 (by decide) (by decide) (by decide))
    rfl rfl rfl).2.1 (by decide)
  have h3 := (C31_add_sub_and_vf {} (Chip8EmulatorFP.ruleTable {}) idleHandlers
    { rV := fun i => if i = 0 then 0x20 else if i = 1 then 0 else if i = 15 then 0x20 else 0 }
    _ 0x8F07 15 0 (opcodeHandler_eq {}) (by decide)
    (exampleRegisters_byte 0x20 0 0x20 (by decide) (by decide) (by decide))
    rfl rfl rfl).2.2 (by decide)
  ⟨⟨h1.2.2.1 (by decide), h1.2.1⟩, ⟨h2.2.2.1 (by decide), h2.2.1⟩, h3.2.1⟩

/-- C32: for every option set and every `Fx33` with a byte in Vx, the bytes a, b, c that the
instruction leaves at `I & M`, `(I + 1) & M` and `(I + 2) & M` (M the address mask) are
decimal digits with 100 a + 10 b + c = Vx; only the memory changes (the V registers and I are
the same), and of the memory only these three bytes. -/
theorem C32_bcd_digits (o : Chip8EmulatorOptions) (tbl : HandlerTable)
    (ext : HandlerSemantics) (s t : Chip8EmulatorBase) (opcode vx a b c : Nat)
    (hT : Chip8EmulatorFP.opcodeHandler o = some tbl) (hop : opcode < 65536)
    (hf : opcode &&& 0xF0FF = 0xF033)
    (hvx : vx = s.rV ((opcode >>> 8) &&& 0xF)) (hbyte : vx < 256)
    (ht : t = Chip8EmulatorFP.invoke o ext (tbl opcode) opcode s)
    (ha : a = t.memory (s.rI &&& Chip8EmulatorFP.ADDRESS_MASK o))
    (hb : b = t.memory (((s.rI + 1) % 4294967296) &&& Chip8EmulatorFP.ADDRESS_MASK o))
    (hc : c = t.memory (((s.rI + 2) % 4294967296) &&& Chip8EmulatorFP.ADDRESS_MASK o)) :
    (a ≤ 9 ∧ b ≤ 9 ∧ c ≤ 9)
    ∧ 100 * a + 10 * b + c = vx
    ∧ t = { s with memory := t.memory }
    ∧ (∀ m, m ≠ s.rI &&& Chip8EmulatorFP.ADDRESS_MASK o →
        m ≠ ((s.rI + 1) % 4294967296) &&& Chip8EmulatorFP.ADDRESS_MASK o →
        m ≠ ((s.rI + 2) % 4294967296) &&& Chip8EmulatorFP.ADDRESS_MASK o →
        t.memory m = s.memory m) := by
  have ht' : t = Chip8EmulatorFP.opFx33 o opcode s := by
    rw [ht, table_get hT (opcodeHandler_Fx33 o opcode hop hf)]
    rfl
  obtain ⟨h0, h1, h2, hrest⟩ := opFx33_memory o opcode s
  rw [← ht', ← hvx] at h0 h1 h2
  rw [← ht'] at hrest
  rw [← ha] at h0
  rw [← hb] at h1
  rw [← hc] at h2
  refine ⟨⟨by omega, by omega, by omega⟩, by omega, ?_, hrest⟩
  rw [ht']
  rfl

/-- C32 (witness): `F133` with V1 = 254 and I = 0x300 on the plain CHIP-8 table writes 2, 5,
4. -/
theorem C32_bcd_digits_witness :
    (Chip8EmulatorFP.invoke {} idleHandlers (Chip8EmulatorFP.ruleTable {} 0xF133) 0xF133
        { rI := 0x300, rV := fun i => if i = 1 then 254 else 0 }).memory 0x300 = 2
    ∧ (Chip8EmulatorFP.invoke {} idleHandlers (Chip8EmulatorFP.ruleTable {} 0xF133) 0xF133
        { rI := 0x300, rV := fun i => if i = 1 then 254 else 0 }).memory 0x301 = 5
    ∧ (Chip8EmulatorFP.invoke {} idleHandlers (Chip8EmulatorFP.ruleTable {} 0xF133) 0xF133
        { rI := 0x300, rV := fun i => if i = 1 then 254 else 0 }).memory 0x302 = 4
    ∧ 100 * 2 + 10 * 5 + 4 = 254 :=
  have h := C32_bcd_digits {} (Chip8EmulatorFP.ruleTable {}) idleHandlers
    { rI := 0x300, rV := fun i => if i = 1 then 254 else 0 } _ 0xF133 254 2 5 4
    (opcodeHandler_eq {}) (by decide) (by decide) rfl (by decide) rfl (by decide) (by decide)
    (by decide)
  ⟨by decide, by decide, by decide, h.2.1⟩

/-- C33: in every variant other than SCHIP 1.0, in a state whose first 80 memory bytes are as
`reset` left them, `Fx29` sets I to 5 * (Vx & 0xF) for every value of Vx, and the five bytes
`memory[I .. I + 4]` are the bytes `5 d .. 5 d + 4` of the small font of the variant, the
glyph of the digit d = Vx & 0xF; the small font is the CHIP-48 font for CHIP-48, the SCHIP
variants, MegaChip, XO-CHIP and Chicueyi and the COSMAC VIP font otherwise. -/
theorem C33_font_glyph (o : Chip8EmulatorOptions) (host : Chip8EmulatorHost)
    (tbl : HandlerTable) (ext : HandlerSemantics) (s0 s t : Chip8EmulatorBase)
    (opcode d : Nat)
    (hT : Chip8EmulatorFP.opcodeHandler o = some tbl)
    (hb : o.behaviorBase ≠ .eSCHIP10)
    (hop : opcode < 65536) (hf : opcode &&& 0xF0FF = 0xF029)
    (hs : ∀ a, a < 80 → s.memory a = (Chip8EmulatorFP.reset o host s0).memory a)
    (hd : d = s.rV ((opcode >>> 8) &&& 0xF) &&& 0xF)
    (ht : t = Chip8EmulatorFP.invoke o ext (tbl opcode) opcode s) :
    t.rI = 5 * d
    ∧ (∀ j, j < 5 →
        t.memory (t.rI + j) = (Chip8EmulatorBase.getSmallFontData o).getD (5 * d + j) 0)
    ∧ Chip8EmulatorBase.getSmallFontData o
        = (if o.behaviorBase = .eCHIP48 ∨ o.behaviorBase = .eSCHIP10
              ∨ o.behaviorBase = .eSCHIP11 ∨ o.behaviorBase = .eSCHPC
              ∨ o.behaviorBase = .eSCHIP_MODERN ∨ o.behaviorBase = .eMEGACHIP
              ∨ o.behaviorBase = .eXOCHIP ∨ o.behaviorBase = .eCHICUEYI
            then g_chip48Font else g_chip8VipFont) := by
  have ht' : t = Chip8EmulatorFP.opFx29 opcode s := by
    rw [ht, table_get hT (opcodeHandler_Fx29 o hb opcode hop hf)]
    rfl
  have hd15 : d ≤ 15 := by
    rw [hd]
    exact Nat.and_le_right
  have hI : t.rI = 5 * d := by
    rw [ht', hd, Nat.mul_comm]
    rfl
  have hmem : t.memory = s.memory := by
    rw [ht']
    rfl
  refine ⟨hI, ?_, ?_⟩
  · intro j hj
    rw [hI, hmem, hs _ (by omega), reset_font o host s0 _ (by omega)]
  · unfold Chip8EmulatorBase.getSmallFontData
    cases o.behaviorBase <;> first
      | decide
      | exact (if_neg (by simp)).symm

/-- C33 (witness): plain CHIP-8 after `reset` with V2 = 0x1A: `F229` sets I = 50 and the five
bytes there are F0 90 F0 90 90, the glyph of A. -/
theorem C33_font_glyph_witness :
    (Chip8EmulatorFP.invoke {} idleHandlers (Chip8EmulatorFP.ruleTable {} 0xF229) 0xF229
        { Chip8EmulatorFP.reset {} {} {} with rV := fun i => if i = 2 then 0x1A else 0 }).rI
      = 5 * 0xA
    ∧ (∀ j, j < 5 →
        (Chip8EmulatorFP.invoke {} idleHandlers (Chip8EmulatorFP.ruleTable {} 0xF229) 0xF229
          { Chip8EmulatorFP.reset {} {} {} with rV := fun i => if i = 2 then 0x1A else 0 }).memory
          ((Chip8EmulatorFP.invoke {} idleHandlers (Chip8EmulatorFP.ruleTable {} 0xF229) 0xF229
            { Chip8EmulatorFP.reset {} {} {} with
                rV := fun i => if i = 2 then 0x1A else 0 }).rI + j)
          = [0xF0, 0x90, 0xF0, 0x90, 0x90].getD j 0) :=
  have h := C33_font_glyph {} {} (Chip8EmulatorFP.ruleTable {}) idleHandlers {}
    { Chip8EmulatorFP.reset {} {} {} with rV := fun i => if i = 2 then 0x1A else 0 } _ 0xF229 0xA
    (opcodeHandler_eq {}) (by decide) (by decide) (by decide) (fun _ _ => rfl) (by decide) rfl
  ⟨h.1, fun j hj => (h.2.1 j hj).trans (by
    have : j = 0 ∨ j = 1 ∨ j = 2 ∨ j = 3 ∨ j = 4 := by omega
    rcases this with e | e | e | e | e <;> rw [e] <;> rfl)⟩

/-- C34: for colours whose channels are bytes, the blend modes 4 and 5 of `opDxyn_megaChip` are
`blendColorsAdd` and `blendColorsMul`; additive blending gives min(d + s, 255) in every colour
channel and multiplicative blending gives d * s / 255 (rounded down), which is at most
min(d, s), both without truncation to a byte; adding black and multiplying with white leave
the three colour channels of the destination as they are, and the fourth byte is 255. -/
theorem C34_add_and_mul_saturate (dest col : ColorBytes)
    (hd : dest.b0 < 256 ∧ dest.b1 < 256 ∧ dest.b2 < 256)
    (hc : col.b0 < 256 ∧ col.b1 < 256 ∧ col.b2 < 256) :
    (Chip8EmulatorFP.blendPixel 4 dest col = blendColorsAdd dest col
      ∧ Chip8EmulatorFP.blendPixel 5 dest col = blendColorsMul dest col)
    ∧ blendColorsAdd dest col
        = { b0 := min (dest.b0 + col.b0) 255, b1 := min (dest.b1 + col.b1) 255,
            b2 := min (dest.b2 + col.b2) 255, b3 := 255 }
    ∧ blendColorsMul dest col
        = { b0 := dest.b0 * col.b0 / 255, b1 := dest.b1 * col.b1 / 255,
            b2 := dest.b2 * col.b2 / 255, b3 := 255 }
    ∧ (dest.b0 * col.b0 / 255 ≤ min dest.b0 col.b0
        ∧ dest.b1 * col.b1 / 255 ≤ min dest.b1 col.b1
        ∧ dest.b2 * col.b2 / 255 ≤ min dest.b2 col.b2)
    ∧ (col.b0 = 0 ∧ col.b1 = 0 ∧ col.b2 = 0 →
        blendColorsAdd dest col = { dest with b3 := 255 })
    ∧ (col.b0 = 255 ∧ col.b1 = 255 ∧ col.b2 = 255 →
        blendColorsMul dest col = { dest with b3 := 255 }) := by
  obtain ⟨hd0, hd1, hd2⟩ := hd
  obtain ⟨hc0, hc1, hc2⟩ := hc
  obtain ⟨m0, l0, r0⟩ := mul_channel dest.b0 col.b0 hd0 hc0
  obtain ⟨m1, l1, r1⟩ := mul_channel dest.b1 col.b1 hd1 hc1
  obtain ⟨m2, l2, r2⟩ := mul_channel dest.b2 col.b2 hd2 hc2
  have hadd : blendColorsAdd dest col
      = { b0 := min (dest.b0 + col.b0) 255, b1 := min (dest.b1 + col.b1) 255,
          b2 := min (dest.b2 + col.b2) 255, b3 := 255 } := by
    unfold blendColorsAdd
    rw [(add_channel dest.b0 col.b0).1, (add_channel dest.b1 col.b1).1,
      (add_channel dest.b2 col.b2).1]
  have hmul : blendColorsMul dest col
      = { b0 := dest.b0 * col.b0 / 255, b1 := dest.b1 * col.b1 / 255,
          b2 := dest.b2 * col.b2 / 255, b3 := 255 } := by
    unfold blendColorsMul
    rw [m0, m1, m2]
  refine ⟨⟨rfl, rfl⟩, hadd, hmul, ⟨Nat.le_min.2 ⟨l0, r0⟩, Nat.le_min.2 ⟨l1, r1⟩,
    Nat.le_min.2 ⟨l2, r2⟩⟩, ?_, ?_⟩
  · rintro ⟨e0, e1, e2⟩
    rw [hadd, e0, e1, e2]
    simp only [Nat.add_zero]
    rw [Nat.min_eq_left (by omega), Nat.min_eq_left (by omega), Nat.min_eq_left (by omega)]
  · rintro ⟨e0, e1, e2⟩
    rw [hmul, e0, e1, e2]
    rw [Nat.mul_div_cancel _ (by decide), Nat.mul_div_cancel _ (by decide),
      Nat.mul_div_cancel _ (by decide)]

/-- C34 (witness): destination (200, 10, 255), colour (100, 20, 255): the sum saturates to
(255, 30, 255), the product is (78, 0, 255). -/
theorem C34_add_and_mul_saturate_witness :
    blendColorsAdd { b0 := 200, b1 := 10, b2 := 255, b3 := 7 }
        { b0 := 100, b1 := 20, b2 := 255, b3 := 9 }
      = { b0 := 255, b1 := 30, b2 := 255, b3 := 255 }
    ∧ blendColorsMul { b0 := 200, b1 := 10, b2 := 255, b3 := 7 }
        { b0 := 100, b1 := 20, b2 := 255, b3 := 9 }
      = { b0 := 78, b1 := 0, b2 := 255, b3 := 255 } :=
  have h := C34_add_and_mul_saturate { b0 := 200, b1 := 10, b2 := 255, b3 := 7 }
    { b0 := 100, b1 := 20, b2 := 255, b3 := 9 } (by decide) (by decide)
  ⟨h.2.1, h.2.2.1⟩

/-- C35 (what the code does): the blend modes 1, 2, 3 of `opDxyn_megaChip` are
`blendColorsAlpha` with alpha 63, 127, 191.  For byte channels the result is at most
max(d, s), but it is only at least min(d, s) - 1: the weights alpha and 255 - alpha add up to
255 while the sum is divided by 256, so blending a colour onto an identical colour lowers
every channel other than 0 by one; white on white gives 254. -/
theorem C35_alpha_blend_loses_one_level (blendMode alpha : Nat) (dest col : ColorBytes)
    (hm : blendMode = 1 ∧ alpha = 63 ∨ blendMode = 2 ∧ alpha = 127
      ∨ blendMode = 3 ∧ alpha = 191)
    (hd : dest.b0 < 256 ∧ dest.b1 < 256 ∧ dest.b2 < 256)
    (hc : col.b0 < 256 ∧ col.b1 < 256 ∧ col.b2 < 256) :
    Chip8EmulatorFP.blendPixel blendMode dest col = blendColorsAlpha dest col alpha
    ∧ ((blendColorsAlpha dest col alpha).b0 ≤ max dest.b0 col.b0
        ∧ (blendColorsAlpha dest col alpha).b1 ≤ max dest.b1 col.b1
        ∧ (blendColorsAlpha dest col alpha).b2 ≤ max dest.b2 col.b2)
    ∧ (min dest.b0 col.b0 ≤ (blendColorsAlpha dest col alpha).b0 + 1
        ∧ min dest.b1 col.b1 ≤ (blendColorsAlpha dest col alpha).b1 + 1
        ∧ min dest.b2 col.b2 ≤ (blendColorsAlpha dest col alpha).b2 + 1)
    ∧ blendColorsAlpha dest dest alpha
        = { b0 := dest.b0 - 1, b1 := dest.b1 - 1, b2 := dest.b2 - 1, b3 := 255 }
    ∧ blendChannelAlpha alpha 255 255 = 254 := by
  have ha : alpha = 63 ∨ alpha = 127 ∨ alpha = 191 := by
    rcases hm with h | h | h
    · exact Or.inl h.2
    · exact Or.inr (Or.inl h.2)
    · exact Or.inr (Or.inr h.2)
  obtain ⟨hd0, hd1, hd2⟩ := hd
  obtain ⟨hc0, hc1, hc2⟩ := hc
  obtain ⟨_, u0, l0⟩ := alpha_channel alpha dest.b0 col.b0 ha hd0 hc0
  obtain ⟨_, u1, l1⟩ := alpha_channel alpha dest.b1 col.b1 ha hd1 hc1
  obtain ⟨_, u2, l2⟩ := alpha_channel alpha dest.b2 col.b2 ha hd2 hc2
  refine ⟨?_, ⟨u0, u1, u2⟩, ⟨l0, l1, l2⟩, ?_, ?_⟩
  · rcases hm with ⟨h1, h2⟩ | ⟨h1, h2⟩ | ⟨h1, h2⟩ <;> rw [h1, h2] <;> rfl
  · unfold blendColorsAlpha
    rw [alpha_channel_same alpha _ ha hd0, alpha_channel_same alpha _ ha hd1,
      alpha_channel_same alpha _ ha hd2]
  · exact alpha_channel_same alpha 255 ha (by decide)

/-- C35 (witness): blend mode 1 (alpha 63), white onto white: every colour channel is 254. -/
theorem C35_alpha_blend_loses_one_level_witness :
    Chip8EmulatorFP.blendPixel 1 { b0 := 255, b1 := 255, b2 := 255, b3 := 255 }
        { b0 := 255, b1 := 255, b2 := 255, b3 := 255 }
      = { b0 := 254, b1 := 254, b2 := 254, b3 := 255 } :=
  have h := C35_alpha_blend_loses_one_level 1 63
    { b0 := 255, b1 := 255, b2 := 255, b3 := 255 }
    { b0 := 255, b1 := 255, b2 := 255, b3 := 255 } (Or.inl ⟨rfl, rfl⟩) (by decide) (by decide)
  h.1.trans h.2.2.2.1

/-- C36: in the XO-CHIP and Chicueyi tables, on a memory of bytes, a conditional skip `3xnn`,
`4xnn`, `5xy0` or `9xy0` whose condition holds sets PC to `(PC + dist) & M`, where PC is the
address of the next instruction, M the address mask and dist is 4 if the two bytes at PC are
F0 00 and 2 otherwise, and changes nothing else; when the condition does not hold the state is
unchanged.  With dist = 4 the new PC is not the address `(PC + 2) & M` of the operand of
`F000`. -/
theorem C36_skip_passes_long_load (o : Chip8EmulatorOptions) (tbl : HandlerTable)
    (ext : HandlerSemantics) (s t : Chip8EmulatorBase) (opcode x y dist : Nat)
    (hT : Chip8EmulatorFP.opcodeHandler o = some tbl)
    (hb : o.behaviorBase = .eXOCHIP ∨ o.behaviorBase = .eCHICUEYI)
    (hop : opcode < 65536) (hmem : ∀ a, s.memory a < 256)
    (hx : x = (opcode >>> 8) &&& 0xF) (hy : y = (opcode >>> 4) &&& 0xF)
    (hdist : dist = if s.memory (s.rPC &&& Chip8EmulatorFP.ADDRESS_MASK o) = 0xF0
        ∧ s.memory (((s.rPC + 1) % 4294967296) &&& Chip8EmulatorFP.ADDRESS_MASK o) = 0x00
      then 4 else 2)
    (ht : t = Chip8EmulatorFP.invoke o ext (tbl opcode) opcode s) :
    (opcode &&& 0xF000 = 0x3000 →
      t = if s.rV x = opcode &&& 0xFF
          then { s with rPC := ((s.rPC + dist) % 4294967296) &&& Chip8EmulatorFP.ADDRESS_MASK o }
          else s)
    ∧ (opcode &&& 0xF000 = 0x4000 →
      t = if s.rV x ≠ opcode &&& 0xFF
          then { s with rPC := ((s.rPC + dist) % 4294967296) &&& Chip8EmulatorFP.ADDRESS_MASK o }
          else s)
    ∧ (opcode &&& 0xF00F = 0x5000 →
      t = if s.rV x = s.rV y
          then { s with rPC := ((s.rPC + dist) % 4294967296) &&& Chip8EmulatorFP.ADDRESS_MASK o }
          else s)
    ∧ (opcode &&& 0xF00F = 0x9000 →
      t = if s.rV x ≠ s.rV y
          then { s with rPC := ((s.rPC + dist) % 4294967296) &&& Chip8EmulatorFP.ADDRESS_MASK o }
          else s)
    ∧ (dist = 4 →
        ((s.rPC + dist) % 4294967296) &&& Chip8EmulatorFP.ADDRESS_MASK o
          ≠ ((s.rPC + 2) % 4294967296) &&& Chip8EmulatorFP.ADDRESS_MASK o) := by
  obtain ⟨h3, h4, h5, h9⟩ := opcodeHandler_skips_F000 o hb opcode hop
  have hskip : Chip8EmulatorFP.skipWithF000 o s
      = { s with rPC := ((s.rPC + dist) % 4294967296) &&& Chip8EmulatorFP.ADDRESS_MASK o } := by
    unfold Chip8EmulatorFP.skipWithF000
    rw [skipDistance_F000 o s hmem, ← hdist]
  refine ⟨fun h => ?_, fun h => ?_, fun h => ?_, fun h => ?_, fun h => ?_⟩
  · rw [ht, table_get hT (h3 h), hx, ← hskip]
    rfl
  · rw [ht, table_get hT (h4 h), hx, ← hskip]
    rfl
  · rw [ht, table_get hT (h5 h), hx, hy, ← hskip]
    rfl
  · rw [ht, table_get hT (h9 h), hx, hy, ← hskip]
    rfl
  · rw [h]
    intro he
    exact absurd (loadStore_addr_inj o s.rPC 4 2 (by decide) (by decide) he) (by decide)

/-- C36 (witness): XO-CHIP, `3107` with V1 = 7, PC = 0x202 and F0 00 at 0x202: the new PC is
0x206. -/
theorem C36_skip_passes_long_load_witness :
    Chip8EmulatorFP.invoke { behaviorBase := .eXOCHIP } idleHandlers
        (Chip8EmulatorFP.ruleTable { behaviorBase := .eXOCHIP } 0x3107) 0x3107
        { rPC := 0x202, rV := fun i => if i = 1 then 7 else 0,
          memory := fun a => if a = 0x202 then 0xF0 else 0 }
      = { rPC := 0x206, rV := fun i => if i = 1 then 7 else 0,
          memory := fun a => if a = 0x202 then 0xF0 else 0 } :=
  (C36_skip_passes_long_load { behaviorBase := .eXOCHIP }
    (Chip8EmulatorFP.ruleTable { behaviorBase := .eXOCHIP }) idleHandlers
    { rPC := 0x202, rV := fun i => if i = 1 then 7 else 0,
      memory := fun a => if a = 0x202 then 0xF0 else 0 } _ 0x3107 1 0 4
    (opcodeHandler_eq _) (Or.inl rfl) (by decide) (oneByteMemory_byte 0x202 0xF0 (by decide))
    rfl rfl (by decide) rfl).1 (by decide)

/-- C37: a jump `1nnn` fetched at an address a with a + 2 <= ADDRESS_MASK leaves the state
with PC = nnn, the cycle counter advanced by one, and the execution mode Paused if nnn = a and
unchanged otherwise; all registers, the stack and the memory are the same.  So from a mode
other than Paused the mode becomes Paused if and only if nnn = a. -/
theorem C37_jump_pauses_iff_self (o : Chip8EmulatorOptions) (tbl : HandlerTable)
    (ext : HandlerSemantics) (s t : Chip8EmulatorBase) (nnn : Nat)
    (hT : Chip8EmulatorFP.opcodeHandler o = some tbl)
    (hop : Chip8EmulatorFP.fetchOpcode s &&& 0xF000 = 0x1000)
    (hn : nnn = Chip8EmulatorFP.fetchOpcode s &&& 0xFFF)
    (hpc : s.rPC + 2 ≤ Chip8EmulatorFP.ADDRESS_MASK o)
    (ht : t = Chip8EmulatorFP.fetchAndDispatch o tbl ext s) :
    t = { s with cycleCounter := s.cycleCounter + 1, rPC := nnn,
                 execMode := if nnn = s.rPC then .ePAUSED else s.execMode }
    ∧ (s.execMode ≠ .ePAUSED → (t.execMode = .ePAUSED ↔ nnn = s.rPC)) := by
  have key : t = { s with
      cycleCounter := s.cycleCounter + 1
      rPC := nnn
      execMode := if nnn = s.rPC then .ePAUSED else s.execMode } := by
    rw [ht]
    exact fetchAndDispatch_1nnn o tbl ext s nnn hT hop hn hpc
  refine ⟨key, fun hmode => ?_⟩
  rw [key]
  by_cases h : nnn = s.rPC
  · simp only [h, if_true]
  · simp only [h, if_false]
    exact ⟨fun e => absurd e hmode, fun e => absurd e (fun x => x)⟩

/-- C37 (witness): plain CHIP-8 in Running mode at 0x200: `1200` pauses, `1202` does not and
moves PC to 0x202. -/
theorem C37_jump_pauses_iff_self_witness :
    (Chip8EmulatorFP.fetchAndDispatch {} (Chip8EmulatorFP.ruleTable {}) idleHandlers
        { rPC := 0x200, execMode := .eRUNNING,
          memory := fun a => if a = 0x200 then 0x12 else 0 }).execMode = .ePAUSED
    ∧ (Chip8EmulatorFP.fetchAndDispatch {} (Chip8EmulatorFP.ruleTable {}) idleHandlers
        { rPC := 0x200, execMode := .eRUNNING,
          memory := fun a => if a = 0x200 then 0x12 else if a = 0x201 then 0x02 else 0 })
      = { rPC := 0x202, execMode := .eRUNNING, cycleCounter := 1,
          memory := fun a => if a = 0x200 then 0x12 else if a = 0x201 then 0x02 else 0 } :=
  ⟨((C37_jump_pauses_iff_self {} (Chip8EmulatorFP.ruleTable {}) idleHandlers
      { rPC := 0x200, execMode := .eRUNNING,
        memory := fun a => if a = 0x200 then 0x12 else 0 } _ 0x200
      (opcodeHandler_eq {}) (by decide) (by decide) (by decide) rfl).2 (by decide)).2 rfl,
   (C37_jump_pauses_iff_self {} (Chip8EmulatorFP.ruleTable {}) idleHandlers
      { rPC := 0x200, execMode := .eRUNNING,
        memory := fun a => if a = 0x200 then 0x12 else if a = 0x201 then 0x02 else 0 } _ 0x202
      (opcodeHandler_eq {}) (by decide) (by decide) (by decide) rfl).1⟩

/-- C38: for every option set, a state with a 16-bit PC and an 8-bit SP (below 16 when the
stack is not cyclic): running the table entry of a `2nnn` and then the table entry of `00EE`,
which is `op00EE(op2nnn(s))` or its cyclic pair depending on `optCyclicStack`, gives back the PC
and the SP of the state and leaves CpuState unchanged. -/
theorem C38_call_then_return (o : Chip8EmulatorOptions) (tbl : HandlerTable)
    (ext : HandlerSemantics) (s t : Chip8EmulatorBase) (opcode : Nat)
    (hT : Chip8EmulatorFP.opcodeHandler o = some tbl)
    (hop : opcode < 65536) (hcall : opcode &&& 0xF000 = 0x2000)
    (hpc : s.rPC < 65536) (hsp : s.rSP < 256)
    (hdepth : o.optCyclicStack = false → s.rSP < 16)
    (ht : t = Chip8EmulatorFP.invoke o ext (tbl 0x00EE) 0x00EE
                (Chip8EmulatorFP.invoke o ext (tbl opcode) opcode s)) :
    (t = (if o.optCyclicStack
          then Chip8EmulatorFP.op00EE_cyclic 0x00EE (Chip8EmulatorFP.op2nnn_cyclic opcode s)
          else Chip8EmulatorFP.op00EE 0x00EE (Chip8EmulatorFP.op2nnn opcode s)))
    ∧ t.rPC = s.rPC ∧ t.rSP = s.rSP ∧ t.cpuState = s.cpuState := by
  have h2 := table_get hT (opcodeHandler_2nnn o opcode hop hcall)
  have h0 := table_get hT (opcodeHandler_00EE o)
  cases hc : o.optCyclicStack
  · rw [hc] at h2 h0
    have e : t = Chip8EmulatorFP.op00EE 0x00EE (Chip8EmulatorFP.op2nnn opcode s) := by
      rw [ht, h2, h0]
      rfl
    refine ⟨e, ?_⟩
    rw [e]
    exact op00EE_op2nnn opcode 0x00EE s hpc (hdepth hc)
  · rw [hc] at h2 h0
    have e : t = Chip8EmulatorFP.op00EE_cyclic 0x00EE
        (Chip8EmulatorFP.op2nnn_cyclic opcode s) := by
      rw [ht, h2, h0]
      rfl
    refine ⟨e, ?_⟩
    rw [e]
    exact op00EE_op2nnn_cyclic opcode 0x00EE s hpc hsp

/-- C38 (witness): PC = 0x202 with SP = 15 without cyclic stack, and with SP = 255 with cyclic
stack. -/
theorem C38_call_then_return_witness :
    (Chip8EmulatorFP.op00EE 0x00EE
        (Chip8EmulatorFP.op2nnn 0x2ABC { rPC := 0x202, rSP := 15 })).rPC = 0x202
    ∧ (Chip8EmulatorFP.op00EE 0x00EE
        (Chip8EmulatorFP.op2nnn 0x2ABC { rPC := 0x202, rSP := 15 })).rSP = 15
    ∧ (Chip8EmulatorFP.op00EE_cyclic 0x00EE
        (Chip8EmulatorFP.op2nnn_cyclic 0x2ABC { rPC := 0x202, rSP := 255 })).rPC = 0x202
    ∧ (Chip8EmulatorFP.op00EE_cyclic 0x00EE
        (Chip8EmulatorFP.op2nnn_cyclic 0x2ABC { rPC := 0x202, rSP := 255 })).rSP = 255 :=
  have h1 := C38_call_then_return {} (Chip8EmulatorFP.ruleTable {}) idleHandlers
    { rPC := 0x202, rSP := 15 } _ 0x2ABC (opcodeHandler_eq {}) (by decide) (by decide)
    (by decide) (by decide) (fun _ => by decide) rfl
  have h2 := C38_call_then_return { optCyclicStack := true }
    (Chip8EmulatorFP.ruleTable { optCyclicStack := true }) idleHandlers
    { rPC := 0x202, rSP := 255 } _ 0x2ABC (opcodeHandler_eq _) (by decide) (by decide)
    (by decide) (by decide) (fun h => absurd h (by decide)) rfl
  ⟨h1.2.1, h1.2.2.1, h2.2.1, h2.2.2.1⟩

/-- C39 (what the code does): plain CHIP-8, any host and prior state, after `reloadRom` of an
image starting with a jump.  If the image is `1FFC` with `3000` at address 0xFFC, the second
instruction is a taken skip (V0 is 0 after reset) and leaves PC = 0x1000, above ADDRESS_MASK,
with the machine in its normal state: the next fetch reads index 0x1001, outside the buffer
of 0x1001 bytes.  If the image is `1FFE` with `F00A` at 0xFFE and no key is pressed, the second
instruction rewinds PC from 0 to 4294967294 and waits. -/
theorem C39_pc_leaves_address_range (host : Chip8EmulatorHost) (romImage : List Nat)
    (ext : HandlerSemantics) (s0 t : Chip8EmulatorBase)
    (h0 : romImage[0]? = some 0x1F)
    (ht : t = Chip8EmulatorFP.runNoBreakpoints {} (Chip8EmulatorFP.ruleTable {}) ext 2
                (Cadmium.reloadRom {} host romImage false s0)) :
    (romImage[1]? = some 0xFC → romImage[0xDFC]? = some 0x30 → romImage[0xDFD]? = some 0x00 →
      t.rPC = 0x1000 ∧ Chip8EmulatorFP.ADDRESS_MASK {} < t.rPC
      ∧ Chip8EmulatorBase.memoryBufferSize {} ≤ t.rPC + 1
      ∧ t.cpuState = .eNORMAL
      ∧ t.execMode = (Chip8EmulatorFP.reset {} host s0).execMode)
    ∧ (romImage[1]? = some 0xFE → romImage[0xDFE]? = some 0xF0 → romImage[0xDFF]? = some 0x0A →
        s0.keyPressed = 0 →
      t.rPC = 4294967294 ∧ Chip8EmulatorFP.ADDRESS_MASK {} < t.rPC
      ∧ Chip8EmulatorBase.memoryBufferSize {} ≤ t.rPC
      ∧ t.cpuState = .eWAITING
      ∧ t.execMode = (Chip8EmulatorFP.reset {} host s0).execMode) := by
  have hne : romImage ≠ [] := by
    intro h
    rw [h] at h0
    exact absurd h0 (by simp)
  have hfr := reloadRom_frame {} host romImage false s0 (Or.inl hne)
  have hrun : ∀ lo, (lo = 0xFC ∨ lo = 0xFE) → romImage[1]? = some lo →
      t = Chip8EmulatorFP.fetchAndDispatch {} (Chip8EmulatorFP.ruleTable {}) ext
            { Cadmium.reloadRom {} host romImage false s0 with
              cycleCounter := 1
              rPC := 0xF00 + lo } := by
    intro lo hlo h1
    rw [ht, ← run_jump_plain host romImage ext s0 lo hlo h0 h1]
    rfl
  constructor
  · intro h1 h2 h3
    have hm2 := reloadRom_byte {} host romImage false s0 0xDFC 0x30 (by decide) h2
    have hm3 := reloadRom_byte {} host romImage false s0 0xDFD 0x00 (by decide) h3
    have hv : (Cadmium.reloadRom {} host romImage false s0).rV 0 = 0 := by
      rw [hfr]
      rfl
    have hop := fetchOpcode_bytes
      { Cadmium.reloadRom {} host romImage false s0 with cycleCounter := 1, rPC := 0xF00 + 0xFC }
      0xFFC 0x30 0x00 rfl (by decide) hm2 hm3
    have e : t = { Cadmium.reloadRom {} host romImage false s0 with
                   cycleCounter := 2
                   rPC := 0x1000 } := by
      rw [hrun 0xFC (Or.inl rfl) h1]
      unfold Chip8EmulatorFP.fetchAndDispatch
      simp only []
      rw [hop]
      simp only [show Chip8EmulatorFP.ruleTable {} (((0x30 <<< 8) ||| 0x00) % 65536)
        = OpcodeHandler.op3xnn by decide, Chip8EmulatorFP.invoke, Chip8EmulatorFP.op3xnn]
      rw [if_pos (by exact hv)]
      rfl
    have hp : t.rPC = 0x1000 := by rw [e]
    have hc : t.cpuState = .eNORMAL := by rw [e, hfr]; rfl
    have hm : t.execMode = (Chip8EmulatorFP.reset {} host s0).execMode := by rw [e, hfr]
    rw [hp]
    exact ⟨rfl, by decide, by decide, hc, hm⟩
  · intro h1 h2 h3 hkey
    have hm2 := reloadRom_byte {} host romImage false s0 0xDFE 0xF0 (by decide) h2
    have hm3 := reloadRom_byte {} host romImage false s0 0xDFF 0x0A (by decide) h3
    have hk : (Cadmium.reloadRom {} host romImage false s0).keyPressed = 0 := by
      rw [hfr]
      exact hkey
    have hop := fetchOpcode_bytes
      { Cadmium.reloadRom {} host romImage false s0 with cycleCounter := 1, rPC := 0xF00 + 0xFE }
      0xFFE 0xF0 0x0A rfl (by decide) hm2 hm3
    have e : t = { Cadmium.reloadRom {} host romImage false s0 with
                   cycleCounter := 2
                   rPC := 4294967294
                   cpuState := .eWAITING } := by
      rw [hrun 0xFE (Or.inr rfl) h1]
      unfold Chip8EmulatorFP.fetchAndDispatch
      simp only []
      rw [hop]
      simp only [show Chip8EmulatorFP.ruleTable {} (((0xF0 <<< 8) ||| 0x0A) % 65536)
        = OpcodeHandler.opFx0A by decide, Chip8EmulatorFP.invoke, Chip8EmulatorFP.opFx0A]
      rw [if_neg (by simp only [hk]; decide)]
      rfl
    have hp : t.rPC = 4294967294 := by rw [e]
    have hc : t.cpuState = .eWAITING := by rw [e]
    have hm : t.execMode = (Chip8EmulatorFP.reset {} host s0).execMode := by rw [e, hfr]
    rw [hp]
    exact ⟨rfl, by decide, by decide, hc, hm⟩

/-- C39 (witness): the two images of 3584 bytes. -/
theorem C39_pc_leaves_address_range_witness :
    (Chip8EmulatorFP.runNoBreakpoints {} (Chip8EmulatorFP.ruleTable {}) idleHandlers 2
        (Cadmium.reloadRom {} {} (topImage 0x1F 0xFC 0xDFA 0x30 0x00 2) false {})).rPC = 0x1000
    ∧ (Chip8EmulatorFP.runNoBreakpoints {} (Chip8EmulatorFP.ruleTable {}) idleHandlers 2
        (Cadmium.reloadRom {} {} (topImage 0x1F 0xFE 0xDFC 0xF0 0x0A 0) false {})).rPC
      = 4294967294 :=
  ⟨((C39_pc_leaves_address_range {} (topImage 0x1F 0xFC 0xDFA 0x30 0x00 2) idleHandlers {} _
      (topImage_bytes 0x1F 0xFC 0xDFA 0x30 0x00 2).1 rfl).1
      (topImage_bytes 0x1F 0xFC 0xDFA 0x30 0x00 2).2.1
      (topImage_bytes 0x1F 0xFC 0xDFA 0x30 0x00 2).2.2.1
      (topImage_bytes 0x1F 0xFC 0xDFA 0x30 0x00 2).2.2.2).1,
   ((C39_pc_leaves_address_range {} (topImage 0x1F 0xFE 0xDFC 0xF0 0x0A 0) idleHandlers {} _
      (topImage_bytes 0x1F 0xFE 0xDFC 0xF0 0x0A 0).1 rfl).2
      (topImage_bytes 0x1F 0xFE 0xDFC 0xF0 0x0A 0).2.1
      (topImage_bytes 0x1F 0xFE 0xDFC 0xF0 0x0A 0).2.2.1
      (topImage_bytes 0x1F 0xFE 0xDFC 0xF0 0x0A 0).2.2.2 rfl).1⟩

/-- C40 (what the code does): in the CHIP-8X table every opcode `Bxy0` runs `opBxy0_c8x` and
every `Bxyn` with n other than 0 runs `opBxyn_c8x`; both read the register array at x, x + 1
and y.  For x = F the index x + 1 = 16 is outside the 16 registers; for every other x all
three indices are inside. -/
theorem C40_colour_pair_reads_past_vf (o : Chip8EmulatorOptions) (tbl : HandlerTable)
    (opcode x : Nat)
    (hT : Chip8EmulatorFP.opcodeHandler o = some tbl)
    (hb : o.behaviorBase = .eCHIP8X) (hop : opcode < 65536)
    (hB : opcode &&& 0xF000 = 0xB000) (hx : x = (opcode >>> 8) &&& 0xF) :
    (opcode &&& 0xF00F = 0xB000 → tbl opcode = .opBxy0_c8x)
    ∧ (opcode &&& 0xF ≠ 0 → tbl opcode = .opBxyn_c8x)
    ∧ Chip8EmulatorFP.opBxy0_c8x_registerReads opcode = [x, x + 1, (opcode >>> 4) &&& 0xF]
    ∧ Chip8EmulatorFP.opBxyn_c8x_registerReads opcode = [x, x + 1, (opcode >>> 4) &&& 0xF]
    ∧ (x = 0xF → ¬ x + 1 < Chip8EmulatorBase.registerCount)
    ∧ (x ≠ 0xF → ∀ i ∈ Chip8EmulatorFP.opBxy0_c8x_registerReads opcode,
        i < Chip8EmulatorBase.registerCount) := by
  obtain ⟨h0, hn⟩ := opcodeHandler_Bxyn_c8x o hb opcode hop
  have hx15 : x ≤ 15 := by
    rw [hx]
    exact Nat.and_le_right
  have hy15 : (opcode >>> 4) &&& 0xF ≤ 15 := Nat.and_le_right
  refine ⟨fun h => table_get hT (h0 h), fun h => table_get hT (hn hB h), ?_, ?_, ?_, ?_⟩
  · rw [hx]
    rfl
  · rw [hx]
    rfl
  · intro h
    rw [h]
    decide
  · intro h i hi
    rw [Chip8EmulatorFP.opBxy0_c8x_registerReads, ← hx] at hi
    simp only [List.mem_cons, List.mem_singleton, List.not_mem_nil, or_false] at hi
    unfold Chip8EmulatorBase.registerCount
    rcases hi with e | e | e <;> omega

/-- C40 (witness): the opcodes `BF00` and `BF01` on the CHIP-8X table read the indices 15, 16
and 0. -/
theorem C40_colour_pair_reads_past_vf_witness :
    Chip8EmulatorFP.ruleTable { behaviorBase := .eCHIP8X } 0xBF00 = .opBxy0_c8x
    ∧ Chip8EmulatorFP.ruleTable { behaviorBase := .eCHIP8X } 0xBF01 = .opBxyn_c8x
    ∧ Chip8EmulatorFP.opBxy0_c8x_registerReads 0xBF00 = [15, 16, 0]
    ∧ Chip8EmulatorFP.opBxyn_c8x_registerReads 0xBF01 = [15, 16, 0]
    ∧ ¬ 16 < Chip8EmulatorBase.registerCount :=
  have h0 := C40_colour_pair_reads_past_vf { behaviorBase := .eCHIP8X }
    (Chip8EmulatorFP.ruleTable { behaviorBase := .eCHIP8X }) 0xBF00 15 (opcodeHandler_eq _) rfl
    (by decide) (by decide) (by decide)
  have h1 := C40_colour_pair_reads_past_vf { behaviorBase := .eCHIP8X }
    (Chip8EmulatorFP.ruleTable { behaviorBase := .eCHIP8X }) 0xBF01 15 (opcodeHandler_eq _) rfl
    (by decide) (by decide) (by decide)
  ⟨h0.1 (by decide), h1.2.1 (by decide), h0.2.2.1, h1.2.2.2.1, h0.2.2.2.2.1 rfl⟩

end emu
